import Mathlib

/-!
# home-assistant-js-websocket: the connection multiplexer

A shallow embedding of `Connection` (dist/connection.js, bundled in
`web-ui/.vite/deps/home-assistant-js-websocket.js`) as explicit state passing.

* The object fields of `Connection` are the first block of fields of the structure
  `Connection`; the JavaScript runtime the class relies on (promises, the microtask queue,
  timers, the heap cell behind `info.unsubscribe`) is the second block.
* Everything observable that the code does to its environment (calling a promise's
  `resolve`/`reject`, invoking a subscription callback, `socket.send`, `setTimeout`,
  `createSocket`, listener calls) is appended to `Connection.trace`.
* An `await` splits a function in two: the part after it is a constructor of `Cont`,
  run by `Connection.runCont` when the awaited promise has settled.
* `commandId` is a natural number (JavaScript numbers are exact integers below 2^53).
* A socket event, a timer and a call from outside are tasks; at the end of a task the
  microtasks run until their queue is empty (`Connection.checkpoint`).
-/

namespace HAWS

/-! ## errors.js -/

def ERR_CANNOT_CONNECT : Nat := 1
def ERR_INVALID_AUTH : Nat := 2
def ERR_CONNECTION_LOST : Nat := 3
def ERR_HASS_HOST_REQUIRED : Nat := 4

/-- Opaque JSON payloads (results, server errors, event bodies). Promises, callbacks,
listeners and sockets are named by natural numbers. -/
abbrev Json := String

/-- Values that are thrown, or passed to a `reject` function. -/
inductive Rejection where
  /-- a bare error code, e.g. `throw ERR_CONNECTION_LOST` -/
  | code (c : Nat)
  /-- the object built by `error(code, message)` of messages.js -/
  | errorMessage (code : Nat) (message : String)
  /-- the `error` field of a server reply, passed on as it came -/
  | server (error : Json)
  /-- an exception object, `new Error(message)` -/
  | exception (message : String)
  /-- calling a field that is not a function -/
  | typeError (what : String)
  deriving DecidableEq, Repr

/-! ## messages.js -/

/-- An outbound message object, before `message.id` is assigned. -/
structure Message where
  type : String
  subscription : Option Nat := none
  data : Json := ""
  deriving DecidableEq, Repr

def unsubscribeEvents (subscription : Nat) : Message :=
  { type := "unsubscribe_events", subscription := some subscription }

def ping : Message := { type := "ping" }

/-- The message `subscribeEvents(eventType)`; `data` holds the `event_type`, set only for a
non-empty `eventType`. -/
def subscribeEvents (eventType : Option String) : Message :=
  match eventType with
  | some t => if t ≠ "" then { type := "subscribe_events", data := t }
    else { type := "subscribe_events" }
  | none => { type := "subscribe_events" }

/-- The object `error(code, message)`: a failed result carrying `code` and `message`. -/
def error (code : Nat) (message : String) : Rejection := .errorMessage code message

/-- The `type` discriminator of an inbound message, as the `switch` of `_handleMessage`
sees it. -/
inductive MsgType where
  | event
  | result
  | pong
  | other (name : String)
  deriving DecidableEq, Repr

/-- An inbound message (one element of a parsed payload). -/
structure InMsg where
  id : Nat
  type : MsgType
  success : Bool := false
  result : Json := ""
  error : Json := ""
  event : Json := ""
  deriving DecidableEq, Repr

/-- A parsed inbound payload: one message, or an array of messages. -/
inductive Payload where
  | single (message : InMsg)
  | batch (messages : List InMsg)
  deriving DecidableEq, Repr

/-! ## The socket -/

def WebSocket.CONNECTING : Nat := 0
def WebSocket.OPEN : Nat := 1
def WebSocket.CLOSING : Nat := 2
def WebSocket.CLOSED : Nat := 3

structure Socket where
  id : Nat
  haVersion : String := ""
  readyState : Nat := WebSocket.OPEN
  deriving DecidableEq, Repr

/-- The browser's `socket.close()`: a socket that is not yet closing or closed starts
closing; its `close` event comes later. -/
def Socket.close (s : Socket) : Socket :=
  if s.readyState = WebSocket.CONNECTING ∨ s.readyState = WebSocket.OPEN then
    { s with readyState := WebSocket.CLOSING }
  else s

/-! ## Entries of the commands table -/

/-- The `options` argument of `subscribeMessage`; `none` is an omitted field. -/
structure SubscribeOptions where
  resubscribe : Option Bool := none
  /-- identity of the user's `preCheck` function -/
  preCheck : Option Nat := none
  deriving DecidableEq, Repr

/-- The closure `() => this.subscribeMessage(callback, subscribeMessage, options)`. -/
structure Resubscribe where
  callback : Nat
  subscribeMessage : Message
  options : SubscribeOptions
  deriving DecidableEq, Repr

/-- The fields a subscription entry has on top of `resolve`/`reject`. `ref` is the identity
of the entry object: its mutable `unsubscribe` field is `Connection.unsubscribes[ref]`. -/
structure Subscription where
  ref : Nat
  callback : Nat
  /-- the `subscribe` field: the closure, or `undefined` when `resubscribe` is `false` -/
  subscribe : Option Resubscribe
  deriving DecidableEq, Repr

/-- An entry of `commands`. `resolve` and `reject` are those of the promise `promise`;
`sub` is `some _` exactly when the object has the key `subscribe`. -/
structure Info where
  promise : Nat
  sub : Option Subscription := none
  deriving DecidableEq, Repr

/-- The closure `info.subscribe`, if the entry has the key `subscribe` and the field is set:
the test `"subscribe" in info && info.subscribe` of `_setSocket`. -/
def Info.subscribe? (info : Info) : Option (Subscription × Resubscribe) :=
  match info.sub with
  | some s =>
    match s.subscribe with
    | some r => some (s, r)
    | none => none
  | none => none

/-- The current value of an entry's `unsubscribe` field. -/
inductive Unsub where
  /-- the closure created in `subscribeMessage`, bound to its `commandId` -/
  | own (commandId : Nat)
  /-- the function `() => info.unsubscribe()` of the entry `ref`, stored after a
  resubscription -/
  | handle (ref : Nat)
  deriving DecidableEq, Repr

/-- An element of `_queuedMessages`. -/
inductive Queued where
  /-- pushed by `sendMessage`: `resolve` sends the message again, there is no `reject` -/
  | send (message : Message)
  /-- pushed by `sendMessagePromise`: `reject` is that of the caller's promise `outer`,
  `resolve` issues the call again and forwards its outcome to `outer` -/
  | call (message : Message) (outer : Nat)
  /-- pushed by `subscribeMessage`: `resolve` and `reject` of the promise it awaits -/
  | wait (promise : Nat)
  deriving DecidableEq, Repr

/-- The promise a queue element rejects, if it has a `reject`. -/
def Queued.reject? : Queued → Option Nat
  | .send _ => none
  | .call _ outer => some outer
  | .wait p => some p

/-! ## Promises -/

inductive Value where
  | undefined
  | json (v : Json)
  | bool (b : Bool)
  /-- the function `() => info.unsubscribe()` of the entry `ref` -/
  | unsub (ref : Nat)
  | socket (s : Socket)
  deriving DecidableEq, Repr

/-- JavaScript truthiness, for the values a `preCheck` resolves with; an opaque payload
counts as truthy unless it is empty. -/
def Value.truthy : Value → Bool
  | .undefined => false
  | .bool b => b
  | .json v => v != ""
  | .unsub _ => true
  | .socket _ => true

inductive Outcome where
  | fulfilled (v : Value)
  | rejected (e : Rejection)
  deriving DecidableEq, Repr

/-- The code after an `await` (or inside a `.then`/`.catch`), with the variables it uses. -/
inductive Cont where
  /-- in a queued call: `resolve(await this.sendMessagePromise(message))`, and `reject(err)`
  in its `catch` -/
  | forward (outer : Nat)
  /-- the `.catch(...)` of the unsubscribe sent for an unknown subscription (it logs in debug
  mode only) -/
  | swallow
  /-- in `unsubscribe`: after `await this.sendMessagePromise(unsubscribeEvents(commandId))` -/
  | unsubscribeSent (commandId : Nat) (ret : Nat)
  /-- in `subscribeMessage`: after the wait in the queue -/
  | subscribeDequeued (r : Resubscribe) (ret : Nat)
  /-- in `subscribeMessage`: after `await options.preCheck()` -/
  | subscribeChecked (r : Resubscribe) (ret : Nat)
  /-- in `subscribeMessage`: after the entry's promise resolved; returns the handle -/
  | subscribeDone (ref : Nat) (ret : Nat)
  /-- in `_setSocket`: the `.then((unsub) => ...)` on `info.subscribe()` of the old entry
  `ref`, whose promise is `promise` -/
  | resubscribed (ref : Nat) (promise : Nat)
  /-- in `_handleClose`: after `await this.suspendReconnectPromise` -/
  | closeResumed
  /-- in `reconnect(tries)`: after `await options.createSocket(options)` -/
  | socketCreated (tries : Nat)
  deriving DecidableEq, Repr

/-- What the connection does to its environment. -/
inductive Effect where
  /-- a promise's `resolve` function is called -/
  | resolve (p : Nat) (v : Value)
  /-- a promise's `reject` function is called -/
  | reject (p : Nat) (e : Rejection)
  /-- the call `info.callback(message.event)` -/
  | callback (cb : Nat) (event : Json)
  /-- the call `socket.send(JSON.stringify(message))` with `message.id = id` -/
  | send (socket : Nat) (id : Nat) (message : Message)
  /-- the call `fireEvent(eventType, eventData)` -/
  | fireEvent (eventType : String) (eventData : Option Rejection)
  /-- a listener is invoked by `fireEvent` -/
  | listener (l : Nat) (eventType : String) (eventData : Option Rejection)
  /-- the `setTimeout` of the reconnect attempt `tries`, with its delay in milliseconds -/
  | setTimeout (tries : Nat) (ms : Nat)
  /-- the call `options.createSocket(options)` with `setupRetry: 0`; `p` is the promise it
  returns -/
  | createSocket (p : Nat)
  /-- the call `options.preCheck()`; `p` is the promise it returns -/
  | preCheck (fn : Nat) (p : Nat)
  /-- the calls `socket.addEventListener` of `_handleMessage` and `_handleClose` -/
  | attach (socket : Nat)
  /-- the calls `socket.removeEventListener` of `_handleMessage` and `_handleClose` -/
  | detach (socket : Nat)
  /-- the call `socket.close()` -/
  | socketClose (socket : Nat)
  | warn (text : String)
  deriving DecidableEq, Repr

/-! ## `Map` with JavaScript's iteration order -/

/-- The method `Map.prototype.get`. -/
def jsGet {κ α : Type} [DecidableEq κ] : List (κ × α) → κ → Option α
  | [], _ => none
  | (k, v) :: m, key => if k = key then some v else jsGet m key

/-- The method `Map.prototype.set`: an existing key keeps its place, a new key goes last. -/
def jsSet {κ α : Type} [DecidableEq κ] : List (κ × α) → κ → α → List (κ × α)
  | [], key, v => [(key, v)]
  | (k, w) :: m, key, v => if k = key then (k, v) :: m else (k, w) :: jsSet m key v

/-- The method `Map.prototype.delete`. -/
def jsDelete {κ α : Type} [DecidableEq κ] : List (κ × α) → κ → List (κ × α)
  | [], _ => []
  | (k, w) :: m, key => if k = key then jsDelete m key else (k, w) :: jsDelete m key

/-! ## The connection -/

structure Options where
  setupRetry : Int := 0
  deriving DecidableEq, Repr

structure Connection where
  options : Options
  commandId : Nat
  commands : List (Nat × Info)
  oldSubscriptions : Option (List (Nat × Info)) := none
  socket : Option Socket
  haVersion : String := ""
  eventListeners : List (String × List Nat) := []
  closeRequested : Bool
  suspendReconnectPromise : Option Nat := none
  _queuedMessages : Option (List Queued) := none
  /-- the `unsubscribe` field of every subscription entry ever created, by `ref` -/
  unsubscribes : List (Nat × Unsub) := []
  nextRef : Nat := 0
  nextPromise : Nat := 0
  /-- the promises that have settled, each with its first outcome -/
  settled : List (Nat × Outcome) := []
  /-- continuations waiting for a pending promise -/
  reactions : List (Nat × Cont) := []
  /-- the microtask queue -/
  microtasks : List (Cont × Outcome) := []
  /-- reconnect timers that are set and have not fired: `(tries, delay in ms)` -/
  timers : List (Nat × Nat) := []
  trace : List Effect := []
  deriving DecidableEq, Repr

namespace Connection

def log (e : Effect) (c : Connection) : Connection :=
  { c with trace := c.trace ++ [e] }

/-- A new promise, which nobody else holds. -/
def newPromise (c : Connection) : Connection × Nat :=
  ({ c with nextPromise := c.nextPromise + 1 }, c.nextPromise)

/-- The promise `p` settles with `o` unless it has settled before; its reactions become
microtasks. -/
def settle (p : Nat) (o : Outcome) (c : Connection) : Connection :=
  match jsGet c.settled p with
  | some _ => c
  | none =>
    { c with
      settled := c.settled ++ [(p, o)]
      microtasks := c.microtasks ++
        ((c.reactions.filter (fun r => r.1 = p)).map (fun r => (r.2, o)))
      reactions := c.reactions.filter (fun r => r.1 ≠ p) }

/-- Call the `resolve` function of `p`. -/
def resolve (p : Nat) (v : Value) (c : Connection) : Connection :=
  settle p (.fulfilled v) (c.log (.resolve p v))

/-- Call the `reject` function of `p`. -/
def reject (p : Nat) (e : Rejection) (c : Connection) : Connection :=
  settle p (.rejected e) (c.log (.reject p e))

/-- Await `p`, continuing with `k`. -/
def await (p : Nat) (k : Cont) (c : Connection) : Connection :=
  match jsGet c.settled p with
  | some o => { c with microtasks := c.microtasks ++ [(k, o)] }
  | none => { c with reactions := c.reactions ++ [(p, k)] }

def connected (c : Connection) : Bool :=
  match c.socket with
  | none => false
  | some s => s.readyState == WebSocket.OPEN

def _genCmdId (c : Connection) : Connection × Nat :=
  ({ c with commandId := c.commandId + 1 }, c.commandId + 1)

/-- The lookup `this.eventListeners.get(eventType) || []`. -/
def listenersOf (m : List (String × List Nat)) (eventType : String) : List Nat :=
  (jsGet m eventType).getD []

def fireEvent (eventType : String) (eventData : Option Rejection) (c : Connection) :
    Connection :=
  (listenersOf c.eventListeners eventType).foldl
    (fun c l => c.log (.listener l eventType eventData))
    (c.log (.fireEvent eventType eventData))

/-- Truthiness of the optional `commandId` argument of `sendMessage`. -/
def truthyId : Option Nat → Bool
  | none => false
  | some n => n != 0

/-- The method `sendMessage(message, commandId)`; the second component is the exception
thrown. -/
def sendMessage (message : Message) (commandId : Option Nat) (c : Connection) :
    Connection × Option Rejection :=
  if !c.connected then (c, some (.code ERR_CONNECTION_LOST))
  else
    match c._queuedMessages with
    | some q =>
      if truthyId commandId then (c, some (.exception "Cannot queue with commandId"))
      else ({ c with _queuedMessages := some (q ++ [.send message]) }, none)
    | none =>
      let (c, id) :=
        match commandId with
        | some n => if truthyId (some n) then (c, n) else c._genCmdId
        | none => c._genCmdId
      match c.socket with
      | some s => (c.log (.send s.id id message), none)
      | none => (c, some (.typeError "socket.send"))

/-- The method `sendMessagePromise(message)`; the second component is the promise returned.
An exception thrown inside the executor rejects the promise. -/
def sendMessagePromise (message : Message) (c : Connection) : Connection × Nat :=
  let (c, p) := c.newPromise
  match c._queuedMessages with
  | some q => ({ c with _queuedMessages := some (q ++ [.call message p]) }, p)
  | none =>
    let (c, commandId) := c._genCmdId
    let c := { c with commands := jsSet c.commands commandId { promise := p } }
    match c.sendMessage message (some commandId) with
    | (c, none) => (c, p)
    | (c, some err) => (c.reject p err, p)

/-- The body of `messageGroup.forEach` in `_handleMessage`, for one message; the second
component is the exception thrown. -/
def handleMessage1 (message : InMsg) (c : Connection) : Connection × Option Rejection :=
  let info := jsGet c.commands message.id
  match message.type with
  | .event =>
    match info with
    | some info =>
      match info.sub with
      | some s => (c.log (.callback s.callback message.event), none)
      | none => (c, some (.typeError "info.callback"))
    | none =>
      let c := c.log (.warn "Received event for unknown subscription. Unsubscribing.")
      let sent := c.sendMessagePromise (unsubscribeEvents message.id)
      (sent.1.await sent.2 .swallow, none)
  | .result =>
    match info with
    | some info =>
      if message.success then
        let c := c.resolve info.promise (.json message.result)
        match info.sub with
        | some _ => (c, none)
        | none => ({ c with commands := jsDelete c.commands message.id }, none)
      else
        let c := c.reject info.promise (.server message.error)
        ({ c with commands := jsDelete c.commands message.id }, none)
    | none => (c, none)
  | .pong =>
    match info with
    | some info =>
      let c := c.resolve info.promise .undefined
      ({ c with commands := jsDelete c.commands message.id }, none)
    | none => (c.log (.warn "Received unknown pong response"), none)
  | .other _ => (c, none)

/-- The loop `messageGroup.forEach(...)`: an exception ends it. -/
def handleMessageGroup : List InMsg → Connection → Connection × Option Rejection
  | [], c => (c, none)
  | m :: ms, c =>
    match c.handleMessage1 m with
    | (c, none) => handleMessageGroup ms c
    | (c, some e) => (c, some e)

/-- The handler `_handleMessage(event)`, on the parsed `event.data`. -/
def _handleMessage (payload : Payload) (c : Connection) : Connection × Option Rejection :=
  match payload with
  | .single m => handleMessageGroup [m] c
  | .batch ms => handleMessageGroup ms c

/-! ### Subscriptions -/

/-- The last part of `subscribeMessage`: the executor of the promise it awaits (a new
`commandId`, the entry, `commands.set`, the send whose exception is swallowed) and the
`await` of that promise. `ret` is the promise of the `async` call. -/
def subscribeRegister (r : Resubscribe) (ret : Nat) (c : Connection) : Connection :=
  let (c, p) := c.newPromise
  let (c, commandId) := c._genCmdId
  let ref := c.nextRef
  let info : Info :=
    { promise := p
      sub := some
        { ref := ref
          callback := r.callback
          subscribe := if r.options.resubscribe ≠ some false then some r else none } }
  let c :=
    { c with
      nextRef := ref + 1
      unsubscribes := c.unsubscribes ++ [(ref, Unsub.own commandId)]
      commands := jsSet c.commands commandId info }
  let c := (c.sendMessage r.subscribeMessage (some commandId)).1
  c.await p (.subscribeDone ref ret)

/-- The middle part of `subscribeMessage`: the optional `preCheck`. -/
def subscribePreCheck (r : Resubscribe) (ret : Nat) (c : Connection) : Connection :=
  match r.options.preCheck with
  | some fn =>
    let (c, p) := c.newPromise
    let c := c.log (.preCheck fn p)
    c.await p (.subscribeChecked r ret)
  | none => c.subscribeRegister r ret

/-- The method `subscribeMessage(callback, subscribeMessage, options)`, up to its first
`await`; the second component is the promise the `async` call returns. -/
def subscribeMessage (r : Resubscribe) (c : Connection) : Connection × Nat :=
  let (c, ret) := c.newPromise
  match c._queuedMessages with
  | some q =>
    let (c, p) := c.newPromise
    let c := { c with _queuedMessages := some (q ++ [Queued.wait p]) }
    (c.await p (.subscribeDequeued r ret), ret)
  | none => (c.subscribePreCheck r ret, ret)

/-- The closure `info.unsubscribe` created by `subscribeMessage` for `commandId`, up to its
`await`; the second component is the promise the `async` call returns. -/
def unsubscribeOwn (commandId : Nat) (c : Connection) : Connection × Nat :=
  let (c, ret) := c.newPromise
  if c.connected then
    let sent := c.sendMessagePromise (unsubscribeEvents commandId)
    (sent.1.await sent.2 (.unsubscribeSent commandId ret), ret)
  else
    let c := { c with commands := jsDelete c.commands commandId }
    (c.resolve ret .undefined, ret)

/-- Calling the handle `() => info.unsubscribe()` of the entry `ref`: the field is read at
call time, and after a resubscription it is the handle of the newer entry. `fuel` bounds
the length of that chain; `Connection.unsubscribe` passes the number of entries. -/
def unsubscribeVia : Nat → Nat → Connection → Connection × Option Nat
  | 0, _, c => (c, none)
  | fuel + 1, ref, c =>
    match jsGet c.unsubscribes ref with
    | some (.own commandId) =>
      let called := c.unsubscribeOwn commandId
      (called.1, some called.2)
    | some (.handle ref') => unsubscribeVia fuel ref' c
    | none => (c, none)

/-- The caller invokes the unsubscribe handle that `subscribeMessage` returned for the entry
`ref`. -/
def unsubscribe (ref : Nat) (c : Connection) : Connection × Option Nat :=
  unsubscribeVia (c.unsubscribes.length + 1) ref c

/-! ### Channel loss and reconnect -/

/-- The function `reconnect(tries)` inside `_handleClose`: it only sets the timer. -/
def reconnect (tries : Nat) (c : Connection) : Connection :=
  let ms := min tries 5 * 1000
  { c.log (.setTimeout tries ms) with timers := c.timers ++ [(tries, ms)] }

/-- The part of `_handleClose` after `await this.suspendReconnectPromise`. -/
def handleCloseResumed (c : Connection) : Connection :=
  reconnect 0 { c with suspendReconnectPromise := none, _queuedMessages := some [] }

/-- The loop `oldCommands.forEach(...)` of `_handleClose`: every entry without the key
`subscribe` is rejected. -/
def rejectCommands : List (Nat × Info) → Connection → Connection
  | [], c => c
  | e :: rest, c =>
    match e.2.sub with
    | none =>
      rejectCommands rest (c.reject e.2.promise (error ERR_CONNECTION_LOST "Connection lost"))
    | some _ => rejectCommands rest c

/-- The handler `_handleClose()`, up to its `await`. -/
def _handleClose (c : Connection) : Connection :=
  let oldCommands := c.commands
  let c :=
    { c with
      commandId := 1
      oldSubscriptions := some c.commands
      commands := []
      socket := none }
  let c := rejectCommands oldCommands c
  if c.closeRequested then c
  else
    let c := c.fireEvent "disconnected" none
    match c.suspendReconnectPromise with
    | some p => c.await p .closeResumed
    | none => c.reconnect 0

/-- The loop `for (const queuedMsg of queuedMessages) queuedMsg.resolve()` of `_setSocket`;
the second component is the exception that ended it. -/
def drainQueue : List Queued → Connection → Connection × Option Rejection
  | [], c => (c, none)
  | .send message :: q, c =>
    match c.sendMessage message none with
    | (c, none) => drainQueue q c
    | (c, some err) => (c, some err)
  | .call message outer :: q, c =>
    let sent := c.sendMessagePromise message
    drainQueue q (sent.1.await sent.2 (.forward outer))
  | .wait p :: q, c => drainQueue q (c.resolve p .undefined)

/-- One step of `oldSubscriptions.forEach(...)`: `info.subscribe().then(...)`. -/
def resubscribe (info : Info) (c : Connection) : Connection :=
  match info.subscribe? with
  | some (s, r) =>
    let called := c.subscribeMessage r
    called.1.await called.2 (.resubscribed s.ref info.promise)
  | none => c

/-- The loop `oldSubscriptions.forEach(...)` of `_setSocket`. -/
def resubscribeAll : List (Nat × Info) → Connection → Connection
  | [], c => c
  | e :: rest, c => resubscribeAll rest (c.resubscribe e.2)

/-- The method `_setSocket(socket)`; the second component is the exception thrown. -/
def _setSocket (socket : Socket) (c : Connection) : Connection × Option Rejection :=
  let c := { c with socket := some socket, haVersion := socket.haVersion }
  let c := c.log (.attach socket.id)
  let c :=
    match c.oldSubscriptions with
    | some old => resubscribeAll old { c with oldSubscriptions := none }
    | none => c
  match c._queuedMessages with
  | some q =>
    match drainQueue q { c with _queuedMessages := none } with
    | (c, none) => (c.fireEvent "ready" none, none)
    | (c, some err) => (c, some err)
  | none => (c.fireEvent "ready" none, none)

/-- The loop `for (const msg of queuedMessages)` in the `catch` block of a reconnect
attempt: every element that has a `reject` is rejected. -/
def rejectQueued : List Queued → Connection → Connection
  | [], c => c
  | msg :: rest, c =>
    match msg.reject? with
    | some p => rejectQueued rest (c.reject p (.code ERR_CONNECTION_LOST))
    | none => rejectQueued rest c

/-- The `catch (err)` block of a reconnect attempt. -/
def reconnectFailed (tries : Nat) (err : Rejection) (c : Connection) : Connection :=
  let c :=
    match c._queuedMessages with
    | some q => rejectQueued q { c with _queuedMessages := none }
    | none => c
  if err = .code ERR_INVALID_AUTH then c.fireEvent "reconnect-error" (some err)
  else c.reconnect (tries + 1)

/-- The callback of the reconnect timer, up to `await options.createSocket(options)`. -/
def reconnectAttempt (tries : Nat) (c : Connection) : Connection :=
  if c.closeRequested then c
  else
    let (c, p) := c.newPromise
    let c := c.log (.createSocket p)
    c.await p (.socketCreated tries)

/-- The first pending reconnect timer fires. -/
def timerFired (c : Connection) : Connection :=
  match c.timers with
  | [] => c
  | (tries, _) :: rest => reconnectAttempt tries { c with timers := rest }

/-! ### Continuations -/

/-- Run the code after an `await`, given how the awaited promise settled. -/
def runCont (k : Cont) (o : Outcome) (c : Connection) : Connection :=
  match k, o with
  | .forward outer, .fulfilled v => c.resolve outer v
  | .forward outer, .rejected e => c.reject outer e
  | .swallow, _ => c
  | .unsubscribeSent commandId ret, .fulfilled _ =>
    let c := { c with commands := jsDelete c.commands commandId }
    c.resolve ret .undefined
  | .unsubscribeSent _ ret, .rejected e => c.reject ret e
  | .subscribeDequeued r ret, .fulfilled _ => c.subscribePreCheck r ret
  | .subscribeDequeued _ ret, .rejected e => c.reject ret e
  | .subscribeChecked r ret, .fulfilled v =>
    if v.truthy then c.subscribeRegister r ret
    else c.reject ret (.exception "Pre-check failed")
  | .subscribeChecked _ ret, .rejected e => c.reject ret e
  | .subscribeDone ref ret, .fulfilled _ => c.resolve ret (.unsub ref)
  | .subscribeDone _ ret, .rejected e => c.reject ret e
  | .resubscribed ref promise, .fulfilled v =>
    let c :=
      match v with
      | .unsub ref' => { c with unsubscribes := jsSet c.unsubscribes ref (Unsub.handle ref') }
      | _ => c
    c.resolve promise .undefined
  | .resubscribed _ _, .rejected _ => c
  | .closeResumed, .fulfilled _ => c.handleCloseResumed
  | .closeResumed, .rejected _ => c
  | .socketCreated tries, .fulfilled (.socket s) =>
    match c._setSocket s with
    | (c, none) => c
    | (c, some err) => c.reconnectFailed tries err
  | .socketCreated tries, .fulfilled _ =>
    c.reconnectFailed tries (.typeError "socket.addEventListener")
  | .socketCreated tries, .rejected err => c.reconnectFailed tries err

/-- The first microtask runs. -/
def runMicrotask (c : Connection) : Connection :=
  match c.microtasks with
  | [] => c
  | (k, o) :: rest => runCont k o { c with microtasks := rest }

/-! ### The remaining methods -/

/-- The constructor `new Connection(socket, options)`. -/
def create (socket : Socket) (options : Options) : Connection :=
  (_setSocket socket
    { options := options
      commandId := 2
      commands := []
      socket := none
      closeRequested := false }).1

def addEventListener (eventType : String) (callback : Nat) (c : Connection) : Connection :=
  { c with
    eventListeners :=
      jsSet c.eventListeners eventType (listenersOf c.eventListeners eventType ++ [callback]) }

def removeEventListener (eventType : String) (callback : Nat) (c : Connection) :
    Connection :=
  match jsGet c.eventListeners eventType with
  | none => c
  | some listeners =>
    { c with eventListeners := jsSet c.eventListeners eventType (listeners.erase callback) }

def suspendReconnectUntil (suspendPromise : Nat) (c : Connection) : Connection :=
  { c with suspendReconnectPromise := some suspendPromise }

/-- The call `this.socket.close()`. -/
def closeSocket (c : Connection) : Connection :=
  match c.socket with
  | some s => { c.log (.socketClose s.id) with socket := some s.close }
  | none => c

/-- The method `suspend()`; the second component is the exception thrown. -/
def suspend (c : Connection) : Connection × Option Rejection :=
  match c.suspendReconnectPromise with
  | none => (c, some (.exception "Suspend promise not set"))
  | some _ => (c.closeSocket, none)

def close (c : Connection) : Connection :=
  closeSocket { c with closeRequested := true }

/-- The method `reconnect(force)` of the class (the function `reconnect(tries)` inside
`_handleClose` is `Connection.reconnect`). -/
def reconnectSocket (force : Bool) (c : Connection) : Connection :=
  match c.socket with
  | none => c
  | some s =>
    if !force then c.closeSocket
    else (c.log (.detach s.id)).closeSocket._handleClose

/-- The method `ping()`. -/
def ping (c : Connection) : Connection × Nat :=
  c.sendMessagePromise HAWS.ping

/-- The method `subscribeEvents(callback, eventType)`. -/
def subscribeEvents (callback : Nat) (eventType : Option String) (c : Connection) :
    Connection × Nat :=
  c.subscribeMessage
    { callback := callback, subscribeMessage := HAWS.subscribeEvents eventType, options := {} }

end Connection

/-! ## What the trace says -/

/-- The effect is a call of the `resolve` or `reject` function of the promise `p`. -/
def Effect.settles (p : Nat) : Effect → Bool
  | .resolve q _ => q = p
  | .reject q _ => q = p
  | _ => false

/-- The calls of `resolve` and `reject` of the promise `p` in a trace, in order. -/
def settlements (p : Nat) (tr : List Effect) : List Effect :=
  tr.filter (Effect.settles p)

/-- The messages handed to `socket.send` in a trace, in order: socket, id, message. -/
def sentFrames : List Effect → List (Nat × Nat × Message)
  | [] => []
  | .send s i m :: tr => (s, i, m) :: sentFrames tr
  | _ :: tr => sentFrames tr

/-- The subscription callbacks invoked in a trace, in order, each with its event. -/
def callbacks : List Effect → List (Nat × Json)
  | [] => []
  | .callback cb ev :: tr => (cb, ev) :: callbacks tr
  | _ :: tr => callbacks tr

/-- The delays, in milliseconds, of the reconnect timers set in a trace, in order. -/
def timerDelays : List Effect → List Nat
  | [] => []
  | .setTimeout _ ms :: tr => ms :: timerDelays tr
  | _ :: tr => timerDelays tr

/-! ## Invariants -/

/-- The allocation discipline of a connection: every key of `commands` came out of
`_genCmdId`, every promise of an entry came out of `newPromise`, and so did every promise
the trace mentions. -/
def Connection.WF (c : Connection) : Prop :=
  (∀ e ∈ c.commands, e.1 ≤ c.commandId ∧ e.2.promise < c.nextPromise) ∧
  (∀ e ∈ c.trace, ∀ p, e.settles p = true → p < c.nextPromise)

/-- The call with promise `p` is registered under `i` and is the only entry holding `p`. -/
def Connection.Pending (i : Nat) (p : Nat) (c : Connection) : Prop :=
  jsGet c.commands i = some { promise := p } ∧ i ≤ c.commandId ∧ p < c.nextPromise ∧
  ∀ e ∈ c.commands, e.1 ≠ i → e.2.promise ≠ p

/-- No entry of `commands` holds the promise `p`, which has been handed out. -/
def Connection.NoRef (p : Nat) (c : Connection) : Prop :=
  p < c.nextPromise ∧ ∀ e ∈ c.commands, e.2.promise ≠ p

/-! ## Sample inputs -/

/-- A connection right after `new Connection(socket, options)` on an open socket. -/
def sampleConnection : Connection := Connection.create { id := 7 } {}

def sampleCall : Message := { type := "get_states" }

def sampleReply : InMsg := { id := 3, type := .result, success := true, result := "ok" }

/-- The rejection every pending call gets on channel loss. -/
def connectionLost : Rejection := error ERR_CONNECTION_LOST "Connection lost"

/-- The `reject` calls of `_handleClose` for a commands table: one for each entry that is
not a subscription, in the order of the table. -/
def lostCalls (commands : List (Nat × Info)) : List Effect :=
  (commands.filter (fun e => e.2.sub.isNone)).map (fun e => .reject e.2.promise connectionLost)

/-- The entry of a subscription with callback 11, registered under the id 4. -/
def sampleEntry : Nat × Info :=
  (4, { promise := 1,
        sub := some
          { ref := 0, callback := 11,
            subscribe := some
              { callback := 11, subscribeMessage := { type := "subscribe_events" },
                options := {} } } })

/-- A connection with the call 3 and the subscription 4 pending. -/
def sampleBusy : Connection :=
  { sampleConnection with
    commandId := 4
    nextPromise := 2
    nextRef := 1
    unsubscribes := [(0, .own 4)]
    commands := [(3, { promise := 0 }), sampleEntry] }

/-- The ids returned by `n` successive calls of `_genCmdId`, in order. -/
def Connection.genCmdIds : Nat → Connection → List Nat
  | 0, _ => []
  | n + 1, c => c._genCmdId.2 :: genCmdIds n c._genCmdId.1

/-- The `id` field of the message `supportedFeatures()`: "Always the first message after
auth". -/
def supportedFeaturesId : Nat := 1

/-- The `reject` calls of a failed reconnect attempt for a queue: one for each element that
has a `reject`, in queue order. -/
def queueRejections (q : List Queued) : List Effect :=
  q.filterMap (fun msg => msg.reject?.map (fun p => Effect.reject p (.code ERR_CONNECTION_LOST)))

/-- A connection that waits to reconnect after a suspension, with the call `get_states` and a
subscription in its queue. -/
def sampleQueued : Connection :=
  { sampleConnection with
    socket := none
    commandId := 1
    nextPromise := 3
    _queuedMessages := some [.call sampleCall 0, .wait 2]
    reactions := [(2, .subscribeDequeued
      { callback := 11, subscribeMessage := { type := "subscribe_events" }, options := {} } 1)]
    timers := [(0, 0)] }

/-- The number of `createSocket` calls in a trace: the reconnect attempts made. -/
def createSocketCalls : List Effect → Nat
  | [] => 0
  | .createSocket _ :: tr => createSocketCalls tr + 1
  | _ :: tr => createSocketCalls tr

/-- A reconnect attempt that fails: the first pending reconnect timer fires, the environment
rejects the promise that `createSocket` returned (the next promise handed out,
`c.nextPromise`) with `err`, and the microtask that continues the attempt runs. -/
def Connection.failedAttempt (err : Rejection) (c : Connection) : Connection :=
  ((c.timerFired).settle c.nextPromise (.rejected err)).runMicrotask

/-- One failed reconnect attempt after the other, with the given errors. -/
def Connection.failedAttempts : List Rejection → Connection → Connection
  | [], c => c
  | err :: errs, c => failedAttempts errs (c.failedAttempt err)

/-- No promise that has not been handed out yet has settled. -/
def Connection.Fresh (c : Connection) : Prop :=
  ∀ p, c.nextPromise ≤ p → jsGet c.settled p = none

/-- A connection at rest: `close()` was not called, no reconnect is suspended, nothing is
queued or scheduled, no continuation is waiting, and the promises of the pending entries are
ones that were handed out. -/
def Connection.Quiet (c : Connection) : Prop :=
  c.closeRequested = false ∧ c.suspendReconnectPromise = none ∧ c._queuedMessages = none ∧
  c.reactions = [] ∧ c.microtasks = [] ∧ c.timers = [] ∧
  (∀ e ∈ c.commands, e.2.promise < c.nextPromise) ∧ c.Fresh

/-- A connection whose reconnect attempt number `tries` is scheduled and nothing else. -/
def Connection.Reconnecting (tries : Nat) (c : Connection) : Prop :=
  c.closeRequested = false ∧ c._queuedMessages = none ∧
  c.reactions = [] ∧ c.microtasks = [] ∧ c.timers = [(tries, min tries 5 * 1000)] ∧ c.Fresh

/-- The messages that the elements of a queue send when they are replayed, in queue order
(an element pushed by `subscribeMessage` sends nothing by itself). -/
def queuedCalls : List Queued → List Message
  | [] => []
  | .send m :: q => m :: queuedCalls q
  | .call m _ :: q => m :: queuedCalls q
  | .wait _ :: q => queuedCalls q

/-- The frames of the messages `msgs` sent in this order on `socket`, the first of them with
the id `commandId + 1`. -/
def replayFrames (socket : Nat) (commandId : Nat) : List Message → List (Nat × Nat × Message)
  | [] => []
  | m :: ms => (socket, commandId + 1, m) :: replayFrames socket (commandId + 1) ms

/-- The calls `msgs` issued through `sendMessagePromise`, one after the other. -/
def Connection.issueAll : List Message → Connection → Connection
  | [], c => c
  | m :: ms, c => issueAll ms (c.sendMessagePromise m).1

/-- A connection whose suspended reconnect has just resumed: no socket, an empty queue, the
timer of attempt 0 set, and the subscription of `sampleEntry` carried over. -/
def sampleResumed : Connection :=
  { sampleConnection with
    socket := none
    commandId := 1
    nextPromise := 2
    nextRef := 1
    unsubscribes := [(0, .own 4)]
    oldSubscriptions := some [sampleEntry]
    _queuedMessages := some []
    timers := [(0, 0)] }

/-- The fresh connection after its channel is lost: disconnected, attempt 0 scheduled. -/
def sampleLost : Connection := sampleConnection._handleClose

/-- The arguments of a `subscribeMessage(callback, subscribeMessage)` call: callback 11, no
options. -/
def sampleSubscribe : Resubscribe :=
  { callback := 11, subscribeMessage := { type := "subscribe_events" }, options := {} }

/-- The fresh connection after `subscribeMessage` with `sampleSubscribe`, the server's
confirmation for the id 3, and the microtask that hands the unsubscribe handle (of the entry
`ref = 0`) to the caller. -/
def sampleSubscribed : Connection :=
  ((sampleConnection.subscribeMessage sampleSubscribe).1._handleMessage
    (.single { id := 3, type := .result, success := true })).1.runMicrotask

/-- The channel of `sampleSubscribed` is lost, and while it is down the caller invokes the
unsubscribe handle. -/
def sampleUnsubscribedDown : Connection := (sampleSubscribed._handleClose.unsubscribe 0).1

/-- The reconnect that follows: the timer fires, `createSocket` resolves with the open socket
8, and the microtask that continues the attempt runs `_setSocket`. -/
def sampleReplayed : Connection :=
  ((sampleUnsubscribedDown.timerFired).settle sampleUnsubscribedDown.nextPromise
    (.fulfilled (.socket { id := 8 }))).runMicrotask

/-- The arguments of a `subscribeMessage` call with a `preCheck` (function 5) and resubscribe
left at its default. -/
def sampleChecked : Resubscribe :=
  { callback := 12, subscribeMessage := { type := "subscribe_trigger" },
    options := { preCheck := some 5 } }

/-- The fresh connection after `subscribeMessage` with `sampleChecked`: the pre-check
(promise 1) passes, the subscription is registered under the id 3, the server confirms it,
and the caller gets the handle. -/
def sampleCheckedSubscribed : Connection :=
  ((((sampleConnection.subscribeMessage sampleChecked).1.settle 1
    (.fulfilled (.bool true))).runMicrotask)._handleMessage
      (.single { id := 3, type := .result, success := true })).1.runMicrotask

/-- The channel of `sampleCheckedSubscribed` is lost and the reconnect succeeds with the open
socket 8: `_setSocket` calls the subscribe closure, which calls the pre-check again (promise
5). -/
def sampleCheckedReconnected : Connection :=
  ((sampleCheckedSubscribed._handleClose.timerFired).settle
    sampleCheckedSubscribed._handleClose.nextPromise
    (.fulfilled (.socket { id := 8 }))).runMicrotask

/-- This time the pre-check fails: its promise resolves with `false`, and the two microtasks
that follow run. -/
def sampleCheckFailed : Connection :=
  ((sampleCheckedReconnected.settle 5 (.fulfilled (.bool false))).runMicrotask).runMicrotask

/-- What a step that only subscribes, sends and awaits does to a connection: nothing
settles, promises and command ids are only handed out, the entries registered so far stay,
and the waiting continuations, the microtasks and the trace only grow. -/
def Connection.Extends (c c' : Connection) : Prop :=
  c'.settled = c.settled ∧ c.nextPromise ≤ c'.nextPromise ∧ c'.socket = c.socket ∧
  c.commandId ≤ c'.commandId ∧
  (∀ j x, j ≤ c.commandId → jsGet c.commands j = some x → jsGet c'.commands j = some x) ∧
  (∀ x ∈ c.reactions, x ∈ c'.reactions) ∧
  (∀ x ∈ c.microtasks, x ∈ c'.microtasks) ∧
  (∀ x ∈ c.trace, x ∈ c'.trace)

/-- The commands table has, under the id `j`, a subscription entry with the callback `cb`. -/
def Connection.Subscribed (cb : Nat) (j : Nat) (c : Connection) : Prop :=
  ∃ info s, jsGet c.commands j = some info ∧ info.sub = some s ∧ s.callback = cb

/-- The first steps of `_setSocket(socket)`: the new socket is stored, the handlers are
attached and `oldSubscriptions` is cleared. -/
def Connection.attachSocket (socket : Socket) (c : Connection) : Connection :=
  { (Connection.log (.attach socket.id)
      { c with socket := some socket, haVersion := socket.haVersion }) with
    oldSubscriptions := none }

/-- A closing connection: `close()` was called on the fresh connection, whose socket has not
reported its `close` event yet (`readyState` is `CLOSING`). -/
def sampleClosing : Connection := sampleConnection.close

/-! ## What can happen to a connection -/

/-- One thing that happens to a connection: an event of its environment (the socket, a
timer, the microtask queue, a promise the environment settles) or a call of one of its
methods. -/
inductive Action where
  /-- the socket's `message` event -/
  | message (payload : Payload)
  /-- the socket's `close` event -/
  | lost
  /-- the socket changes its `readyState` -/
  | readyState (n : Nat)
  /-- the first pending reconnect timer fires -/
  | timer
  /-- the first microtask runs -/
  | microtask
  /-- a promise settles from outside: the one `createSocket` or a `preCheck` returned, or
  the suspend promise -/
  | settle (p : Nat) (o : Outcome)
  | sendMessage (message : Message)
  | sendMessagePromise (message : Message)
  | subscribeMessage (r : Resubscribe)
  | subscribeEvents (callback : Nat) (eventType : Option String)
  /-- the caller invokes the unsubscribe handle of the entry `ref` -/
  | unsubscribe (ref : Nat)
  | ping
  | addEventListener (eventType : String) (callback : Nat)
  | removeEventListener (eventType : String) (callback : Nat)
  | suspendReconnectUntil (suspendPromise : Nat)
  | suspend
  | close
  /-- the method `reconnect(force)` -/
  | reconnect (force : Bool)
  deriving DecidableEq, Repr

/-- The connection after one action. -/
def Connection.step (a : Action) (c : Connection) : Connection :=
  match a with
  | .message payload => (c._handleMessage payload).1
  | .lost => c._handleClose
  | .readyState n => { c with socket := c.socket.map (fun s => { s with readyState := n }) }
  | .timer => c.timerFired
  | .microtask => c.runMicrotask
  | .settle p o => c.settle p o
  | .sendMessage message => (c.sendMessage message none).1
  | .sendMessagePromise message => (c.sendMessagePromise message).1
  | .subscribeMessage r => (c.subscribeMessage r).1
  | .subscribeEvents callback eventType => (c.subscribeEvents callback eventType).1
  | .unsubscribe ref => (c.unsubscribe ref).1
  | .ping => c.ping.1
  | .addEventListener eventType callback => c.addEventListener eventType callback
  | .removeEventListener eventType callback => c.removeEventListener eventType callback
  | .suspendReconnectUntil suspendPromise => c.suspendReconnectUntil suspendPromise
  | .suspend => c.suspend.1
  | .close => c.close
  | .reconnect force => c.reconnectSocket force

/-- The connection after a sequence of actions. -/
def Connection.run : List Action → Connection → Connection
  | [], c => c
  | a :: as, c => run as (c.step a)

/-- From `c` to `c'` the flag `closeRequested` has not changed and `createSocket` has not
been called. -/
def Connection.NoNewSocket (c c' : Connection) : Prop :=
  c'.closeRequested = c.closeRequested ∧
  createSocketCalls c'.trace = createSocketCalls c.trace

/-! ## Entities: `processEvent` -/

/-- The call `Object.assign(target, source)` on objects with string keys: every key of
`source`, in order, is set on `target`. An object is the list of its keys and values in
insertion order (the enumeration order of keys that are not array indices), with `jsGet`,
`jsSet` and `jsDelete` for property read, assignment and `delete`. -/
def objectAssign {α : Type} (target source : List (String × α)) : List (String × α) :=
  source.foldl (fun t kv => jsSet t kv.1 kv.2) target

/-- The field `c` of a compressed state: the context id alone, or a whole context object. -/
inductive CompressedContext where
  | id (s : String)
  | full (context : List (String × Json))
  deriving DecidableEq, Repr

/-- JavaScript truthiness of an optional number, a whole number standing for the JSON
number: absent and `0` are falsy. -/
def truthyNumber : Option Int → Bool
  | none => false
  | some n => n != 0

/-- JavaScript truthiness of the optional field `c`: absent and the empty string are
falsy, an object is truthy. -/
def CompressedContext.truthy : Option CompressedContext → Bool
  | none => false
  | some (.id s) => s != ""
  | some (.full _) => true

/-- An entity of the snapshot (`HassEntity`). The timestamps are text. -/
structure HassEntity where
  entity_id : String
  state : String
  attributes : List (String × Json)
  /-- `none` is `undefined` -/
  context : Option (List (String × Json)) := none
  last_changed : String
  last_updated : String
  deriving DecidableEq, Repr

/-- A record of the additions section (`EntityState`): `lc` and `lu` are seconds since the
epoch, `lu` and `c` may be missing. -/
structure EntityState where
  s : String
  a : List (String × Json) := []
  c : Option CompressedContext := none
  lc : Int
  lu : Option Int := none
  deriving DecidableEq, Repr

/-- The part `"+"` of a change patch: an `EntityState` all of whose fields may be
missing. -/
structure EntityStateAdd where
  s : Option String := none
  a : Option (List (String × Json)) := none
  c : Option CompressedContext := none
  lc : Option Int := none
  lu : Option Int := none
  deriving DecidableEq, Repr

/-- The part `"-"` of a change patch (`EntityStateRemove`): the attribute keys to delete. -/
structure EntityStateRemove where
  a : Option (List String) := none
  deriving DecidableEq, Repr

/-- A change patch (`EntityDiff`); `plus` is the field `"+"`, `minus` the field `"-"`. -/
structure EntityDiff where
  plus : Option EntityStateAdd := none
  minus : Option EntityStateRemove := none
  deriving DecidableEq, Repr

/-- A diff (`StatesUpdates`): additions `a`, removals `r`, changes `c`; each section may be
missing. The objects `a` and `c` are lists in the order of their keys. -/
structure StatesUpdates where
  a : Option (List (String × EntityState)) := none
  r : Option (List String) := none
  c : Option (List (String × EntityDiff)) := none
  deriving DecidableEq, Repr

/-- The `context` of an added entity: `{ id: newState.c, parent_id: null, user_id: null }`
if `newState.c` is a string, and `newState.c` itself otherwise. -/
def contextOf : Option CompressedContext → Option (List (String × Json))
  | some (.id s) => some [("id", s), ("parent_id", "null"), ("user_id", "null")]
  | some (.full context) => some context
  | none => none

/-- The entity that the additions loop stores for `entityId`. The parameter `toISO` is the
text `new Date(seconds * 1e3).toISOString()` of a number of seconds: `Date` belongs to the
JavaScript runtime. -/
def addedEntity (toISO : Int → String) (entityId : String) (newState : EntityState) :
    HassEntity :=
  let last_changed := toISO newState.lc
  { entity_id := entityId
    state := newState.s
    attributes := newState.a
    context := contextOf newState.c
    last_changed := last_changed
    last_updated :=
      if truthyNumber newState.lu then
        match newState.lu with
        | some lu => toISO lu
        | none => last_changed
      else last_changed }

/-- The loop `for (const entityId in updates.a)`. -/
def applyAdditions (toISO : Int → String) :
    List (String × EntityState) → List (String × HassEntity) → List (String × HassEntity)
  | [], state => state
  | (entityId, newState) :: rest, state =>
    applyAdditions toISO rest (jsSet state entityId (addedEntity toISO entityId newState))

/-- The loop `for (const entityId of updates.r) delete state[entityId]`; also the loop
`for (const key of toRemove.a) delete attributes[key]`. -/
def deleteKeys {α : Type} : List String → List (String × α) → List (String × α)
  | [], o => o
  | key :: rest, o => deleteKeys rest (jsDelete o key)

/-- The block `if (toAdd) { ... }` of the changes loop, without its last statement (the
attributes): state, context and timestamps. -/
def applyToAdd (toISO : Int → String) (toAdd : EntityStateAdd) (entityState : HassEntity) :
    HassEntity :=
  let entityState :=
    match toAdd.s with
    | some s => { entityState with state := s }
    | none => entityState
  let entityState :=
    if CompressedContext.truthy toAdd.c then
      match toAdd.c with
      | some (.id s) =>
        { entityState with
          context := some (objectAssign (entityState.context.getD []) [("id", s)]) }
      | some (.full context) =>
        { entityState with
          context := some (objectAssign (entityState.context.getD []) context) }
      | none => entityState
    else entityState
  if truthyNumber toAdd.lc then
    match toAdd.lc with
    | some lc => { entityState with last_updated := toISO lc, last_changed := toISO lc }
    | none => entityState
  else if truthyNumber toAdd.lu then
    match toAdd.lu with
    | some lu => { entityState with last_updated := toISO lu }
    | none => entityState
  else entityState

/-- The attributes after a change patch: `Object.assign(attributes, toAdd.a)`, then the
`delete` of every key of `toRemove.a`. -/
def patchedAttributes (diff : EntityDiff) (attributes : List (String × Json)) :
    List (String × Json) :=
  let attributes :=
    match diff.plus.bind (fun toAdd => toAdd.a) with
    | some a => objectAssign attributes a
    | none => attributes
  match diff.minus.bind (fun toRemove => toRemove.a) with
  | some keys => deleteKeys keys attributes
  | none => attributes

/-- The body of the changes loop for a known entity: the entity stored back under
`entityId`. The copies `Object.assign({}, entityState)` and
`Object.assign({}, entityState.attributes)` are the values themselves. -/
def patchedEntity (toISO : Int → String) (diff : EntityDiff) (entityState : HassEntity) :
    HassEntity :=
  let attributesChanged : Bool :=
    (diff.plus.bind (fun toAdd => toAdd.a)).isSome ||
      (diff.minus.bind (fun toRemove => toRemove.a)).isSome
  let attributes := patchedAttributes diff entityState.attributes
  let entityState :=
    match diff.plus with
    | some toAdd => applyToAdd toISO toAdd entityState
    | none => entityState
  if attributesChanged then { entityState with attributes := attributes } else entityState

/-- The loop `for (const entityId in updates.c)`; the second component lists the ids for
which `console.warn("Received state update for unknown entity", entityId)` was called. The
read `state[entityId]` is the read of a key of the snapshot: this is the loop for ids that
are not names of properties of `Object.prototype`, which a plain object inherits;
`applyChangesObject` is the loop for every id. -/
def applyChanges (toISO : Int → String) :
    List (String × EntityDiff) → List (String × HassEntity) →
      List (String × HassEntity) × List String
  | [], state => (state, [])
  | (entityId, diff) :: rest, state =>
    match jsGet state entityId with
    | none =>
      let done := applyChanges toISO rest state
      (done.1, entityId :: done.2)
    | some entityState =>
      applyChanges toISO rest (jsSet state entityId (patchedEntity toISO diff entityState))

/-- The snapshot that `processEvent` computes from `state`, the copy of `store.state`, and
hands to `store.setState`: additions, then removals, then changes. The second component
lists the ids reported by `console.warn`. -/
def project (toISO : Int → String) (state : List (String × HassEntity))
    (updates : StatesUpdates) : List (String × HassEntity) × List String :=
  let state :=
    match updates.a with
    | some a => applyAdditions toISO a state
    | none => state
  let state :=
    match updates.r with
    | some r => deleteKeys r state
    | none => state
  match updates.c with
  | some c => applyChanges toISO c state
  | none => (state, [])

/-- The store made by `createStore`, for entity snapshots: its state (`undefined` at first),
its listeners, and the calls `listeners[i](state)` made so far. -/
structure Store where
  state : Option (List (String × HassEntity)) := none
  listeners : List Nat := []
  calls : List (Nat × List (String × HassEntity)) := []
  deriving DecidableEq, Repr

/-- The method `setState(update, overwrite)` of the store. -/
def Store.setState (update : List (String × HassEntity)) (overwrite : Bool) (store : Store) :
    Store :=
  let state := if overwrite then update else objectAssign (store.state.getD []) update
  { store with
    state := some state
    calls := store.calls ++ store.listeners.map (fun l => (l, state)) }

/-- The function `processEvent(store, updates)`. The copy `Object.assign({}, store.state)`
of an `undefined` state is the empty object. -/
def processEvent (toISO : Int → String) (store : Store) (updates : StatesUpdates) : Store :=
  store.setState (project toISO (store.state.getD []) updates).1 true

/-- The ISO texts of the instants 0 s, 1000 s and 2000 s, which the samples use (every
other instant is given the text of 0 s). -/
def sampleISO (seconds : Int) : String :=
  if seconds = 1000 then "1970-01-01T00:16:40.000Z"
  else if seconds = 2000 then "1970-01-01T00:33:20.000Z"
  else "1970-01-01T00:00:00.000Z"

/-- The record `{s: "on", a: {brightness: 10}, lc: 1000}`. -/
def sampleAdded : EntityState := { s := "on", a := [("brightness", "10")], lc := 1000 }

/-- The snapshot with the entity `light.x` of `sampleAdded`. -/
def sampleSnapshot : List (String × HassEntity) :=
  (project sampleISO [] { a := some [("light.x", sampleAdded)] }).1

/-! ## `atLeastHaVersion` -/

/-- The call `text.split(".")` on the characters of a string: the parts between the dots. -/
def splitDots : List Char → List (List Char)
  | [] => [[]]
  | c :: cs =>
    if c = '.' then [] :: splitDots cs
    else
      match splitDots cs with
      | [] => [[c]]
      | part :: parts => (c :: part) :: parts

/-- The value of a string of decimal digits, read from the left with the digits so far in
`acc`; `none` if a character is not a digit. -/
def decimalFrom (acc : Nat) : List Char → Option Nat
  | [] => some acc
  | c :: cs =>
    if '0' ≤ c ∧ c ≤ '9' then decimalFrom (acc * 10 + (c.toNat - '0'.toNat)) cs else none

/-- A value of the type Number: `NaN`, an infinity, or the finite value
`(-1) ^ negative * mantissa * 2 ^ exponent` (both zeros included). -/
inductive JSNumber where
  | nan
  | infinity (negative : Bool)
  | finite (negative : Bool) (mantissa : Nat) (exponent : Int)
  deriving DecidableEq, Repr

/-- The number of binary digits of `n`, for `n ≤ fuel`. -/
def binaryLength : Nat → Nat → Nat
  | 0, _ => 0
  | fuel + 1, n => if n = 0 then 0 else binaryLength fuel (n / 2) + 1

/-- The test `2 ^ e ≤ num / den`. -/
def powerLe (e : Int) (num den : Nat) : Bool :=
  decide (den * 2 ^ e.toNat ≤ num * 2 ^ (-e).toNat)

/-- The exponent of the power of two at or below `num / den`, for positive `num` and `den`:
the difference of the binary lengths, or one less. -/
def floorLog2 (num den : Nat) : Int :=
  let d : Int := (binaryLength num num : Int) - (binaryLength den den : Int)
  if powerLe d num den then d else d - 1

/-- The integer nearest to `a / b`, the even one of the two when `a / b` lies half way. -/
def roundHalfEven (a b : Nat) : Nat :=
  let q := a / b
  if 2 * (a % b) < b then q
  else if b < 2 * (a % b) then q + 1
  else if q % 2 = 0 then q
  else q + 1

/-- The Number value for the mathematical value `num / den` with the given sign: the
nearest double (53 binary digits, the least exponent -1074 for a unit in the last place),
ties to even; a value that rounds to `2 ^ 1024` or more (more than 1024 binary digits) is an
infinity. -/
def roundToDouble (negative : Bool) (num den : Nat) : JSNumber :=
  if num = 0 then .finite negative 0 0
  else
    let x : Int := max (floorLog2 num den) (-1022) - 52
    let mantissa := roundHalfEven (num * 2 ^ (-x).toNat) (den * 2 ^ x.toNat)
    if 1024 < (binaryLength mantissa mantissa : Int) + x then .infinity negative
    else .finite negative mantissa x

/-- The characters that `Number` skips at both ends of a string: `WhiteSpace` and
`LineTerminator` of the language. -/
def isStrWhiteSpace (c : Char) : Bool :=
  decide (c.toNat ∈ [0x9, 0xA, 0xB, 0xC, 0xD, 0x20, 0xA0, 0x1680, 0x2028, 0x2029, 0x202F,
    0x205F, 0x3000, 0xFEFF]) || decide (0x2000 ≤ c.toNat ∧ c.toNat ≤ 0x200A)

def trimWhiteSpace (s : List Char) : List Char :=
  ((s.dropWhile isStrWhiteSpace).reverse.dropWhile isStrWhiteSpace).reverse

def isDecimalDigit (c : Char) : Bool :=
  decide ('0' ≤ c ∧ c ≤ '9')

/-- The value of a digit of a literal with a radix up to 16. -/
def digitValue (c : Char) : Option Nat :=
  if '0' ≤ c ∧ c ≤ '9' then some (c.toNat - '0'.toNat)
  else if 'a' ≤ c ∧ c ≤ 'f' then some (c.toNat - 'a'.toNat + 10)
  else if 'A' ≤ c ∧ c ≤ 'F' then some (c.toNat - 'A'.toNat + 10)
  else none

/-- The value of a string of digits of the radix, read from the left with the digits so
far in `acc`; `none` if a character is not such a digit. -/
def radixFrom (radix : Nat) (acc : Nat) : List Char → Option Nat
  | [] => some acc
  | c :: cs =>
    match digitValue c with
    | some d => if d < radix then radixFrom radix (acc * radix + d) cs else none
    | none => none

/-- The value of a `NonDecimalIntegerLiteral`: `0b`, `0o` or `0x` (in either case) and at
least one digit of that radix; `none` for every other text. -/
def nonDecimalLiteral (s : List Char) : Option Nat :=
  match s with
  | z :: p :: d :: ds =>
    if z = '0' then
      if p = 'b' ∨ p = 'B' then radixFrom 2 0 (d :: ds)
      else if p = 'o' ∨ p = 'O' then radixFrom 8 0 (d :: ds)
      else if p = 'x' ∨ p = 'X' then radixFrom 16 0 (d :: ds)
      else none
    else none
  | _ => none

/-- The value of a `SignedInteger`: decimal digits, at least one, after an optional
sign. -/
def signedInteger (s : List Char) : Option Int :=
  match s with
  | [] => none
  | c :: cs =>
    if c = '+' then (if cs = [] then none else (decimalFrom 0 cs).map Int.ofNat)
    else if c = '-' then (if cs = [] then none else (decimalFrom 0 cs).map (fun n => -(n : Int)))
    else (decimalFrom 0 (c :: cs)).map Int.ofNat

/-- The value of an optional `ExponentPart`: nothing, or `e` or `E` and a
`SignedInteger`. -/
def exponentPart (s : List Char) : Option Int :=
  match s with
  | [] => some 0
  | e :: rest => if e = 'e' ∨ e = 'E' then signedInteger rest else none

/-- A `StrUnsignedDecimalLiteral` other than `Infinity`: digits with at most one dot among
them, at least one digit, and an optional exponent part. The result is the pair `(n, k)`
for the value `n * 10 ^ k`. -/
def unsignedDecimal (u : List Char) : Option (Nat × Int) :=
  let intPart := u.takeWhile isDecimalDigit
  let afterInt := u.dropWhile isDecimalDigit
  let hasDot := decide (afterInt.head? = some '.')
  let fracPart := if hasDot then afterInt.tail.takeWhile isDecimalDigit else []
  let afterFrac := if hasDot then afterInt.tail.dropWhile isDecimalDigit else afterInt
  if intPart = [] ∧ fracPart = [] then none
  else
    match decimalFrom 0 (intPart ++ fracPart), exponentPart afterFrac with
    | some digits, some e => some (digits, e - (fracPart.length : Int))
    | _, _ => none

/-- A `StrDecimalLiteral`: an optional sign, then `Infinity` or an unsigned decimal
literal; `NaN` for every other text. -/
def strDecimalLiteral (s : List Char) : JSNumber :=
  let negative := decide (s.head? = some '-')
  let u := if s.head? = some '+' ∨ s.head? = some '-' then s.tail else s
  if u = ['I', 'n', 'f', 'i', 'n', 'i', 't', 'y'] then .infinity negative
  else
    match unsignedDecimal u with
    | some (digits, e) =>
      if e < 0 then roundToDouble negative digits (10 ^ (-e).toNat)
      else roundToDouble negative (digits * 10 ^ e.toNat) 1
    | none => .nan

/-- The conversion `Number(text)` of a string, by the grammar `StringNumericLiteral`: white
space is stripped at both ends; the empty string is 0; a binary, octal or hexadecimal
literal has no sign; a decimal literal may have a sign, a fraction and an exponent;
`Infinity` is read; every other text is `NaN`. The value is rounded to the nearest double.
(Where a literal has more than 20 significant digits the language lets an engine round from
the first 20; the engines round the exact value, as here.) -/
def Number (text : List Char) : JSNumber :=
  let s := trimWhiteSpace text
  if s = [] then .finite false 0 0
  else
    match nonDecimalLiteral s with
    | some n => roundToDouble false n 1
    | none => strDecimalLiteral s

/-- The conversion `Number(part)` of a part of the version: a missing part (`undefined`) is
`NaN`. -/
def toNumber : Option (List Char) → JSNumber
  | none => .nan
  | some part => Number part

/-- The finite value `(-1) ^ negative * mantissa`, as an integer. -/
def signedMantissa (negative : Bool) (mantissa : Nat) : Int :=
  if negative then -(mantissa : Int) else (mantissa : Int)

/-- The comparison `x > n` of a Number with the integer `n` (the exact value of the Number
on the right); it is false for `NaN`. -/
def numberGt (x : JSNumber) (n : Int) : Bool :=
  match x with
  | .nan => false
  | .infinity negative => !negative
  | .finite negative mantissa exponent =>
    decide (n * 2 ^ (-exponent).toNat < signedMantissa negative mantissa * 2 ^ exponent.toNat)

/-- The comparison `x >= n`; it is false for `NaN`. -/
def numberGe (x : JSNumber) (n : Int) : Bool :=
  match x with
  | .nan => false
  | .infinity negative => !negative
  | .finite negative mantissa exponent =>
    decide (n * 2 ^ (-exponent).toNat ≤ signedMantissa negative mantissa * 2 ^ exponent.toNat)

/-- The comparison `x === n`; it is false for `NaN`. -/
def numberEq (x : JSNumber) (n : Int) : Bool :=
  match x with
  | .nan => false
  | .infinity _ => false
  | .finite negative mantissa exponent =>
    decide (signedMantissa negative mantissa * 2 ^ exponent.toNat = n * 2 ^ (-exponent).toNat)

/-- The function `atLeastHaVersion(version, major, minor, patch)`; `patch` is `none` when
the argument is omitted. The integers stand for the exact values of the Numbers passed. -/
def atLeastHaVersion (version : String) (major minor : Int) (patch : Option Int) : Bool :=
  let parts := (splitDots version.toList).take 3
  let haMajor := toNumber parts[0]?
  let haMinor := toNumber parts[1]?
  let haPatch := toNumber parts[2]?
  numberGt haMajor major ||
    (numberEq haMajor major &&
      (match patch with
       | none => numberGe haMinor minor
       | some _ => numberGt haMinor minor)) ||
    (match patch with
     | none => false
     | some patch => numberEq haMajor major && numberEq haMinor minor && numberGe haPatch patch)

/-! ## The handshake: `createSocket` -/

/-- The message `auth(accessToken)`; the token is left out. -/
def auth : Message := { type := "auth" }

/-- The message `supportedFeatures()`; its `id` is `supportedFeaturesId`. -/
def supportedFeatures : Message :=
  { type := "supported_features", data := "features: coalesce_messages: 1" }

/-- A message of the server during the handshake, by its `type`. -/
inductive AuthMessage where
  | auth_invalid
  | auth_ok (ha_version : String)
  /-- `auth_required`, or any other type -/
  | other (type : String)
  deriving DecidableEq, Repr

/-- An event of a socket during the handshake. -/
inductive SocketEvent where
  /-- the `open` event while `auth2.expired` is false: the `try` block of `handleOpen` runs to
  its end at once, `none` when the auth message is sent, `some err` when `err` is thrown -/
  | opened (thrown : Option Rejection)
  /-- the `open` event while `auth2.expired` is true: `handleOpen` stops at its `await` of the
  token refresh, and goes on when that settles (`HandshakeEvent.refreshed`) -/
  | openedExpired
  | message (m : AuthMessage)
  | close
  | error
  deriving DecidableEq, Repr

/-- One call of `connect(triesLeft, promResolve, promReject)`: the variables of its
closures, which of its four listeners are attached to its socket, and what the browser has
done with the socket. -/
structure Attempt where
  triesLeft : Int
  invalidAuth : Bool := false
  onOpen : Bool := true
  onMessage : Bool := true
  onClose : Bool := true
  onError : Bool := true
  /-- the field `socket.haVersion` -/
  haVersion : Option String := none
  /-- the socket has fired its `error` event -/
  errored : Bool := false
  /-- the socket has fired its `close` event -/
  closed : Bool := false
  /-- the runs of `handleOpen` that have stopped at their `await` -/
  awaiting : Nat := 0
  deriving DecidableEq, Repr

/-- What a handshake does to its environment. -/
inductive HandshakeEffect where
  /-- the call `new WebSocket(url)` -/
  | newWebSocket (socket : Nat)
  | send (socket : Nat) (message : Message)
  /-- the call `socket.close()` -/
  | close (socket : Nat)
  /-- the call `setTimeout(() => connect(newTries, ...), ms)` -/
  | setTimeout (newTries : Int) (ms : Nat)
  | promResolve (socket : Nat)
  | promReject (err : Rejection)
  deriving DecidableEq, Repr

/-- How the promise of `createSocket` settled. -/
inductive HandshakeOutcome where
  | resolved (socket : Nat)
  | rejected (err : Rejection)
  deriving DecidableEq, Repr

/-- The state of one call of `createSocket(options)`. -/
structure Handshake where
  /-- the attempts made so far, by socket -/
  attempts : List (Nat × Attempt) := []
  /-- the timers that are set and have not fired: the `newTries` each passes to `connect` -/
  timers : List Int := []
  nextSocket : Nat := 0
  /-- the first call of `promResolve` or `promReject` settles the promise -/
  settled : Option HandshakeOutcome := none
  trace : List HandshakeEffect := []
  deriving DecidableEq, Repr

namespace Handshake

def promResolve (socket : Nat) (h : Handshake) : Handshake :=
  { h with
    settled := some (h.settled.getD (.resolved socket))
    trace := h.trace ++ [.promResolve socket] }

def promReject (err : Rejection) (h : Handshake) : Handshake :=
  { h with
    settled := some (h.settled.getD (.rejected err))
    trace := h.trace ++ [.promReject err] }

/-- The function `connect(triesLeft, promResolve, promReject)`: a new socket with the four
listeners attached. -/
def connect (triesLeft : Int) (h : Handshake) : Handshake :=
  { h with
    nextSocket := h.nextSocket + 1
    attempts := h.attempts ++ [(h.nextSocket, { triesLeft := triesLeft })]
    trace := h.trace ++ [.newWebSocket h.nextSocket] }

/-- The listener `closeMessage` of the attempt `a` on `socket`. -/
def closeMessage (socket : Nat) (a : Attempt) (h : Handshake) : Handshake :=
  let h := { h with attempts := jsSet h.attempts socket { a with onClose := false } }
  if a.invalidAuth then h.promReject (.code ERR_INVALID_AUTH)
  else if a.triesLeft = 0 then h.promReject (.code ERR_CANNOT_CONNECT)
  else
    let newTries : Int := if a.triesLeft = -1 then -1 else a.triesLeft - 1
    { h with
      timers := h.timers ++ [newTries]
      trace := h.trace ++ [.setTimeout newTries 1000] }

/-- The `try` block of `handleOpen` of the attempt `a` on `socket` from `socket.send` on, and
the `catch` block: the auth message is sent, or `err` is caught. -/
def handleOpen (socket : Nat) (a : Attempt) (thrown : Option Rejection) (h : Handshake) :
    Handshake :=
  match thrown with
  | none => { h with trace := h.trace ++ [.send socket auth] }
  | some err =>
    { h with
      attempts :=
        jsSet h.attempts socket { a with invalidAuth := decide (err = .code ERR_INVALID_AUTH) }
      trace := h.trace ++ [.close socket] }

/-- The listener `handleOpen` of the attempt `a` on `socket` while `auth2.expired` is true, up
to its `await`. -/
def handleOpenExpired (socket : Nat) (a : Attempt) (h : Handshake) : Handshake :=
  { h with attempts := jsSet h.attempts socket { a with awaiting := a.awaiting + 1 } }

/-- The promise that a `handleOpen` of `socket` awaits settles, and the run goes on after its
`await`: with `socket.send` when the token was refreshed (`thrown` is `none` when the send
goes through), with the `catch` block when the refresh failed with `err` (`thrown` is
`some err`). The run does not look at the state of the socket or at its listeners. -/
def refreshed (socket : Nat) (thrown : Option Rejection) (h : Handshake) : Handshake :=
  match jsGet h.attempts socket with
  | none => h
  | some a =>
    if a.awaiting = 0 then h
    else
      let a := { a with awaiting := a.awaiting - 1 }
      handleOpen socket a thrown { h with attempts := jsSet h.attempts socket a }

/-- The listener `handleMessage` of the attempt `a` on `socket`. -/
def handleMessage (socket : Nat) (a : Attempt) (m : AuthMessage) (h : Handshake) :
    Handshake :=
  match m with
  | .auth_invalid =>
    { h with
      attempts := jsSet h.attempts socket { a with invalidAuth := true }
      trace := h.trace ++ [.close socket] }
  | .auth_ok ha_version =>
    let a :=
      { a with
        onOpen := false, onMessage := false, onClose := false, onError := false
        haVersion := some ha_version }
    let h := { h with attempts := jsSet h.attempts socket a }
    let h :=
      if atLeastHaVersion ha_version 2022 9 none then
        { h with trace := h.trace ++ [.send socket supportedFeatures] }
      else h
    h.promResolve socket
  | .other _ => h

/-- The browser delivers an event of `socket`. A socket that has fired `close` fires
nothing more; one that has fired `error` fires only `close`. -/
def socketEvent (socket : Nat) (ev : SocketEvent) (h : Handshake) : Handshake :=
  match jsGet h.attempts socket with
  | none => h
  | some a =>
    if a.closed then h
    else
      match ev with
      | .opened thrown =>
        if a.errored then h
        else if a.onOpen then h.handleOpen socket a thrown
        else h
      | .openedExpired =>
        if a.errored then h
        else if a.onOpen then h.handleOpenExpired socket a
        else h
      | .message m =>
        if a.errored then h
        else if a.onMessage then h.handleMessage socket a m
        else h
      | .error =>
        if a.errored then h
        else
          let a := { a with errored := true }
          let h := { h with attempts := jsSet h.attempts socket a }
          if a.onError then h.closeMessage socket a else h
      | .close =>
        let a := { a with closed := true }
        let h := { h with attempts := jsSet h.attempts socket a }
        if a.onClose then h.closeMessage socket a else h

/-- The first pending timer fires: `connect(newTries, promResolve, promReject)`. -/
def timerFired (h : Handshake) : Handshake :=
  match h.timers with
  | [] => h
  | newTries :: rest => connect newTries { h with timers := rest }

end Handshake

/-- The function `createSocket(options)` for options with `auth` set: the promise executor
calls `connect(options.setupRetry, resolve, reject)`. -/
def createSocket (setupRetry : Int) : Handshake :=
  Handshake.connect setupRetry {}

/-- An event of a handshake: of one of its sockets, of its timer, or of the token refresh
that a `handleOpen` of one of its sockets awaits. -/
inductive HandshakeEvent where
  | socket (socket : Nat) (ev : SocketEvent)
  | timer
  /-- the awaited token refresh settles and `handleOpen` of `socket` goes on: `none` when the
  auth message is sent, `some err` when `err` is caught -/
  | refreshed (socket : Nat) (thrown : Option Rejection)
  deriving DecidableEq, Repr

def Handshake.step (e : HandshakeEvent) (h : Handshake) : Handshake :=
  match e with
  | .socket socket ev => h.socketEvent socket ev
  | .timer => h.timerFired
  | .refreshed socket thrown => h.refreshed socket thrown

/-- The event leaves the flag `invalidAuth` of `socket` set and the promise pending: it is
not a run of `handleOpen` of `socket` that catches an error other than `ERR_INVALID_AUTH`,
and not an `auth_ok` message. -/
def HandshakeEvent.keepsInvalidAuth (socket : Nat) : HandshakeEvent → Bool
  | .socket s (.opened (some err)) => s != socket || err == .code ERR_INVALID_AUTH
  | .refreshed s (some err) => s != socket || err == .code ERR_INVALID_AUTH
  | .socket _ (.message (.auth_ok _)) => false
  | _ => true

def Handshake.run : List HandshakeEvent → Handshake → Handshake
  | [], h => h
  | e :: es, h => run es (h.step e)

/-- The sockets opened in a trace, in order. -/
def socketsOpened : List HandshakeEffect → List Nat
  | [] => []
  | .newWebSocket s :: tr => s :: socketsOpened tr
  | _ :: tr => socketsOpened tr

/-- The listener `closeMessage` of the attempt can still be called: its socket has not fired
`close`, and either the `close` listener is attached, or the `error` listener is and the
socket has not fired `error`. -/
def Attempt.canFail (a : Attempt) : Bool :=
  !a.closed && (a.onClose || (a.onError && !a.errored))

/-- The latest attempt ends with the `close` event of its socket, and the timer that this
may have set fires. -/
def Handshake.attemptCloses (h : Handshake) : Handshake :=
  (h.socketEvent (h.nextSocket - 1) .close).timerFired

/-- The attempts close one after the other, `k` times. -/
def Handshake.attemptsClose : Nat → Handshake → Handshake
  | 0, h => h
  | k + 1, h => attemptsClose k h.attemptCloses

/-- At most one attempt is under way: the sockets are distinct and were opened by this
handshake, at most one of them can still call `closeMessage`, and a timer is pending only
while none can. -/
def Handshake.Single (h : Handshake) : Prop :=
  (h.attempts.map Prod.fst).Nodup ∧
  (∀ x ∈ h.attempts, x.1 < h.nextSocket) ∧
  (∀ x ∈ h.attempts, ∀ y ∈ h.attempts, x.2.canFail = true → y.2.canFail = true → x.1 = y.1) ∧
  (h.timers = [] ∨ ∃ n, h.timers = [n] ∧ ∀ x ∈ h.attempts, x.2.canFail = false)

/-- The attempt number `j` (counted from 0) is under way with the budget `t`, nothing has
been decided, and every earlier attempt is over. -/
def Handshake.Trying (t : Int) (j : Nat) (h : Handshake) : Prop :=
  h.nextSocket = j + 1 ∧ jsGet h.attempts j = some { triesLeft := t } ∧ h.timers = [] ∧
  h.settled = none ∧ socketsOpened h.trace = List.range (j + 1) ∧
  (h.attempts.map Prod.fst).Nodup ∧ (∀ x ∈ h.attempts, x.1 ≤ j) ∧
  (∀ x ∈ h.attempts, x.1 ≠ j → x.2.canFail = false)

/-- The attempt on `socket` has been told `auth_invalid` and has not failed yet: its flag
`invalidAuth` is set, its socket has not closed and its `close` listener is attached; the
promise is pending and no timer is set. -/
def Handshake.Doomed (socket : Nat) (h : Handshake) : Prop :=
  h.settled = none ∧ h.timers = [] ∧
  ∃ a, jsGet h.attempts socket = some a ∧ a.invalidAuth = true ∧ a.closed = false ∧
    a.onClose = true

/-- The handshake has failed with `ERR_INVALID_AUTH` for good: the promise is rejected with
it, no timer is set and no attempt can fail any more. -/
def Handshake.Refused (h : Handshake) : Prop :=
  h.settled = some (.rejected (.code ERR_INVALID_AUTH)) ∧ h.timers = [] ∧
  ∀ x ∈ h.attempts, x.2.canFail = false

/-! ## Collections: `getCollection` -/

def UNSUB_GRACE_PERIOD : Nat := 5000

/-- The variables of one `getCollection(conn, key, ...)` closure, and its store. Functions
are named by an identity; `none` is `undefined`. -/
structure Collection where
  /-- identity of the object stored in `conn[key]` -/
  id : Nat
  fetchCollection : Option Nat
  subscribeUpdates : Option Nat
  /-- truthiness of `options.unsubGrace` -/
  unsubGrace : Bool
  /-- identities of the closures `refresh`, `refreshSwallow` and `handleDisconnect` -/
  refresh : Nat
  refreshSwallow : Nat
  handleDisconnect : Nat
  active : Int := 0
  /-- the promise that `subscribeUpdates(conn, store)` returned -/
  unsubProm : Option Nat := none
  /-- the id of the grace timer; a timer id is never 0, so `if (unsubTimer)` and
  `unsubTimer !== undefined` both test whether the variable is set -/
  unsubTimer : Option Nat := none
  /-- the state of `store` -/
  state : Option Json := none
  /-- the listeners of `store` -/
  listeners : List Nat := []
  deriving DecidableEq, Repr

/-- What a timer set by a collection does when it fires. -/
inductive TimerTask where
  /-- `setTimeout(teardownUpdateSubscription, UNSUB_GRACE_PERIOD)` -/
  | teardown (key : String)
  /-- `setTimeout(() => subscriber(store.state), 0)` -/
  | notify (key : String) (subscriber : Nat)
  deriving DecidableEq, Repr

/-- What a collection does to its environment. -/
inductive CollectionEffect where
  /-- the call `subscribeUpdates(conn, store)`, which returned the promise `p` -/
  | subscribeUpdates (fn : Nat) (key : String) (p : Nat)
  /-- the call `fetchCollection(conn)` made by `refresh` -/
  | fetchCollection (fn : Nat) (key : String)
  /-- the call `unsubProm.then((unsub) => unsub())`: the upstream unsubscribe of the
  subscription behind `p` -/
  | thenUnsub (key : String) (p : Nat)
  /-- the call `store.clearState()` -/
  | clearState (key : String)
  | setTimeout (id : Nat) (ms : Nat)
  | clearTimeout (id : Nat)
  /-- a listener of the store is called with the state -/
  | call (subscriber : Nat) (state : Option Json)
  /-- `refresh` throws "Collection does not support refresh" -/
  | refreshThrows (key : String)
  deriving DecidableEq, Repr

/-- A connection object together with what `getCollection` hangs on it: the properties
`conn[key]`, and the timers and the trace of its collections. A key is taken not to be the
name of a member of the `Connection` class. -/
structure Host where
  conn : Connection
  collections : List (String × Collection) := []
  /-- the timers that are set and have not fired, by id -/
  timers : List (Nat × TimerTask) := []
  nextTimer : Nat := 1
  /-- the next identity of a new object or function -/
  nextObject : Nat := 0
  nextPromise : Nat := 0
  trace : List CollectionEffect := []
  deriving DecidableEq, Repr

namespace Host

def log (e : CollectionEffect) (h : Host) : Host :=
  { h with trace := h.trace ++ [e] }

def addEventListener (eventType : String) (callback : Nat) (h : Host) : Host :=
  { h with conn := h.conn.addEventListener eventType callback }

def removeEventListener (eventType : String) (callback : Nat) (h : Host) : Host :=
  { h with conn := h.conn.removeEventListener eventType callback }

/-- The call `setTimeout(task, ms)`; the second component is the id returned. -/
def setTimeout (task : TimerTask) (ms : Nat) (h : Host) : Host × Nat :=
  ({ h with
      timers := h.timers ++ [(h.nextTimer, task)]
      nextTimer := h.nextTimer + 1
      trace := h.trace ++ [.setTimeout h.nextTimer ms] },
    h.nextTimer)

def clearTimeout (id : Nat) (h : Host) : Host :=
  { h with timers := jsDelete h.timers id, trace := h.trace ++ [.clearTimeout id] }

/-- The closure `refresh` of the collection `c` (and `refreshSwallow`, whose `catch` runs
later): the fetch is started, or the call throws. -/
def refresh (key : String) (c : Collection) (h : Host) : Host :=
  match c.fetchCollection with
  | some fn => h.log (.fetchCollection fn key)
  | none => h.log (.refreshThrows key)

/-- The closure `setupUpdateSubscription` of the collection `c`. -/
def setupUpdateSubscription (key : String) (c : Collection) (h : Host) : Collection × Host :=
  match c.unsubTimer with
  | some unsubTimer => ({ c with unsubTimer := none }, h.clearTimeout unsubTimer)
  | none =>
    let subscribed : Collection × Host :=
      match c.subscribeUpdates with
      | some fn =>
        ({ c with unsubProm := some h.nextPromise },
          { h.log (.subscribeUpdates fn key h.nextPromise) with
            nextPromise := h.nextPromise + 1 })
      | none => (c, h)
    let c := subscribed.1
    let h := subscribed.2
    let h :=
      match c.fetchCollection with
      | some _ => (h.addEventListener "ready" c.refreshSwallow).refresh key c
      | none => h
    (c, h.addEventListener "disconnected" c.handleDisconnect)

/-- The closure `teardownUpdateSubscription` of the collection `c`. -/
def teardownUpdateSubscription (key : String) (c : Collection) (h : Host) :
    Collection × Host :=
  let c := { c with unsubTimer := none }
  let h :=
    match c.unsubProm with
    | some p => h.log (.thenUnsub key p)
    | none => h
  let c := { c with state := none }
  let h := h.log (.clearState key)
  let h := h.removeEventListener "ready" c.refresh
  (c, h.removeEventListener "disconnected" c.handleDisconnect)

/-- The closure `scheduleTeardownUpdateSubscription` of the collection `c`. -/
def scheduleTeardownUpdateSubscription (key : String) (c : Collection) (h : Host) :
    Collection × Host :=
  let set := h.setTimeout (.teardown key) UNSUB_GRACE_PERIOD
  ({ c with unsubTimer := some set.2 }, set.1)

/-- The closure `handleDisconnect` of the collection `c`. -/
def handleDisconnect (key : String) (c : Collection) (h : Host) : Collection × Host :=
  match c.unsubTimer with
  | some unsubTimer => teardownUpdateSubscription key c (h.clearTimeout unsubTimer)
  | none => (c, h)

/-- Run a closure of the collection `conn[key]` and keep its variables. -/
def onCollection (key : String) (f : Collection → Host → Collection × Host) (h : Host) :
    Host :=
  match jsGet h.collections key with
  | some c =>
    let done := f c h
    { done.2 with collections := jsSet done.2.collections key done.1 }
  | none => h

/-- The function `getCollection(conn, key, fetchCollection, subscribeUpdates, options)`; the
second component is the identity of the object returned. -/
def getCollection (key : String) (fetchCollection subscribeUpdates : Option Nat)
    (unsubGrace : Bool) (h : Host) : Host × Nat :=
  match jsGet h.collections key with
  | some c => (h, c.id)
  | none =>
    let c : Collection :=
      { id := h.nextObject
        fetchCollection := fetchCollection
        subscribeUpdates := subscribeUpdates
        unsubGrace := unsubGrace
        refresh := h.nextObject + 1
        refreshSwallow := h.nextObject + 2
        handleDisconnect := h.nextObject + 3 }
    ({ h with
        collections := jsSet h.collections key c
        nextObject := h.nextObject + 4 },
      c.id)

/-- The method `subscribe(subscriber)` of the collection `conn[key]`, as a closure. -/
def subscribeBody (key : String) (subscriber : Nat) (c : Collection) (h : Host) :
    Collection × Host :=
  let c := { c with active := c.active + 1 }
  let set := if c.active = 1 then setupUpdateSubscription key c h else (c, h)
  let c := { set.1 with listeners := set.1.listeners ++ [subscriber] }
  let h := set.2
  match c.state with
  | some _ => (c, (h.setTimeout (.notify key subscriber) 0).1)
  | none => (c, h)

/-- The method `subscribe(subscriber)` of the collection `conn[key]`. -/
def subscribe (key : String) (subscriber : Nat) (h : Host) : Host :=
  h.onCollection key (subscribeBody key subscriber)

/-- The function that `subscribe(subscriber)` returned, as a closure: the listener leaves
the store (its first registration), and the last one to leave tears down or schedules
it. -/
def unsubscribeBody (key : String) (subscriber : Nat) (c : Collection) (h : Host) :
    Collection × Host :=
  let c := { c with listeners := c.listeners.erase subscriber }
  let c := { c with active := c.active - 1 }
  if c.active = 0 then
    if c.unsubGrace then scheduleTeardownUpdateSubscription key c h
    else teardownUpdateSubscription key c h
  else (c, h)

/-- The caller invokes a function that `subscribe(subscriber)` of `conn[key]` returned. -/
def unsubscribe (key : String) (subscriber : Nat) (h : Host) : Host :=
  h.onCollection key (unsubscribeBody key subscriber)

/-- The listener `handleDisconnect` of the collection `conn[key]` is called: a disconnect
notification reaches the collection. -/
def disconnected (key : String) (h : Host) : Host :=
  h.onCollection key (handleDisconnect key)

/-- The timer `id` fires, if it is pending. -/
def timerFired (id : Nat) (h : Host) : Host :=
  match jsGet h.timers id with
  | none => h
  | some task =>
    let h := { h with timers := jsDelete h.timers id }
    match task with
    | .teardown key => h.onCollection key (teardownUpdateSubscription key)
    | .notify key subscriber =>
      match jsGet h.collections key with
      | some c => h.log (.call subscriber c.state)
      | none => h

/-- The call `store.setState(state, true)`, which the fetch started by `refresh` makes when
it resolves, and which the upstream subscription may make. -/
def setState (key : String) (state : Json) (h : Host) : Host :=
  h.onCollection key (fun c h =>
    ({ c with state := some state },
      { h with trace := h.trace ++ c.listeners.map (fun l => .call l (some state)) }))

end Host

/-- What can happen to the collection `conn[key]`. -/
inductive CollectionAction where
  | subscribe (subscriber : Nat)
  /-- a function returned by `subscribe(subscriber)` is invoked -/
  | unsubscribe (subscriber : Nat)
  /-- the timer `id` fires -/
  | timer (id : Nat)
  /-- a disconnect notification: `handleDisconnect` is called -/
  | disconnected
  /-- the store gets a new state -/
  | setState (state : Json)
  deriving DecidableEq, Repr

def Host.act (key : String) (a : CollectionAction) (h : Host) : Host :=
  match a with
  | .subscribe subscriber => h.subscribe key subscriber
  | .unsubscribe subscriber => h.unsubscribe key subscriber
  | .timer id => h.timerFired id
  | .disconnected => h.disconnected key
  | .setState state => h.setState key state

def Host.acts (key : String) : List CollectionAction → Host → Host
  | [], h => h
  | a :: as, h => acts key as (h.act key a)

/-- The upstream subscription of the collection is set up and not torn down: its
`handleDisconnect` is registered for `disconnected`, which `setupUpdateSubscription` does
last and `teardownUpdateSubscription` undoes. -/
def Host.upstreamActive (c : Collection) (h : Host) : Bool :=
  decide (c.handleDisconnect ∈ Connection.listenersOf h.conn.eventListeners "disconnected")

/-- The calls `store.clearState()` for `key` in a trace. -/
def clearStateCalls (key : String) (tr : List CollectionEffect) : Nat :=
  tr.count (.clearState key)

/-- The upstream unsubscribes of the collection `key` in a trace: the calls
`unsubProm.then((unsub) => unsub())`. -/
def unsubCalls (key : String) (tr : List CollectionEffect) : Nat :=
  tr.countP (fun e =>
    match e with
    | .thenUnsub k _ => k == key
    | _ => false)

/-- The upstream calls in a trace: `subscribeUpdates` and `fetchCollection`. -/
def upstreamCalls : List CollectionEffect → List CollectionEffect
  | [] => []
  | .subscribeUpdates fn key p :: tr => .subscribeUpdates fn key p :: upstreamCalls tr
  | .fetchCollection fn key :: tr => .fetchCollection fn key :: upstreamCalls tr
  | _ :: tr => upstreamCalls tr

/-- A connection object with the collection `_cnf` just created, with a fetch function 20 and
a subscribe function 21. -/
def sampleHost : Host :=
  (Host.getCollection "_cnf" (some 20) (some 21) true { conn := sampleConnection }).1

/-- The listeners registered on the connection for `disconnected`. -/
def Host.disconnectedListeners (h : Host) : List Nat :=
  Connection.listenersOf h.conn.eventListeners "disconnected"

/-- The variables of a collection fit the listeners and timers of its connection: the
listener `hd` (its `handleDisconnect`) is among the `disconnected` listeners `ds` at most
once, and exactly when there are active subscribers or the grace timer is set; the grace
timer is set only while no subscriber is active; `unsubTimer` names the pending teardown
timer of `key`; and the timer ids were handed out by `setTimeout`. -/
def Host.Good (key : String) (active : Int) (unsubTimer : Option Nat) (hd : Nat)
    (ds : List Nat) (timers : List (Nat × TimerTask)) (nextTimer : Nat) : Prop :=
  ds.count hd ≤ 1 ∧
  (hd ∈ ds ↔ (1 ≤ active ∨ unsubTimer.isSome = true)) ∧
  (unsubTimer.isSome = true → active ≤ 0) ∧
  (∀ id, jsGet timers id = some (.teardown key) ↔ unsubTimer = some id) ∧
  (∀ x ∈ timers, x.1 < nextTimer)

/-- The state of the collection `conn[key]` is coherent: its variables fit the listeners
and timers of the connection, and no other collection shares its `handleDisconnect`. -/
def Host.Coherent (key : String) (h : Host) : Prop :=
  ∃ c, jsGet h.collections key = some c ∧
    Host.Good key c.active c.unsubTimer c.handleDisconnect h.disconnectedListeners h.timers
      h.nextTimer ∧
    (∀ k c', k ≠ key → jsGet h.collections k = some c' →
      c'.handleDisconnect ≠ c.handleDisconnect)

/-- Nothing of the collection `key` exists on the connection yet: `conn[key]` is not set,
the identities in use were handed out before `nextObject`, and no teardown of `key` is
pending. -/
def Host.Fresh (key : String) (h : Host) : Prop :=
  jsGet h.collections key = none ∧
  (∀ l ∈ h.disconnectedListeners, l < h.nextObject) ∧
  (∀ x ∈ h.collections, x.2.handleDisconnect < h.nextObject) ∧
  (∀ x ∈ h.timers, x.1 < h.nextTimer ∧ x.2 ≠ .teardown key)

/-- The collection `_cnf` of `sampleHost` in its grace period: a subscriber 7 came and
left, and the grace timer 1 is set. -/
def sampleGraceHost : Host :=
  sampleHost.acts "_cnf" [.subscribe 7, .unsubscribe 7]

/-- The variables of the collection `_cnf` in `sampleGraceHost`. -/
def sampleGraceCollection : Collection :=
  { id := 0
    fetchCollection := some 20
    subscribeUpdates := some 21
    unsubGrace := true
    refresh := 1
    refreshSwallow := 2
    handleDisconnect := 3
    active := 0
    unsubProm := some 0
    unsubTimer := some 1 }

/-! ## Collections on several connections, and the `ready` event -/

/-- The listeners registered on the connection for `ready`. -/
def Host.readyListeners (h : Host) : List Nat :=
  Connection.listenersOf h.conn.eventListeners "ready"

/-- A listener of the `ready` event is called: a `refreshSwallow` closure of a collection
runs `refresh()` (its `catch` runs later); another listener is not a collection's. -/
def Host.callReadyListener (l : Nat) (h : Host) : Host :=
  match h.collections.find? (fun x => x.2.refreshSwallow == l) with
  | some x => h.refresh x.1 x.2
  | none => h

/-- The call `fireEvent("ready")` of the connection, as far as the collections go: every
listener of `ready` is called, in the order of registration. -/
def Host.fireReady (h : Host) : Host :=
  h.readyListeners.foldl (fun h l => h.callReadyListener l) h

/-- A connection object with the collection `_cnf` just created without a grace period,
with a fetch function 20 and a subscribe function 21. -/
def sampleNoGraceHost : Host :=
  (Host.getCollection "_cnf" (some 20) (some 21) false { conn := sampleConnection }).1

/-- The connection objects of a program, by identity, each with what `getCollection` hangs
on it. -/
structure World where
  hosts : List (Nat × Host) := []
  deriving DecidableEq, Repr

/-- The call `getCollection(conn, key, ...)` on the connection object `conn`; the object
returned is named by the connection it hangs on and its identity there. -/
def World.getCollection (conn : Nat) (key : String)
    (fetchCollection subscribeUpdates : Option Nat) (unsubGrace : Bool) (w : World) :
    World × Option (Nat × Nat) :=
  match jsGet w.hosts conn with
  | some h =>
    let got := h.getCollection key fetchCollection subscribeUpdates unsubGrace
    ({ w with hosts := jsSet w.hosts conn got.1 }, some (conn, got.2))
  | none => (w, none)

/-- Something happens to the collection `conn[key]` of the connection object `conn`. -/
def World.act (conn : Nat) (key : String) (a : CollectionAction) (w : World) : World :=
  match jsGet w.hosts conn with
  | some h => { w with hosts := jsSet w.hosts conn (h.act key a) }
  | none => w

def World.acts (conn : Nat) (key : String) : List CollectionAction → World → World
  | [], w => w
  | a :: as, w => acts conn key as (w.act conn key a)

/-- Two connection objects 1 and 2, nothing hanging on them yet. -/
def sampleWorld : World :=
  { hosts := [(1, { conn := sampleConnection }), (2, { conn := sampleConnection })] }

/-! ## Entities on the heap: what `processEvent` writes -/

/-- An entity of a snapshot as an object on the heap: as `HassEntity`, with the objects
`attributes` and `context` held by reference (an address). -/
structure EntityRecord where
  entity_id : String := ""
  state : String := ""
  attributes : Nat := 0
  /-- `none` is `undefined` -/
  context : Option Nat := none
  last_changed : String := ""
  last_updated : String := ""
  deriving DecidableEq, Repr, Inhabited

/-- An object on the heap: a snapshot (entity ids to the addresses of entity objects), an
entity object, or an object of values (an `attributes` or a `context` object). -/
inductive HeapObject where
  | snapshot (entries : List (String × Nat))
  | entity (e : EntityRecord)
  | object (entries : List (String × Json))
  deriving DecidableEq, Repr

/-- The objects by address; `next` is the address of the next new object. -/
structure Heap where
  objects : List (Nat × HeapObject) := []
  next : Nat := 0
  deriving DecidableEq, Repr

/-- The field `c` of a compressed state in a message on the heap. -/
inductive HeapContext where
  | id (s : String)
  | full (context : Nat)
  deriving DecidableEq, Repr

/-- JavaScript truthiness of the optional field `c`, as `CompressedContext.truthy`. -/
def HeapContext.truthy : Option HeapContext → Bool
  | none => false
  | some (.id s) => s != ""
  | some (.full _) => true

/-- A record of the additions section, with its objects `a` and `c` by reference. -/
structure HeapEntityState where
  s : String
  a : Nat
  c : Option HeapContext := none
  lc : Int
  lu : Option Int := none
  deriving DecidableEq, Repr

/-- The part `"+"` of a change patch, with its objects `a` and `c` by reference. -/
structure HeapEntityStateAdd where
  s : Option String := none
  a : Option Nat := none
  c : Option HeapContext := none
  lc : Option Int := none
  lu : Option Int := none
  deriving DecidableEq, Repr

structure HeapEntityDiff where
  plus : Option HeapEntityStateAdd := none
  minus : Option EntityStateRemove := none
  deriving DecidableEq, Repr

/-- A diff whose objects are on the heap. -/
structure HeapStatesUpdates where
  a : Option (List (String × HeapEntityState)) := none
  r : Option (List String) := none
  c : Option (List (String × HeapEntityDiff)) := none
  deriving DecidableEq, Repr

/-- The store of `createStore`, with its state by reference; `calls` are the calls
`listeners[i](state)` made so far. -/
structure HeapStore where
  state : Option Nat := none
  listeners : List Nat := []
  calls : List (Nat × Nat) := []
  deriving DecidableEq, Repr

namespace Heap

/-- A new object; the second component is its address. -/
def alloc (o : HeapObject) (m : Heap) : Heap × Nat :=
  ({ objects := jsSet m.objects m.next o, next := m.next + 1 }, m.next)

/-- The object at `address` is replaced: every assignment to a property and every `delete`
of a property of that object ends in this. -/
def write (address : Nat) (o : HeapObject) (m : Heap) : Heap :=
  { m with objects := jsSet m.objects address o }

def snapshotAt (address : Nat) (m : Heap) : List (String × Nat) :=
  match jsGet m.objects address with
  | some (.snapshot entries) => entries
  | _ => []

def entityAt (address : Nat) (m : Heap) : EntityRecord :=
  match jsGet m.objects address with
  | some (.entity e) => e
  | _ => default

def objectAt (address : Nat) (m : Heap) : List (String × Json) :=
  match jsGet m.objects address with
  | some (.object entries) => entries
  | _ => []

/-- An assignment to properties of the entity object at `address`. -/
def setEntity (address : Nat) (f : EntityRecord → EntityRecord) (m : Heap) : Heap :=
  m.write address (.entity (f (m.entityAt address)))

/-- Assignments to, or deletions of, properties of the object of values at `address`. -/
def setObject (address : Nat) (f : List (String × Json) → List (String × Json)) (m : Heap) :
    Heap :=
  m.write address (.object (f (m.objectAt address)))

/-- An assignment to, or a deletion of, a property of the snapshot at `address`. -/
def setSnapshot (address : Nat) (f : List (String × Nat) → List (String × Nat)) (m : Heap) :
    Heap :=
  m.write address (.snapshot (f (m.snapshotAt address)))

/-- The `context` of an added entity: a new object `{ id: newState.c, parent_id: null,
user_id: null }` if `newState.c` is a string, and the object `newState.c` of the message
otherwise. -/
def contextOf (c : Option HeapContext) (m : Heap) : Heap × Option Nat :=
  match c with
  | some (.id s) =>
    let made := m.alloc (.object [("id", s), ("parent_id", "null"), ("user_id", "null")])
    (made.1, some made.2)
  | some (.full context) => (m, some context)
  | none => (m, none)

/-- The body of the additions loop: a new entity object is stored in the snapshot at
`state`; its `attributes` is the object `newState.a` of the message. -/
def addEntity (toISO : Int → String) (state : Nat) (entityId : String)
    (newState : HeapEntityState) (m : Heap) : Heap :=
  let last_changed := toISO newState.lc
  let context := m.contextOf newState.c
  let made := context.1.alloc (.entity
    { entity_id := entityId
      state := newState.s
      attributes := newState.a
      context := context.2
      last_changed := last_changed
      last_updated :=
        if truthyNumber newState.lu then
          match newState.lu with
          | some lu => toISO lu
          | none => last_changed
        else last_changed })
  made.1.setSnapshot state (fun entries => jsSet entries entityId made.2)

/-- The loop `for (const entityId in updates.a)`. -/
def applyAdditions (toISO : Int → String) (state : Nat) :
    List (String × HeapEntityState) → Heap → Heap
  | [], m => m
  | (entityId, newState) :: rest, m =>
    applyAdditions toISO state rest (m.addEntity toISO state entityId newState)

/-- The loop `for (const entityId of updates.r) delete state[entityId]`. -/
def applyRemovals (state : Nat) (r : List String) (m : Heap) : Heap :=
  m.setSnapshot state (deleteKeys r)

/-- The statement `if (toAdd.s !== void 0) entityState.state = toAdd.s`. -/
def assignState (s : Option String) (entityState : Nat) (m : Heap) : Heap :=
  match s with
  | some s => m.setEntity entityState (fun e => { e with state := s })
  | none => m

/-- The statement `if (toAdd.c) { ... }`: `entityState.context` becomes a new object, the
copy of the old context with the id, or with the properties of `toAdd.c`, assigned. A copy
`Object.assign({}, x)` is a new object with the properties of `x` in their order (of
nothing when `x` is `undefined`). -/
def assignContext (c : Option HeapContext) (entityState : Nat) (m : Heap) : Heap :=
  if HeapContext.truthy c then
    match c with
    | some (.id s) =>
      let made := m.alloc (.object
        (objectAssign
          (match (m.entityAt entityState).context with
            | some context => m.objectAt context
            | none => [])
          [("id", s)]))
      made.1.setEntity entityState (fun e => { e with context := some made.2 })
    | some (.full context) =>
      let made := m.alloc (.object
        (objectAssign
          (match (m.entityAt entityState).context with
            | some context => m.objectAt context
            | none => [])
          (m.objectAt context)))
      made.1.setEntity entityState (fun e => { e with context := some made.2 })
    | none => m
  else m

/-- The statement `if (toAdd.lc) { ... } else if (toAdd.lu) { ... }`. -/
def assignTimestamps (toISO : Int → String) (lc lu : Option Int) (entityState : Nat)
    (m : Heap) : Heap :=
  if truthyNumber lc then
    match lc with
    | some lc =>
      m.setEntity entityState
        (fun e => { e with last_updated := toISO lc, last_changed := toISO lc })
    | none => m
  else if truthyNumber lu then
    match lu with
    | some lu => m.setEntity entityState (fun e => { e with last_updated := toISO lu })
    | none => m
  else m

/-- The statement `if (toAdd.a) Object.assign(attributes, toAdd.a)`. -/
def assignAttributes (a : Option Nat) (attributes : Nat) (m : Heap) : Heap :=
  match a with
  | some a => m.setObject attributes (fun entries => objectAssign entries (m.objectAt a))
  | none => m

/-- The block `if (toAdd) { ... }` of the changes loop: the assignments to the entity
object `entityState`, and `Object.assign(attributes, toAdd.a)`. -/
def applyToAdd (toISO : Int → String) (toAdd : HeapEntityStateAdd)
    (entityState attributes : Nat) (m : Heap) : Heap :=
  assignAttributes toAdd.a attributes
    (assignTimestamps toISO toAdd.lc toAdd.lu entityState
      (assignContext toAdd.c entityState (assignState toAdd.s entityState m)))

/-- The statement `const attributes = attributesChanged ?
Object.assign({}, entityState.attributes) : entityState.attributes`; the second component
is the object that the variable `attributes` names. -/
def pickAttributes (attributesChanged : Bool) (entityState : Nat) (m : Heap) : Heap × Nat :=
  if attributesChanged then
    m.alloc (.object (m.objectAt (m.entityAt entityState).attributes))
  else (m, (m.entityAt entityState).attributes)

/-- The statement `if (toRemove?.a) for (const key of toRemove.a) delete attributes[key]`. -/
def deleteAttributes (keys : Option (List String)) (attributes : Nat) (m : Heap) : Heap :=
  match keys with
  | some keys => m.setObject attributes (deleteKeys keys)
  | none => m

/-- The statements from `if (toAdd) { ... }` to `if (attributesChanged)
entityState.attributes = attributes` of the changes loop. -/
def patchFields (toISO : Int → String) (diff : HeapEntityDiff) (attributesChanged : Bool)
    (entityState attributes : Nat) (m : Heap) : Heap :=
  let m :=
    match diff.plus with
    | some toAdd => m.applyToAdd toISO toAdd entityState attributes
    | none => m
  let m := m.deleteAttributes (diff.minus.bind (fun toRemove => toRemove.a)) attributes
  if attributesChanged then
    m.setEntity entityState (fun e => { e with attributes := attributes })
  else m

/-- The statements from `if (toAdd) { ... }` to `state[entityId] = entityState` of the
changes loop. -/
def storePatched (toISO : Int → String) (state : Nat) (entityId : String)
    (diff : HeapEntityDiff) (attributesChanged : Bool) (entityState attributes : Nat)
    (m : Heap) : Heap :=
  (m.patchFields toISO diff attributesChanged entityState attributes).setSnapshot state
    (fun entries => jsSet entries entityId entityState)

/-- The body of the changes loop for the entity object at `address`, which is
`state[entityId]`. -/
def patchEntity (toISO : Int → String) (state : Nat) (entityId : String)
    (diff : HeapEntityDiff) (address : Nat) (m : Heap) : Heap :=
  let copied := m.alloc (.entity (m.entityAt address))
  let attributesChanged : Bool :=
    (diff.plus.bind (fun toAdd => toAdd.a)).isSome ||
      (diff.minus.bind (fun toRemove => toRemove.a)).isSome
  let picked := copied.1.pickAttributes attributesChanged copied.2
  picked.1.storePatched toISO state entityId diff attributesChanged copied.2 picked.2

/-- The loop `for (const entityId in updates.c)`; the second component lists the ids
reported by `console.warn`. -/
def applyChanges (toISO : Int → String) (state : Nat) :
    List (String × HeapEntityDiff) → Heap → Heap × List String
  | [], m => (m, [])
  | (entityId, diff) :: rest, m =>
    match jsGet (m.snapshotAt state) entityId with
    | none =>
      let done := applyChanges toISO state rest m
      (done.1, entityId :: done.2)
    | some address => applyChanges toISO state rest (m.patchEntity toISO state entityId diff address)

/-- The method `setState(update, overwrite)` of the store. -/
def setState (store : HeapStore) (update : Nat) (overwrite : Bool) (m : Heap) :
    Heap × HeapStore :=
  let made : Heap × Nat :=
    if overwrite then (m, update)
    else
      m.alloc (.snapshot
        (objectAssign
          (match store.state with
            | some state => m.snapshotAt state
            | none => [])
          (m.snapshotAt update)))
  (made.1,
    { store with
      state := some made.2
      calls := store.calls ++ store.listeners.map (fun l => (l, made.2)) })

/-- The function `processEvent(store, updates)` on the heap; the third component lists
the ids reported by `console.warn`. -/
def processEvent (toISO : Int → String) (store : HeapStore) (updates : HeapStatesUpdates)
    (m : Heap) : Heap × HeapStore × List String :=
  let made := m.alloc (.snapshot
    (match store.state with
      | some state => m.snapshotAt state
      | none => []))
  let m := made.1
  let state := made.2
  let m :=
    match updates.a with
    | some a => m.applyAdditions toISO state a
    | none => m
  let m :=
    match updates.r with
    | some r => m.applyRemovals state r
    | none => m
  let changed : Heap × List String :=
    match updates.c with
    | some c => m.applyChanges toISO state c
    | none => (m, [])
  let set := changed.1.setState store state true
  (set.1, set.2, changed.2)

/-- The entity that a reader of the entity object at `address` sees. -/
def readEntity (address : Nat) (m : Heap) : HassEntity :=
  { entity_id := (m.entityAt address).entity_id
    state := (m.entityAt address).state
    attributes := m.objectAt (m.entityAt address).attributes
    context := (m.entityAt address).context.map (fun context => m.objectAt context)
    last_changed := (m.entityAt address).last_changed
    last_updated := (m.entityAt address).last_updated }

/-- The snapshot that a reader of the snapshot at `address` sees: its keys, the fields of
each entity, and the entries of each `attributes` and `context` object. -/
def readSnapshot (address : Nat) (m : Heap) : List (String × HassEntity) :=
  (m.snapshotAt address).map (fun x => (x.1, m.readEntity x.2))

/-- The field `c` that a reader of the message sees. -/
def readContext (c : Option HeapContext) (m : Heap) : Option CompressedContext :=
  match c with
  | some (.id s) => some (.id s)
  | some (.full context) => some (.full (m.objectAt context))
  | none => none

def readEntityState (x : HeapEntityState) (m : Heap) : EntityState :=
  { s := x.s, a := m.objectAt x.a, c := m.readContext x.c, lc := x.lc, lu := x.lu }

def readEntityStateAdd (x : HeapEntityStateAdd) (m : Heap) : EntityStateAdd :=
  { s := x.s
    a := x.a.map (fun a => m.objectAt a)
    c := m.readContext x.c
    lc := x.lc
    lu := x.lu }

def readDiff (diff : HeapEntityDiff) (m : Heap) : EntityDiff :=
  { plus := diff.plus.map (fun toAdd => m.readEntityStateAdd toAdd), minus := diff.minus }

/-- The diff that a reader of the message sees. -/
def readUpdates (updates : HeapStatesUpdates) (m : Heap) : StatesUpdates :=
  { a := updates.a.map (fun a => a.map (fun x => (x.1, m.readEntityState x.2)))
    r := updates.r
    c := updates.c.map (fun c => c.map (fun x => (x.1, m.readDiff x.2))) }

/-- From `m` to `m'` no object in use below the address `n` has changed. -/
def Keeps (n : Nat) (m m' : Heap) : Prop :=
  n ≤ m.next → n ≤ m'.next ∧ ∀ a, a < n → jsGet m'.objects a = jsGet m.objects a

/-- The snapshot at `address` and everything a reader reaches from it lie below `n`. -/
def Below (n : Nat) (address : Nat) (m : Heap) : Prop :=
  address < n ∧
  ∀ x ∈ m.snapshotAt address, x.2 < n ∧ (m.entityAt x.2).attributes < n ∧
    ∀ context ∈ (m.entityAt x.2).context, context < n

/-- The entity objects of the snapshot at `state`, their `attributes` and their `context`
objects are in use and are not the snapshot itself. -/
def Live (state : Nat) (m : Heap) : Prop :=
  state < m.next ∧
  ∀ x ∈ m.snapshotAt state, x.2 < m.next ∧ x.2 ≠ state ∧
    (m.entityAt x.2).attributes < m.next ∧ (m.entityAt x.2).attributes ≠ state ∧
    ∀ context ∈ (m.entityAt x.2).context, context < m.next ∧ context ≠ state

end Heap

/-- The heap `m` is reached from `m0` in a call of `processEvent` whose new snapshot is at
`state`: the objects below `state` are those of `m0`, the snapshot is live, and a reader of
it sees `snapshot`. -/
def Heap.Reads (state : Nat) (m0 m : Heap) (snapshot : List (String × HassEntity)) : Prop :=
  (∀ a, a < state → jsGet m.objects a = jsGet m0.objects a) ∧ m.Live state ∧
    m.readSnapshot state = snapshot

/-- In the body of the changes loop, between two statements: the variable `entityState`
names a new entity object and `attributes` a new object (when `attributesChanged`) or the
attributes object of the entity; `v` is the entity that a reader would see who reads the
attributes from `attributes`. -/
def Heap.Patching (state entityState attributes : Nat) (attributesChanged : Bool)
    (m0 m : Heap) (v : HassEntity) : Prop :=
  (∀ a, a < state → jsGet m.objects a = jsGet m0.objects a) ∧
  state < entityState ∧ entityState < m.next ∧ attributes < m.next ∧
  attributes ≠ entityState ∧ attributes ≠ state ∧
  (attributesChanged = true → state < attributes) ∧
  (attributesChanged = false → (m.entityAt entityState).attributes = attributes) ∧
  (∀ c ∈ (m.entityAt entityState).context,
    c < m.next ∧ c ≠ entityState ∧ c ≠ state ∧ (attributesChanged = true → c ≠ attributes)) ∧
  v =
    { entity_id := (m.entityAt entityState).entity_id
      state := (m.entityAt entityState).state
      attributes := m.objectAt attributes
      context := (m.entityAt entityState).context.map (fun c => m.objectAt c)
      last_changed := (m.entityAt entityState).last_changed
      last_updated := (m.entityAt entityState).last_updated }

/-- The object of a field `c` of a message lies below `n`. -/
def HeapContext.below (n : Nat) : Option HeapContext → Bool
  | some (.full context) => decide (context < n)
  | _ => true

/-- The objects of the message lie below `n`. -/
def HeapStatesUpdates.Below (n : Nat) (updates : HeapStatesUpdates) : Prop :=
  (∀ a ∈ updates.a, ∀ x ∈ a, x.2.a < n ∧ HeapContext.below n x.2.c = true) ∧
  (∀ c ∈ updates.c, ∀ x ∈ c, ∀ toAdd ∈ x.2.plus,
    (∀ a ∈ toAdd.a, a < n) ∧ HeapContext.below n toAdd.c = true)

/-- A heap with the snapshot of one entity `light.x` (at the address 3), and the objects of
a message that switches it off and sets the attribute `brightness` to 0 (at 4). -/
def sampleHeap : Heap :=
  { objects :=
      [(0, .object [("brightness", "10")]),
        (1, .object [("id", "c1"), ("parent_id", "null"), ("user_id", "null")]),
        (2, .entity
          { entity_id := "light.x"
            state := "on"
            attributes := 0
            context := some 1
            last_changed := "1970-01-01T00:16:40.000Z"
            last_updated := "1970-01-01T00:16:40.000Z" }),
        (3, .snapshot [("light.x", 2)]),
        (4, .object [("brightness", "0")])]
    next := 5 }

/-- The store whose state is the snapshot of `sampleHeap`, with one listener. -/
def sampleHeapStore : HeapStore := { state := some 3, listeners := [11] }

/-- The message `{c: {"light.x": {"+": {s: "off", a: {brightness: 0}, lu: 2000}}}}`. -/
def sampleHeapUpdates : HeapStatesUpdates :=
  { c := some [("light.x", { plus := some { s := some "off", a := some 4, lu := some 2000 } })] }

/-- The collection `_cnf` of `sampleHost` after `u = subscribe(7); u(); u()`: the only
subscriber has left, its unsubscribe function was invoked a second time, and the grace
timer 1 is set. -/
def sampleDoubleUnsubscribed : Host :=
  sampleHost.acts "_cnf" [.subscribe 7, .unsubscribe 7, .unsubscribe 7]

/-! ## Entities: the snapshot as a plain object -/

/-- The names of the properties of `Object.prototype` in the language standard (with its
annex for web browsers). A plain object such as the copy `Object.assign({}, store.state)`
inherits them: the read `state[name]` of a name that is not a key of the object finds a
function (for `__proto__` the prototype itself), which is truthy and has no enumerable
property of its own. -/
def objectPrototypeKeys : List String :=
  ["constructor", "__defineGetter__", "__defineSetter__", "hasOwnProperty",
    "__lookupGetter__", "__lookupSetter__", "isPrototypeOf", "propertyIsEnumerable",
    "toString", "valueOf", "__proto__", "toLocaleString"]

/-- An object of a snapshot: an entity any property of which may be missing (`none` is
`undefined`). The changes loop builds such an object when it patches the copy of a value
that is not an entity. -/
structure EntityObject where
  entity_id : Option String := none
  state : Option String := none
  attributes : Option (List (String × Json)) := none
  context : Option (List (String × Json)) := none
  last_changed : Option String := none
  last_updated : Option String := none
  deriving DecidableEq, Repr

/-- An entity as an object of a snapshot. -/
def HassEntity.toObject (entity : HassEntity) : EntityObject :=
  { entity_id := some entity.entity_id
    state := some entity.state
    attributes := some entity.attributes
    context := entity.context
    last_changed := some entity.last_changed
    last_updated := some entity.last_updated }

/-- A snapshot of entities as the plain object that `processEvent` works on. -/
def toObjects (state : List (String × HassEntity)) : List (String × EntityObject) :=
  state.map (fun x => (x.1, x.2.toObject))

/-- The read `let entityState = state[entityId]` of the changes loop followed, when the
value is truthy, by the copy `Object.assign({}, entityState)`: the object under the key
`entityId`; or the empty object, when `entityId` is not a key but the name of a property
that the snapshot inherits from `Object.prototype`; or `none`, when the value is
`undefined`. -/
def copyOfFound (state : List (String × EntityObject)) (entityId : String) :
    Option EntityObject :=
  match jsGet state entityId with
  | some entityState => some entityState
  | none => if entityId ∈ objectPrototypeKeys then some {} else none

/-- The block `if (toAdd) { ... }` of the changes loop without its last statement, on an
object of a snapshot (as `applyToAdd` on an entity); a missing `context` is copied as the
empty object. -/
def applyToAddObject (toISO : Int → String) (toAdd : EntityStateAdd)
    (entityState : EntityObject) : EntityObject :=
  let entityState :=
    match toAdd.s with
    | some s => { entityState with state := some s }
    | none => entityState
  let entityState :=
    if CompressedContext.truthy toAdd.c then
      match toAdd.c with
      | some (.id s) =>
        { entityState with
          context := some (objectAssign (entityState.context.getD []) [("id", s)]) }
      | some (.full context) =>
        { entityState with
          context := some (objectAssign (entityState.context.getD []) context) }
      | none => entityState
    else entityState
  if truthyNumber toAdd.lc then
    match toAdd.lc with
    | some lc =>
      { entityState with last_updated := some (toISO lc), last_changed := some (toISO lc) }
    | none => entityState
  else if truthyNumber toAdd.lu then
    match toAdd.lu with
    | some lu => { entityState with last_updated := some (toISO lu) }
    | none => entityState
  else entityState

/-- The body of the changes loop after the copy `Object.assign({}, entityState)`, on an
object of a snapshot (as `patchedEntity` on an entity): the object stored back under
`entityId`. The copy `Object.assign({}, entityState.attributes)` of missing attributes is the
empty object. -/
def patchedObject (toISO : Int → String) (diff : EntityDiff) (entityState : EntityObject) :
    EntityObject :=
  let attributesChanged : Bool :=
    (diff.plus.bind (fun toAdd => toAdd.a)).isSome ||
      (diff.minus.bind (fun toRemove => toRemove.a)).isSome
  let attributes := patchedAttributes diff (entityState.attributes.getD [])
  let entityState :=
    match diff.plus with
    | some toAdd => applyToAddObject toISO toAdd entityState
    | none => entityState
  if attributesChanged then { entityState with attributes := some attributes }
  else entityState

/-- The loop `for (const entityId in updates.a)` on the plain object `state`. The result is
`none` for the id `__proto__`: the assignment `state["__proto__"] = ...` replaces the
prototype of the object instead of adding a key, which this model does not follow. -/
def applyAdditionsObject (toISO : Int → String) :
    List (String × EntityState) → List (String × EntityObject) →
      Option (List (String × EntityObject))
  | [], state => some state
  | (entityId, newState) :: rest, state =>
    if entityId = "__proto__" then none
    else
      applyAdditionsObject toISO rest
        (jsSet state entityId (addedEntity toISO entityId newState).toObject)

/-- The loop `for (const entityId in updates.c)` on the plain object `state`, with the ids
reported by `console.warn`. The result is `none` for the id `__proto__`, as in
`applyAdditionsObject`. -/
def applyChangesObject (toISO : Int → String) :
    List (String × EntityDiff) → List (String × EntityObject) →
      Option (List (String × EntityObject) × List String)
  | [], state => some (state, [])
  | (entityId, diff) :: rest, state =>
    if entityId = "__proto__" then none
    else
      match copyOfFound state entityId with
      | none =>
        (applyChangesObject toISO rest state).map (fun done => (done.1, entityId :: done.2))
      | some entityState =>
        applyChangesObject toISO rest (jsSet state entityId (patchedObject toISO diff entityState))

/-- The object that `processEvent` computes from `state`, the copy
`Object.assign({}, store.state)` with the prototype `Object.prototype`, and hands to
`store.setState`: additions, then removals, then changes; with the ids reported by
`console.warn`. The result is `none` when an addition or a change has the id
`__proto__`. -/
def projectObject (toISO : Int → String) (state : List (String × EntityObject))
    (updates : StatesUpdates) : Option (List (String × EntityObject) × List String) :=
  let added :=
    match updates.a with
    | some a => applyAdditionsObject toISO a state
    | none => some state
  match added with
  | none => none
  | some state =>
    let state :=
      match updates.r with
      | some r => deleteKeys r state
      | none => state
    match updates.c with
    | some c => applyChangesObject toISO c state
    | none => some (state, [])

/-- The microtask checkpoint at the end of a task: the microtasks run, first in first out,
those that they add included, until the queue is empty. `fuel` bounds their number; the
result is `none` when it does not suffice. -/
def Connection.checkpoint : Nat → Connection → Option Connection
  | 0, c => if c.microtasks = [] then some c else none
  | fuel + 1, c =>
    match c.microtasks with
    | [] => some c
    | _ :: _ => checkpoint fuel c.runMicrotask

/-- Each message dispatched as a payload of its own, in order: every payload is a `message`
event of the socket, a task of its own, so `_handleMessage` runs once for every message (what
one message throws ends the handler of that payload only) and the microtasks run at the end
of each. -/
def Connection.dispatchEach (fuel : Nat) : List InMsg → Connection → Option Connection
  | [], c => some c
  | m :: ms, c =>
    match (c._handleMessage (.single m)).1.checkpoint fuel with
    | some c => dispatchEach fuel ms c
    | none => none

/-- No continuation becomes ready between the messages: the microtask queue is empty after
the loop body has handled each of them but the last. -/
def Connection.quietBetween : List InMsg → Connection → Bool
  | [], _ => true
  | m :: ms, c =>
    match ms with
    | [] => true
    | _ :: _ =>
      decide ((c.handleMessage1 m).1.microtasks = []) && quietBetween ms (c.handleMessage1 m).1

/-- The actions, each a task of its own: at the end of each the microtasks run. -/
def Connection.tasks (fuel : Nat) : List Action → Connection → Option Connection
  | [], c => some c
  | a :: as, c =>
    match (c.step a).checkpoint fuel with
    | some c => tasks fuel as c
    | none => none

/-- The caller of `sampleSubscribed` has invoked the unsubscribe handle: `unsubscribe_events`
for the subscription 3 is sent under the id 4, and the closure waits for the reply before it
deletes the entry 3. -/
def sampleUnsubscribing : Connection := (sampleSubscribed.unsubscribe 0).1

/-- A call and a subscription on a new connection, a reconnect, and a call that meets a
stale unsubscribe closure. The call `get_states` gets the id 3 and the subscription the id
4; both are answered, and the caller holds the unsubscribe handle. The socket closes, the
reconnect timer fires and `createSocket` (promise 3) resolves with the open socket 8:
`_setSocket` calls the subscribe closure, which registers the subscription anew under the id
2. Before the server confirms that, the caller invokes the unsubscribe handle: it still
leads to the closure that captured the id 4, which sends `unsubscribe_events` under the id 3
and waits for the reply. Then the call `get_config` is issued. -/
def sampleStaleUnsubscribe : List Action :=
  [.sendMessagePromise sampleCall,
    .subscribeMessage sampleSubscribe,
    .message (.single { id := 3, type := .result, success := true, result := "ok" }),
    .message (.single { id := 4, type := .result, success := true }),
    .lost,
    .timer,
    .settle 3 (.fulfilled (.socket { id := 8 })),
    .unsubscribe 0,
    .sendMessagePromise { type := "get_config" }]

/-! ## Lemmas on maps -/

section Maps

variable {κ α : Type} [DecidableEq κ]

theorem jsGet_jsSet_same (m : List (κ × α)) (k : κ) (v : α) :
    jsGet (jsSet m k v) k = some v := by
  induction m with
  | nil => simp [jsSet, jsGet]
  | cons e m ih =>
    obtain ⟨k', w⟩ := e
    by_cases h : k' = k
    · simp [jsSet, jsGet, h]
    · simp [jsSet, jsGet, h, ih]

theorem jsGet_jsSet_ne (m : List (κ × α)) (k j : κ) (v : α) (h : j ≠ k) :
    jsGet (jsSet m k v) j = jsGet m j := by
  induction m with
  | nil => simp [jsSet, jsGet, Ne.symm h]
  | cons e m ih =>
    obtain ⟨k', w⟩ := e
    by_cases h' : k' = k
    · subst h'
      simp [jsSet, jsGet, Ne.symm h]
    · by_cases h'' : k' = j
      · subst h''
        simp [jsSet, jsGet, h']
      · simp [jsSet, jsGet, h', h'', ih]

theorem jsGet_jsDelete_same (m : List (κ × α)) (k : κ) : jsGet (jsDelete m k) k = none := by
  induction m with
  | nil => simp [jsDelete, jsGet]
  | cons e m ih =>
    obtain ⟨k', w⟩ := e
    by_cases h : k' = k
    · simp [jsDelete, h, ih]
    · simp [jsDelete, jsGet, h, ih]

theorem jsGet_jsDelete_ne (m : List (κ × α)) (k j : κ) (h : j ≠ k) :
    jsGet (jsDelete m k) j = jsGet m j := by
  induction m with
  | nil => simp [jsDelete, jsGet]
  | cons e m ih =>
    obtain ⟨k', w⟩ := e
    by_cases h' : k' = k
    · subst h'
      simp [jsDelete, jsGet, Ne.symm h, ih]
    · by_cases h'' : k' = j
      · subst h''
        simp [jsDelete, jsGet, h']
      · simp [jsDelete, jsGet, h', h'', ih]

theorem mem_of_jsGet {m : List (κ × α)} {k : κ} {v : α} (h : jsGet m k = some v) :
    (k, v) ∈ m := by
  induction m with
  | nil => simp [jsGet] at h
  | cons e m ih =>
    obtain ⟨k', w⟩ := e
    by_cases h' : k' = k
    · simp [jsGet, h'] at h
      simp [h', h]
    · simp [jsGet, h'] at h
      exact List.mem_cons_of_mem _ (ih h)

theorem jsGet_eq_none {m : List (κ × α)} {k : κ} (h : ∀ e ∈ m, e.1 ≠ k) :
    jsGet m k = none := by
  induction m with
  | nil => simp [jsGet]
  | cons e m ih =>
    obtain ⟨k', w⟩ := e
    have h' : k' ≠ k := h (k', w) (List.mem_cons_self _ _)
    simp [jsGet, h']
    exact ih (fun e he => h e (List.mem_cons_of_mem _ he))

theorem mem_jsDelete {m : List (κ × α)} {k : κ} {e : κ × α} :
    e ∈ jsDelete m k ↔ e ∈ m ∧ e.1 ≠ k := by
  induction m with
  | nil => simp [jsDelete]
  | cons e' m ih =>
    obtain ⟨k', w⟩ := e'
    by_cases h : k' = k
    · subst h
      simp only [jsDelete, if_true, ih, List.mem_cons]
      constructor
      · rintro ⟨h1, h2⟩
        exact ⟨Or.inr h1, h2⟩
      · rintro ⟨h1 | h1, h2⟩
        · subst h1
          exact absurd rfl h2
        · exact ⟨h1, h2⟩
    · simp only [jsDelete, h, if_false, List.mem_cons, ih]
      constructor
      · rintro (h1 | ⟨h1, h2⟩)
        · subst h1
          exact ⟨Or.inl rfl, h⟩
        · exact ⟨Or.inr h1, h2⟩
      · rintro ⟨h1 | h1, h2⟩
        · exact Or.inl h1
        · exact Or.inr ⟨h1, h2⟩

theorem mem_jsSet {m : List (κ × α)} {k : κ} {v : α} {e : κ × α} (h : e ∈ jsSet m k v) :
    e = (k, v) ∨ e ∈ m := by
  induction m with
  | nil => simpa [jsSet] using h
  | cons e' m ih =>
    obtain ⟨k', w⟩ := e'
    by_cases h' : k' = k
    · subst h'
      simp only [jsSet, if_true, List.mem_cons] at h
      rcases h with h | h
      · exact Or.inl h
      · exact Or.inr (List.mem_cons_of_mem _ h)
    · simp only [jsSet, h', if_false, List.mem_cons] at h
      rcases h with h | h
      · exact Or.inr (by simp [h])
      · rcases ih h with h | h
        · exact Or.inl h
        · exact Or.inr (List.mem_cons_of_mem _ h)

/-- A new key goes last. -/
theorem jsSet_new {m : List (κ × α)} {k : κ} (v : α) (h : ∀ e ∈ m, e.1 ≠ k) :
    jsSet m k v = m ++ [(k, v)] := by
  induction m with
  | nil => simp [jsSet]
  | cons e m ih =>
    obtain ⟨k', w⟩ := e
    have h' : k' ≠ k := h (k', w) (List.mem_cons_self _ _)
    simp [jsSet, h', ih (fun e he => h e (List.mem_cons_of_mem _ he))]

theorem jsGet_append (m m' : List (κ × α)) (k : κ) :
    jsGet (m ++ m') k = (jsGet m k).orElse (fun _ => jsGet m' k) := by
  induction m with
  | nil => simp [jsGet]
  | cons e m ih =>
    obtain ⟨k', w⟩ := e
    by_cases h : k' = k
    · simp [jsGet, h]
    · simp [jsGet, h, ih]

end Maps

/-! ## Which fields an operation leaves alone -/

namespace Connection

@[simp] theorem log_fields (e : Effect) (c : Connection) :
    (c.log e).options = c.options ∧
    (c.log e).commandId = c.commandId ∧
    (c.log e).commands = c.commands ∧
    (c.log e).oldSubscriptions = c.oldSubscriptions ∧
    (c.log e).socket = c.socket ∧
    (c.log e).haVersion = c.haVersion ∧
    (c.log e).eventListeners = c.eventListeners ∧
    (c.log e).closeRequested = c.closeRequested ∧
    (c.log e).suspendReconnectPromise = c.suspendReconnectPromise ∧
    (c.log e)._queuedMessages = c._queuedMessages ∧
    (c.log e).unsubscribes = c.unsubscribes ∧
    (c.log e).nextRef = c.nextRef ∧
    (c.log e).timers = c.timers ∧
    (c.log e).connected = c.connected ∧
    (c.log e).nextPromise = c.nextPromise ∧
    (c.log e).settled = c.settled ∧
    (c.log e).reactions = c.reactions ∧
    (c.log e).microtasks = c.microtasks ∧
    (c.log e).trace = c.trace ++ [e] := by
  simp [log, connected]

@[simp] theorem newPromise_fields (c : Connection) :
    (c.newPromise.1).options = c.options ∧
    (c.newPromise.1).commandId = c.commandId ∧
    (c.newPromise.1).commands = c.commands ∧
    (c.newPromise.1).oldSubscriptions = c.oldSubscriptions ∧
    (c.newPromise.1).socket = c.socket ∧
    (c.newPromise.1).haVersion = c.haVersion ∧
    (c.newPromise.1).eventListeners = c.eventListeners ∧
    (c.newPromise.1).closeRequested = c.closeRequested ∧
    (c.newPromise.1).suspendReconnectPromise = c.suspendReconnectPromise ∧
    (c.newPromise.1)._queuedMessages = c._queuedMessages ∧
    (c.newPromise.1).unsubscribes = c.unsubscribes ∧
    (c.newPromise.1).nextRef = c.nextRef ∧
    (c.newPromise.1).timers = c.timers ∧
    (c.newPromise.1).connected = c.connected ∧
    (c.newPromise.1).settled = c.settled ∧
    (c.newPromise.1).reactions = c.reactions ∧
    (c.newPromise.1).microtasks = c.microtasks ∧
    (c.newPromise.1).trace = c.trace ∧
    c.newPromise.1.nextPromise = c.nextPromise + 1 ∧ c.newPromise.2 = c.nextPromise := by
  simp [newPromise, connected]

@[simp] theorem genCmdId_fields (c : Connection) :
    (c._genCmdId.1).options = c.options ∧
    (c._genCmdId.1).commands = c.commands ∧
    (c._genCmdId.1).oldSubscriptions = c.oldSubscriptions ∧
    (c._genCmdId.1).socket = c.socket ∧
    (c._genCmdId.1).haVersion = c.haVersion ∧
    (c._genCmdId.1).eventListeners = c.eventListeners ∧
    (c._genCmdId.1).closeRequested = c.closeRequested ∧
    (c._genCmdId.1).suspendReconnectPromise = c.suspendReconnectPromise ∧
    (c._genCmdId.1)._queuedMessages = c._queuedMessages ∧
    (c._genCmdId.1).unsubscribes = c.unsubscribes ∧
    (c._genCmdId.1).nextRef = c.nextRef ∧
    (c._genCmdId.1).timers = c.timers ∧
    (c._genCmdId.1).connected = c.connected ∧
    (c._genCmdId.1).nextPromise = c.nextPromise ∧
    (c._genCmdId.1).settled = c.settled ∧
    (c._genCmdId.1).reactions = c.reactions ∧
    (c._genCmdId.1).microtasks = c.microtasks ∧
    (c._genCmdId.1).trace = c.trace ∧
    c._genCmdId.1.commandId = c.commandId + 1 ∧ c._genCmdId.2 = c.commandId + 1 := by
  simp [_genCmdId, connected]

@[simp] theorem settle_fields (p : Nat) (o : Outcome) (c : Connection) :
    (c.settle p o).options = c.options ∧
    (c.settle p o).commandId = c.commandId ∧
    (c.settle p o).commands = c.commands ∧
    (c.settle p o).oldSubscriptions = c.oldSubscriptions ∧
    (c.settle p o).socket = c.socket ∧
    (c.settle p o).haVersion = c.haVersion ∧
    (c.settle p o).eventListeners = c.eventListeners ∧
    (c.settle p o).closeRequested = c.closeRequested ∧
    (c.settle p o).suspendReconnectPromise = c.suspendReconnectPromise ∧
    (c.settle p o)._queuedMessages = c._queuedMessages ∧
    (c.settle p o).unsubscribes = c.unsubscribes ∧
    (c.settle p o).nextRef = c.nextRef ∧
    (c.settle p o).timers = c.timers ∧
    (c.settle p o).connected = c.connected ∧
    (c.settle p o).nextPromise = c.nextPromise ∧
    (c.settle p o).trace = c.trace := by
  unfold settle
  split <;> simp [connected]

@[simp] theorem await_fields (p : Nat) (k : Cont) (c : Connection) :
    (c.await p k).options = c.options ∧
    (c.await p k).commandId = c.commandId ∧
    (c.await p k).commands = c.commands ∧
    (c.await p k).oldSubscriptions = c.oldSubscriptions ∧
    (c.await p k).socket = c.socket ∧
    (c.await p k).haVersion = c.haVersion ∧
    (c.await p k).eventListeners = c.eventListeners ∧
    (c.await p k).closeRequested = c.closeRequested ∧
    (c.await p k).suspendReconnectPromise = c.suspendReconnectPromise ∧
    (c.await p k)._queuedMessages = c._queuedMessages ∧
    (c.await p k).unsubscribes = c.unsubscribes ∧
    (c.await p k).nextRef = c.nextRef ∧
    (c.await p k).timers = c.timers ∧
    (c.await p k).connected = c.connected ∧
    (c.await p k).nextPromise = c.nextPromise ∧
    (c.await p k).trace = c.trace ∧
    (c.await p k).settled = c.settled := by
  unfold await
  split <;> simp [connected]

@[simp] theorem resolve_fields (p : Nat) (v : Value) (c : Connection) :
    (c.resolve p v).options = c.options ∧
    (c.resolve p v).commandId = c.commandId ∧
    (c.resolve p v).commands = c.commands ∧
    (c.resolve p v).oldSubscriptions = c.oldSubscriptions ∧
    (c.resolve p v).socket = c.socket ∧
    (c.resolve p v).haVersion = c.haVersion ∧
    (c.resolve p v).eventListeners = c.eventListeners ∧
    (c.resolve p v).closeRequested = c.closeRequested ∧
    (c.resolve p v).suspendReconnectPromise = c.suspendReconnectPromise ∧
    (c.resolve p v)._queuedMessages = c._queuedMessages ∧
    (c.resolve p v).unsubscribes = c.unsubscribes ∧
    (c.resolve p v).nextRef = c.nextRef ∧
    (c.resolve p v).timers = c.timers ∧
    (c.resolve p v).connected = c.connected ∧
    (c.resolve p v).nextPromise = c.nextPromise ∧
    (c.resolve p v).trace = c.trace ++ [.resolve p v] := by
  simp [resolve]

@[simp] theorem reject_fields (p : Nat) (e : Rejection) (c : Connection) :
    (c.reject p e).options = c.options ∧
    (c.reject p e).commandId = c.commandId ∧
    (c.reject p e).commands = c.commands ∧
    (c.reject p e).oldSubscriptions = c.oldSubscriptions ∧
    (c.reject p e).socket = c.socket ∧
    (c.reject p e).haVersion = c.haVersion ∧
    (c.reject p e).eventListeners = c.eventListeners ∧
    (c.reject p e).closeRequested = c.closeRequested ∧
    (c.reject p e).suspendReconnectPromise = c.suspendReconnectPromise ∧
    (c.reject p e)._queuedMessages = c._queuedMessages ∧
    (c.reject p e).unsubscribes = c.unsubscribes ∧
    (c.reject p e).nextRef = c.nextRef ∧
    (c.reject p e).timers = c.timers ∧
    (c.reject p e).connected = c.connected ∧
    (c.reject p e).nextPromise = c.nextPromise ∧
    (c.reject p e).trace = c.trace ++ [.reject p e] := by
  simp [reject]

theorem foldl_log_fields (f : Nat → Effect) (ls : List Nat) (c : Connection) :
    (ls.foldl (fun c l => c.log (f l)) c).options = c.options ∧
    (ls.foldl (fun c l => c.log (f l)) c).commandId = c.commandId ∧
    (ls.foldl (fun c l => c.log (f l)) c).commands = c.commands ∧
    (ls.foldl (fun c l => c.log (f l)) c).oldSubscriptions = c.oldSubscriptions ∧
    (ls.foldl (fun c l => c.log (f l)) c).socket = c.socket ∧
    (ls.foldl (fun c l => c.log (f l)) c).haVersion = c.haVersion ∧
    (ls.foldl (fun c l => c.log (f l)) c).eventListeners = c.eventListeners ∧
    (ls.foldl (fun c l => c.log (f l)) c).closeRequested = c.closeRequested ∧
    (ls.foldl (fun c l => c.log (f l)) c).suspendReconnectPromise = c.suspendReconnectPromise ∧
    (ls.foldl (fun c l => c.log (f l)) c)._queuedMessages = c._queuedMessages ∧
    (ls.foldl (fun c l => c.log (f l)) c).unsubscribes = c.unsubscribes ∧
    (ls.foldl (fun c l => c.log (f l)) c).nextRef = c.nextRef ∧
    (ls.foldl (fun c l => c.log (f l)) c).timers = c.timers ∧
    (ls.foldl (fun c l => c.log (f l)) c).connected = c.connected ∧
    (ls.foldl (fun c l => c.log (f l)) c).nextPromise = c.nextPromise ∧
    (ls.foldl (fun c l => c.log (f l)) c).settled = c.settled ∧
    (ls.foldl (fun c l => c.log (f l)) c).reactions = c.reactions ∧
    (ls.foldl (fun c l => c.log (f l)) c).microtasks = c.microtasks ∧
    (ls.foldl (fun c l => c.log (f l)) c).trace = c.trace ++ ls.map f := by
  induction ls generalizing c with
  | nil => simp
  | cons l ls ih => simp [ih]

@[simp] theorem fireEvent_fields (eventType : String) (eventData : Option Rejection)
    (c : Connection) :
    (c.fireEvent eventType eventData).options = c.options ∧
    (c.fireEvent eventType eventData).commandId = c.commandId ∧
    (c.fireEvent eventType eventData).commands = c.commands ∧
    (c.fireEvent eventType eventData).oldSubscriptions = c.oldSubscriptions ∧
    (c.fireEvent eventType eventData).socket = c.socket ∧
    (c.fireEvent eventType eventData).haVersion = c.haVersion ∧
    (c.fireEvent eventType eventData).eventListeners = c.eventListeners ∧
    (c.fireEvent eventType eventData).closeRequested = c.closeRequested ∧
    (c.fireEvent eventType eventData).suspendReconnectPromise = c.suspendReconnectPromise ∧
    (c.fireEvent eventType eventData)._queuedMessages = c._queuedMessages ∧
    (c.fireEvent eventType eventData).unsubscribes = c.unsubscribes ∧
    (c.fireEvent eventType eventData).nextRef = c.nextRef ∧
    (c.fireEvent eventType eventData).timers = c.timers ∧
    (c.fireEvent eventType eventData).connected = c.connected ∧
    (c.fireEvent eventType eventData).nextPromise = c.nextPromise ∧
    (c.fireEvent eventType eventData).settled = c.settled ∧
    (c.fireEvent eventType eventData).reactions = c.reactions ∧
    (c.fireEvent eventType eventData).microtasks = c.microtasks ∧
    (c.fireEvent eventType eventData).trace =
      c.trace ++ .fireEvent eventType eventData ::
        (listenersOf c.eventListeners eventType).map
          (fun l => .listener l eventType eventData) := by
  simp [fireEvent, foldl_log_fields]

end Connection

/-! ## Sending -/

namespace Connection

theorem connected_iff (c : Connection) :
    c.connected = true ↔ ∃ s, c.socket = some s ∧ s.readyState = WebSocket.OPEN := by
  unfold connected
  cases c.socket with
  | none => simp
  | some s => simp

theorem sendMessage_lost (message : Message) (commandId : Option Nat) {c : Connection}
    (hc : c.connected = false) :
    c.sendMessage message commandId = (c, some (.code ERR_CONNECTION_LOST)) := by
  simp [sendMessage, hc]

theorem sendMessage_sent (message : Message) {n : Nat} {c : Connection} {s : Socket}
    (hn : n ≠ 0) (hq : c._queuedMessages = none) (hs : c.socket = some s)
    (ho : s.readyState = WebSocket.OPEN) :
    c.sendMessage message (some n) = (c.log (.send s.id n message), none) := by
  have hc : c.connected = true := (connected_iff c).2 ⟨s, hs, ho⟩
  simp [sendMessage, hc, hq, hs, truthyId, hn]

theorem sendMessage_fresh (message : Message) {c : Connection} {s : Socket}
    (hq : c._queuedMessages = none) (hs : c.socket = some s)
    (ho : s.readyState = WebSocket.OPEN) :
    c.sendMessage message none =
      (c._genCmdId.1.log (.send s.id (c.commandId + 1) message), none) := by
  have hc : c.connected = true := (connected_iff c).2 ⟨s, hs, ho⟩
  simp [sendMessage, hc, hq, hs, _genCmdId]

theorem sendMessagePromise_queued (message : Message) {c : Connection} {q : List Queued}
    (hq : c._queuedMessages = some q) :
    c.sendMessagePromise message =
      ({ c with
          nextPromise := c.nextPromise + 1
          _queuedMessages := some (q ++ [.call message c.nextPromise]) },
        c.nextPromise) := by
  simp [sendMessagePromise, newPromise, hq]

theorem sendMessagePromise_sent (message : Message) {c : Connection} {s : Socket}
    (hq : c._queuedMessages = none) (hs : c.socket = some s)
    (ho : s.readyState = WebSocket.OPEN) :
    c.sendMessagePromise message =
      ({ c with
          nextPromise := c.nextPromise + 1
          commandId := c.commandId + 1
          commands := jsSet c.commands (c.commandId + 1) { promise := c.nextPromise }
          trace := c.trace ++ [.send s.id (c.commandId + 1) message] },
        c.nextPromise) := by
  have hc : c.connected = true := (connected_iff c).2 ⟨s, hs, ho⟩
  simp [sendMessagePromise, newPromise, hq, _genCmdId, sendMessage, connected, hs, ho,
    truthyId, log]

theorem sendMessagePromise_lost (message : Message) {c : Connection}
    (hq : c._queuedMessages = none) (hc : c.connected = false) :
    c.sendMessagePromise message =
      (reject c.nextPromise (.code ERR_CONNECTION_LOST)
        { c with
          nextPromise := c.nextPromise + 1
          commandId := c.commandId + 1
          commands := jsSet c.commands (c.commandId + 1) { promise := c.nextPromise } },
        c.nextPromise) := by
  have hc' : (match c.socket with
      | none => false
      | some s => s.readyState == WebSocket.OPEN) = false := hc
  simp [sendMessagePromise, newPromise, hq, _genCmdId, sendMessage, connected, hc']

end Connection

/-! ## Inbound dispatch -/

theorem settlements_append (p : Nat) (tr tr' : List Effect) :
    settlements p (tr ++ tr') = settlements p tr ++ settlements p tr' := by
  simp [settlements]

theorem settlements_eq_nil {p : Nat} {tr : List Effect}
    (h : ∀ e ∈ tr, Effect.settles p e = false) : settlements p tr = [] := by
  simp only [settlements, List.filter_eq_nil_iff]
  intro e he
  simp [h e he]

theorem sentFrames_append (tr tr' : List Effect) :
    sentFrames (tr ++ tr') = sentFrames tr ++ sentFrames tr' := by
  induction tr with
  | nil => rfl
  | cons e tr ih => cases e <;> simp [sentFrames, ih]

theorem callbacks_append (tr tr' : List Effect) :
    callbacks (tr ++ tr') = callbacks tr ++ callbacks tr' := by
  induction tr with
  | nil => rfl
  | cons e tr ih => cases e <;> simp [callbacks, ih]

theorem timerDelays_append (tr tr' : List Effect) :
    timerDelays (tr ++ tr') = timerDelays tr ++ timerDelays tr' := by
  induction tr with
  | nil => rfl
  | cons e tr ih => cases e <;> simp [timerDelays, ih]

namespace Connection

/-- What a call of `sendMessagePromise` can change. -/
theorem sendMessagePromise_summary (message : Message) (c : Connection) :
    (c.sendMessagePromise message).2 = c.nextPromise ∧
    (c.sendMessagePromise message).1.nextPromise = c.nextPromise + 1 ∧
    c.commandId ≤ (c.sendMessagePromise message).1.commandId ∧
    ((c.sendMessagePromise message).1.commands = c.commands ∨
      (c.sendMessagePromise message).1.commands =
        jsSet c.commands (c.commandId + 1) { promise := c.nextPromise }) ∧
    (∀ p, p < c.nextPromise →
      settlements p (c.sendMessagePromise message).1.trace = settlements p c.trace) := by
  cases hq : c._queuedMessages with
  | some q =>
    rw [sendMessagePromise_queued message hq]
    simp
  | none =>
    cases hc : c.connected with
    | false =>
      rw [sendMessagePromise_lost message hq hc]
      refine ⟨rfl, by simp, by simp, Or.inr (by simp), ?_⟩
      intro p hp
      have : ¬ c.nextPromise = p := by omega
      simp [settlements_append, settlements, Effect.settles, this]
    | true =>
      obtain ⟨s, hs, ho⟩ := (connected_iff c).1 hc
      rw [sendMessagePromise_sent message hq hs ho]
      refine ⟨rfl, rfl, by simp, Or.inr rfl, ?_⟩
      intro p _
      simp [settlements_append, settlements, Effect.settles]

end Connection

namespace Connection

theorem handleMessage1_noRef {p : Nat} {c : Connection} (m : InMsg) (h : c.NoRef p) :
    (c.handleMessage1 m).1.NoRef p ∧
    settlements p (c.handleMessage1 m).1.trace = settlements p c.trace := by
  obtain ⟨hp, hn⟩ := h
  have hs := sendMessagePromise_summary (unsubscribeEvents m.id)
    (c.log (.warn "Received event for unknown subscription. Unsubscribing."))
  simp only [log_fields] at hs
  obtain ⟨hs1, hs2, hs3, hs4, hs5⟩ := hs
  unfold handleMessage1
  cases hi : jsGet c.commands m.id with
  | none =>
    cases m.type with
    | event =>
      simp only [NoRef, await_fields, hs2]
      refine ⟨⟨by omega, ?_⟩, ?_⟩
      · intro e he
        rcases hs4 with h4 | h4
        · rw [h4] at he
          exact hn e he
        · rw [h4] at he
          rcases mem_jsSet he with he | he
          · subst he
            simp only
            omega
          · exact hn e he
      · rw [hs5 p hp]
        simp [settlements_append, settlements, Effect.settles]
    | result => exact ⟨⟨hp, hn⟩, rfl⟩
    | pong =>
      refine ⟨⟨by simpa using hp, by simpa using hn⟩, ?_⟩
      simp [settlements_append, settlements, Effect.settles]
    | other _ => exact ⟨⟨hp, hn⟩, rfl⟩
  | some info =>
    have hinfo : info.promise ≠ p := hn _ (mem_of_jsGet hi)
    cases m.type with
    | event =>
      dsimp only
      cases info.sub with
      | none => exact ⟨⟨hp, hn⟩, rfl⟩
      | some sub =>
        refine ⟨⟨by simpa using hp, by simpa using hn⟩, ?_⟩
        simp [settlements_append, settlements, Effect.settles]
    | result =>
      dsimp only
      split
      · split
        · refine ⟨⟨by simpa using hp, by simpa using hn⟩, ?_⟩
          simp [settlements_append, settlements, Effect.settles, hinfo]
        · refine ⟨⟨by simpa using hp, ?_⟩, ?_⟩
          · intro e he
            simp only [resolve_fields, mem_jsDelete] at he
            exact hn e he.1
          · simp [settlements_append, settlements, Effect.settles, hinfo]
      · refine ⟨⟨by simpa using hp, ?_⟩, ?_⟩
        · intro e he
          simp only [reject_fields, mem_jsDelete] at he
          exact hn e he.1
        · simp [settlements_append, settlements, Effect.settles, hinfo]
    | pong =>
      refine ⟨⟨by simpa using hp, ?_⟩, ?_⟩
      · intro e he
        simp only [resolve_fields, mem_jsDelete] at he
        exact hn e he.1
      · simp [settlements_append, settlements, Effect.settles, hinfo]
    | other _ => exact ⟨⟨hp, hn⟩, rfl⟩

end Connection

namespace Connection

theorem handleMessage1_pending {i p : Nat} {c : Connection} (m : InMsg) (hm : m.id ≠ i)
    (h : c.Pending i p) :
    (c.handleMessage1 m).1.Pending i p ∧
    settlements p (c.handleMessage1 m).1.trace = settlements p c.trace := by
  obtain ⟨hg, hi, hp, hn⟩ := h
  have hs := sendMessagePromise_summary (unsubscribeEvents m.id)
    (c.log (.warn "Received event for unknown subscription. Unsubscribing."))
  simp only [log_fields] at hs
  obtain ⟨hs1, hs2, hs3, hs4, hs5⟩ := hs
  have hdel : jsGet (jsDelete c.commands m.id) i = some { promise := p } := by
    rw [jsGet_jsDelete_ne _ _ _ (Ne.symm hm)]
    exact hg
  have hdel' : ∀ e ∈ jsDelete c.commands m.id, e.1 ≠ i → e.2.promise ≠ p :=
    fun e he => hn e (mem_jsDelete.1 he).1
  unfold handleMessage1
  cases hj : jsGet c.commands m.id with
  | none =>
    cases m.type with
    | event =>
      simp only [Pending, await_fields, hs2]
      refine ⟨⟨?_, by omega, by omega, ?_⟩, ?_⟩
      · rcases hs4 with h4 | h4
        · rw [h4]
          exact hg
        · rw [h4, jsGet_jsSet_ne _ _ _ _ (by omega)]
          exact hg
      · intro e he hne
        rcases hs4 with h4 | h4
        · rw [h4] at he
          exact hn e he hne
        · rw [h4] at he
          rcases mem_jsSet he with he | he
          · subst he
            simp only
            omega
          · exact hn e he hne
      · rw [hs5 p hp]
        simp [settlements_append, settlements, Effect.settles]
    | result => exact ⟨⟨hg, hi, hp, hn⟩, rfl⟩
    | pong =>
      refine ⟨⟨by simpa using hg, by simpa using hi, by simpa using hp, by simpa using hn⟩, ?_⟩
      simp [settlements_append, settlements, Effect.settles]
    | other _ => exact ⟨⟨hg, hi, hp, hn⟩, rfl⟩
  | some info =>
    have hinfo : info.promise ≠ p := hn _ (mem_of_jsGet hj) hm
    cases m.type with
    | event =>
      dsimp only
      cases info.sub with
      | none => exact ⟨⟨hg, hi, hp, hn⟩, rfl⟩
      | some sub =>
        refine ⟨⟨by simpa using hg, by simpa using hi, by simpa using hp,
          by simpa using hn⟩, ?_⟩
        simp [settlements_append, settlements, Effect.settles]
    | result =>
      dsimp only
      split
      · split
        · refine ⟨⟨by simpa using hg, by simpa using hi, by simpa using hp,
            by simpa using hn⟩, ?_⟩
          simp [settlements_append, settlements, Effect.settles, hinfo]
        · refine ⟨⟨by simpa using hdel, by simpa using hi, by simpa using hp,
            by simpa using hdel'⟩, ?_⟩
          simp [settlements_append, settlements, Effect.settles, hinfo]
      · refine ⟨⟨by simpa using hdel, by simpa using hi, by simpa using hp,
          by simpa using hdel'⟩, ?_⟩
        simp [settlements_append, settlements, Effect.settles, hinfo]
    | pong =>
      refine ⟨⟨by simpa using hdel, by simpa using hi, by simpa using hp,
        by simpa using hdel'⟩, ?_⟩
      simp [settlements_append, settlements, Effect.settles, hinfo]
    | other _ => exact ⟨⟨hg, hi, hp, hn⟩, rfl⟩

/-- A terminal reply for a registered call: its promise is settled, its entry deleted. -/
theorem handleMessage1_reply {i p : Nat} {c : Connection} (m : InMsg) (hm : m.id = i)
    (ht : m.type = .result) (h : jsGet c.commands i = some { promise := p }) :
    (c.handleMessage1 m).1.trace =
      c.trace ++ [if m.success then .resolve p (.json m.result)
        else .reject p (.server m.error)] ∧
    (c.handleMessage1 m).1.commands = jsDelete c.commands i ∧
    (c.handleMessage1 m).1.nextPromise = c.nextPromise ∧
    (c.handleMessage1 m).2 = none := by
  subst hm
  unfold handleMessage1
  rw [ht, h]
  dsimp only
  split <;> simp

theorem handleMessage_single (m : InMsg) (c : Connection) :
    (c._handleMessage (.single m)).1 = (c.handleMessage1 m).1 := by
  simp only [_handleMessage, handleMessageGroup]
  rcases h : c.handleMessage1 m with ⟨c', _ | e⟩ <;> simp [handleMessageGroup]

theorem sendMessagePromise_pending {i p : Nat} {c : Connection} (message : Message)
    (h : c.Pending i p) :
    (c.sendMessagePromise message).1.Pending i p ∧
    settlements p (c.sendMessagePromise message).1.trace = settlements p c.trace := by
  obtain ⟨hg, hi, hp, hn⟩ := h
  obtain ⟨_, hs2, hs3, hs4, hs5⟩ := sendMessagePromise_summary message c
  refine ⟨⟨?_, by omega, by omega, ?_⟩, hs5 p hp⟩
  · rcases hs4 with h4 | h4
    · rw [h4]
      exact hg
    · rw [h4, jsGet_jsSet_ne _ _ _ _ (by omega)]
      exact hg
  · intro e he hne
    rcases hs4 with h4 | h4
    · rw [h4] at he
      exact hn e he hne
    · rw [h4] at he
      rcases mem_jsSet he with he | he
      · subst he
        simp only
        omega
      · exact hn e he hne

theorem sendMessagePromise_noRef {p : Nat} {c : Connection} (message : Message)
    (h : c.NoRef p) :
    (c.sendMessagePromise message).1.NoRef p ∧
    settlements p (c.sendMessagePromise message).1.trace = settlements p c.trace := by
  obtain ⟨hp, hn⟩ := h
  obtain ⟨_, hs2, hs3, hs4, hs5⟩ := sendMessagePromise_summary message c
  refine ⟨⟨by omega, ?_⟩, hs5 p hp⟩
  intro e he
  rcases hs4 with h4 | h4
  · rw [h4] at he
    exact hn e he
  · rw [h4] at he
    rcases mem_jsSet he with he | he
    · subst he
      simp only
      omega
    · exact hn e he

end Connection

/-! ## The allocation discipline is kept -/

namespace Connection

theorem WF_of_eq {c c' : Connection} (h1 : c'.commands = c.commands)
    (h2 : c'.commandId = c.commandId) (h3 : c'.nextPromise = c.nextPromise)
    (h4 : c'.trace = c.trace) (h : c.WF) : c'.WF := by
  unfold WF
  rw [h1, h2, h3, h4]
  exact h

theorem WF_log {c : Connection} {e : Effect} (h : c.WF)
    (he : ∀ p, e.settles p = true → p < c.nextPromise) : (c.log e).WF := by
  refine ⟨by simpa using h.1, ?_⟩
  intro x hx p hp
  simp only [log_fields, List.mem_append, List.mem_singleton] at hx ⊢
  rcases hx with hx | hx
  · exact h.2 x hx p hp
  · subst hx
    exact he p hp

theorem WF_resolve {c : Connection} {p : Nat} (v : Value) (h : c.WF)
    (hp : p < c.nextPromise) : (c.resolve p v).WF := by
  refine WF_of_eq (c := c.log (.resolve p v)) (by simp [resolve]) (by simp [resolve])
    (by simp [resolve]) (by simp [resolve]) (WF_log h ?_)
  intro q hq
  have : p = q := by simpa [Effect.settles] using hq
  omega

theorem WF_reject {c : Connection} {p : Nat} (e : Rejection) (h : c.WF)
    (hp : p < c.nextPromise) : (c.reject p e).WF := by
  refine WF_of_eq (c := c.log (.reject p e)) (by simp [reject]) (by simp [reject])
    (by simp [reject]) (by simp [reject]) (WF_log h ?_)
  intro q hq
  have : p = q := by simpa [Effect.settles] using hq
  omega

theorem WF_delete {c : Connection} (k : Nat) (h : c.WF) :
    ({ c with commands := jsDelete c.commands k } : Connection).WF :=
  ⟨fun e he => h.1 e (mem_jsDelete.1 he).1, h.2⟩

/-- Registering a call keeps the discipline. -/
theorem WF_register {c : Connection} (h : c.WF) :
    ({ c with
        nextPromise := c.nextPromise + 1
        commandId := c.commandId + 1
        commands := jsSet c.commands (c.commandId + 1) { promise := c.nextPromise } } :
      Connection).WF := by
  refine ⟨?_, ?_⟩
  · intro e he
    rcases mem_jsSet he with he | he
    · subst he
      exact ⟨Nat.le_refl _, Nat.lt_succ_self _⟩
    · have := h.1 e he
      exact ⟨Nat.le_succ_of_le this.1, Nat.lt_succ_of_lt this.2⟩
  · intro e he p hp
    exact Nat.lt_succ_of_lt (h.2 e he p hp)

theorem sendMessagePromise_WF {c : Connection} (message : Message) (h : c.WF) :
    (c.sendMessagePromise message).1.WF := by
  cases hq : c._queuedMessages with
  | some q =>
    rw [sendMessagePromise_queued message hq]
    exact ⟨fun e he => ⟨(h.1 e he).1, Nat.lt_succ_of_lt (h.1 e he).2⟩,
      fun e he p hp => Nat.lt_succ_of_lt (h.2 e he p hp)⟩
  | none =>
    cases hc : c.connected with
    | false =>
      rw [sendMessagePromise_lost message hq hc]
      exact WF_reject _ (WF_register h) (Nat.lt_succ_self _)
    | true =>
      obtain ⟨s, hs, ho⟩ := (connected_iff c).1 hc
      rw [sendMessagePromise_sent message hq hs ho]
      have h1 := WF_log (e := .send s.id (c.commandId + 1) message) (WF_register h)
        (by intro p hp; simp [Effect.settles] at hp)
      exact WF_of_eq rfl rfl rfl rfl h1

theorem handleMessage1_WF {c : Connection} (m : InMsg) (h : c.WF) :
    (c.handleMessage1 m).1.WF := by
  unfold handleMessage1
  cases hi : jsGet c.commands m.id with
  | none =>
    cases m.type with
    | event =>
      dsimp only
      have h1 : (c.log
          (.warn "Received event for unknown subscription. Unsubscribing.")).WF :=
        WF_log h (by intro p hp; simp [Effect.settles] at hp)
      have h2 := sendMessagePromise_WF (unsubscribeEvents m.id) h1
      exact WF_of_eq (by simp) (by simp) (by simp) (by simp) h2
    | result => exact h
    | pong =>
      dsimp only
      exact WF_log h (by intro p hp; simp [Effect.settles] at hp)
    | other _ => exact h
  | some info =>
    have hinfo : info.promise < c.nextPromise := (h.1 _ (mem_of_jsGet hi)).2
    cases m.type with
    | event =>
      dsimp only
      cases info.sub with
      | none => exact h
      | some sub => exact WF_log h (by intro p hp; simp [Effect.settles] at hp)
    | result =>
      dsimp only
      split
      · split
        · exact WF_resolve _ h hinfo
        · exact WF_delete _ (WF_resolve _ h hinfo)
      · exact WF_delete _ (WF_reject _ h hinfo)
    | pong =>
      dsimp only
      exact WF_delete _ (WF_resolve _ h hinfo)
    | other _ => exact h

end Connection

/-! ## Claims -/

namespace Connection

theorem create_eq (socket : Socket) (options : Options) :
    create socket options =
      { options := options
        commandId := 2
        commands := []
        socket := some socket
        haVersion := socket.haVersion
        closeRequested := false
        trace := [.attach socket.id, .fireEvent "ready" none] } := by
  simp [create, _setSocket, log, fireEvent, listenersOf, jsGet]

theorem create_WF (socket : Socket) (options : Options) : (create socket options).WF := by
  rw [create_eq]
  constructor
  · intro e he
    simp at he
  · intro e he p hs
    simp at he
    rcases he with he | he <;> subst he <;> simp [Effect.settles] at hs

end Connection

namespace Connection

theorem rejectCommands_fields (old : List (Nat × Info)) (c : Connection) :
    (rejectCommands old c).options = c.options ∧
    (rejectCommands old c).commandId = c.commandId ∧
    (rejectCommands old c).commands = c.commands ∧
    (rejectCommands old c).oldSubscriptions = c.oldSubscriptions ∧
    (rejectCommands old c).socket = c.socket ∧
    (rejectCommands old c).haVersion = c.haVersion ∧
    (rejectCommands old c).eventListeners = c.eventListeners ∧
    (rejectCommands old c).closeRequested = c.closeRequested ∧
    (rejectCommands old c).suspendReconnectPromise = c.suspendReconnectPromise ∧
    (rejectCommands old c)._queuedMessages = c._queuedMessages ∧
    (rejectCommands old c).unsubscribes = c.unsubscribes ∧
    (rejectCommands old c).nextRef = c.nextRef ∧
    (rejectCommands old c).timers = c.timers ∧
    (rejectCommands old c).connected = c.connected ∧
    (rejectCommands old c).nextPromise = c.nextPromise ∧
    (rejectCommands old c).trace = c.trace ++ lostCalls old := by
  induction old generalizing c with
  | nil => simp [rejectCommands, lostCalls]
  | cons e old ih =>
    unfold rejectCommands
    cases h : e.2.sub with
    | none =>
      simp only [ih, reject_fields]
      simp [lostCalls, h, connectionLost]
    | some sub =>
      simp only [ih]
      simp [lostCalls, h]

end Connection

/-- C2. On a channel loss (`_handleClose`), whatever the commands table holds: the table
becomes empty; `reject` is called with the connection-lost error for exactly the entries
that are not subscriptions, in table order, and nothing else is settled; the old table,
with every subscription entry in it, is kept as `oldSubscriptions`; and a subscription
whose promise no call entry shares is not settled at all. -/
theorem C2_channel_loss_fails_calls_keeps_subscriptions (c : Connection) :
    c._handleClose.commands = [] ∧
    c._handleClose.oldSubscriptions = some c.commands ∧
    (∀ e ∈ c.commands, e.2.sub.isSome →
      ∃ old, c._handleClose.oldSubscriptions = some old ∧ e ∈ old) ∧
    (∃ rest, c._handleClose.trace = c.trace ++ lostCalls c.commands ++ rest ∧
      ∀ e ∈ rest, ∀ p, e.settles p = false) ∧
    (∀ e ∈ c.commands, e.2.sub = none →
      Effect.reject e.2.promise (error ERR_CONNECTION_LOST "Connection lost") ∈
        c._handleClose.trace) ∧
    (∀ e ∈ c.commands, e.2.sub.isSome →
      (∀ e' ∈ c.commands, e'.2.sub = none → e'.2.promise ≠ e.2.promise) →
      settlements e.2.promise c._handleClose.trace = settlements e.2.promise c.trace) := by
  have hrest : ∃ rest, c._handleClose.trace = c.trace ++ lostCalls c.commands ++ rest ∧
      ∀ e ∈ rest, ∀ p, e.settles p = false := by
    unfold Connection._handleClose
    simp only [Connection.rejectCommands_fields]
    cases c.closeRequested with
    | true => exact ⟨[], by simp [Connection.rejectCommands_fields]⟩
    | false =>
      cases hsus : c.suspendReconnectPromise with
      | some sp =>
        refine ⟨_, by
          simp only [Bool.false_eq_true, if_false, Connection.fireEvent_fields,
            Connection.rejectCommands_fields, hsus, Connection.await_fields]
          rfl, ?_⟩
        intro e he p
        simp only [List.mem_cons, List.mem_map] at he
        rcases he with he | ⟨l, _, he⟩ <;> subst he <;> rfl
      | none =>
        refine ⟨_, by
          simp only [Bool.false_eq_true, if_false, Connection.fireEvent_fields,
            Connection.rejectCommands_fields, hsus, Connection.reconnect,
            Connection.log_fields, List.append_assoc]
          rfl, ?_⟩
        intro e he p
        simp only [List.mem_cons, List.mem_map, List.mem_append, List.not_mem_nil,
          or_false] at he
        rcases he with (he | ⟨l, _, he⟩) | he <;> subst he <;> rfl
  have hcore : c._handleClose.commands = [] ∧
      c._handleClose.oldSubscriptions = some c.commands := by
    unfold Connection._handleClose
    simp only [Connection.rejectCommands_fields]
    cases c.closeRequested with
    | true => simp [Connection.rejectCommands_fields]
    | false =>
      cases hsus : c.suspendReconnectPromise <;>
        simp [Connection.rejectCommands_fields, Connection.reconnect, hsus]
  obtain ⟨rest, htr, hno⟩ := hrest
  refine ⟨hcore.1, hcore.2, fun e he _ => ⟨c.commands, hcore.2, he⟩, ⟨rest, htr, hno⟩, ?_, ?_⟩
  · intro e he hsub
    rw [htr]
    apply List.mem_append_left
    apply List.mem_append_right
    simp only [lostCalls, List.mem_map, List.mem_filter]
    exact ⟨e, ⟨he, by simp [hsub]⟩, rfl⟩
  · intro e he hsub hdist
    rw [htr, settlements_append, settlements_append]
    have h1 : settlements e.2.promise (lostCalls c.commands) = [] := by
      apply settlements_eq_nil
      intro x hx
      simp only [lostCalls, List.mem_map, List.mem_filter] at hx
      obtain ⟨e', ⟨he', hn'⟩, rfl⟩ := hx
      have := hdist e' he' (by simpa using hn')
      simp [Effect.settles, this]
    have h2 : settlements e.2.promise rest = [] :=
      settlements_eq_nil (fun x hx => hno x hx _)
    simp [h1, h2]

/-- Witness of C2: the table holds the call 3 and the subscription 4. -/
theorem C2_channel_loss_fails_calls_keeps_subscriptions_witness :
    settlements 0 sampleBusy._handleClose.trace =
      [.reject 0 (error ERR_CONNECTION_LOST "Connection lost")] ∧
    settlements 1 sampleBusy._handleClose.trace = settlements 1 sampleBusy.trace :=
  ⟨by decide,
    (C2_channel_loss_fails_calls_keeps_subscriptions sampleBusy).2.2.2.2.2
      sampleEntry (by decide) rfl (by decide)⟩

/-- C7. An inbound `result` message with `success` true whose id has an entry in the commands
table resolves that entry with `message.result`. A subscription entry stays in the table,
which is left as it was, so that a later push event with the same id calls its callback; an
entry that is not a subscription is deleted. -/
theorem C7_success_keeps_subscription_removes_call (c : Connection) (m : InMsg) (info : Info)
    (ht : m.type = .result) (hs : m.success = true)
    (hi : jsGet c.commands m.id = some info) :
    let c' := (c._handleMessage (.single m)).1
    c'.trace = c.trace ++ [.resolve info.promise (.json m.result)] ∧
    (∀ sub, info.sub = some sub →
      c'.commands = c.commands ∧ jsGet c'.commands m.id = some info ∧
      ∀ ev, ((c'._handleMessage (.single { id := m.id, type := .event, event := ev })).1).trace =
        c'.trace ++ [.callback sub.callback ev]) ∧
    (info.sub = none → c'.commands = jsDelete c.commands m.id ∧ jsGet c'.commands m.id = none) := by
  intro c'
  have hc' : c' = (c.handleMessage1 m).1 := Connection.handleMessage_single m c
  cases hsub : info.sub with
  | none =>
    have h : c' = { c.resolve info.promise (.json m.result) with
        commands := jsDelete c.commands m.id } := by
      rw [hc']
      simp [Connection.handleMessage1, ht, hi, hs, hsub]
    refine ⟨by simp [h], fun sub hsub' => by simp at hsub', fun _ => ?_⟩
    simp [h, jsGet_jsDelete_same]
  | some sub =>
    have h : c' = c.resolve info.promise (.json m.result) := by
      rw [hc']
      simp [Connection.handleMessage1, ht, hi, hs, hsub]
    refine ⟨by simp [h], fun sub' hsub' => ?_, fun h' => by simp at h'⟩
    have hsub'' : sub = sub' := by simpa using hsub'
    subst hsub''
    refine ⟨by simp [h], by simp [h, hi], fun ev => ?_⟩
    rw [Connection.handleMessage_single]
    simp [Connection.handleMessage1, h, hi, hsub]

/-- Witness of C7: the subscription 4 of the sample connection is confirmed. -/
theorem C7_success_keeps_subscription_removes_call_witness :
    jsGet (sampleBusy._handleMessage
      (.single { id := 4, type := .result, success := true })).1.commands 4 =
      some sampleEntry.2 :=
  ((C7_success_keeps_subscription_removes_call sampleBusy
    { id := 4, type := .result, success := true } sampleEntry.2 rfl rfl rfl).2.1
      _ rfl).2.1

/-- C8. Successive `_genCmdId` calls return `commandId + 1, commandId + 2, ...`: strictly
increasing, pairwise distinct, and, from a counter of at least 1, all greater than the id 1
of the `supported_features` handshake message. The counter is 2 after the constructor and 1
after every channel loss. -/
theorem C8_command_ids_unique_increasing (c : Connection) (n : Nat) :
    c.genCmdIds n = List.range' (c.commandId + 1) n ∧
    (c.genCmdIds n).Pairwise (· < ·) ∧
    (c.genCmdIds n).Nodup ∧
    (1 ≤ c.commandId → ∀ id ∈ c.genCmdIds n, supportedFeaturesId < id) ∧
    (∀ socket options, (Connection.create socket options).commandId = 2) ∧
    c._handleClose.commandId = 1 := by
  have h : ∀ (n : Nat) (c : Connection), c.genCmdIds n = List.range' (c.commandId + 1) n := by
    intro n
    induction n with
    | zero => intro c; rfl
    | succ n ih =>
      intro c
      simp [Connection.genCmdIds, ih, List.range']
  have hpw : (List.range' (c.commandId + 1) n).Pairwise (· < ·) := by
    simpa using List.pairwise_lt_range' (c.commandId + 1) n
  refine ⟨h n c, by rw [h]; exact hpw, by rw [h]; exact List.nodup_range' _ _, ?_, ?_, ?_⟩
  · intro hc id hid
    rw [h] at hid
    have := (List.mem_range'_1.1 hid).1
    simp only [supportedFeaturesId]
    omega
  · intro socket options
    rw [Connection.create_eq]
  · unfold Connection._handleClose
    simp only [Connection.rejectCommands_fields]
    cases c.closeRequested with
    | true => simp [Connection.rejectCommands_fields]
    | false =>
      cases hsus : c.suspendReconnectPromise <;>
        simp [Connection.rejectCommands_fields, Connection.reconnect, hsus]

/-- Witness of C8: the first three ids on the channel that follows a loss. -/
theorem C8_command_ids_unique_increasing_witness :
    sampleBusy._handleClose.genCmdIds 3 = [2, 3, 4] ∧ supportedFeaturesId < 2 :=
  ⟨by decide,
    (C8_command_ids_unique_increasing sampleBusy._handleClose 3).2.2.2.1 (by decide) 2
      (by decide)⟩

namespace Connection

theorem rejectQueued_fields (q : List Queued) (c : Connection) :
    (rejectQueued q c).options = c.options ∧
    (rejectQueued q c).commandId = c.commandId ∧
    (rejectQueued q c).commands = c.commands ∧
    (rejectQueued q c).oldSubscriptions = c.oldSubscriptions ∧
    (rejectQueued q c).socket = c.socket ∧
    (rejectQueued q c).haVersion = c.haVersion ∧
    (rejectQueued q c).eventListeners = c.eventListeners ∧
    (rejectQueued q c).closeRequested = c.closeRequested ∧
    (rejectQueued q c).suspendReconnectPromise = c.suspendReconnectPromise ∧
    (rejectQueued q c)._queuedMessages = c._queuedMessages ∧
    (rejectQueued q c).unsubscribes = c.unsubscribes ∧
    (rejectQueued q c).nextRef = c.nextRef ∧
    (rejectQueued q c).timers = c.timers ∧
    (rejectQueued q c).connected = c.connected ∧
    (rejectQueued q c).nextPromise = c.nextPromise ∧
    (rejectQueued q c).trace = c.trace ++ queueRejections q := by
  induction q generalizing c with
  | nil => simp [rejectQueued, queueRejections]
  | cons msg q ih =>
    unfold rejectQueued
    cases h : msg.reject? with
    | none =>
      simp only [ih]
      simp [queueRejections, h]
    | some p =>
      simp only [ih, reject_fields]
      simp [queueRejections, h]

/-- The `catch` block of a reconnect attempt, effect by effect. -/
theorem reconnectFailed_eq (tries : Nat) (err : Rejection) (c : Connection) :
    (c.reconnectFailed tries err)._queuedMessages = none ∧
    (c.reconnectFailed tries err).closeRequested = c.closeRequested ∧
    (c.reconnectFailed tries err).nextPromise = c.nextPromise ∧
    (err = .code ERR_INVALID_AUTH →
      (c.reconnectFailed tries err).timers = c.timers ∧
      (c.reconnectFailed tries err).trace =
        c.trace ++ queueRejections (c._queuedMessages.getD []) ++
          .fireEvent "reconnect-error" (some (.code ERR_INVALID_AUTH)) ::
            (listenersOf c.eventListeners "reconnect-error").map
              (fun l => .listener l "reconnect-error" (some (.code ERR_INVALID_AUTH)))) ∧
    (err ≠ .code ERR_INVALID_AUTH →
      (c.reconnectFailed tries err).timers =
        c.timers ++ [(tries + 1, min (tries + 1) 5 * 1000)] ∧
      (c.reconnectFailed tries err).trace =
        c.trace ++ queueRejections (c._queuedMessages.getD []) ++
          [.setTimeout (tries + 1) (min (tries + 1) 5 * 1000)]) := by
  unfold reconnectFailed
  cases hq : c._queuedMessages with
  | none =>
    by_cases herr : err = .code ERR_INVALID_AUTH
    · simp [herr, hq, queueRejections]
    · simp [herr, hq, queueRejections, reconnect]
  | some q =>
    by_cases herr : err = .code ERR_INVALID_AUTH
    · simp [herr, rejectQueued_fields]
    · simp [herr, rejectQueued_fields, reconnect]

end Connection

/-- C10. When the promise of `createSocket` is rejected in reconnect attempt `tries`, the
`catch` block drops the queue and rejects every queued call with `ERR_CONNECTION_LOST`.
If the error is `ERR_INVALID_AUTH`, no timer is set and `reconnect-error` is fired with that
code; for any other error nothing is fired and the timer of attempt `tries + 1` is set. -/
theorem C10_invalid_auth_stops_reconnect (c : Connection) (tries : Nat) (err : Rejection) :
    let c' := c.runCont (.socketCreated tries) (.rejected err)
    let q := c._queuedMessages.getD []
    c'._queuedMessages = none ∧
    (∀ m outer, Queued.call m outer ∈ q →
      Effect.reject outer (.code ERR_CONNECTION_LOST) ∈ c'.trace) ∧
    (err = .code ERR_INVALID_AUTH →
      c'.timers = c.timers ∧
      c'.trace = c.trace ++ queueRejections q ++
        .fireEvent "reconnect-error" (some (.code ERR_INVALID_AUTH)) ::
          (Connection.listenersOf c.eventListeners "reconnect-error").map
            (fun l => .listener l "reconnect-error" (some (.code ERR_INVALID_AUTH)))) ∧
    (err ≠ .code ERR_INVALID_AUTH →
      c'.timers = c.timers ++ [(tries + 1, min (tries + 1) 5 * 1000)] ∧
      c'.trace = c.trace ++ queueRejections q ++
        [.setTimeout (tries + 1) (min (tries + 1) 5 * 1000)]) := by
  intro c' q
  have hc' : c' = c.reconnectFailed tries err := rfl
  have h := Connection.reconnectFailed_eq tries err c
  rw [← hc'] at h
  refine ⟨h.1, ?_, h.2.2.2.1, h.2.2.2.2⟩
  intro m outer hm
  have hmem : Effect.reject outer (.code ERR_CONNECTION_LOST) ∈ queueRejections q := by
    simp only [queueRejections, List.mem_filterMap]
    exact ⟨.call m outer, hm, rfl⟩
  by_cases herr : err = .code ERR_INVALID_AUTH
  · rw [(h.2.2.2.1 herr).2]
    exact List.mem_append_left _ (List.mem_append_right _ hmem)
  · rw [(h.2.2.2.2 herr).2]
    exact List.mem_append_left _ (List.mem_append_right _ hmem)

/-- Witness of C10: the first attempt of a connection with two queued elements fails, once
with `ERR_INVALID_AUTH` and once with `ERR_CANNOT_CONNECT`. -/
theorem C10_invalid_auth_stops_reconnect_witness :
    (sampleQueued.runCont (.socketCreated 0) (.rejected (.code ERR_INVALID_AUTH))).trace =
      sampleQueued.trace ++
        [.reject 0 (.code ERR_CONNECTION_LOST), .reject 2 (.code ERR_CONNECTION_LOST),
          .fireEvent "reconnect-error" (some (.code ERR_INVALID_AUTH))] ∧
    (sampleQueued.runCont (.socketCreated 0) (.rejected (.code ERR_CANNOT_CONNECT))).trace =
      sampleQueued.trace ++
        [.reject 0 (.code ERR_CONNECTION_LOST), .reject 2 (.code ERR_CONNECTION_LOST),
          .setTimeout 1 1000] :=
  ⟨((C10_invalid_auth_stops_reconnect sampleQueued 0 (.code ERR_INVALID_AUTH)).2.2.1 rfl).2,
    ((C10_invalid_auth_stops_reconnect sampleQueued 0 (.code ERR_CANNOT_CONNECT)).2.2.2
      (by decide)).2⟩

/-! ## The reconnect loop -/

theorem createSocketCalls_append (tr tr' : List Effect) :
    createSocketCalls (tr ++ tr') = createSocketCalls tr + createSocketCalls tr' := by
  induction tr with
  | nil => simp [createSocketCalls]
  | cons e tr ih => cases e <;> simp [createSocketCalls, ih, Nat.add_right_comm]

namespace Connection

@[simp] theorem reconnect_fields (tries : Nat) (c : Connection) :
    (c.reconnect tries).commands = c.commands ∧
    (c.reconnect tries).commandId = c.commandId ∧
    (c.reconnect tries).oldSubscriptions = c.oldSubscriptions ∧
    (c.reconnect tries).socket = c.socket ∧
    (c.reconnect tries).closeRequested = c.closeRequested ∧
    (c.reconnect tries).suspendReconnectPromise = c.suspendReconnectPromise ∧
    (c.reconnect tries)._queuedMessages = c._queuedMessages ∧
    (c.reconnect tries).nextPromise = c.nextPromise ∧
    (c.reconnect tries).settled = c.settled ∧
    (c.reconnect tries).reactions = c.reactions ∧
    (c.reconnect tries).microtasks = c.microtasks ∧
    (c.reconnect tries).timers = c.timers ++ [(tries, min tries 5 * 1000)] ∧
    (c.reconnect tries).trace = c.trace ++ [.setTimeout tries (min tries 5 * 1000)] := by
  simp [reconnect]

theorem settle_quiet {p : Nat} (o : Outcome) {c : Connection} (hr : c.reactions = [])
    (hf : c.Fresh) (hp : p < c.nextPromise) :
    (c.settle p o).reactions = [] ∧ (c.settle p o).microtasks = c.microtasks ∧
    (c.settle p o).Fresh := by
  unfold settle
  cases h : jsGet c.settled p with
  | some _ => exact ⟨hr, rfl, hf⟩
  | none =>
    refine ⟨by simp [hr], by simp [hr], ?_⟩
    intro q hq
    simp only [jsGet_append, hf q hq, jsGet]
    have : ¬ p = q := by
      simp only at hq
      omega
    simp [this]

theorem rejectCommands_quiet (old : List (Nat × Info)) {c : Connection}
    (hr : c.reactions = []) (hf : c.Fresh) (ho : ∀ e ∈ old, e.2.promise < c.nextPromise) :
    (rejectCommands old c).reactions = [] ∧
    (rejectCommands old c).microtasks = c.microtasks ∧ (rejectCommands old c).Fresh := by
  induction old generalizing c with
  | nil => exact ⟨hr, rfl, hf⟩
  | cons e old ih =>
    have he := ho e (List.mem_cons_self _ _)
    have ho' : ∀ e' ∈ old, e'.2.promise < c.nextPromise :=
      fun e' he' => ho e' (List.mem_cons_of_mem _ he')
    unfold rejectCommands
    cases h : e.2.sub with
    | some sub => exact ih hr hf ho'
    | none =>
      have hs := settle_quiet (p := e.2.promise)
        (.rejected (error ERR_CONNECTION_LOST "Connection lost"))
        (c := c.log (.reject e.2.promise (error ERR_CONNECTION_LOST "Connection lost")))
        (by simpa using hr)
        (by intro q hq; simpa using hf q (by simpa using hq)) (by simpa using he)
      have := ih (c := c.reject e.2.promise (error ERR_CONNECTION_LOST "Connection lost"))
        hs.1 hs.2.2 (by simpa using ho')
      dsimp only
      refine ⟨this.1, ?_, this.2.2⟩
      rw [this.2.1]
      simpa [reject] using hs.2.1

/-- A channel loss on a connection at rest schedules attempt 0, with no delay. -/
theorem handleClose_reconnecting {c : Connection} (h : c.Quiet) :
    c._handleClose.Reconnecting 0 ∧
    c._handleClose.trace = c.trace ++ lostCalls c.commands ++
      .fireEvent "disconnected" none ::
        ((listenersOf c.eventListeners "disconnected").map
          (fun l => .listener l "disconnected" none) ++ [.setTimeout 0 0]) := by
  obtain ⟨hcl, hsus, hq, hr, hm, ht, hcmd, hf⟩ := h
  let c0 : Connection :=
    { c with commandId := 1, oldSubscriptions := some c.commands, commands := [],
             socket := none }
  have hrc := rejectCommands_quiet c.commands (c := c0) hr hf hcmd
  have hfl := rejectCommands_fields c.commands c0
  have heq : c._handleClose =
      (((rejectCommands c.commands c0).fireEvent "disconnected" none).reconnect 0) := by
    unfold _handleClose
    have h1 : (rejectCommands c.commands c0).closeRequested = false := by
      rw [hfl.2.2.2.2.2.2.2.1]
      exact hcl
    have h2 : ((rejectCommands c.commands c0).fireEvent "disconnected"
        none).suspendReconnectPromise = none := by
      rw [(fireEvent_fields _ _ _).2.2.2.2.2.2.2.2.1, hfl.2.2.2.2.2.2.2.2.1]
      exact hsus
    simp only [c0] at h1 h2 ⊢
    simp only [h1, h2, Bool.false_eq_true, if_false]
  rw [heq]
  refine ⟨⟨?_, ?_, ?_, ?_, ?_, ?_⟩, ?_⟩
  · simp only [reconnect_fields, fireEvent_fields, hfl]
    exact hcl
  · simp only [reconnect_fields, fireEvent_fields, hfl]
    exact hq
  · simp only [reconnect_fields, fireEvent_fields, hrc.1]
  · simp only [reconnect_fields, fireEvent_fields, hrc.2.1]
    exact hm
  · simp only [reconnect_fields, fireEvent_fields, hfl]
    simp [c0, ht]
  · intro p hp
    simp only [reconnect_fields, fireEvent_fields, hfl] at hp ⊢
    exact hrc.2.2 p (by simpa [hfl] using hp)
  · simp only [reconnect_fields, fireEvent_fields, hfl]
    simp [c0]

/-- A reconnect attempt that fails with a transient error schedules the next one. -/
theorem failedAttempt_reconnecting {tries : Nat} {err : Rejection} {c : Connection}
    (h : c.Reconnecting tries) (herr : err ≠ .code ERR_INVALID_AUTH) :
    (c.failedAttempt err).Reconnecting (tries + 1) ∧
    (c.failedAttempt err).trace = c.trace ++
      [.createSocket c.nextPromise, .setTimeout (tries + 1) (min (tries + 1) 5 * 1000)] := by
  obtain ⟨hcl, hq, hr, hm, ht, hf⟩ := h
  have hp : jsGet c.settled c.nextPromise = none := hf _ (Nat.le_refl _)
  have h1 : c.timerFired =
      { c with
        timers := []
        nextPromise := c.nextPromise + 1
        trace := c.trace ++ [.createSocket c.nextPromise]
        reactions := [(c.nextPromise, .socketCreated tries)] } := by
    simp [timerFired, ht, reconnectAttempt, hcl, newPromise, log, await, hp, hr]
  have h2 : (c.timerFired).settle c.nextPromise (.rejected err) =
      { c with
        timers := []
        nextPromise := c.nextPromise + 1
        trace := c.trace ++ [.createSocket c.nextPromise]
        reactions := []
        settled := c.settled ++ [(c.nextPromise, .rejected err)]
        microtasks := [(.socketCreated tries, .rejected err)] } := by
    rw [h1]
    simp [settle, hp, hm]
  have h3 : c.failedAttempt err =
      { c with
        timers := [(tries + 1, min (tries + 1) 5 * 1000)]
        nextPromise := c.nextPromise + 1
        trace := c.trace ++
          [.createSocket c.nextPromise, .setTimeout (tries + 1) (min (tries + 1) 5 * 1000)]
        reactions := []
        settled := c.settled ++ [(c.nextPromise, .rejected err)]
        microtasks := [] } := by
    unfold failedAttempt
    rw [h2]
    simp [runMicrotask, runCont, reconnectFailed, hq, herr, reconnect, log]
  rw [h3]
  refine ⟨⟨hcl, hq, rfl, rfl, rfl, ?_⟩, rfl⟩
  intro p hp'
  simp only at hp'
  have : ¬ c.nextPromise = p := by omega
  simp [jsGet_append, hf p (by omega), jsGet, this]

theorem failedAttempts_trace (errs : List Rejection) {tries : Nat} {c : Connection}
    (h : c.Reconnecting tries) (herr : ∀ err ∈ errs, err ≠ .code ERR_INVALID_AUTH) :
    timerDelays (c.failedAttempts errs).trace =
      timerDelays c.trace ++
        (List.range' (tries + 1) errs.length).map (fun k => min k 5 * 1000) ∧
    createSocketCalls (c.failedAttempts errs).trace =
      createSocketCalls c.trace + errs.length := by
  induction errs generalizing tries c with
  | nil => simp [failedAttempts]
  | cons err errs ih =>
    have h1 := failedAttempt_reconnecting h (herr err (List.mem_cons_self _ _))
    have h2 := ih h1.1 (fun e he => herr e (List.mem_cons_of_mem _ he))
    simp only [failedAttempts]
    rw [h2.1, h2.2, h1.2]
    simp [timerDelays_append, timerDelays, createSocketCalls_append, createSocketCalls,
      List.range']
    omega

end Connection

theorem timerDelays_eq_nil {tr : List Effect}
    (h : ∀ e ∈ tr, ∀ t ms, e ≠ .setTimeout t ms) : timerDelays tr = [] := by
  induction tr with
  | nil => rfl
  | cons e tr ih =>
    have he := h e (List.mem_cons_self _ _)
    have ih' := ih (fun e' he' => h e' (List.mem_cons_of_mem _ he'))
    cases e <;> simp_all [timerDelays]

theorem createSocketCalls_eq_zero {tr : List Effect}
    (h : ∀ e ∈ tr, ∀ p, e ≠ .createSocket p) : createSocketCalls tr = 0 := by
  induction tr with
  | nil => rfl
  | cons e tr ih =>
    have he := h e (List.mem_cons_self _ _)
    have ih' := ih (fun e' he' => h e' (List.mem_cons_of_mem _ he'))
    cases e <;> simp_all [createSocketCalls]

/-- C9, as the code has it. After a channel loss on a connection at rest, when every
reconnect attempt fails with an error other than `ERR_INVALID_AUTH`, the timer of attempt
number `k` (`k = 1, 2, 3, ...`) is set with a delay of `min(k - 1, 5)` seconds: the first
attempt is made without delay, and the delays of the attempts `1 .. n + 1` are
`0, 1, 2, 3, 4, 5, 5, ...` seconds. Each of the `n` failed attempts calls `createSocket`
once. -/
theorem C9_reconnect_delays (c : Connection) (errs : List Rejection) (hc : c.Quiet)
    (herr : ∀ err ∈ errs, err ≠ .code ERR_INVALID_AUTH) :
    timerDelays (c._handleClose.failedAttempts errs).trace =
      timerDelays c.trace ++ (List.range (errs.length + 1)).map (fun k => min k 5 * 1000) ∧
    createSocketCalls (c._handleClose.failedAttempts errs).trace =
      createSocketCalls c.trace + errs.length := by
  have h0 := Connection.handleClose_reconnecting hc
  have h1 := Connection.failedAttempts_trace errs h0.1 herr
  have hl1 : timerDelays (lostCalls c.commands) = [] := by
    apply timerDelays_eq_nil
    intro e he t ms
    simp only [lostCalls, List.mem_map] at he
    obtain ⟨_, _, rfl⟩ := he
    simp
  have hl2 : createSocketCalls (lostCalls c.commands) = 0 := by
    apply createSocketCalls_eq_zero
    intro e he p
    simp only [lostCalls, List.mem_map] at he
    obtain ⟨_, _, rfl⟩ := he
    simp
  have hl3 : timerDelays ((Connection.listenersOf c.eventListeners "disconnected").map
      (fun l => Effect.listener l "disconnected" none)) = [] := by
    apply timerDelays_eq_nil
    intro e he t ms
    simp only [List.mem_map] at he
    obtain ⟨_, _, rfl⟩ := he
    simp
  have hl4 : createSocketCalls ((Connection.listenersOf c.eventListeners "disconnected").map
      (fun l => Effect.listener l "disconnected" none)) = 0 := by
    apply createSocketCalls_eq_zero
    intro e he p
    simp only [List.mem_map] at he
    obtain ⟨_, _, rfl⟩ := he
    simp
  constructor
  · rw [h1.1, h0.2]
    simp only [timerDelays_append, hl1, timerDelays, hl3, List.append_nil, List.nil_append,
      List.append_assoc]
    congr 1
    rw [List.range_eq_range', List.range'_succ]
    simp
  · rw [h1.2, h0.2]
    simp only [createSocketCalls_append, hl2, createSocketCalls, hl4]
    omega

/-- Counterexample to C9 as stated: on a fresh connection that loses its channel and whose
six first reconnect attempts fail, the delays of the attempts 1 to 7 are 0, 1, 2, 3, 4, 5
and 5 seconds, not 1, 2, 3, 4, 5, 5 and 5: attempt 1 is made without delay. -/
theorem C9_first_attempt_is_immediate :
    timerDelays (sampleConnection._handleClose.failedAttempts
      (List.replicate 6 (.code ERR_CANNOT_CONNECT))).trace =
      [0, 1000, 2000, 3000, 4000, 5000, 5000] ∧
    timerDelays (sampleConnection._handleClose.failedAttempts
      (List.replicate 6 (.code ERR_CANNOT_CONNECT))).trace ≠
      [1000, 2000, 3000, 4000, 5000, 5000, 5000] := by
  decide

theorem sampleConnection_quiet : sampleConnection.Quiet := by
  refine ⟨rfl, rfl, rfl, rfl, rfl, rfl, by decide, ?_⟩
  intro p _
  rfl

/-- Witness of C9: a fresh connection and two failed attempts. -/
theorem C9_reconnect_delays_witness :
    sampleConnection.Quiet ∧
    timerDelays (sampleConnection._handleClose.failedAttempts
      [.code ERR_CANNOT_CONNECT, .exception "timeout"]).trace = [0, 1000, 2000] :=
  ⟨sampleConnection_quiet,
    (C9_reconnect_delays sampleConnection [.code ERR_CANNOT_CONNECT, .exception "timeout"]
      sampleConnection_quiet (by decide)).1⟩

/-! ## Replay of the queue -/

namespace Connection

theorem subscribeMessage_queued (r : Resubscribe) {c : Connection} {q : List Queued}
    (hq : c._queuedMessages = some q) :
    c.subscribeMessage r =
      (await (c.nextPromise + 1) (.subscribeDequeued r c.nextPromise)
        { c with
          nextPromise := c.nextPromise + 1 + 1
          _queuedMessages := some (q ++ [.wait (c.nextPromise + 1)]) },
        c.nextPromise) := by
  simp [subscribeMessage, newPromise, hq]

/-- With a queue in place, `info.subscribe()` only joins the queue. -/
theorem resubscribe_queued (info : Info) {c : Connection} {q : List Queued}
    (hq : c._queuedMessages = some q) :
    (∃ q', (c.resubscribe info)._queuedMessages = some (q ++ q') ∧ queuedCalls q' = []) ∧
    (c.resubscribe info).commandId = c.commandId ∧
    (c.resubscribe info).commands = c.commands ∧
    (c.resubscribe info).socket = c.socket ∧
    (c.resubscribe info).trace = c.trace := by
  unfold resubscribe
  cases info.subscribe? with
  | none => exact ⟨⟨[], by simp [hq], rfl⟩, rfl, rfl, rfl, rfl⟩
  | some sr =>
    obtain ⟨s, r⟩ := sr
    dsimp only
    rw [subscribeMessage_queued r hq]
    exact ⟨⟨[.wait (c.nextPromise + 1)], by simp, rfl⟩, by simp, by simp, by simp, by simp⟩

theorem queuedCalls_append (q q' : List Queued) :
    queuedCalls (q ++ q') = queuedCalls q ++ queuedCalls q' := by
  induction q with
  | nil => rfl
  | cons x q ih => cases x <;> simp [queuedCalls, ih]

theorem resubscribeAll_queued (old : List (Nat × Info)) {c : Connection} {q : List Queued}
    (hq : c._queuedMessages = some q) :
    (∃ q', (c.resubscribeAll old)._queuedMessages = some (q ++ q') ∧ queuedCalls q' = []) ∧
    (c.resubscribeAll old).commandId = c.commandId ∧
    (c.resubscribeAll old).commands = c.commands ∧
    (c.resubscribeAll old).socket = c.socket ∧
    (c.resubscribeAll old).trace = c.trace := by
  induction old generalizing c q with
  | nil => exact ⟨⟨[], by simp [resubscribeAll, hq], rfl⟩, rfl, rfl, rfl, rfl⟩
  | cons e old ih =>
    obtain ⟨⟨q1, h1, h1'⟩, h2, h3, h4, h5⟩ := resubscribe_queued e.2 hq
    obtain ⟨⟨q2, h6, h6'⟩, h7, h8, h9, h10⟩ := ih h1
    simp only [resubscribeAll]
    refine ⟨⟨q1 ++ q2, by rw [h6, List.append_assoc], ?_⟩, h7.trans h2, h8.trans h3,
      h9.trans h4, h10.trans h5⟩
    rw [queuedCalls_append, h1', h6']
    rfl

/-- On an open socket and with no queue in place, the replay loop sends the queued messages
in queue order, each with the next id. -/
theorem drainQueue_open (q : List Queued) {c : Connection} {s : Socket}
    (hs : c.socket = some s) (ho : s.readyState = WebSocket.OPEN)
    (hq : c._queuedMessages = none) :
    (drainQueue q c).2 = none ∧
    (drainQueue q c).1.socket = some s ∧
    (drainQueue q c).1._queuedMessages = none ∧
    (drainQueue q c).1.eventListeners = c.eventListeners ∧
    (drainQueue q c).1.commandId = c.commandId + (queuedCalls q).length ∧
    sentFrames (drainQueue q c).1.trace =
      sentFrames c.trace ++ replayFrames s.id c.commandId (queuedCalls q) := by
  induction q generalizing c with
  | nil => simp [drainQueue, queuedCalls, replayFrames, hs, hq]
  | cons x q ih =>
    cases x with
    | send m =>
      have h := ih (c := c._genCmdId.1.log (.send s.id (c.commandId + 1) m))
        (by simpa using hs) (by simpa using hq)
      simp only [drainQueue, sendMessage_fresh m hq hs ho]
      simp only [log_fields, genCmdId_fields] at h
      refine ⟨h.1, h.2.1, h.2.2.1, h.2.2.2.1, ?_, ?_⟩
      · rw [h.2.2.2.2.1]
        simp only [queuedCalls, List.length_cons]
        omega
      · rw [h.2.2.2.2.2]
        simp [sentFrames_append, sentFrames, queuedCalls, replayFrames]
    | call m outer =>
      have hsent := sendMessagePromise_sent m hq hs ho
      have h := ih (c := (c.sendMessagePromise m).1.await (c.sendMessagePromise m).2
        (.forward outer)) (by simpa [hsent] using hs) (by simpa [hsent] using hq)
      simp only [drainQueue]
      simp only [await_fields, hsent] at h
      simp only [hsent]
      refine ⟨h.1, h.2.1, h.2.2.1, h.2.2.2.1, ?_, ?_⟩
      · rw [h.2.2.2.2.1]
        simp only [queuedCalls, List.length_cons]
        omega
      · rw [h.2.2.2.2.2]
        simp [sentFrames_append, sentFrames, queuedCalls, replayFrames]
    | wait p =>
      have h := ih (c := c.resolve p .undefined) (by simpa using hs) (by simpa using hq)
      simp only [drainQueue]
      simp only [resolve_fields] at h
      refine ⟨h.1, h.2.1, h.2.2.1, h.2.2.2.1, ?_, ?_⟩
      · rw [h.2.2.2.2.1]
        simp [queuedCalls]
      · rw [h.2.2.2.2.2]
        simp [sentFrames_append, sentFrames, queuedCalls]

end Connection

namespace Connection

theorem issueAll_queued (msgs : List Message) {c : Connection} {q : List Queued}
    (hq : c._queuedMessages = some q) :
    (∃ q', (c.issueAll msgs)._queuedMessages = some (q ++ q') ∧ queuedCalls q' = msgs) ∧
    (c.issueAll msgs).commandId = c.commandId ∧
    (c.issueAll msgs).trace = c.trace := by
  induction msgs generalizing c q with
  | nil => exact ⟨⟨[], by simp [issueAll, hq], rfl⟩, rfl, rfl⟩
  | cons m msgs ih =>
    have h1 := sendMessagePromise_queued m hq
    obtain ⟨⟨q2, h2, h2'⟩, h3, h4⟩ := ih (c := (c.sendMessagePromise m).1)
      (q := q ++ [.call m c.nextPromise]) (by rw [h1])
    simp only [issueAll]
    refine ⟨⟨.call m c.nextPromise :: q2, by rw [h2]; simp, by simp [queuedCalls, h2']⟩, ?_, ?_⟩
    · rw [h3, h1]
    · rw [h4, h1]

theorem sentFrames_fireEvent (eventType : String) (eventData : Option Rejection)
    (ls : List Nat) :
    sentFrames (Effect.fireEvent eventType eventData ::
      ls.map (fun l => Effect.listener l eventType eventData)) = [] := by
  simp only [sentFrames]
  induction ls with
  | nil => rfl
  | cons l ls ih => simpa [sentFrames] using ih

/-- A reconnect with a queue in place, on an open socket: the queued messages are sent in
queue order, the first with the id `commandId + 1`. -/
theorem setSocket_replay (sock : Socket) {c : Connection} {q : List Queued}
    (hq : c._queuedMessages = some q) (ho : sock.readyState = WebSocket.OPEN) :
    (c._setSocket sock).2 = none ∧
    (c._setSocket sock).1._queuedMessages = none ∧
    (c._setSocket sock).1.socket = some sock ∧
    sentFrames (c._setSocket sock).1.trace =
      sentFrames c.trace ++ replayFrames sock.id c.commandId (queuedCalls q) := by
  let c1 : Connection :=
    log (.attach sock.id) { c with socket := some sock, haVersion := sock.haVersion }
  let c2 : Connection :=
    match c1.oldSubscriptions with
    | some old => resubscribeAll old { c1 with oldSubscriptions := none }
    | none => c1
  have h2 : (∃ q', c2._queuedMessages = some (q ++ q') ∧ queuedCalls q' = []) ∧
      c2.commandId = c.commandId ∧ c2.socket = some sock ∧
      c2.trace = c.trace ++ [.attach sock.id] := by
    simp only [c2]
    cases hold : c1.oldSubscriptions with
    | none => exact ⟨⟨[], by simp [c1, hq], rfl⟩, by simp [c1], by simp [c1], by simp [c1]⟩
    | some old =>
      obtain ⟨h3, h4, _, h5, h6⟩ := resubscribeAll_queued old
        (c := { c1 with oldSubscriptions := none }) (q := q) (by simp [c1, hq])
      exact ⟨h3, by rw [h4]; simp [c1], by rw [h5]; simp [c1], by rw [h6]; simp [c1]⟩
  obtain ⟨⟨q', h2q, h2c⟩, h2id, h2s, h2t⟩ := h2
  have h3 := drainQueue_open (q ++ q') (c := { c2 with _queuedMessages := none })
    (s := sock) h2s ho rfl
  have heq : c._setSocket sock =
      (((drainQueue (q ++ q') { c2 with _queuedMessages := none }).1.fireEvent "ready" none),
        none) := by
    have : c._setSocket sock =
        (match c2._queuedMessages with
          | some q =>
            match drainQueue q { c2 with _queuedMessages := none } with
            | (c, none) => (c.fireEvent "ready" none, none)
            | (c, some err) => (c, some err)
          | none => (c2.fireEvent "ready" none, none)) := rfl
    rw [this, h2q]
    dsimp only
    rcases hd : drainQueue (q ++ q') { c2 with _queuedMessages := none } with ⟨cd, _ | err⟩
    · rfl
    · rw [hd] at h3
      simp at h3
  rw [heq]
  refine ⟨rfl, by simpa using h3.2.2.1, by simpa using h3.2.1, ?_⟩
  simp only [fireEvent_fields, sentFrames_append, sentFrames_fireEvent, List.append_nil]
  rw [h3.2.2.2.2.2]
  simp only [h2t, h2id, queuedCalls_append, h2c, sentFrames_append, List.append_nil]
  simp [sentFrames]

theorem replayFrames_eq_zip (socket commandId : Nat) (msgs : List Message) :
    replayFrames socket commandId msgs =
      (List.zip (List.range' (commandId + 1) msgs.length) msgs).map
        (fun x => (socket, x.1, x.2)) := by
  induction msgs generalizing commandId with
  | nil => rfl
  | cons m msgs ih => simp [replayFrames, ih, List.range']

end Connection

/-- C4. Calls issued through `sendMessagePromise` while a queue is in place are appended to
it, and a reconnect on an open socket sends everything queued, in the order of issue: the
frames handed to `socket.send` are the queued messages in queue order, and their ids are
`commandId + 1, commandId + 2, ...`, increasing in that same order. The new socket is open,
as it is when `createSocket` has just resolved. -/
theorem C4_queued_calls_replayed_in_order (c : Connection) (q : List Queued)
    (msgs : List Message) (sock : Socket) (hq : c._queuedMessages = some q)
    (ho : sock.readyState = WebSocket.OPEN) :
    let sent := queuedCalls q ++ msgs
    let c' := ((c.issueAll msgs)._setSocket sock).1
    (∃ q', (c.issueAll msgs)._queuedMessages = some (q ++ q') ∧ queuedCalls q' = msgs) ∧
    sentFrames c'.trace = sentFrames c.trace ++
      (List.zip (List.range' (c.commandId + 1) sent.length) sent).map
        (fun x => (sock.id, x.1, x.2)) ∧
    (List.range' (c.commandId + 1) sent.length).Pairwise (· < ·) ∧
    c'._queuedMessages = none := by
  intro sent c'
  obtain ⟨⟨q', h1, h1'⟩, h2, h3⟩ := Connection.issueAll_queued msgs hq
  have h4 := Connection.setSocket_replay sock h1 ho
  refine ⟨⟨q', h1, h1'⟩, ?_, ?_, h4.2.1⟩
  · rw [h4.2.2.2, h3, h2, Connection.queuedCalls_append, h1', Connection.replayFrames_eq_zip]
  · simpa using List.pairwise_lt_range' (c.commandId + 1) sent.length

/-- Witness of C4: the calls A, B and C are issued while the queue is in place; the socket 8
then gets A, B, C with the ids 2, 3, 4. -/
theorem C4_queued_calls_replayed_in_order_witness :
    sentFrames (((sampleResumed.issueAll
      [{ type := "A" }, { type := "B" }, { type := "C" }])._setSocket { id := 8 }).1.trace) =
      [(8, 2, { type := "A" }), (8, 3, { type := "B" }), (8, 4, { type := "C" })] :=
  (C4_queued_calls_replayed_in_order sampleResumed []
    [{ type := "A" }, { type := "B" }, { type := "C" }] { id := 8 } rfl rfl).2.1

theorem replayFrames_append (socket commandId : Nat) (a b : List Message) :
    replayFrames socket commandId (a ++ b) =
      replayFrames socket commandId a ++ replayFrames socket (commandId + a.length) b := by
  induction a generalizing commandId with
  | nil => rfl
  | cons m a ih =>
    have h := ih (commandId + 1)
    rw [show commandId + 1 + a.length = commandId + (a.length + 1) by omega] at h
    simp only [List.cons_append, replayFrames, List.length_cons]
    exact congrArg (List.cons _) h

theorem Connection.handleClose_queue (c : Connection) :
    c._handleClose._queuedMessages = c._queuedMessages := by
  unfold Connection._handleClose
  simp only [Connection.rejectCommands_fields]
  cases c.closeRequested with
  | true => simp [Connection.rejectCommands_fields]
  | false =>
    cases hsus : c.suspendReconnectPromise <;>
      simp [Connection.rejectCommands_fields, hsus]

/-- Counterexample to C5 as stated: a fresh connection loses its channel; the reconnect is
pending (the timer of attempt 0 is set) and the call `get_states` is issued. No queue
exists, and the call is rejected with `ERR_CONNECTION_LOST` at once. -/
theorem C5_call_while_disconnected_is_rejected :
    sampleLost.connected = false ∧ sampleLost.timers = [(0, 0)] ∧
    (sampleLost.sendMessagePromise sampleCall).1._queuedMessages = none ∧
    (sampleLost.sendMessagePromise sampleCall).1.trace =
      sampleLost.trace ++ [.reject 0 (.code ERR_CONNECTION_LOST)] := by
  decide

/-- C5, as the code has it. A channel loss does not create the queue; the continuation of a
suspended reconnect does. A call issued while the queue exists is appended to it, and at
issue time nothing is settled and nothing is registered; the next reconnect on an open
socket sends it, and a failed reconnect attempt rejects it with `ERR_CONNECTION_LOST`. A
call issued with no queue and no open socket is rejected with `ERR_CONNECTION_LOST` at issue
time. -/
theorem C5_call_deferred_while_queue_exists (c : Connection) (message : Message) :
    c._handleClose._queuedMessages = c._queuedMessages ∧
    c.handleCloseResumed._queuedMessages = some [] ∧
    (∀ q, c._queuedMessages = some q →
      (c.sendMessagePromise message).2 = c.nextPromise ∧
      (c.sendMessagePromise message).1._queuedMessages =
        some (q ++ [.call message c.nextPromise]) ∧
      (c.sendMessagePromise message).1.trace = c.trace ∧
      (c.sendMessagePromise message).1.settled = c.settled ∧
      (c.sendMessagePromise message).1.commands = c.commands ∧
      (∀ sock : Socket, sock.readyState = WebSocket.OPEN →
        (sock.id, c.commandId + (queuedCalls q).length + 1, message) ∈
          sentFrames ((c.sendMessagePromise message).1._setSocket sock).1.trace) ∧
      (∀ tries err, Effect.reject c.nextPromise (.code ERR_CONNECTION_LOST) ∈
        ((c.sendMessagePromise message).1.reconnectFailed tries err).trace)) ∧
    (c._queuedMessages = none → c.connected = false →
      (c.sendMessagePromise message).1._queuedMessages = none ∧
      (c.sendMessagePromise message).1.trace =
        c.trace ++ [.reject c.nextPromise (.code ERR_CONNECTION_LOST)]) := by
  refine ⟨Connection.handleClose_queue c, by simp [Connection.handleCloseResumed], ?_, ?_⟩
  · intro q hq
    have h := Connection.sendMessagePromise_queued message hq
    have hq' : (c.sendMessagePromise message).1._queuedMessages =
        some (q ++ [.call message c.nextPromise]) := by rw [h]
    refine ⟨by rw [h], hq', by rw [h], by rw [h], by rw [h], ?_, ?_⟩
    · intro sock ho
      rw [(Connection.setSocket_replay sock hq' ho).2.2.2, Connection.queuedCalls_append,
        replayFrames_append]
      apply List.mem_append_right
      apply List.mem_append_right
      simp [queuedCalls, replayFrames, h]
    · intro tries err
      have h1 := Connection.reconnectFailed_eq tries err (c.sendMessagePromise message).1
      have hmem : Effect.reject c.nextPromise (.code ERR_CONNECTION_LOST) ∈
          queueRejections (((c.sendMessagePromise message).1._queuedMessages).getD []) := by
        rw [hq']
        simp [queueRejections, Queued.reject?]
      by_cases herr : err = .code ERR_INVALID_AUTH
      · rw [(h1.2.2.2.1 herr).2]
        exact List.mem_append_left _ (List.mem_append_right _ hmem)
      · rw [(h1.2.2.2.2 herr).2]
        exact List.mem_append_left _ (List.mem_append_right _ hmem)
  · intro hq hc
    rw [Connection.sendMessagePromise_lost message hq hc]
    simp [hq]

/-- Witness of C5: a call issued on the sample connection that has a queue. -/
theorem C5_call_deferred_while_queue_exists_witness :
    (sampleQueued.sendMessagePromise { type := "get_config" }).1._queuedMessages =
      some [.call sampleCall 0, .wait 2, .call { type := "get_config" } 3] ∧
    (sampleQueued.sendMessagePromise { type := "get_config" }).1.trace = sampleQueued.trace ∧
    (sampleLost.sendMessagePromise sampleCall).1.trace =
      sampleLost.trace ++ [.reject 0 (.code ERR_CONNECTION_LOST)] :=
  ⟨((C5_call_deferred_while_queue_exists sampleQueued { type := "get_config" }).2.2.1
      _ rfl).2.1,
    ((C5_call_deferred_while_queue_exists sampleQueued { type := "get_config" }).2.2.1
      _ rfl).2.2.1,
    ((C5_call_deferred_while_queue_exists sampleLost sampleCall).2.2.2 (by decide)
      (by decide)).2⟩

/-- C6, evaluated. A subscription (callback 11) is registered under the id 3 and confirmed;
the channel is lost; while it is down the caller invokes the unsubscribe handle, which
deletes the id 3 from the new, empty commands table and leaves `oldSubscriptions` as it was;
the reconnect then calls the subscribe closure of the carried-over entry: the subscription
is sent again on the new socket and registered under the id 2, and a push event with the id
2 calls the callback 11. -/
theorem C6_unsubscribed_while_down_is_replayed :
    sampleSubscribed.commands = [(3, { sampleEntry.2 with
      sub := some { ref := 0, callback := 11, subscribe := some sampleSubscribe } })] ∧
    Effect.resolve 0 (.unsub 0) ∈ sampleSubscribed.trace ∧
    sampleSubscribed._handleClose.connected = false ∧
    sampleUnsubscribedDown.commands = [] ∧
    sampleUnsubscribedDown.oldSubscriptions = some sampleSubscribed.commands ∧
    sampleUnsubscribedDown.trace =
      sampleSubscribed._handleClose.trace ++ [.resolve 2 .undefined] ∧
    sampleReplayed.commands = [(2,
      { promise := 5,
        sub := some { ref := 1, callback := 11, subscribe := some sampleSubscribe } })] ∧
    sentFrames sampleReplayed.trace =
      sentFrames sampleSubscribed.trace ++ [(8, 2, sampleSubscribe.subscribeMessage)] ∧
    callbacks (sampleReplayed._handleMessage
      (.single { id := 2, type := .event, event := "state_changed" })).1.trace =
      [(11, "state_changed")] := by
  decide

/-- Counterexample to C3 as stated: a subscription created with a `preCheck` and with
resubscribe left at its default is in the commands table when the channel is lost; the
reconnect succeeds and calls its subscribe closure, but the pre-check now fails: the replay
is rejected with "Pre-check failed", no entry is registered, nothing is left to run, and a
push event finds no callback. -/
theorem C3_failed_precheck_is_not_replayed :
    sampleCheckedSubscribed.commands =
      [(3, { promise := 2,
             sub := some { ref := 0, callback := 12, subscribe := some sampleChecked } })] ∧
    sampleCheckedReconnected.connected = true ∧
    Effect.preCheck 5 5 ∈ sampleCheckedReconnected.trace ∧
    sampleCheckFailed.trace = sampleCheckedReconnected.trace ++
      [.reject 4 (.exception "Pre-check failed")] ∧
    sampleCheckFailed.commands = [] ∧
    sampleCheckFailed.oldSubscriptions = none ∧
    sampleCheckFailed.microtasks = [] ∧ sampleCheckFailed.reactions = [] ∧
    callbacks (sampleCheckFailed._handleMessage
      (.single { id := 2, type := .event, event := "state_changed" })).1.trace = [] := by
  decide

/-! ## Replay of the subscriptions -/

namespace Connection

theorem Extends.refl (c : Connection) : c.Extends c :=
  ⟨rfl, Nat.le_refl _, rfl, Nat.le_refl _, fun _ _ _ h => h, fun _ h => h, fun _ h => h,
    fun _ h => h⟩

theorem Extends.trans {a b c : Connection} (h1 : a.Extends b) (h2 : b.Extends c) :
    a.Extends c := by
  obtain ⟨a1, a2, a3, a4, a5, a6, a7, a8⟩ := h1
  obtain ⟨b1, b2, b3, b4, b5, b6, b7, b8⟩ := h2
  exact ⟨b1.trans a1, Nat.le_trans a2 b2, b3.trans a3, Nat.le_trans a4 b4,
    fun j x hj hx => b5 j x (Nat.le_trans hj a4) (a5 j x hj hx),
    fun x hx => b6 x (a6 x hx), fun x hx => b7 x (a7 x hx), fun x hx => b8 x (a8 x hx)⟩

theorem Extends.fresh {c c' : Connection} (h : c.Extends c') (hf : c.Fresh) : c'.Fresh := by
  intro p hp
  rw [h.1]
  exact hf p (Nat.le_trans h.2.1 hp)

theorem await_extends (p : Nat) (k : Cont) (c : Connection) : c.Extends (c.await p k) := by
  unfold await
  cases jsGet c.settled p with
  | some o =>
    exact ⟨rfl, Nat.le_refl _, rfl, Nat.le_refl _, fun _ _ _ h => h, fun _ h => h,
      fun x hx => List.mem_append_left _ hx, fun _ h => h⟩
  | none =>
    exact ⟨rfl, Nat.le_refl _, rfl, Nat.le_refl _, fun _ _ _ h => h,
      fun x hx => List.mem_append_left _ hx, fun _ h => h, fun _ h => h⟩

theorem await_pending {p : Nat} (k : Cont) {c : Connection} (h : jsGet c.settled p = none) :
    (p, k) ∈ (c.await p k).reactions := by
  simp [await, h]

theorem log_extends (e : Effect) (c : Connection) : c.Extends (c.log e) :=
  ⟨rfl, Nat.le_refl _, rfl, Nat.le_refl _, fun _ _ _ h => h, fun _ h => h, fun _ h => h,
    fun x hx => by simp [log, hx]⟩

theorem newPromise_extends (c : Connection) : c.Extends c.newPromise.1 :=
  ⟨rfl, by simp, rfl, Nat.le_refl _, fun _ _ _ h => h, fun _ h => h, fun _ h => h,
    fun _ h => h⟩

/-- With an id given, `sendMessage` sends the message or throws; it changes nothing else. -/
theorem sendMessage_some (message : Message) (n : Nat) (c : Connection) :
    (c.sendMessage message (some (n + 1))).1 = c ∨
    ∃ s, (c.sendMessage message (some (n + 1))).1 = c.log (.send s (n + 1) message) := by
  unfold sendMessage
  cases c.connected with
  | false => exact Or.inl rfl
  | true =>
    cases c._queuedMessages with
    | some q => exact Or.inl (by simp [truthyId])
    | none =>
      cases hs : c.socket with
      | none => exact Or.inl (by simp [truthyId, hs])
      | some s => exact Or.inr ⟨s.id, by simp [truthyId, hs]⟩

theorem sendMessage_some_queue (message : Message) (n : Nat) (c : Connection) :
    (c.sendMessage message (some (n + 1))).1._queuedMessages = c._queuedMessages := by
  rcases sendMessage_some message n c with h | ⟨s, h⟩ <;> rw [h]
  simp

theorem sendMessage_some_extends (message : Message) (n : Nat) (c : Connection) :
    c.Extends (c.sendMessage message (some (n + 1))).1 := by
  rcases sendMessage_some message n c with h | ⟨s, h⟩ <;> rw [h]
  · exact Extends.refl c
  · exact log_extends _ c

/-- The entry that `subscribeMessage` creates for the arguments `r`. -/
theorem subscribeRegister_spec (r : Resubscribe) (ret : Nat) (c : Connection) :
    c.Extends (c.subscribeRegister r ret) ∧
    (c.subscribeRegister r ret)._queuedMessages = c._queuedMessages ∧
    (c.subscribeRegister r ret).commandId = c.commandId + 1 ∧
    jsGet (c.subscribeRegister r ret).commands (c.commandId + 1) = some
      { promise := c.nextPromise
        sub := some
          { ref := c.nextRef
            callback := r.callback
            subscribe := if r.options.resubscribe ≠ some false then some r else none } } := by
  let info : Info :=
    { promise := c.nextPromise
      sub := some
        { ref := c.nextRef
          callback := r.callback
          subscribe := if r.options.resubscribe ≠ some false then some r else none } }
  let c1 : Connection :=
    { c with
      nextPromise := c.nextPromise + 1
      commandId := c.commandId + 1
      nextRef := c.nextRef + 1
      unsubscribes := c.unsubscribes ++ [(c.nextRef, Unsub.own (c.commandId + 1))]
      commands := jsSet c.commands (c.commandId + 1) info }
  have h1 : c.Extends c1 :=
    ⟨rfl, Nat.le_succ _, rfl, Nat.le_succ _,
      fun j x hj hx => by
        show jsGet (jsSet c.commands (c.commandId + 1) info) j = some x
        rw [jsGet_jsSet_ne _ _ _ _ (by omega)]
        exact hx,
      fun _ h => h, fun _ h => h, fun _ h => h⟩
  have heq : c.subscribeRegister r ret =
      (c1.sendMessage r.subscribeMessage (some (c.commandId + 1))).1.await c.nextPromise
        (.subscribeDone c.nextRef ret) := rfl
  have h2 := sendMessage_some_extends r.subscribeMessage c.commandId c1
  have h3 := await_extends c.nextPromise (.subscribeDone c.nextRef ret)
    (c1.sendMessage r.subscribeMessage (some (c.commandId + 1))).1
  have hcmd : ((c1.sendMessage r.subscribeMessage (some (c.commandId + 1))).1).commands =
      c1.commands ∧
      ((c1.sendMessage r.subscribeMessage (some (c.commandId + 1))).1).commandId =
        c1.commandId := by
    rcases sendMessage_some r.subscribeMessage c.commandId c1 with h | ⟨s, h⟩ <;> rw [h]
    · exact ⟨rfl, rfl⟩
    · simp
  rw [heq]
  refine ⟨h1.trans (h2.trans h3), ?_, ?_, ?_⟩
  · rw [(await_fields _ _ _).2.2.2.2.2.2.2.2.2.1, sendMessage_some_queue]
  · rw [(await_fields _ _ _).2.1, hcmd.2]
  · rw [(await_fields _ _ _).2.2.1, hcmd.1]
    exact jsGet_jsSet_same _ _ _

theorem subscribePreCheck_extends (r : Resubscribe) (ret : Nat) (c : Connection) :
    c.Extends (c.subscribePreCheck r ret) ∧
    (c.subscribePreCheck r ret)._queuedMessages = c._queuedMessages := by
  unfold subscribePreCheck
  cases r.options.preCheck with
  | none => exact ⟨(subscribeRegister_spec r ret c).1, (subscribeRegister_spec r ret c).2.1⟩
  | some fn =>
    exact ⟨(newPromise_extends c).trans ((log_extends _ _).trans (await_extends _ _ _)),
      by simp⟩

theorem subscribeMessage_extends (r : Resubscribe) (c : Connection) :
    c.Extends (c.subscribeMessage r).1 ∧
    (c._queuedMessages = none → (c.subscribeMessage r).1._queuedMessages = none) := by
  cases hq : c._queuedMessages with
  | some q =>
    rw [subscribeMessage_queued r hq]
    refine ⟨?_, fun h => by simp at h⟩
    refine Extends.trans ?_ (await_extends _ _ _)
    exact ⟨rfl, by show c.nextPromise ≤ c.nextPromise + 1 + 1; omega, rfl, Nat.le_refl _,
      fun _ _ _ h => h, fun _ h => h, fun _ h => h, fun _ h => h⟩
  | none =>
    have heq : c.subscribeMessage r =
        (c.newPromise.1.subscribePreCheck r c.nextPromise, c.nextPromise) := by
      simp [subscribeMessage, newPromise, hq]
    rw [heq]
    have h := subscribePreCheck_extends r c.nextPromise c.newPromise.1
    exact ⟨(newPromise_extends c).trans h.1, fun _ => by rw [h.2]; simpa using hq⟩

theorem resubscribe_extends (info : Info) (c : Connection) :
    c.Extends (c.resubscribe info) ∧
    (c._queuedMessages = none → (c.resubscribe info)._queuedMessages = none) := by
  unfold resubscribe
  cases info.subscribe? with
  | none => exact ⟨Extends.refl c, fun h => h⟩
  | some sr =>
    obtain ⟨s, r⟩ := sr
    dsimp only
    have h := subscribeMessage_extends r c
    exact ⟨h.1.trans (await_extends _ _ _), fun hq => by simpa using h.2 hq⟩

theorem resubscribeAll_extends (old : List (Nat × Info)) (c : Connection) :
    c.Extends (c.resubscribeAll old) ∧
    (c._queuedMessages = none → (c.resubscribeAll old)._queuedMessages = none) := by
  induction old generalizing c with
  | nil => exact ⟨Extends.refl c, fun h => h⟩
  | cons e old ih =>
    have h1 := resubscribe_extends e.2 c
    have h2 := ih (c.resubscribe e.2)
    exact ⟨h1.1.trans h2.1, fun hq => h2.2 (h1.2 hq)⟩

end Connection

namespace Connection

theorem subscribed_of_extends {cb j : Nat} {c c' : Connection} (h : c.Extends c')
    (hj : j ≤ c.commandId) (hs : c.Subscribed cb j) : c'.Subscribed cb j := by
  obtain ⟨info, s, h1, h2, h3⟩ := hs
  exact ⟨info, s, h.2.2.2.2.1 j info hj h1, h2, h3⟩

/-- With no queue in place and no `preCheck`, `info.subscribe()` registers at once. -/
theorem resubscribe_registers {info : Info} {s : Subscription} {r : Resubscribe}
    {c : Connection} (hq : c._queuedMessages = none) (hsub : info.subscribe? = some (s, r))
    (hpc : r.options.preCheck = none) :
    (c.resubscribe info).Subscribed r.callback (c.commandId + 1) ∧
    c.commandId + 1 ≤ (c.resubscribe info).commandId := by
  have heq : c.resubscribe info =
      (c.newPromise.1.subscribeRegister r c.nextPromise).await c.nextPromise
        (.resubscribed s.ref info.promise) := by
    simp [resubscribe, hsub, subscribeMessage, newPromise, hq, subscribePreCheck, hpc]
  have h := subscribeRegister_spec r c.nextPromise c.newPromise.1
  rw [heq]
  constructor
  · refine ⟨{ promise := c.nextPromise + 1
              sub := some
                { ref := c.nextRef
                  callback := r.callback
                  subscribe := if r.options.resubscribe ≠ some false then some r else none } },
      { ref := c.nextRef
        callback := r.callback
        subscribe := if r.options.resubscribe ≠ some false then some r else none },
      ?_, rfl, rfl⟩
    rw [(await_fields _ _ _).2.2.1]
    simpa using h.2.2.2
  · rw [(await_fields _ _ _).2.1, h.2.2.1]
    simp

/-- With no queue in place, `info.subscribe()` calls the `preCheck` and waits for it. -/
theorem resubscribe_prechecks {info : Info} {s : Subscription} {r : Resubscribe} {fn : Nat}
    {c : Connection} (hq : c._queuedMessages = none) (hf : c.Fresh)
    (hsub : info.subscribe? = some (s, r)) (hpc : r.options.preCheck = some fn) :
    Effect.preCheck fn (c.nextPromise + 1) ∈ (c.resubscribe info).trace ∧
    (c.nextPromise + 1, Cont.subscribeChecked r c.nextPromise) ∈
      (c.resubscribe info).reactions := by
  let c1 : Connection := (c.newPromise.1.newPromise.1.log (.preCheck fn (c.nextPromise + 1)))
  have heq : c.resubscribe info =
      (c1.await (c.nextPromise + 1) (.subscribeChecked r c.nextPromise)).await c.nextPromise
        (.resubscribed s.ref info.promise) := by
    simp [resubscribe, hsub, subscribeMessage, newPromise, hq, subscribePreCheck, hpc, c1]
  have hun : jsGet c1.settled (c.nextPromise + 1) = none := by
    simpa [c1] using hf (c.nextPromise + 1) (Nat.le_succ _)
  have h1 := await_pending (.subscribeChecked r c.nextPromise) hun
  have h2 := await_extends c.nextPromise (.resubscribed s.ref info.promise)
    (c1.await (c.nextPromise + 1) (.subscribeChecked r c.nextPromise))
  rw [heq]
  refine ⟨h2.2.2.2.2.2.2.2 _ ?_, h2.2.2.2.2.2.1 _ h1⟩
  simp [c1]

/-- With a queue in place, `info.subscribe()` joins the queue and waits for its turn. -/
theorem resubscribe_waits {info : Info} {s : Subscription} {r : Resubscribe}
    {q : List Queued} {c : Connection} (hq : c._queuedMessages = some q) (hf : c.Fresh)
    (hsub : info.subscribe? = some (s, r)) :
    (c.resubscribe info)._queuedMessages = some (q ++ [.wait (c.nextPromise + 1)]) ∧
    (c.nextPromise + 1, Cont.subscribeDequeued r c.nextPromise) ∈
      (c.resubscribe info).reactions ∧
    jsGet (c.resubscribe info).settled (c.nextPromise + 1) = none := by
  let c1 : Connection :=
    { c with
      nextPromise := c.nextPromise + 1 + 1
      _queuedMessages := some (q ++ [.wait (c.nextPromise + 1)]) }
  have heq : c.resubscribe info =
      (c1.await (c.nextPromise + 1) (.subscribeDequeued r c.nextPromise)).await c.nextPromise
        (.resubscribed s.ref info.promise) := by
    simp [resubscribe, hsub, subscribeMessage_queued r hq, c1]
  have hun : jsGet c1.settled (c.nextPromise + 1) = none := hf (c.nextPromise + 1) (Nat.le_succ _)
  have h1 := await_pending (.subscribeDequeued r c.nextPromise) hun
  have h2 := await_extends c.nextPromise (.resubscribed s.ref info.promise)
    (c1.await (c.nextPromise + 1) (.subscribeDequeued r c.nextPromise))
  rw [heq]
  refine ⟨by simp [c1], h2.2.2.2.2.2.1 _ h1, ?_⟩
  rw [h2.1, (await_fields _ _ _).2.2.2.2.2.2.2.2.2.2.2.2.2.2.2.2]
  exact hun

theorem resubscribeAll_registers {old : List (Nat × Info)} {e : Nat × Info}
    {s : Subscription} {r : Resubscribe} (he : e ∈ old) {c : Connection}
    (hq : c._queuedMessages = none) (hsub : e.2.subscribe? = some (s, r))
    (hpc : r.options.preCheck = none) :
    ∃ j, c.commandId < j ∧ (c.resubscribeAll old).Subscribed r.callback j := by
  induction old generalizing c with
  | nil => simp at he
  | cons x old ih =>
    simp only [resubscribeAll]
    rcases List.mem_cons.1 he with h | h
    · subst h
      have h1 := resubscribe_registers (c := c) hq hsub hpc
      exact ⟨c.commandId + 1, Nat.lt_succ_self _,
        subscribed_of_extends (resubscribeAll_extends old _).1 h1.2 h1.1⟩
    · have h1 := resubscribe_extends x.2 c
      obtain ⟨j, hj, hs⟩ := ih h (c := c.resubscribe x.2) (h1.2 hq)
      exact ⟨j, Nat.lt_of_le_of_lt h1.1.2.2.2.1 hj, hs⟩

theorem resubscribeAll_prechecks {old : List (Nat × Info)} {e : Nat × Info}
    {s : Subscription} {r : Resubscribe} {fn : Nat} (he : e ∈ old) {c : Connection}
    (hq : c._queuedMessages = none) (hf : c.Fresh) (hsub : e.2.subscribe? = some (s, r))
    (hpc : r.options.preCheck = some fn) :
    ∃ p ret, Effect.preCheck fn p ∈ (c.resubscribeAll old).trace ∧
      (p, Cont.subscribeChecked r ret) ∈ (c.resubscribeAll old).reactions := by
  induction old generalizing c with
  | nil => simp at he
  | cons x old ih =>
    simp only [resubscribeAll]
    rcases List.mem_cons.1 he with h | h
    · subst h
      have h1 := resubscribe_prechecks (c := c) hq hf hsub hpc
      have h2 := (resubscribeAll_extends old (c.resubscribe e.2)).1
      exact ⟨_, _, h2.2.2.2.2.2.2.2 _ h1.1, h2.2.2.2.2.2.1 _ h1.2⟩
    · have h1 := resubscribe_extends x.2 c
      exact ih h (c := c.resubscribe x.2) (h1.2 hq) (h1.1.fresh hf)

theorem resubscribeAll_waits {old : List (Nat × Info)} {e : Nat × Info}
    {s : Subscription} {r : Resubscribe} (he : e ∈ old) {q : List Queued} {c : Connection}
    (hq : c._queuedMessages = some q) (hf : c.Fresh) (hsub : e.2.subscribe? = some (s, r)) :
    ∃ p ret q', (c.resubscribeAll old)._queuedMessages = some q' ∧ Queued.wait p ∈ q' ∧
      (p, Cont.subscribeDequeued r ret) ∈ (c.resubscribeAll old).reactions ∧
      jsGet (c.resubscribeAll old).settled p = none := by
  induction old generalizing c q with
  | nil => simp at he
  | cons x old ih =>
    simp only [resubscribeAll]
    rcases List.mem_cons.1 he with h | h
    · subst h
      have h1 := resubscribe_waits (c := c) hq hf hsub
      have h2 := (resubscribeAll_extends old (c.resubscribe e.2)).1
      obtain ⟨⟨q', h3, _⟩, _⟩ := resubscribeAll_queued old h1.1
      refine ⟨_, _, _, h3, by simp, h2.2.2.2.2.2.1 _ h1.2.1, ?_⟩
      rw [h2.1]
      exact h1.2.2
    · have h1 := resubscribe_extends x.2 c
      obtain ⟨⟨q1, h2, _⟩, _⟩ := resubscribe_queued x.2 hq
      exact ih h (c := c.resubscribe x.2) h2 (h1.1.fresh hf)

end Connection

namespace Connection

theorem settle_wakes {p : Nat} {k : Cont} (o : Outcome) {c : Connection}
    (hk : (p, k) ∈ c.reactions) (hp : jsGet c.settled p = none) :
    (k, o) ∈ (c.settle p o).microtasks := by
  simp only [settle, hp, List.mem_append, List.mem_map, List.mem_filter]
  exact Or.inr ⟨(p, k), ⟨hk, by simp⟩, rfl⟩

theorem settle_keeps {p p' : Nat} {k : Cont} (o : Outcome) {c : Connection}
    (hne : p' ≠ p) (hk : (p, k) ∈ c.reactions) (hp : jsGet c.settled p = none) :
    (p, k) ∈ (c.settle p' o).reactions ∧ jsGet (c.settle p' o).settled p = none := by
  unfold settle
  cases jsGet c.settled p' with
  | some _ => exact ⟨hk, hp⟩
  | none =>
    refine ⟨?_, ?_⟩
    · simp only [List.mem_filter]
      exact ⟨hk, by simpa using Ne.symm hne⟩
    · simp [jsGet_append, hp, jsGet, hne]

theorem settle_microtasks (p : Nat) (o : Outcome) (c : Connection) :
    ∀ x ∈ c.microtasks, x ∈ (c.settle p o).microtasks := by
  intro x hx
  unfold settle
  cases jsGet c.settled p with
  | some _ => exact hx
  | none => exact List.mem_append_left _ hx

/-- On an open socket the replay loop never drops a microtask. -/
theorem drainQueue_microtasks (l : List Queued) {c : Connection} {s : Socket}
    (hs : c.socket = some s) (ho : s.readyState = WebSocket.OPEN)
    (hq : c._queuedMessages = none) :
    ∀ x ∈ c.microtasks, x ∈ (drainQueue l c).1.microtasks := by
  induction l generalizing c with
  | nil => exact fun x hx => hx
  | cons y l ih =>
    intro x hx
    cases y with
    | send m =>
      simp only [drainQueue, sendMessage_fresh m hq hs ho]
      exact ih (c := c._genCmdId.1.log (.send s.id (c.commandId + 1) m))
        (by simpa using hs) (by simpa using hq) x (by simpa using hx)
    | call m outer =>
      have hsent := sendMessagePromise_sent m hq hs ho
      simp only [drainQueue]
      refine ih (c := (c.sendMessagePromise m).1.await (c.sendMessagePromise m).2
        (.forward outer)) (by simpa [hsent] using hs) (by simpa [hsent] using hq) x ?_
      apply (await_extends _ _ _).2.2.2.2.2.2.1
      rw [hsent]
      exact hx
    | wait p =>
      simp only [drainQueue]
      refine ih (c := c.resolve p .undefined) (by simpa using hs) (by simpa using hq) x ?_
      exact settle_microtasks _ _ _ x (by simpa using hx)

/-- On an open socket the replay loop wakes every continuation that waits in the queue. -/
theorem drainQueue_wakes (l : List Queued) {c : Connection} {s : Socket} {p : Nat} {k : Cont}
    (hs : c.socket = some s) (ho : s.readyState = WebSocket.OPEN)
    (hq : c._queuedMessages = none) (hmem : Queued.wait p ∈ l)
    (hk : (p, k) ∈ c.reactions) (hp : jsGet c.settled p = none) :
    (k, Outcome.fulfilled .undefined) ∈ (drainQueue l c).1.microtasks := by
  induction l generalizing c with
  | nil => simp at hmem
  | cons y l ih =>
    cases y with
    | send m =>
      simp only [drainQueue, sendMessage_fresh m hq hs ho]
      exact ih (c := c._genCmdId.1.log (.send s.id (c.commandId + 1) m))
        (by simpa using hs) (by simpa using hq) (by simpa using hmem) (by simpa using hk)
        (by simpa using hp)
    | call m outer =>
      have hsent := sendMessagePromise_sent m hq hs ho
      have hext := await_extends (c.sendMessagePromise m).2 (.forward outer)
        (c.sendMessagePromise m).1
      simp only [drainQueue]
      refine ih (c := (c.sendMessagePromise m).1.await (c.sendMessagePromise m).2
        (.forward outer)) (by simpa [hsent] using hs) (by simpa [hsent] using hq)
        (by simpa using hmem) ?_ ?_
      · apply hext.2.2.2.2.2.1
        rw [hsent]
        exact hk
      · rw [hext.1, hsent]
        exact hp
    | wait p' =>
      simp only [drainQueue]
      by_cases hpp : p' = p
      · subst hpp
        apply drainQueue_microtasks l (c := c.resolve p' .undefined) (s := s)
          (by simpa using hs) ho (by simpa using hq)
        exact settle_wakes (c := c.log (.resolve p' .undefined)) _ (by simpa using hk)
          (by simpa using hp)
      · have h1 := settle_keeps (c := c.log (.resolve p' .undefined))
          (.fulfilled .undefined) hpp (by simpa using hk) (by simpa using hp)
        refine ih (c := c.resolve p' .undefined) (by simpa using hs) (by simpa using hq) ?_
          h1.1 h1.2
        rcases List.mem_cons.1 hmem with h | h
        · exact absurd (by simpa using h) (Ne.symm hpp)
        · exact h

theorem setSocket_of_old (sock : Socket) {c : Connection} {old : List (Nat × Info)}
    (hold : c.oldSubscriptions = some old) :
    c._setSocket sock =
      (match ((c.attachSocket sock).resubscribeAll old)._queuedMessages with
        | some q =>
          match drainQueue q
            { ((c.attachSocket sock).resubscribeAll old) with _queuedMessages := none } with
          | (c, none) => (c.fireEvent "ready" none, none)
          | (c, some err) => (c, some err)
        | none => (((c.attachSocket sock).resubscribeAll old).fireEvent "ready" none, none)) := by
  simp [_setSocket, attachSocket, hold, log]

theorem attachSocket_fields (sock : Socket) (c : Connection) :
    (c.attachSocket sock)._queuedMessages = c._queuedMessages ∧
    (c.attachSocket sock).commandId = c.commandId ∧
    (c.attachSocket sock).settled = c.settled ∧
    (c.attachSocket sock).nextPromise = c.nextPromise ∧
    (c.attachSocket sock).socket = some sock := by
  simp [attachSocket]

end Connection

namespace Connection

theorem event_reaches_callback {cb j : Nat} {t : Connection} (h : t.Subscribed cb j)
    (ev : Json) :
    (t._handleMessage (.single { id := j, type := .event, event := ev })).1.trace =
      t.trace ++ [.callback cb ev] := by
  obtain ⟨info, s, h1, h2, h3⟩ := h
  rw [handleMessage_single]
  simp [handleMessage1, h1, h2, h3]

theorem subscribeRegister_subscribed (r : Resubscribe) (ret : Nat) (t : Connection) :
    (t.subscribeRegister r ret).Subscribed r.callback (t.commandId + 1) :=
  ⟨_, _, (subscribeRegister_spec r ret t).2.2.2, rfl, rfl⟩

theorem resubscribeAll_none {old : List (Nat × Info)}
    (h : ∀ e ∈ old, e.2.subscribe? = none) (c : Connection) : c.resubscribeAll old = c := by
  induction old generalizing c with
  | nil => rfl
  | cons e old ih =>
    have he := h e (List.mem_cons_self _ _)
    simp only [resubscribeAll, resubscribe, he]
    exact ih (fun e' he' => h e' (List.mem_cons_of_mem _ he')) c

theorem handleClose_carries (c : Connection) :
    c._handleClose.commands = [] ∧ c._handleClose.oldSubscriptions = some c.commands := by
  unfold _handleClose
  simp only [rejectCommands_fields]
  cases c.closeRequested with
  | true => simp [rejectCommands_fields]
  | false =>
    cases hsus : c.suspendReconnectPromise <;> simp [rejectCommands_fields, hsus]

end Connection

/-- C3, as the code has it. Let `e` be an entry of the table carried over from a channel
loss (`_handleClose` keeps the whole commands table as `oldSubscriptions`) whose subscribe
closure `r` is set, which is the case for an entry created by `subscribeMessage` unless
`resubscribe` is `false`. On `_setSocket`, without the caller doing anything:

* with no queue in place and no `preCheck` in the options, the subscription is registered
  at once under an id above the current `commandId`, with the callback of the closure;
* with no queue in place and a `preCheck`, the pre-check is called and the replay waits for
  its promise; with a queue in place (a resumed suspension), the replay waits in the queue
  and `_setSocket` itself wakes it: its continuation is a microtask when `_setSocket` ends;
* whenever these continuations run, they register the subscription under the next id,
  provided the pre-check (if any) resolves to a truthy value; a pre-check that resolves to a
  falsy value rejects the replay with "Pre-check failed" and registers nothing;
* a push event carrying the id of a registered subscription calls its callback;
* an entry without a subscribe closure (`resubscribe: false`) is skipped by the replay. -/
theorem C3_subscriptions_replayed_on_reconnect (c : Connection) (old : List (Nat × Info))
    (sock : Socket) (e : Nat × Info) (s : Subscription) (r : Resubscribe)
    (hold : c.oldSubscriptions = some old) (he : e ∈ old)
    (hsub : e.2.subscribe? = some (s, r)) :
    (∀ c₀ : Connection, c₀._handleClose.oldSubscriptions = some c₀.commands) ∧
    (c._queuedMessages = none → r.options.preCheck = none →
      ∃ j, c.commandId < j ∧ (c._setSocket sock).1.Subscribed r.callback j) ∧
    (c._queuedMessages = none → c.Fresh → ∀ fn, r.options.preCheck = some fn →
      ∃ p ret, Effect.preCheck fn p ∈ (c._setSocket sock).1.trace ∧
        (p, Cont.subscribeChecked r ret) ∈ (c._setSocket sock).1.reactions) ∧
    (∀ q, c._queuedMessages = some q → c.Fresh → sock.readyState = WebSocket.OPEN →
      ∃ ret, (Cont.subscribeDequeued r ret, Outcome.fulfilled .undefined) ∈
        (c._setSocket sock).1.microtasks) ∧
    (∀ (t : Connection) ret v, r.options.preCheck = none →
      (t.runCont (.subscribeDequeued r ret) (.fulfilled v)).Subscribed r.callback
        (t.commandId + 1)) ∧
    (∀ (t : Connection) ret v fn, r.options.preCheck = some fn → t.Fresh →
      (t.runCont (.subscribeDequeued r ret) (.fulfilled v)).trace =
        t.trace ++ [.preCheck fn t.nextPromise] ∧
      (t.nextPromise, Cont.subscribeChecked r ret) ∈
        (t.runCont (.subscribeDequeued r ret) (.fulfilled v)).reactions) ∧
    (∀ (t : Connection) ret v, v.truthy = true →
      (t.runCont (.subscribeChecked r ret) (.fulfilled v)).Subscribed r.callback
        (t.commandId + 1)) ∧
    (∀ (t : Connection) ret v, v.truthy = false →
      t.runCont (.subscribeChecked r ret) (.fulfilled v) =
        t.reject ret (.exception "Pre-check failed")) ∧
    (∀ (t : Connection) j ev, t.Subscribed r.callback j →
      (t._handleMessage (.single { id := j, type := .event, event := ev })).1.trace =
        t.trace ++ [.callback r.callback ev]) ∧
    (∀ (t : Connection) (r' : Resubscribe) ret, ∃ info,
      jsGet (t.subscribeRegister r' ret).commands (t.commandId + 1) = some info ∧
      (r'.options.resubscribe ≠ some false →
        ∃ s', info.subscribe? = some (s', r') ∧ s'.callback = r'.callback) ∧
      (r'.options.resubscribe = some false → info.subscribe? = none)) ∧
    (∀ (t : Connection) (info : Info), info.subscribe? = none → t.resubscribe info = t) ∧
    (∀ (t : Connection) (old' : List (Nat × Info)),
      (∀ e' ∈ old', e'.2.subscribe? = none) → t.resubscribeAll old' = t) := by
  have hset := Connection.setSocket_of_old sock hold
  have hatt := Connection.attachSocket_fields sock c
  refine ⟨fun c₀ => (Connection.handleClose_carries c₀).2, ?_, ?_, ?_, ?_, ?_, ?_, ?_, ?_, ?_,
    fun t info h => by simp [Connection.resubscribe, h], ?_⟩
  · intro hq hpc
    have hq' : (c.attachSocket sock)._queuedMessages = none := by rw [hatt.1]; exact hq
    obtain ⟨j, hj, hs⟩ := Connection.resubscribeAll_registers he hq' hsub hpc
    have hq'' := (Connection.resubscribeAll_extends old (c.attachSocket sock)).2 hq'
    rw [hset, hq'']
    refine ⟨j, by rw [hatt.2.1] at hj; exact hj, ?_⟩
    obtain ⟨info, s', h1, h2, h3⟩ := hs
    exact ⟨info, s', by simpa using h1, h2, h3⟩
  · intro hq hf fn hpc
    have hq' : (c.attachSocket sock)._queuedMessages = none := by rw [hatt.1]; exact hq
    have hf' : (c.attachSocket sock).Fresh := by
      intro p hp
      rw [hatt.2.2.1]
      exact hf p (by rw [hatt.2.2.2.1] at hp; exact hp)
    obtain ⟨p, ret, h1, h2⟩ := Connection.resubscribeAll_prechecks he hq' hf' hsub hpc
    have hq'' := (Connection.resubscribeAll_extends old (c.attachSocket sock)).2 hq'
    rw [hset, hq'']
    exact ⟨p, ret, by simp [h1], by simpa using h2⟩
  · intro q hq hf ho
    have hq' : (c.attachSocket sock)._queuedMessages = some q := by rw [hatt.1]; exact hq
    have hf' : (c.attachSocket sock).Fresh := by
      intro p hp
      rw [hatt.2.2.1]
      exact hf p (by rw [hatt.2.2.2.1] at hp; exact hp)
    obtain ⟨p, ret, q', h1, h2, h3, h4⟩ := Connection.resubscribeAll_waits he hq' hf' hsub
    have hsock : ((c.attachSocket sock).resubscribeAll old).socket = some sock := by
      rw [(Connection.resubscribeAll_extends old (c.attachSocket sock)).1.2.2.1]
      exact hatt.2.2.2.2
    have hd := Connection.drainQueue_open q'
      (c := { ((c.attachSocket sock).resubscribeAll old) with _queuedMessages := none })
      (s := sock) hsock ho rfl
    have hw := Connection.drainQueue_wakes q'
      (c := { ((c.attachSocket sock).resubscribeAll old) with _queuedMessages := none })
      (s := sock) (p := p) (k := .subscribeDequeued r ret) hsock ho rfl h2 h3 h4
    rw [hset, h1]
    dsimp only
    rcases hdq : Connection.drainQueue q'
      { ((c.attachSocket sock).resubscribeAll old) with _queuedMessages := none }
      with ⟨cd, _ | err⟩
    · rw [hdq] at hw
      exact ⟨ret, by simpa using hw⟩
    · rw [hdq] at hd
      simp at hd
  · intro t ret v hpc
    have : t.runCont (.subscribeDequeued r ret) (.fulfilled v) = t.subscribeRegister r ret := by
      simp [Connection.runCont, Connection.subscribePreCheck, hpc]
    rw [this]
    exact Connection.subscribeRegister_subscribed r ret t
  · intro t ret v fn hpc hf
    have : t.runCont (.subscribeDequeued r ret) (.fulfilled v) =
        (t.newPromise.1.log (.preCheck fn t.nextPromise)).await t.nextPromise
          (.subscribeChecked r ret) := by
      simp [Connection.runCont, Connection.subscribePreCheck, hpc, Connection.newPromise]
    rw [this]
    refine ⟨by simp, Connection.await_pending _ ?_⟩
    simpa using hf t.nextPromise (Nat.le_refl _)
  · intro t ret v hv
    have : t.runCont (.subscribeChecked r ret) (.fulfilled v) = t.subscribeRegister r ret := by
      simp [Connection.runCont, hv]
    rw [this]
    exact Connection.subscribeRegister_subscribed r ret t
  · intro t ret v hv
    simp [Connection.runCont, hv]
  · intro t j ev h
    exact Connection.event_reaches_callback h ev
  · intro t r' ret
    refine ⟨_, (Connection.subscribeRegister_spec r' ret t).2.2.2, ?_, ?_⟩
    · intro h
      exact ⟨{ ref := t.nextRef, callback := r'.callback, subscribe := some r' },
        by simp [Info.subscribe?, h], rfl⟩
    · intro h
      simp [Info.subscribe?, h]
  · intro t old' h
    exact Connection.resubscribeAll_none h t

/-- Witness of C3: the subscription of `sampleSubscribed` (callback 11, no options) is
carried over a channel loss and is registered again, under the id 2, by `_setSocket` with
the socket 8. -/
theorem C3_subscriptions_replayed_on_reconnect_witness :
    sampleSubscribed._handleClose.oldSubscriptions = some sampleSubscribed.commands ∧
    (sampleSubscribed._handleClose._setSocket { id := 8 }).1.Subscribed 11 2 := by
  refine ⟨by decide, ?_⟩
  obtain ⟨j, _, info, s, h1, h2, h3⟩ :=
    (C3_subscriptions_replayed_on_reconnect sampleSubscribed._handleClose
      sampleSubscribed.commands { id := 8 }
      (3, { promise := 1,
            sub := some { ref := 0, callback := 11, subscribe := some sampleSubscribe } })
      { ref := 0, callback := 11, subscribe := some sampleSubscribe } sampleSubscribe
      (by decide) (by decide) rfl).2.1 (by decide) rfl
  have hc : (sampleSubscribed._handleClose._setSocket { id := 8 }).1.commands =
      [(2, { promise := 3,
             sub := some { ref := 1, callback := 11, subscribe := some sampleSubscribe } })] := by
    decide
  rw [hc] at h1
  have hj : j = 2 := by
    by_contra hne
    simp [jsGet, Ne.symm hne] at h1
  subst hj
  exact ⟨info, s, by rw [hc]; exact h1, h2, h3⟩

/-! ## C13: a failure reply -/

/-- C13. An inbound `result` message with `success` false whose id has an entry in the
commands table rejects that entry's promise, passing `message.error` through as it is, and
deletes that entry. This is the only effect: no other promise settles, every other entry of
the table is as before, and the queue, the socket, `closeRequested`, the suspend promise,
`oldSubscriptions`, the timers, the id counter and the listeners are unchanged. -/
theorem C13_failure_reply_frame (c : Connection) (m : InMsg) (info : Info)
    (ht : m.type = .result) (hs : m.success = false)
    (hi : jsGet c.commands m.id = some info) :
    let c' := (c._handleMessage (.single m)).1
    (c._handleMessage (.single m)).2 = none ∧
    c'.trace = c.trace ++ [.reject info.promise (.server m.error)] ∧
    (∀ q, q ≠ info.promise → jsGet c'.settled q = jsGet c.settled q) ∧
    c'.commands = jsDelete c.commands m.id ∧
    jsGet c'.commands m.id = none ∧
    (∀ j, j ≠ m.id → jsGet c'.commands j = jsGet c.commands j) ∧
    c'._queuedMessages = c._queuedMessages ∧ c'.socket = c.socket ∧
    c'.closeRequested = c.closeRequested ∧
    c'.suspendReconnectPromise = c.suspendReconnectPromise ∧
    c'.oldSubscriptions = c.oldSubscriptions ∧ c'.timers = c.timers ∧
    c'.commandId = c.commandId ∧ c'.eventListeners = c.eventListeners ∧
    c'.unsubscribes = c.unsubscribes := by
  intro c'
  have hc' : c' = (c.handleMessage1 m).1 := Connection.handleMessage_single m c
  have h : c' = { c.reject info.promise (.server m.error) with
      commands := jsDelete c.commands m.id } := by
    rw [hc']
    simp [Connection.handleMessage1, ht, hi, hs]
  have h2 : (c._handleMessage (.single m)).2 = none := by
    simp [Connection._handleMessage, Connection.handleMessageGroup, Connection.handleMessage1,
      ht, hi, hs]
  refine ⟨h2, by simp [h], ?_, by simp [h], by simp [h, jsGet_jsDelete_same], ?_,
    by simp [h], by simp [h], by simp [h], by simp [h], by simp [h], by simp [h], by simp [h],
    by simp [h], by simp [h]⟩
  · intro q hq
    rw [h]
    show jsGet (c.reject info.promise (.server m.error)).settled q = _
    unfold Connection.reject Connection.settle
    split
    · simp
    · simp [jsGet_append, jsGet, Ne.symm hq]
  · intro j hj
    rw [h]
    exact jsGet_jsDelete_ne _ _ _ hj


/-- Witness of C13: the server fails the call 3 of the sample connection. -/
theorem C13_failure_reply_frame_witness :
    (sampleBusy._handleMessage
      (.single { id := 3, type := .result, success := false, error := "not_found" })).1.trace =
      sampleBusy.trace ++ [.reject 0 (.server "not_found")] :=
  (C13_failure_reply_frame sampleBusy
    { id := 3, type := .result, success := false, error := "not_found" } { promise := 0 }
    rfl rfl rfl).2.1

/-! ## C12: push events -/

/-- C12. An inbound `event` message is routed by its id. If the id is not a key of the
commands table, no callback is invoked and `unsubscribeEvents(id)` (type
`unsubscribe_events`, `subscription` equal to the id) is issued through
`sendMessagePromise`: on a connected connection without a queue it is sent on the socket at
once; on a connection that is not connected nothing is sent and the call is rejected with
`ERR_CONNECTION_LOST` (the rejection is swallowed); with a queue in place the call is queued
and nothing is sent. If the id is the key of a subscription entry, the entry's callback is
invoked with `message.event` and this is all that happens: nothing is sent. -/
theorem C12_event_routing (c : Connection) (m : InMsg) (ht : m.type = .event) :
    let c' := (c._handleMessage (.single m)).1
    (jsGet c.commands m.id = none →
      callbacks c'.trace = callbacks c.trace ∧
      (unsubscribeEvents m.id).type = "unsubscribe_events" ∧
      (unsubscribeEvents m.id).subscription = some m.id ∧
      (∀ s, c._queuedMessages = none → c.socket = some s → s.readyState = WebSocket.OPEN →
        sentFrames c'.trace =
          sentFrames c.trace ++ [(s.id, c.commandId + 1, unsubscribeEvents m.id)]) ∧
      (c._queuedMessages = none → c.connected = false →
        sentFrames c'.trace = sentFrames c.trace ∧
        settlements c.nextPromise c'.trace =
          settlements c.nextPromise c.trace ++
            [.reject c.nextPromise (.code ERR_CONNECTION_LOST)]) ∧
      (∀ q, c._queuedMessages = some q →
        sentFrames c'.trace = sentFrames c.trace ∧
        c'._queuedMessages = some (q ++ [.call (unsubscribeEvents m.id) c.nextPromise]))) ∧
    (∀ info s, jsGet c.commands m.id = some info → info.sub = some s →
      c' = c.log (.callback s.callback m.event) ∧
      callbacks c'.trace = callbacks c.trace ++ [(s.callback, m.event)] ∧
      sentFrames c'.trace = sentFrames c.trace) := by
  intro c'
  have hc' : c' = (c.handleMessage1 m).1 := Connection.handleMessage_single m c
  constructor
  · intro hi
    have h : c' = ((c.log (.warn "Received event for unknown subscription. Unsubscribing.")
        ).sendMessagePromise (unsubscribeEvents m.id)).1.await
        ((c.log (.warn "Received event for unknown subscription. Unsubscribing.")
        ).sendMessagePromise (unsubscribeEvents m.id)).2 .swallow := by
      rw [hc']
      simp [Connection.handleMessage1, ht, hi]
    refine ⟨?_, rfl, rfl, ?_, ?_, ?_⟩
    · rw [h]
      cases hq : c._queuedMessages with
      | some q =>
        rw [Connection.sendMessagePromise_queued _ (by simpa using hq)]
        simp [callbacks_append, callbacks]
      | none =>
        cases hc : c.connected with
        | false =>
          rw [Connection.sendMessagePromise_lost _ (by simpa using hq) (by simpa using hc)]
          simp [callbacks_append, callbacks]
        | true =>
          obtain ⟨s, hs, ho⟩ := (Connection.connected_iff c).1 hc
          rw [Connection.sendMessagePromise_sent (s := s) _ (by simpa using hq)
            (by simpa using hs) ho]
          simp [callbacks_append, callbacks]
    · intro s hq hs ho
      rw [h, Connection.sendMessagePromise_sent (s := s) _ (by simpa using hq)
        (by simpa using hs) ho]
      simp [sentFrames_append, sentFrames]
    · intro hq hc
      rw [h, Connection.sendMessagePromise_lost _ (by simpa using hq) (by simpa using hc)]
      simp [sentFrames_append, sentFrames, settlements_append, settlements, Effect.settles]
    · intro q hq
      rw [h, Connection.sendMessagePromise_queued (q := q) _ (by simpa using hq)]
      simp [sentFrames_append, sentFrames]
  · intro info s hi hsub
    have h : c' = c.log (.callback s.callback m.event) := by
      rw [hc']
      simp [Connection.handleMessage1, ht, hi, hsub]
    refine ⟨h, ?_, ?_⟩
    · rw [h]; simp [callbacks_append, callbacks]
    · rw [h]; simp [sentFrames_append, sentFrames]

/-- Counterexample to C12 as stated: after `close()` the socket is closing and can still
deliver a message. A push event with the unknown id 9 then sends nothing: the unsubscribe
call is rejected with `ERR_CONNECTION_LOST`, because `sendMessage` throws when the socket is
not open. -/
theorem C12_event_on_closing_socket_sends_nothing :
    jsGet sampleClosing.commands 9 = none ∧
    sentFrames (sampleClosing._handleMessage (.single { id := 9, type := .event })).1.trace
      = [] ∧
    (sampleClosing._handleMessage (.single { id := 9, type := .event })).1.trace =
      sampleClosing.trace ++
        [.warn "Received event for unknown subscription. Unsubscribing.",
         .reject 0 (.code ERR_CONNECTION_LOST)] := by
  decide

/-- Witness of C12: an event with the unknown id 9 on the fresh connection. -/
theorem C12_event_routing_witness :
    sentFrames (sampleConnection._handleMessage (.single { id := 9, type := .event })).1.trace =
      sentFrames sampleConnection.trace ++ [(7, 3, unsubscribeEvents 9)] :=
  ((C12_event_routing sampleConnection { id := 9, type := .event } rfl).1 (by decide)).2.2.2.1
    { id := 7 } (by decide) (by decide) (by decide)


/-! ## C14: batches -/

theorem checkpoint_of_empty (fuel : Nat) {c : Connection} (h : c.microtasks = []) :
    c.checkpoint fuel = some c := by
  cases fuel with
  | zero => simp [Connection.checkpoint, h]
  | succ fuel =>
    unfold Connection.checkpoint
    rw [h]

/-- A batch that runs to its end leaves the state that the loop body leaves when it handles
the messages one after the other. -/
theorem handleMessageGroup_none (ms : List InMsg) (c : Connection)
    (h : (Connection.handleMessageGroup ms c).2 = none) :
    (Connection.handleMessageGroup ms c).1 =
      ms.foldl (fun c m => (c.handleMessage1 m).1) c := by
  induction ms generalizing c with
  | nil => rfl
  | cons m ms ih =>
    unfold Connection.handleMessageGroup at h ⊢
    rw [List.foldl_cons]
    cases hm : c.handleMessage1 m with
    | mk c1 e =>
      rw [hm] at h
      cases e with
      | none => exact ih c1 h
      | some e => simp at h

/-- A batch in which a message throws ends with that message. -/
theorem handleMessageGroup_some (ms : List InMsg) (c : Connection) (e : Rejection)
    (h : (Connection.handleMessageGroup ms c).2 = some e) :
    ∃ pre m post, ms = pre ++ m :: post ∧
      (Connection.handleMessageGroup pre c).2 = none ∧
      ((Connection.handleMessageGroup pre c).1.handleMessage1 m).2 = some e ∧
      (Connection.handleMessageGroup ms c).1 =
        (pre ++ [m]).foldl (fun c m => (c.handleMessage1 m).1) c := by
  induction ms generalizing c with
  | nil => simp [Connection.handleMessageGroup] at h
  | cons m ms ih =>
    unfold Connection.handleMessageGroup at h ⊢
    cases hm : c.handleMessage1 m with
    | mk c1 e1 =>
      rw [hm] at h
      cases e1 with
      | none =>
        obtain ⟨pre, m', post, h1, h0, h2, h3⟩ := ih c1 h
        refine ⟨m :: pre, m', post, by simp [h1], ?_, ?_, ?_⟩
        · simp only [Connection.handleMessageGroup, hm]
          exact h0
        · simp only [Connection.handleMessageGroup, hm]
          exact h2
        · simp only [List.cons_append, List.foldl_cons, hm]
          exact h3
      | some e1 =>
        refine ⟨[], m, ms, rfl, rfl, ?_, ?_⟩
        · simp only [Connection.handleMessageGroup, hm]
          simpa using h
        · simp [hm]

/-- A batch that runs up to its last message leaves the state that the loop body leaves when
it handles the messages one after the other, whether or not the last one throws. -/
theorem handleMessageGroup_snoc (pre : List InMsg) (m : InMsg) (c : Connection)
    (h0 : (Connection.handleMessageGroup pre c).2 = none) :
    (Connection.handleMessageGroup (pre ++ [m]) c).1 =
      (pre ++ [m]).foldl (fun c m => (c.handleMessage1 m).1) c := by
  induction pre generalizing c with
  | nil =>
    simp only [List.nil_append, Connection.handleMessageGroup, List.foldl_cons,
      List.foldl_nil]
    rcases hm : c.handleMessage1 m with ⟨c1, _ | e1⟩ <;> rfl
  | cons x pre ih =>
    simp only [List.cons_append, List.foldl_cons]
    unfold Connection.handleMessageGroup at h0 ⊢
    cases hx : c.handleMessage1 x with
    | mk c1 e1 =>
      rw [hx] at h0
      cases e1 with
      | none => exact ih c1 h0
      | some e1 => simp at h0

/-- When no continuation becomes ready between the messages, handling them in one task and
then running the microtasks is dispatching them one payload at a time. -/
theorem checkpoint_foldl_eq_dispatchEach (fuel : Nat) (ms : List InMsg) (c : Connection)
    (hc : c.microtasks = []) (hq : c.quietBetween ms = true) :
    (ms.foldl (fun c m => (c.handleMessage1 m).1) c).checkpoint fuel =
      c.dispatchEach fuel ms := by
  induction ms generalizing c with
  | nil => exact checkpoint_of_empty fuel hc
  | cons m ms ih =>
    have hs : (c._handleMessage (.single m)).1 = (c.handleMessage1 m).1 :=
      Connection.handleMessage_single m c
    rw [List.foldl_cons]
    unfold Connection.dispatchEach
    rw [hs]
    cases ms with
    | nil =>
      simp only [List.foldl_nil]
      cases (c.handleMessage1 m).1.checkpoint fuel <;> rfl
    | cons m' rest =>
      unfold Connection.quietBetween at hq
      simp only [Bool.and_eq_true, decide_eq_true_eq] at hq
      rw [checkpoint_of_empty fuel hq.1]
      exact ih _ hq.1 hq.2

/-- C14. A payload that is a single message is dispatched exactly like the one-element
batch of it. A batch is handled within one task: its messages in array order, with no
continuation run between two of them, and a message that throws ends it. Let the task start
with an empty microtask queue, as every task does. If the batch runs to its end and no
continuation becomes ready between its messages, then the batch followed by the microtasks
leaves the state, and so the sequence of callback invocations, that dispatching its messages
one payload at a time in array order leaves (the same `fuel` bounds the microtasks of each
task). If a message throws, the batch ends there, and when no continuation becomes ready
between the messages up to it, the state is that of dispatching these one payload at a
time: the messages after it are not dispatched. -/
theorem C14_batch_is_sequence_when_quiet (c : Connection) (ms : List InMsg) (fuel : Nat)
    (hc : c.microtasks = []) :
    (∀ m, c._handleMessage (.single m) = c._handleMessage (.batch [m])) ∧
    ((c._handleMessage (.batch ms)).2 = none → c.quietBetween ms = true →
      (c._handleMessage (.batch ms)).1.checkpoint fuel = c.dispatchEach fuel ms ∧
      ((c._handleMessage (.batch ms)).1.checkpoint fuel).map (fun c => callbacks c.trace) =
        (c.dispatchEach fuel ms).map (fun c => callbacks c.trace)) ∧
    (∀ e, (c._handleMessage (.batch ms)).2 = some e →
      ∃ pre m post, ms = pre ++ m :: post ∧
        (c._handleMessage (.batch pre)).2 = none ∧
        ((c._handleMessage (.batch pre)).1.handleMessage1 m).2 = some e ∧
        (c._handleMessage (.batch ms)).1 = (c._handleMessage (.batch (pre ++ [m]))).1 ∧
        (c.quietBetween (pre ++ [m]) = true →
          (c._handleMessage (.batch ms)).1.checkpoint fuel =
            c.dispatchEach fuel (pre ++ [m]))) := by
  refine ⟨fun _ => rfl, fun h hq => ?_, fun e h => ?_⟩
  · have h1 : (c._handleMessage (.batch ms)).1 =
        ms.foldl (fun c m => (c.handleMessage1 m).1) c := handleMessageGroup_none ms c h
    have h2 : (c._handleMessage (.batch ms)).1.checkpoint fuel = c.dispatchEach fuel ms := by
      rw [h1]
      exact checkpoint_foldl_eq_dispatchEach fuel ms c hc hq
    exact ⟨h2, congrArg _ h2⟩
  · obtain ⟨pre, m, post, h1, h0, h2, h3⟩ := handleMessageGroup_some ms c e h
    refine ⟨pre, m, post, h1, h0, h2, ?_, fun hq => ?_⟩
    · show (Connection.handleMessageGroup ms c).1 =
        (Connection.handleMessageGroup (pre ++ [m]) c).1
      rw [handleMessageGroup_snoc pre m c h0]
      exact h3
    · show (Connection.handleMessageGroup ms c).1.checkpoint fuel = _
      rw [h3]
      exact checkpoint_foldl_eq_dispatchEach fuel _ c hc hq

/-- Witness of C14: a batch of a push event for the subscription 4 and the reply to the
call 3; dispatched either way, the callback 11 is invoked once and the call is resolved. -/
theorem C14_batch_is_sequence_when_quiet_witness :
    (sampleBusy._handleMessage (.batch
      [{ id := 4, type := .event, event := "a" },
       { id := 3, type := .result, success := true, result := "ok" }])).1.checkpoint 3 =
    sampleBusy.dispatchEach 3
      [{ id := 4, type := .event, event := "a" },
       { id := 3, type := .result, success := true, result := "ok" }] ∧
    (sampleBusy.dispatchEach 3
      [{ id := 4, type := .event, event := "a" },
       { id := 3, type := .result, success := true, result := "ok" }]).map
        (fun c => (callbacks c.trace, settlements 0 c.trace)) =
      some ([(11, "a")], [.resolve 0 (.json "ok")]) :=
  ⟨((C14_batch_is_sequence_when_quiet sampleBusy
      [{ id := 4, type := .event, event := "a" },
       { id := 3, type := .result, success := true, result := "ok" }] 3 rfl).2.1
    (by decide) (by decide)).1, by decide⟩

/-- Counterexample to C14 as stated, in two parts. First, a continuation: the caller of
`sampleUnsubscribing` waits for the reply to `unsubscribe_events` (id 4) for the
subscription 3 (callback 11). In the batch of that reply and a push event for the id 3, the
event is handled before the unsubscribe closure goes on, the entry 3 is still there and the
callback 11 is invoked. Dispatched as two payloads, the closure deletes the entry 3 at the
end of the first task: the event finds no entry, the callback is not invoked, and
`unsubscribe_events` is sent once more, under the id 5. Second, an exception: the sample
connection `sampleBusy` has the call 3 and the subscription 4 (callback 11). In the batch of
a push event for the id 3 and one for the id 4, the first throws (`info.callback` is not a
function for a call entry) and ends the `forEach`, so callback 11 is never invoked;
dispatched as two payloads, the second event reaches callback 11. -/
theorem C14_batch_differs_from_payloads :
    ((sampleUnsubscribing._handleMessage (.batch
      [{ id := 4, type := .result, success := true },
       { id := 3, type := .event, event := "a" }])).1.checkpoint 3).map
        (fun c => (callbacks c.trace, (sentFrames c.trace).drop 2)) =
      some ([(11, "a")], []) ∧
    (sampleUnsubscribing.dispatchEach 3
      [{ id := 4, type := .result, success := true },
       { id := 3, type := .event, event := "a" }]).map
        (fun c => (callbacks c.trace, (sentFrames c.trace).drop 2)) =
      some ([], [(7, 5, unsubscribeEvents 3)]) ∧
    ((sampleBusy._handleMessage (.batch
      [{ id := 3, type := .event, event := "a" },
       { id := 4, type := .event, event := "b" }])).1.checkpoint 3).map
        (fun c => callbacks c.trace) = some [] ∧
    (sampleBusy.dispatchEach 3
      [{ id := 3, type := .event, event := "a" },
       { id := 4, type := .event, event := "b" }]).map
        (fun c => callbacks c.trace) = some [(11, "b")] :=
  ⟨by decide, by decide, by decide, by decide⟩

/-! ## C1: a call and a stale unsubscribe closure -/

/-- C1, evaluated: the run `sampleStaleUnsubscribe`, every action a task of its own. The
call `get_config` is issued while the connection is connected; it gets the id 4 and the
promise 8, its entry is registered and its frame is sent on the socket 8, right after the
frame `unsubscribe_events` for the old id 4, which went out under the id 3. The reply to
`unsubscribe_events` (id 3) then resolves the promise that the stale unsubscribe closure
awaits, and at the end of that task the closure runs `commands.delete(4)`: the entry of the
call is gone. The reply to the call finds no entry and does nothing: the trace is as it was
before it, and the promise 8 is never settled, also when the reply is sent again. -/
theorem C1_stale_unsubscribe_deletes_call :
    (sampleConnection.tasks 3 sampleStaleUnsubscribe).map
        (fun c => (c.connected, c.commandId, jsGet c.commands 4)) =
      some (true, 4, some { promise := 8 }) ∧
    (sampleConnection.tasks 3 sampleStaleUnsubscribe).map (fun c => c._queuedMessages) =
      some none ∧
    (sampleConnection.tasks 3 sampleStaleUnsubscribe).map
        (fun c => ((sentFrames c.trace).drop 3, settlements 8 c.trace)) =
      some ([(8, 3, unsubscribeEvents 4), (8, 4, { type := "get_config" })], []) ∧
    (sampleConnection.tasks 3 (sampleStaleUnsubscribe ++
        [.message (.single { id := 3, type := .result, success := true })])).map
        (fun c => (jsGet c.commands 4, settlements 8 c.trace, c.microtasks)) =
      some (none, [], []) ∧
    (sampleConnection.tasks 3 (sampleStaleUnsubscribe ++
        [.message (.single { id := 3, type := .result, success := true }),
         .message (.single { id := 4, type := .result, success := true, result := "cfg" }),
         .message (.single { id := 4, type := .result, success := true, result := "cfg" })])).map
        (fun c => (c.trace, c.microtasks)) =
      (sampleConnection.tasks 3 (sampleStaleUnsubscribe ++
        [.message (.single { id := 3, type := .result, success := true })])).map
        (fun c => (c.trace, c.microtasks)) ∧
    (sampleConnection.tasks 3 (sampleStaleUnsubscribe ++
        [.message (.single { id := 3, type := .result, success := true }),
         .message (.single { id := 4, type := .result, success := true, result := "cfg" }),
         .message (.single { id := 4, type := .result, success := true, result := "cfg" })])).map
        (fun c => settlements 8 c.trace) = some [] :=
  ⟨by decide, by decide, by decide, by decide, by decide, by decide⟩

/-! ## C11: after `close()` -/

namespace Connection

theorem NoNewSocket.unchanged (c : Connection) : c.NoNewSocket c := ⟨rfl, rfl⟩

theorem NoNewSocket.andThen {a b c : Connection} (h1 : a.NoNewSocket b) (h2 : b.NoNewSocket c) :
    a.NoNewSocket c :=
  ⟨h2.1.trans h1.1, h2.2.trans h1.2⟩

theorem NoNewSocket.of_eq {c c' : Connection} (h1 : c'.closeRequested = c.closeRequested)
    (h2 : c'.trace = c.trace) : c.NoNewSocket c' :=
  ⟨h1, by rw [h2]⟩

theorem noNewSocket_log (c : Connection) (e : Effect) (h : ∀ p, e ≠ .createSocket p) :
    c.NoNewSocket (c.log e) := by
  refine ⟨by simp, ?_⟩
  simp only [log_fields, createSocketCalls_append]
  cases e <;> simp_all [createSocketCalls]

theorem noNewSocket_settle (p : Nat) (o : Outcome) (c : Connection) :
    c.NoNewSocket (c.settle p o) :=
  .of_eq (by simp) (by simp)

theorem noNewSocket_await (p : Nat) (k : Cont) (c : Connection) :
    c.NoNewSocket (c.await p k) :=
  .of_eq (by simp) (by simp)

theorem noNewSocket_resolve (p : Nat) (v : Value) (c : Connection) :
    c.NoNewSocket (c.resolve p v) :=
  (noNewSocket_log c _ (by simp)).andThen (noNewSocket_settle _ _ _)

theorem noNewSocket_reject (p : Nat) (e : Rejection) (c : Connection) :
    c.NoNewSocket (c.reject p e) :=
  (noNewSocket_log c _ (by simp)).andThen (noNewSocket_settle _ _ _)

theorem noNewSocket_fireEvent (t : String) (d : Option Rejection) (c : Connection) :
    c.NoNewSocket (c.fireEvent t d) := by
  refine ⟨by simp, ?_⟩
  simp only [fireEvent_fields, createSocketCalls_append]
  have : ∀ ls : List Nat, createSocketCalls (ls.map (fun l => Effect.listener l t d)) = 0 := by
    intro ls
    induction ls with
    | nil => rfl
    | cons l ls ih => simpa [createSocketCalls] using ih
  have h2 : createSocketCalls (Effect.fireEvent t d ::
      (listenersOf c.eventListeners t).map (fun l => Effect.listener l t d)) = 0 := by
    simpa [createSocketCalls] using this _
  rw [h2]
  rfl

theorem noNewSocket_sendMessage (message : Message) (n : Option Nat) (c : Connection) :
    c.NoNewSocket (c.sendMessage message n).1 := by
  have key : ∀ (x : Connection × Nat), c.NoNewSocket x.1 →
      c.NoNewSocket (match x.1.socket with
        | some s => (x.1.log (Effect.send s.id x.2 message), (none : Option Rejection))
        | none => (x.1, some (Rejection.typeError "socket.send"))).1 := by
    intro x hx
    cases x.1.socket with
    | none => exact hx
    | some s => exact hx.andThen (noNewSocket_log _ _ (by simp))
  unfold sendMessage
  split
  · exact .unchanged c
  · split
    · split
      · exact .unchanged c
      · exact .of_eq rfl rfl
    · cases n with
      | none => exact key c._genCmdId (.of_eq (by simp) (by simp))
      | some n =>
        by_cases hn : truthyId (some n) = true
        · simp only [hn, if_true]
          exact key (c, n) (.unchanged c)
        · simp only [hn]
          exact key c._genCmdId (.of_eq (by simp) (by simp))

theorem noNewSocket_sendMessagePromise (message : Message) (c : Connection) :
    c.NoNewSocket (c.sendMessagePromise message).1 := by
  cases hq : c._queuedMessages with
  | some q =>
    rw [sendMessagePromise_queued message hq]
    exact .of_eq rfl rfl
  | none =>
    cases hc : c.connected with
    | false =>
      rw [sendMessagePromise_lost message hq hc]
      exact NoNewSocket.andThen (.of_eq rfl rfl) (noNewSocket_reject _ _ _)
    | true =>
      obtain ⟨s, hs, ho⟩ := (connected_iff c).1 hc
      rw [sendMessagePromise_sent message hq hs ho]
      refine ⟨rfl, ?_⟩
      simp [createSocketCalls_append, createSocketCalls]

theorem noNewSocket_handleMessage1 (m : InMsg) (c : Connection) :
    c.NoNewSocket (c.handleMessage1 m).1 := by
  unfold handleMessage1
  cases m.type with
  | event =>
    dsimp only
    cases jsGet c.commands m.id with
    | none =>
      dsimp only
      exact ((noNewSocket_log c _ (by simp)).andThen
        (noNewSocket_sendMessagePromise _ _)).andThen (noNewSocket_await _ _ _)
    | some info =>
      dsimp only
      cases info.sub with
      | none => exact .unchanged c
      | some s => exact noNewSocket_log c _ (by simp)
  | result =>
    dsimp only
    cases jsGet c.commands m.id with
    | none => exact .unchanged c
    | some info =>
      dsimp only
      split
      · cases info.sub with
        | none => exact (noNewSocket_resolve _ _ c).andThen (.of_eq rfl rfl)
        | some s => exact noNewSocket_resolve _ _ c
      · exact (noNewSocket_reject _ _ c).andThen (.of_eq rfl rfl)
  | pong =>
    dsimp only
    cases jsGet c.commands m.id with
    | none => exact noNewSocket_log c _ (by simp)
    | some info => exact (noNewSocket_resolve _ _ c).andThen (.of_eq rfl rfl)
  | other _ => exact .unchanged c

theorem noNewSocket_handleMessageGroup (ms : List InMsg) (c : Connection) :
    c.NoNewSocket (handleMessageGroup ms c).1 := by
  induction ms generalizing c with
  | nil => exact .unchanged c
  | cons m ms ih =>
    unfold handleMessageGroup
    have h1 := noNewSocket_handleMessage1 m c
    cases hm : c.handleMessage1 m with
    | mk c1 e =>
      rw [hm] at h1
      cases e with
      | none => exact h1.andThen (ih c1)
      | some e => exact h1

theorem noNewSocket_handleMessage (payload : Payload) (c : Connection) :
    c.NoNewSocket (c._handleMessage payload).1 := by
  cases payload with
  | single m => exact noNewSocket_handleMessageGroup [m] c
  | batch ms => exact noNewSocket_handleMessageGroup ms c

theorem noNewSocket_subscribeRegister (r : Resubscribe) (ret : Nat) (c : Connection) :
    c.NoNewSocket (c.subscribeRegister r ret) := by
  unfold subscribeRegister
  simp only [newPromise, _genCmdId]
  refine NoNewSocket.andThen ?_ (noNewSocket_await _ _ _)
  refine NoNewSocket.andThen ?_ (noNewSocket_sendMessage _ _ _)
  exact .of_eq rfl rfl

theorem noNewSocket_subscribePreCheck (r : Resubscribe) (ret : Nat) (c : Connection) :
    c.NoNewSocket (c.subscribePreCheck r ret) := by
  unfold subscribePreCheck
  cases r.options.preCheck with
  | none => exact noNewSocket_subscribeRegister r ret c
  | some fn =>
    simp only [newPromise]
    exact ((NoNewSocket.of_eq rfl rfl).andThen (noNewSocket_log _ _ (by simp))).andThen
      (noNewSocket_await _ _ _)

theorem noNewSocket_subscribeMessage (r : Resubscribe) (c : Connection) :
    c.NoNewSocket (c.subscribeMessage r).1 := by
  unfold subscribeMessage
  simp only [newPromise]
  split
  · exact (NoNewSocket.of_eq rfl rfl).andThen (noNewSocket_await _ _ _)
  · exact (NoNewSocket.of_eq rfl rfl).andThen (noNewSocket_subscribePreCheck _ _ _)

theorem noNewSocket_unsubscribeOwn (commandId : Nat) (c : Connection) :
    c.NoNewSocket (c.unsubscribeOwn commandId).1 := by
  unfold unsubscribeOwn
  simp only [newPromise]
  split
  · refine NoNewSocket.andThen ?_ (noNewSocket_await _ _ _)
    refine NoNewSocket.andThen ?_ (noNewSocket_sendMessagePromise _ _)
    exact .of_eq rfl rfl
  · exact (NoNewSocket.of_eq rfl rfl).andThen (noNewSocket_resolve _ _ _)

theorem noNewSocket_unsubscribeVia (fuel ref : Nat) (c : Connection) :
    c.NoNewSocket (unsubscribeVia fuel ref c).1 := by
  induction fuel generalizing ref with
  | zero => exact .unchanged c
  | succ fuel ih =>
    unfold unsubscribeVia
    cases jsGet c.unsubscribes ref with
    | none => exact .unchanged c
    | some u =>
      cases u with
      | own commandId => exact noNewSocket_unsubscribeOwn commandId c
      | handle ref' => exact ih ref'

theorem noNewSocket_reconnect (tries : Nat) (c : Connection) :
    c.NoNewSocket (c.reconnect tries) := by
  unfold reconnect
  exact (noNewSocket_log c _ (by simp)).andThen (.of_eq rfl rfl)

theorem noNewSocket_handleCloseResumed (c : Connection) :
    c.NoNewSocket c.handleCloseResumed := by
  unfold handleCloseResumed
  refine NoNewSocket.andThen ?_ (noNewSocket_reconnect _ _)
  exact .of_eq rfl rfl

theorem noNewSocket_rejectCommands (old : List (Nat × Info)) (c : Connection) :
    c.NoNewSocket (rejectCommands old c) := by
  induction old generalizing c with
  | nil => exact .unchanged c
  | cons e rest ih =>
    unfold rejectCommands
    cases e.2.sub with
    | none => exact (noNewSocket_reject _ _ c).andThen (ih _)
    | some _ => exact ih c

theorem noNewSocket_handleClose (c : Connection) : c.NoNewSocket c._handleClose := by
  unfold _handleClose
  dsimp only
  have h1 : c.NoNewSocket (rejectCommands c.commands
      { c with commandId := 1, oldSubscriptions := some c.commands, commands := [],
               socket := none }) :=
    NoNewSocket.andThen (.of_eq rfl rfl) (noNewSocket_rejectCommands _ _)
  split
  · exact h1
  · split
    · exact (h1.andThen (noNewSocket_fireEvent _ _ _)).andThen (noNewSocket_await _ _ _)
    · exact (h1.andThen (noNewSocket_fireEvent _ _ _)).andThen (noNewSocket_reconnect _ _)

theorem noNewSocket_drainQueue (q : List Queued) (c : Connection) :
    c.NoNewSocket (drainQueue q c).1 := by
  induction q generalizing c with
  | nil => exact .unchanged c
  | cons x q ih =>
    cases x with
    | send message =>
      unfold drainQueue
      have h1 := noNewSocket_sendMessage message none c
      cases hm : c.sendMessage message none with
      | mk c1 e =>
        rw [hm] at h1
        cases e with
        | none => exact h1.andThen (ih c1)
        | some e => exact h1
    | call message outer =>
      unfold drainQueue
      refine NoNewSocket.andThen ?_ (ih _)
      exact (noNewSocket_sendMessagePromise _ _).andThen (noNewSocket_await _ _ _)
    | wait p =>
      unfold drainQueue
      exact (noNewSocket_resolve _ _ c).andThen (ih _)

theorem noNewSocket_resubscribe (info : Info) (c : Connection) :
    c.NoNewSocket (c.resubscribe info) := by
  unfold resubscribe
  cases info.subscribe? with
  | none => exact .unchanged c
  | some x => exact (noNewSocket_subscribeMessage _ _).andThen (noNewSocket_await _ _ _)

theorem noNewSocket_resubscribeAll (old : List (Nat × Info)) (c : Connection) :
    c.NoNewSocket (resubscribeAll old c) := by
  induction old generalizing c with
  | nil => exact .unchanged c
  | cons e rest ih =>
    unfold resubscribeAll
    exact (noNewSocket_resubscribe _ c).andThen (ih _)

theorem noNewSocket_setSocket (socket : Socket) (c : Connection) :
    c.NoNewSocket (c._setSocket socket).1 := by
  let c1 : Connection :=
    log (.attach socket.id) { c with socket := some socket, haVersion := socket.haVersion }
  let c2 : Connection :=
    match c1.oldSubscriptions with
    | some old => resubscribeAll old { c1 with oldSubscriptions := none }
    | none => c1
  have h1 : c.NoNewSocket c1 :=
    NoNewSocket.andThen (.of_eq rfl rfl) (noNewSocket_log _ _ (by simp))
  have h2 : c.NoNewSocket c2 := by
    simp only [c2]
    split
    · refine NoNewSocket.andThen ?_ (noNewSocket_resubscribeAll _ _)
      exact h1.andThen (.of_eq rfl rfl)
    · exact h1
  have tail : ∀ d : Connection, d.NoNewSocket
      (match d._queuedMessages with
        | some q =>
          match drainQueue q { d with _queuedMessages := none } with
          | (c, none) => (c.fireEvent "ready" none, (none : Option Rejection))
          | (c, some err) => (c, some err)
        | none => (d.fireEvent "ready" none, none)).1 := by
    intro d
    cases hq : d._queuedMessages with
    | none => exact noNewSocket_fireEvent _ _ _
    | some q =>
      dsimp only
      have h3 : d.NoNewSocket (drainQueue q { d with _queuedMessages := none }).1 :=
        NoNewSocket.andThen (.of_eq rfl rfl) (noNewSocket_drainQueue _ _)
      cases hd : drainQueue q { d with _queuedMessages := none } with
      | mk c3 e =>
        rw [hd] at h3
        cases e with
        | none => exact h3.andThen (noNewSocket_fireEvent _ _ _)
        | some e => exact h3
  exact h2.andThen (tail c2)

theorem noNewSocket_rejectQueued (q : List Queued) (c : Connection) :
    c.NoNewSocket (rejectQueued q c) := by
  induction q generalizing c with
  | nil => exact .unchanged c
  | cons x q ih =>
    unfold rejectQueued
    cases x.reject? with
    | none => exact ih c
    | some p => exact (noNewSocket_reject _ _ c).andThen (ih _)

theorem noNewSocket_reconnectFailed (tries : Nat) (err : Rejection) (c : Connection) :
    c.NoNewSocket (c.reconnectFailed tries err) := by
  unfold reconnectFailed
  have h1 : c.NoNewSocket (match c._queuedMessages with
      | some q => rejectQueued q { c with _queuedMessages := none }
      | none => c) := by
    split
    · exact NoNewSocket.andThen (.of_eq rfl rfl) (noNewSocket_rejectQueued _ _)
    · exact .unchanged c
  dsimp only
  split
  · exact h1.andThen (noNewSocket_fireEvent _ _ _)
  · exact h1.andThen (noNewSocket_reconnect _ _)

theorem noNewSocket_runCont (k : Cont) (o : Outcome) (c : Connection) :
    c.NoNewSocket (c.runCont k o) := by
  cases k with
  | forward outer =>
    cases o with
    | fulfilled v => exact noNewSocket_resolve _ _ c
    | rejected e => exact noNewSocket_reject _ _ c
  | swallow => cases o <;> exact .unchanged c
  | unsubscribeSent commandId ret =>
    cases o with
    | fulfilled v => exact NoNewSocket.andThen (.of_eq rfl rfl) (noNewSocket_resolve _ _ _)
    | rejected e => exact noNewSocket_reject _ _ c
  | subscribeDequeued r ret =>
    cases o with
    | fulfilled v => exact noNewSocket_subscribePreCheck _ _ c
    | rejected e => exact noNewSocket_reject _ _ c
  | subscribeChecked r ret =>
    cases o with
    | fulfilled v =>
      unfold runCont
      dsimp only
      split
      · exact noNewSocket_subscribeRegister _ _ c
      · exact noNewSocket_reject _ _ c
    | rejected e => exact noNewSocket_reject _ _ c
  | subscribeDone ref ret =>
    cases o with
    | fulfilled v => exact noNewSocket_resolve _ _ c
    | rejected e => exact noNewSocket_reject _ _ c
  | resubscribed ref promise =>
    cases o with
    | fulfilled v =>
      cases v with
      | unsub r => exact NoNewSocket.andThen (.of_eq rfl rfl) (noNewSocket_resolve _ _ _)
      | undefined => exact noNewSocket_resolve _ _ c
      | json v => exact noNewSocket_resolve _ _ c
      | bool b => exact noNewSocket_resolve _ _ c
      | socket s => exact noNewSocket_resolve _ _ c
    | rejected e => exact .unchanged c
  | closeResumed =>
    cases o with
    | fulfilled v => exact noNewSocket_handleCloseResumed c
    | rejected e => exact .unchanged c
  | socketCreated tries =>
    cases o with
    | fulfilled v =>
      cases v with
      | socket s =>
        unfold runCont
        dsimp only
        have h1 := noNewSocket_setSocket s c
        cases hs : c._setSocket s with
        | mk c1 e =>
          rw [hs] at h1
          cases e with
          | none => exact h1
          | some err => exact h1.andThen (noNewSocket_reconnectFailed _ _ _)
      | undefined => exact noNewSocket_reconnectFailed _ _ c
      | json v => exact noNewSocket_reconnectFailed _ _ c
      | bool b => exact noNewSocket_reconnectFailed _ _ c
      | unsub r => exact noNewSocket_reconnectFailed _ _ c
    | rejected e => exact noNewSocket_reconnectFailed _ _ c

theorem noNewSocket_runMicrotask (c : Connection) : c.NoNewSocket c.runMicrotask := by
  unfold runMicrotask
  split
  · exact .unchanged c
  · exact NoNewSocket.andThen (.of_eq rfl rfl) (noNewSocket_runCont _ _ _)

theorem noNewSocket_closeSocket (c : Connection) : c.NoNewSocket c.closeSocket := by
  unfold closeSocket
  split
  · exact (noNewSocket_log c _ (by simp)).andThen (.of_eq rfl rfl)
  · exact .unchanged c

theorem noNewSocket_reconnectSocket (force : Bool) (c : Connection) :
    c.NoNewSocket (c.reconnectSocket force) := by
  unfold reconnectSocket
  split
  · exact .unchanged c
  · split
    · exact noNewSocket_closeSocket c
    · exact ((noNewSocket_log c _ (by simp)).andThen (noNewSocket_closeSocket _)).andThen
        (noNewSocket_handleClose _)

/-- A reconnect timer that fires after `close()` returns at once. -/
theorem reconnectAttempt_closed (tries : Nat) {c : Connection} (h : c.closeRequested = true) :
    c.reconnectAttempt tries = c := by
  simp [reconnectAttempt, h]

theorem noNewSocket_timerFired {c : Connection} (h : c.closeRequested = true) :
    c.NoNewSocket c.timerFired := by
  unfold timerFired
  split
  · exact .unchanged c
  · rw [reconnectAttempt_closed _ (by exact h)]
    exact .of_eq rfl rfl

/-- A reconnect timer that fires once `closeRequested` is set is consumed and does
nothing. -/
theorem timerFired_closed {c : Connection} (h : c.closeRequested = true) :
    c.timerFired = { c with timers := c.timers.tail } := by
  unfold timerFired
  cases ht : c.timers with
  | nil =>
    rcases c with ⟨⟩
    dsimp only at ht ⊢
    subst ht
    rfl
  | cons t rest =>
    obtain ⟨tries, ms⟩ := t
    dsimp only
    rw [reconnectAttempt_closed tries (by exact h)]
    rfl

/-- Once `closeRequested` is set, no action resets it or calls `createSocket`. -/
theorem step_closed (a : Action) {c : Connection} (h : c.closeRequested = true) :
    (c.step a).closeRequested = true ∧
    createSocketCalls (c.step a).trace = createSocketCalls c.trace := by
  have key : ∀ c' : Connection, c.NoNewSocket c' →
      c'.closeRequested = true ∧ createSocketCalls c'.trace = createSocketCalls c.trace :=
    fun c' h' => ⟨h'.1.trans h, h'.2⟩
  cases a with
  | message payload => exact key _ (noNewSocket_handleMessage _ _)
  | lost => exact key _ (noNewSocket_handleClose _)
  | readyState n => exact key _ (.of_eq rfl rfl)
  | timer => exact key _ (noNewSocket_timerFired h)
  | microtask => exact key _ (noNewSocket_runMicrotask _)
  | settle p o => exact key _ (noNewSocket_settle _ _ _)
  | sendMessage message => exact key _ (noNewSocket_sendMessage _ _ _)
  | sendMessagePromise message => exact key _ (noNewSocket_sendMessagePromise _ _)
  | subscribeMessage r => exact key _ (noNewSocket_subscribeMessage _ _)
  | subscribeEvents callback eventType => exact key _ (noNewSocket_subscribeMessage _ _)
  | unsubscribe ref => exact key _ (noNewSocket_unsubscribeVia _ _ _)
  | ping => exact key _ (noNewSocket_sendMessagePromise _ _)
  | addEventListener eventType callback => exact key _ (.of_eq rfl rfl)
  | removeEventListener eventType callback =>
    refine key _ ?_
    show c.NoNewSocket (c.removeEventListener eventType callback)
    unfold removeEventListener
    split
    · exact .unchanged c
    · exact .of_eq rfl rfl
  | suspendReconnectUntil suspendPromise => exact key _ (.of_eq rfl rfl)
  | suspend =>
    refine key _ ?_
    show c.NoNewSocket c.suspend.1
    unfold suspend
    split
    · exact .unchanged c
    · exact noNewSocket_closeSocket c
  | close =>
    have h' : c.NoNewSocket c.close := by
      unfold close
      refine NoNewSocket.andThen ?_ (noNewSocket_closeSocket _)
      exact ⟨h.symm ▸ rfl, rfl⟩
    exact key _ h'
  | reconnect force => exact key _ (noNewSocket_reconnectSocket _ _)

theorem run_closed (as : List Action) {c : Connection} (h : c.closeRequested = true) :
    (c.run as).closeRequested = true ∧
    createSocketCalls (c.run as).trace = createSocketCalls c.trace := by
  induction as generalizing c with
  | nil => exact ⟨h, rfl⟩
  | cons a as ih =>
    have h1 := step_closed a h
    have h2 := ih h1.1
    exact ⟨h2.1, h2.2.trans h1.2⟩

theorem close_closed (c : Connection) :
    c.close.closeRequested = true ∧
    createSocketCalls c.close.trace = createSocketCalls c.trace := by
  have h := noNewSocket_closeSocket { c with closeRequested := true }
  exact ⟨h.1, h.2⟩

/-- What `_handleClose` does once `closeRequested` is set. -/
theorem handleClose_closed {c : Connection} (h : c.closeRequested = true) :
    c._handleClose = rejectCommands c.commands
      { c with commandId := 1, oldSubscriptions := some c.commands, commands := [],
               socket := none } := by
  unfold _handleClose
  simp [rejectCommands_fields, h]

end Connection

/-- C11. After `close()`, whatever happens next (any sequence of socket events, timers,
microtasks, promise settlements and method calls), `closeRequested` stays set and
`createSocket` is never called again. In every such state a channel loss (`_handleClose`)
only rejects the pending calls: it returns before it fires `disconnected`, sets no timer and
creates no socket; and a reconnect timer that was set before `close()` and fires now returns
without calling `createSocket`. -/
theorem C11_no_reconnect_after_close (c : Connection) (as : List Action) :
    let d := c.close.run as
    d.closeRequested = true ∧
    createSocketCalls d.trace = createSocketCalls c.trace ∧
    d._handleClose.trace = d.trace ++ lostCalls d.commands ∧
    d._handleClose.timers = d.timers ∧
    timerDelays d._handleClose.trace = timerDelays d.trace ∧
    createSocketCalls d._handleClose.trace = createSocketCalls d.trace ∧
    (∀ tries, d.reconnectAttempt tries = d) ∧
    d.timerFired = { d with timers := d.timers.tail } ∧
    createSocketCalls d.timerFired.trace = createSocketCalls d.trace := by
  intro d
  have h0 := Connection.close_closed c
  have h1 : d.closeRequested = true ∧ _ := Connection.run_closed as h0.1
  have hd := h1.1
  have h2 := Connection.handleClose_closed hd
  have h3 : d._handleClose.trace = d.trace ++ lostCalls d.commands := by
    rw [h2]
    simp [Connection.rejectCommands_fields]
  have h4 : ∀ e ∈ lostCalls d.commands, ∃ p r, e = Effect.reject p r := by
    intro e he
    simp only [lostCalls, List.mem_map] at he
    obtain ⟨x, _, hx⟩ := he
    exact ⟨_, _, hx.symm⟩
  have h5 := Connection.timerFired_closed hd
  refine ⟨hd, h1.2.trans h0.2, h3, ?_, ?_, ?_,
    fun tries => Connection.reconnectAttempt_closed tries hd, h5, by rw [h5]⟩
  · rw [h2]
    simp [Connection.rejectCommands_fields]
  · have h6 : timerDelays (lostCalls d.commands) = [] := by
      apply timerDelays_eq_nil
      intro e he t ms heq
      obtain ⟨p, r, hp⟩ := h4 e he
      rw [hp] at heq
      cases heq
    rw [h3, timerDelays_append, h6]
    simp
  · have h6 : createSocketCalls (lostCalls d.commands) = 0 := by
      apply createSocketCalls_eq_zero
      intro e he p heq
      obtain ⟨q, r, hp⟩ := h4 e he
      rw [hp] at heq
      cases heq
    rw [h3, createSocketCalls_append, h6]
    rfl

/-! ## Lemmas on objects -/

section Objects

variable {κ α : Type} [DecidableEq κ]

theorem jsSet_jsSet_same (m : List (κ × α)) (k : κ) (w v : α) :
    jsSet (jsSet m k w) k v = jsSet m k v := by
  induction m with
  | nil => simp [jsSet]
  | cons e m ih =>
    obtain ⟨a, x⟩ := e
    by_cases h : a = k
    · simp [jsSet, h]
    · simp [jsSet, h, ih]

theorem jsSet_comm (m : List (κ × α)) {k j : κ} (v w : α) (hkj : k ≠ j)
    (hk : (jsGet m k).isSome = true) :
    jsSet (jsSet m k v) j w = jsSet (jsSet m j w) k v := by
  induction m with
  | nil => simp [jsGet] at hk
  | cons e m ih =>
    obtain ⟨a, x⟩ := e
    by_cases h1 : a = k
    · subst h1
      simp [jsSet, hkj]
    · by_cases h2 : a = j
      · subst h2
        simp [jsSet, h1]
      · have hk' : (jsGet m k).isSome = true := by simpa [jsGet, h1] using hk
        simp [jsSet, h1, h2, ih hk']

theorem jsSet_of_jsGet {m : List (κ × α)} {k : κ} {v : α} (h : jsGet m k = some v) :
    jsSet m k v = m := by
  induction m with
  | nil => simp [jsGet] at h
  | cons e m ih =>
    obtain ⟨a, x⟩ := e
    by_cases h1 : a = k
    · simp [jsGet, h1] at h
      simp [jsSet, h1, h]
    · simp [jsGet, h1] at h
      simp [jsSet, h1, ih h]

theorem jsGet_jsSet_isSome (m : List (κ × α)) (k j : κ) (v : α)
    (h : (jsGet m k).isSome = true) : (jsGet (jsSet m j v) k).isSome = true := by
  by_cases hkj : k = j
  · subst hkj
    simp [jsGet_jsSet_same]
  · rw [jsGet_jsSet_ne _ _ _ _ hkj]
    exact h

theorem jsDelete_of_jsGet {m : List (κ × α)} {k : κ} (h : jsGet m k = none) :
    jsDelete m k = m := by
  induction m with
  | nil => rfl
  | cons e m ih =>
    obtain ⟨a, x⟩ := e
    by_cases h1 : a = k
    · simp [jsGet, h1] at h
    · simp [jsGet, h1] at h
      simp [jsDelete, h1, ih h]

theorem jsDelete_eq_filter (m : List (κ × α)) (k : κ) :
    jsDelete m k = m.filter (fun e => decide (e.1 ≠ k)) := by
  induction m with
  | nil => rfl
  | cons e m ih =>
    obtain ⟨a, x⟩ := e
    by_cases h1 : a = k
    · simp [jsDelete, h1, ih]
    · simp [jsDelete, h1, ih]

end Objects

theorem objectAssign_cons {α : Type} (m : List (String × α)) (kv : String × α)
    (l : List (String × α)) :
    objectAssign m (kv :: l) = objectAssign (jsSet m kv.1 kv.2) l := rfl

theorem jsGet_objectAssign_isSome {α : Type} (l : List (String × α)) (m : List (String × α))
    (k : String) (h : (jsGet m k).isSome = true) :
    (jsGet (objectAssign m l) k).isSome = true := by
  induction l generalizing m with
  | nil => exact h
  | cons kv l ih =>
    rw [objectAssign_cons]
    exact ih _ (jsGet_jsSet_isSome m k kv.1 kv.2 h)

theorem jsGet_objectAssign_of_not_mem {α : Type} (l : List (String × α))
    (m : List (String × α)) (k : String) (h : ∀ x ∈ l, x.1 ≠ k) :
    jsGet (objectAssign m l) k = jsGet m k := by
  induction l generalizing m with
  | nil => rfl
  | cons kv l ih =>
    rw [objectAssign_cons, ih _ (fun x hx => h x (List.mem_cons_of_mem _ hx))]
    exact jsGet_jsSet_ne m kv.1 k kv.2 (Ne.symm (h kv (List.mem_cons_self _ _)))

/-- A key that is set first and again later in an assignment may be left out the first
time, if the target has it already. -/
theorem objectAssign_absorb {α : Type} (l : List (String × α)) (m : List (String × α))
    (k : String) (v : α) (hk : (jsGet m k).isSome = true) (hl : ∃ x ∈ l, x.1 = k) :
    objectAssign (jsSet m k v) l = objectAssign m l := by
  induction l generalizing m with
  | nil => simp at hl
  | cons kv l ih =>
    rw [objectAssign_cons, objectAssign_cons]
    by_cases h1 : kv.1 = k
    · rw [h1, jsSet_jsSet_same]
    · have hl' : ∃ x ∈ l, x.1 = k := by
        obtain ⟨x, hx, hxk⟩ := hl
        rcases List.mem_cons.1 hx with h | h
        · exact absurd (h ▸ hxk) h1
        · exact ⟨x, h, hxk⟩
      rw [jsSet_comm m v kv.2 (Ne.symm h1) hk]
      exact ih _ (jsGet_jsSet_isSome m k kv.1 kv.2 hk) hl'

/-- `Object.assign` with the same source a second time changes nothing. -/
theorem objectAssign_idem {α : Type} (l : List (String × α)) (m : List (String × α)) :
    objectAssign (objectAssign m l) l = objectAssign m l := by
  induction l generalizing m with
  | nil => rfl
  | cons kv l ih =>
    rw [objectAssign_cons m, objectAssign_cons]
    have hk : (jsGet (jsSet m kv.1 kv.2) kv.1).isSome = true := by
      simp [jsGet_jsSet_same]
    by_cases hl : ∃ x ∈ l, x.1 = kv.1
    · rw [objectAssign_absorb l _ kv.1 kv.2 (jsGet_objectAssign_isSome l _ _ hk) hl]
      exact ih _
    · have hl' : ∀ x ∈ l, x.1 ≠ kv.1 := fun x hx hxk => hl ⟨x, hx, hxk⟩
      have hg : jsGet (objectAssign (jsSet m kv.1 kv.2) l) kv.1 = some kv.2 := by
        rw [jsGet_objectAssign_of_not_mem l _ _ hl', jsGet_jsSet_same]
      rw [jsSet_of_jsGet hg]
      exact ih _

/-! ## The sections of a diff -/

theorem applyAdditions_eq (toISO : Int → String) (a : List (String × EntityState))
    (state : List (String × HassEntity)) :
    applyAdditions toISO a state =
      objectAssign state (a.map (fun x => (x.1, addedEntity toISO x.1 x.2))) := by
  induction a generalizing state with
  | nil => rfl
  | cons x a ih =>
    obtain ⟨entityId, newState⟩ := x
    simp only [applyAdditions, List.map_cons, objectAssign_cons]
    exact ih _

theorem jsGet_applyAdditions (toISO : Int → String) (pre post : List (String × EntityState))
    (e : String) (newState : EntityState) (state : List (String × HassEntity))
    (h : ∀ x ∈ post, x.1 ≠ e) :
    jsGet (applyAdditions toISO (pre ++ (e, newState) :: post) state) e =
      some (addedEntity toISO e newState) := by
  rw [applyAdditions_eq, List.map_append, List.map_cons]
  have h1 : ∀ (m : List (String × HassEntity)) (l1 l2 : List (String × HassEntity)),
      objectAssign m (l1 ++ l2) = objectAssign (objectAssign m l1) l2 := by
    intro m l1 l2
    simp [objectAssign, List.foldl_append]
  rw [h1, objectAssign_cons, jsGet_objectAssign_of_not_mem, jsGet_jsSet_same]
  intro x hx
  obtain ⟨y, hy, rfl⟩ := List.mem_map.1 hx
  exact h y hy

theorem deleteKeys_eq_self {α : Type} (keys : List String) (o : List (String × α))
    (h : ∀ k ∈ keys, jsGet o k = none) : deleteKeys keys o = o := by
  induction keys with
  | nil => rfl
  | cons k keys ih =>
    unfold deleteKeys
    rw [jsDelete_of_jsGet (h k (List.mem_cons_self _ _))]
    exact ih (fun k' hk' => h k' (List.mem_cons_of_mem _ hk'))

theorem jsGet_deleteKeys_of_not_mem {α : Type} (keys : List String) (o : List (String × α))
    (e : String) (h : e ∉ keys) : jsGet (deleteKeys keys o) e = jsGet o e := by
  induction keys generalizing o with
  | nil => rfl
  | cons k keys ih =>
    unfold deleteKeys
    rw [ih _ (fun hm => h (List.mem_cons_of_mem _ hm))]
    exact jsGet_jsDelete_ne o k e (fun hek => h (hek ▸ List.mem_cons_self _ _))

theorem applyChanges_cons_none (toISO : Int → String) {entityId : String} (diff : EntityDiff)
    (rest : List (String × EntityDiff)) {state : List (String × HassEntity)}
    (h : jsGet state entityId = none) :
    applyChanges toISO ((entityId, diff) :: rest) state =
      ((applyChanges toISO rest state).1, entityId :: (applyChanges toISO rest state).2) := by
  simp [applyChanges, h]

theorem applyChanges_cons_some (toISO : Int → String) {entityId : String} (diff : EntityDiff)
    (rest : List (String × EntityDiff)) {state : List (String × HassEntity)}
    {entityState : HassEntity} (h : jsGet state entityId = some entityState) :
    applyChanges toISO ((entityId, diff) :: rest) state =
      applyChanges toISO rest (jsSet state entityId (patchedEntity toISO diff entityState)) := by
  simp [applyChanges, h]

theorem jsGet_applyChanges_of_not_mem (toISO : Int → String) (c : List (String × EntityDiff))
    (state : List (String × HassEntity)) (e : String) (h : ∀ x ∈ c, x.1 ≠ e) :
    jsGet (applyChanges toISO c state).1 e = jsGet state e := by
  induction c generalizing state with
  | nil => rfl
  | cons x c ih =>
    obtain ⟨entityId, diff⟩ := x
    have hne : entityId ≠ e := h (entityId, diff) (List.mem_cons_self _ _)
    have hc : ∀ x ∈ c, x.1 ≠ e := fun x hx => h x (List.mem_cons_of_mem _ hx)
    cases hg : jsGet state entityId with
    | none =>
      rw [applyChanges_cons_none toISO diff c hg]
      exact ih state hc
    | some entityState =>
      rw [applyChanges_cons_some toISO diff c hg, ih _ hc]
      exact jsGet_jsSet_ne state entityId e _ (Ne.symm hne)

/-- The changes loop never creates an entity. -/
theorem jsGet_applyChanges_none (toISO : Int → String) (c : List (String × EntityDiff))
    (state : List (String × HassEntity)) (e : String) (h : jsGet state e = none) :
    jsGet (applyChanges toISO c state).1 e = none := by
  induction c generalizing state with
  | nil => exact h
  | cons x c ih =>
    obtain ⟨entityId, diff⟩ := x
    cases hg : jsGet state entityId with
    | none =>
      rw [applyChanges_cons_none toISO diff c hg]
      exact ih state h
    | some entityState =>
      rw [applyChanges_cons_some toISO diff c hg]
      apply ih
      have hne : e ≠ entityId := by
        intro heq
        rw [heq, hg] at h
        cases h
      rw [jsGet_jsSet_ne state entityId e _ hne]
      exact h

/-- The entries of the change section for an entity that is not in the snapshot can be left
out. -/
theorem applyChanges_filter (toISO : Int → String) (c : List (String × EntityDiff))
    (state : List (String × HassEntity)) (e : String) (h : jsGet state e = none) :
    (applyChanges toISO c state).1 =
      (applyChanges toISO (c.filter (fun x => decide (x.1 ≠ e))) state).1 := by
  induction c generalizing state with
  | nil => rfl
  | cons x c ih =>
    obtain ⟨entityId, diff⟩ := x
    by_cases hx : entityId = e
    · subst hx
      have hf : ((entityId, diff) :: c).filter (fun x => decide (x.1 ≠ entityId)) =
          c.filter (fun x => decide (x.1 ≠ entityId)) := by
        simp
      rw [hf, applyChanges_cons_none toISO diff c h]
      exact ih state h
    · have hf : ((entityId, diff) :: c).filter (fun x => decide (x.1 ≠ e)) =
          (entityId, diff) :: c.filter (fun x => decide (x.1 ≠ e)) := by
        simp [hx]
      rw [hf]
      cases hg : jsGet state entityId with
      | none =>
        rw [applyChanges_cons_none toISO diff c hg, applyChanges_cons_none toISO diff _ hg]
        exact ih state h
      | some entityState =>
        rw [applyChanges_cons_some toISO diff c hg, applyChanges_cons_some toISO diff _ hg]
        apply ih
        rw [jsGet_jsSet_ne state entityId e _ (Ne.symm hx)]
        exact h

/-- Every entry of the change section for an entity that is not in the snapshot is
reported. -/
theorem mem_warned (toISO : Int → String) (c : List (String × EntityDiff))
    (state : List (String × HassEntity)) (e : String) (h : jsGet state e = none)
    (hc : ∃ x ∈ c, x.1 = e) : e ∈ (applyChanges toISO c state).2 := by
  induction c generalizing state with
  | nil => simp at hc
  | cons x c ih =>
    obtain ⟨entityId, diff⟩ := x
    by_cases hx : entityId = e
    · subst hx
      rw [applyChanges_cons_none toISO diff c h]
      exact List.mem_cons_self _ _
    · have hc' : ∃ x ∈ c, x.1 = e := by
        obtain ⟨y, hy, hye⟩ := hc
        rcases List.mem_cons.1 hy with h1 | h1
        · subst h1
          exact absurd hye hx
        · exact ⟨y, h1, hye⟩
      cases hg : jsGet state entityId with
      | none =>
        rw [applyChanges_cons_none toISO diff c hg]
        exact List.mem_cons_of_mem _ (ih state h hc')
      | some entityState =>
        rw [applyChanges_cons_some toISO diff c hg]
        apply ih _ _ hc'
        rw [jsGet_jsSet_ne state entityId e _ (Ne.symm hx)]
        exact h

/-! ## C15, C16, C18, C19 -/

/-- C15. If the additions section of a diff maps `e` to a record `{s, a, c, lc}` without
`lu` (the last entry for `e` in key order), and the same diff neither lists `e` among its
removals nor patches `e` in its change section, then the projected snapshot maps `e` to the
entity with `entity_id` `e`, state `s`, attributes `a`, the context of `c`, and
`last_changed` and `last_updated` both the ISO text of `lc` seconds. -/
theorem C15_addition_projects_entity (toISO : Int → String)
    (state : List (String × HassEntity)) (updates : StatesUpdates)
    (pre post : List (String × EntityState)) (e : String) (newState : EntityState)
    (ha : updates.a = some (pre ++ (e, newState) :: post)) (hlast : ∀ x ∈ post, x.1 ≠ e)
    (hlu : newState.lu = none) (hr : ∀ r, updates.r = some r → e ∉ r)
    (hc : ∀ c, updates.c = some c → ∀ x ∈ c, x.1 ≠ e) :
    jsGet (project toISO state updates).1 e =
      some
        { entity_id := e
          state := newState.s
          attributes := newState.a
          context := contextOf newState.c
          last_changed := toISO newState.lc
          last_updated := toISO newState.lc } := by
  have hadd : addedEntity toISO e newState =
      { entity_id := e
        state := newState.s
        attributes := newState.a
        context := contextOf newState.c
        last_changed := toISO newState.lc
        last_updated := toISO newState.lc } := by
    simp [addedEntity, hlu, truthyNumber]
  have h1 := jsGet_applyAdditions toISO pre post e newState state hlast
  rw [hadd] at h1
  unfold project
  rw [ha]
  dsimp only
  cases hr' : updates.r with
  | none =>
    dsimp only
    cases hc' : updates.c with
    | none => exact h1
    | some c =>
      dsimp only
      rw [jsGet_applyChanges_of_not_mem toISO c _ e (hc c hc')]
      exact h1
  | some r =>
    dsimp only
    have h2 : jsGet (deleteKeys r
        (applyAdditions toISO (pre ++ (e, newState) :: post) state)) e = _ :=
      (jsGet_deleteKeys_of_not_mem r _ e (hr r hr')).trans h1
    cases hc' : updates.c with
    | none => exact h2
    | some c =>
      dsimp only
      rw [jsGet_applyChanges_of_not_mem toISO c _ e (hc c hc')]
      exact h2

/-- Counterexample to C15 as stated: the diff `{a: {"light.x": {s: "on", a: {brightness: 10},
lc: 1000}}, r: ["light.x"]}` maps `light.x` to a record in its additions section, and the
projected snapshot has no `light.x`: the removals are applied after the additions. -/
theorem C15_added_and_removed_is_absent :
    jsGet (project sampleISO []
      { a := some [("light.x", sampleAdded)], r := some ["light.x"] }).1 "light.x" = none := by
  decide

/-- Witness of C15: the diff `{a: {"light.x": {s: "on", a: {brightness: 10}, lc: 1000}}}`
projected onto the empty snapshot. -/
theorem C15_addition_projects_entity_witness :
    jsGet (project sampleISO [] { a := some [("light.x", sampleAdded)] }).1 "light.x" =
      some
        { entity_id := "light.x"
          state := "on"
          attributes := [("brightness", "10")]
          context := none
          last_changed := "1970-01-01T00:16:40.000Z"
          last_updated := "1970-01-01T00:16:40.000Z" } :=
  C15_addition_projects_entity sampleISO [] { a := some [("light.x", sampleAdded)] } [] []
    "light.x" sampleAdded rfl (by simp) rfl (by simp) (by simp)

/-- C16. For every snapshot and every diff that has only an additions section, projecting
the diff onto the projected snapshot gives the projected snapshot again; the same holds for
the state of the store after `processEvent`. -/
theorem C16_additions_idempotent (toISO : Int → String) (state : List (String × HassEntity))
    (a : List (String × EntityState)) (store : Store) :
    project toISO (project toISO state { a := some a }).1 { a := some a } =
      project toISO state { a := some a } ∧
    (processEvent toISO (processEvent toISO store { a := some a }) { a := some a }).state =
      (processEvent toISO store { a := some a }).state := by
  have h : ∀ st : List (String × HassEntity),
      project toISO st { a := some a } = (applyAdditions toISO a st, []) := fun _ => rfl
  have h2 : ∀ st : List (String × HassEntity),
      applyAdditions toISO a (applyAdditions toISO a st) = applyAdditions toISO a st := by
    intro st
    rw [applyAdditions_eq, applyAdditions_eq, objectAssign_idem]
  constructor
  · rw [h, h, h2]
  · simp only [processEvent, Store.setState, h, if_true, Option.getD_some, h2]

/-- C18. A diff that has only a removals list, none of whose ids is a key of the
snapshot, projects the snapshot onto itself: the same keys and entities in the same order,
and nothing is reported. -/
theorem C18_removing_unknown_ids (toISO : Int → String) (state : List (String × HassEntity))
    (r : List String) (h : ∀ id ∈ r, jsGet state id = none) :
    project toISO state { r := some r } = (state, []) := by
  have h1 : project toISO state { r := some r } = (deleteKeys r state, []) := rfl
  rw [h1, deleteKeys_eq_self r state h]

/-- Witness of C18: two unknown ids removed from the sample snapshot. -/
theorem C18_removing_unknown_ids_witness :
    project sampleISO sampleSnapshot { r := some ["light.y", "sensor.z"] } =
      (sampleSnapshot, []) :=
  C18_removing_unknown_ids sampleISO sampleSnapshot ["light.y", "sensor.z"] (by decide)

/-! ## Change patches -/

/-- The entity after the block `if (toAdd) { ... }`, field by field. -/
theorem applyToAdd_eq (toISO : Int → String) (toAdd : EntityStateAdd)
    (entityState : HassEntity) :
    applyToAdd toISO toAdd entityState =
      { entity_id := entityState.entity_id
        state :=
          match toAdd.s with
          | some s => s
          | none => entityState.state
        attributes := entityState.attributes
        context :=
          if CompressedContext.truthy toAdd.c then
            match toAdd.c with
            | some (.id s) => some (objectAssign (entityState.context.getD []) [("id", s)])
            | some (.full context) =>
              some (objectAssign (entityState.context.getD []) context)
            | none => entityState.context
          else entityState.context
        last_changed :=
          if truthyNumber toAdd.lc then
            match toAdd.lc with
            | some lc => toISO lc
            | none => entityState.last_changed
          else entityState.last_changed
        last_updated :=
          if truthyNumber toAdd.lc then
            match toAdd.lc with
            | some lc => toISO lc
            | none => entityState.last_updated
          else if truthyNumber toAdd.lu then
            match toAdd.lu with
            | some lu => toISO lu
            | none => entityState.last_updated
          else entityState.last_updated } := by
  rcases toAdd with ⟨s, a, c, lc, lu⟩
  unfold applyToAdd
  dsimp only
  cases htc : CompressedContext.truthy c <;> cases hlc : truthyNumber lc <;>
    cases hlu : truthyNumber lu <;> cases s <;> rcases c with _ | _ | _ <;>
    cases lc <;> cases lu <;> rfl

theorem applyToAdd_idem (toISO : Int → String) (toAdd : EntityStateAdd)
    (entityState : HassEntity) :
    applyToAdd toISO toAdd (applyToAdd toISO toAdd entityState) =
      applyToAdd toISO toAdd entityState := by
  rw [applyToAdd_eq toISO toAdd (applyToAdd toISO toAdd entityState),
    applyToAdd_eq toISO toAdd entityState]
  dsimp only
  congr 1
  · cases toAdd.s <;> rfl
  · cases CompressedContext.truthy toAdd.c with
    | false => rfl
    | true =>
      rcases toAdd.c with _ | _ | _
      · rfl
      · simp only [if_true, Option.getD_some, objectAssign_idem]
      · simp only [if_true, Option.getD_some, objectAssign_idem]
  · cases truthyNumber toAdd.lc <;> cases toAdd.lc <;> rfl
  · cases truthyNumber toAdd.lc <;> cases truthyNumber toAdd.lu <;> cases toAdd.lc <;>
      cases toAdd.lu <;> rfl

theorem applyToAdd_attributes (toISO : Int → String) (toAdd : EntityStateAdd)
    (entityState : HassEntity) (attributes : List (String × Json)) :
    applyToAdd toISO toAdd { entityState with attributes := attributes } =
      { applyToAdd toISO toAdd entityState with attributes := attributes } := by
  rw [applyToAdd_eq toISO toAdd { entityState with attributes := attributes },
    applyToAdd_eq toISO toAdd entityState]

theorem applyToAdd_fields (toISO : Int → String) (toAdd : EntityStateAdd)
    (entityState : HassEntity) :
    (applyToAdd toISO toAdd entityState).attributes = entityState.attributes ∧
    (applyToAdd toISO toAdd entityState).entity_id = entityState.entity_id := by
  rw [applyToAdd_eq toISO toAdd entityState]
  exact ⟨rfl, rfl⟩

theorem deleteKeys_eq_filter {α : Type} (keys : List String) (o : List (String × α)) :
    deleteKeys keys o = o.filter (fun e => decide (e.1 ∉ keys)) := by
  induction keys generalizing o with
  | nil => simp [deleteKeys]
  | cons k keys ih =>
    unfold deleteKeys
    rw [ih, jsDelete_eq_filter, List.filter_filter]
    congr 1
    funext x
    by_cases h1 : x.1 = k <;> by_cases h2 : x.1 ∈ keys <;> simp [h1, h2]

theorem filter_jsSet_of_false {α : Type} (p : String → Bool) (m : List (String × α))
    (k : String) (v : α) (hk : p k = false) :
    (jsSet m k v).filter (fun e => p e.1) = m.filter (fun e => p e.1) := by
  induction m with
  | nil => simp [jsSet, hk]
  | cons x m ih =>
    obtain ⟨a, w⟩ := x
    by_cases h : a = k
    · subst h
      simp [jsSet, hk]
    · simp only [jsSet, h, if_false, List.filter_cons, ih]

theorem filter_jsSet_of_true {α : Type} (p : String → Bool) (m : List (String × α))
    (k : String) (v : α) (hk : p k = true) :
    (jsSet m k v).filter (fun e => p e.1) = jsSet (m.filter (fun e => p e.1)) k v := by
  induction m with
  | nil => simp [jsSet, hk]
  | cons x m ih =>
    obtain ⟨a, w⟩ := x
    by_cases h : a = k
    · subst h
      simp [jsSet, hk, List.filter_cons]
    · cases ha : p a with
      | false => simp only [jsSet, h, if_false, List.filter_cons, ha, ih, Bool.false_eq_true]
      | true => simp only [jsSet, h, if_false, List.filter_cons, ha, ih, if_true]

theorem filter_objectAssign {α : Type} (p : String → Bool) (a m : List (String × α)) :
    (objectAssign m a).filter (fun e => p e.1) =
      objectAssign (m.filter (fun e => p e.1)) (a.filter (fun e => p e.1)) := by
  induction a generalizing m with
  | nil => rfl
  | cons kv a ih =>
    rw [objectAssign_cons, ih]
    cases hk : p kv.1 with
    | false =>
      rw [filter_jsSet_of_false p m kv.1 kv.2 hk]
      simp [List.filter_cons, hk]
    | true =>
      rw [filter_jsSet_of_true p m kv.1 kv.2 hk]
      simp [List.filter_cons, hk, objectAssign_cons]

/-- A change patch applied to attributes it has been applied to changes nothing. -/
theorem patchedAttributes_idem (diff : EntityDiff) (attributes : List (String × Json)) :
    patchedAttributes diff (patchedAttributes diff attributes) =
      patchedAttributes diff attributes := by
  unfold patchedAttributes
  cases diff.plus.bind (fun toAdd => toAdd.a) with
  | none =>
    cases diff.minus.bind (fun toRemove => toRemove.a) with
    | none => rfl
    | some keys =>
      simp only [deleteKeys_eq_filter, List.filter_filter, Bool.and_self]
  | some a =>
    cases diff.minus.bind (fun toRemove => toRemove.a) with
    | none => exact objectAssign_idem a attributes
    | some keys =>
      have hf : ∀ m b : List (String × Json),
          (objectAssign m b).filter (fun e => decide (e.1 ∉ keys)) =
            objectAssign (m.filter (fun e => decide (e.1 ∉ keys)))
              (b.filter (fun e => decide (e.1 ∉ keys))) :=
        fun m b => filter_objectAssign (fun k => decide (k ∉ keys)) b m
      simp only [deleteKeys_eq_filter]
      rw [hf (List.filter _ _) a, List.filter_filter]
      simp only [Bool.and_self]
      rw [hf attributes a, objectAssign_idem]

/-- A change patch applied to an entity it has been applied to changes nothing. -/
theorem patchedEntity_idem (toISO : Int → String) (diff : EntityDiff)
    (entityState : HassEntity) :
    patchedEntity toISO diff (patchedEntity toISO diff entityState) =
      patchedEntity toISO diff entityState := by
  unfold patchedEntity
  cases hch : ((diff.plus.bind (fun toAdd => toAdd.a)).isSome ||
      (diff.minus.bind (fun toRemove => toRemove.a)).isSome) with
  | false =>
    cases diff.plus with
    | none => simp
    | some toAdd => simp [applyToAdd_idem]
  | true =>
    cases diff.plus with
    | none => simp [patchedAttributes_idem]
    | some toAdd =>
      simp [applyToAdd_attributes, applyToAdd_idem, patchedAttributes_idem]

theorem patchedEntity_attributes (toISO : Int → String) (diff : EntityDiff)
    (entityState : HassEntity) :
    (patchedEntity toISO diff entityState).attributes =
      patchedAttributes diff entityState.attributes := by
  unfold patchedEntity
  cases hp : diff.plus.bind (fun toAdd => toAdd.a) with
  | some a => cases diff.plus <;> simp
  | none =>
    cases hm : diff.minus.bind (fun toRemove => toRemove.a) with
    | some keys => cases diff.plus <;> simp
    | none =>
      have : patchedAttributes diff entityState.attributes = entityState.attributes := by
        simp [patchedAttributes, hp, hm]
      rw [this]
      cases diff.plus with
      | none => simp
      | some toAdd => simp [(applyToAdd_fields toISO toAdd entityState).1]

/-- The projection of a diff that has only a change section with one entry. -/
theorem project_change (toISO : Int → String) (state : List (String × HassEntity))
    (e : String) (diff : EntityDiff) :
    project toISO state { c := some [(e, diff)] } =
      match jsGet state e with
      | some entityState => (jsSet state e (patchedEntity toISO diff entityState), [])
      | none => (state, [e]) := by
  cases h : jsGet state e with
  | none => simp [project, applyChanges, h]
  | some entityState => simp [project, applyChanges, h]

theorem jsGet_objectAssign_last {α : Type} (m pre post : List (String × α)) (k : String)
    (v : α) (h : ∀ x ∈ post, x.1 ≠ k) :
    jsGet (objectAssign m (pre ++ (k, v) :: post)) k = some v := by
  have h1 : objectAssign m (pre ++ (k, v) :: post) =
      objectAssign (jsSet (objectAssign m pre) k v) post := by
    simp [objectAssign, List.foldl_append]
  rw [h1, jsGet_objectAssign_of_not_mem post _ k h, jsGet_jsSet_same]

/-! ## C17, C20 -/

/-- C17. For every snapshot, entity id and change patch, the diff that patches this entity
projected a second time gives the same snapshot as projected once. If the entity is in the
snapshot and the patch adds attribute values (`"+": {a: {k: v, ...}}`), then after one
projection and after two the entity is the same, and each listed attribute that the patch
does not also remove has exactly the given value. -/
theorem C17_change_idempotent (toISO : Int → String) (state : List (String × HassEntity))
    (e : String) (diff : EntityDiff) :
    project toISO (project toISO state { c := some [(e, diff)] }).1 { c := some [(e, diff)] } =
      project toISO state { c := some [(e, diff)] } ∧
    (∀ entityState toAdd attrs, jsGet state e = some entityState → diff.plus = some toAdd →
      toAdd.a = some attrs →
      ∃ patched,
        jsGet (project toISO state { c := some [(e, diff)] }).1 e = some patched ∧
        jsGet (project toISO (project toISO state { c := some [(e, diff)] }).1
          { c := some [(e, diff)] }).1 e = some patched ∧
        ∀ pre k v post, attrs = pre ++ (k, v) :: post → (∀ x ∈ post, x.1 ≠ k) →
          (∀ toRemove keys, diff.minus = some toRemove → toRemove.a = some keys → k ∉ keys) →
          jsGet patched.attributes k = some v) := by
  have hidem : project toISO (project toISO state { c := some [(e, diff)] }).1
      { c := some [(e, diff)] } = project toISO state { c := some [(e, diff)] } := by
    rw [project_change toISO state e diff]
    cases h : jsGet state e with
    | none =>
      dsimp only
      rw [project_change, h]
    | some entityState =>
      dsimp only
      rw [project_change, jsGet_jsSet_same]
      dsimp only
      rw [jsSet_jsSet_same, patchedEntity_idem]
  refine ⟨hidem, ?_⟩
  intro entityState toAdd attrs hs hplus ha
  refine ⟨patchedEntity toISO diff entityState, ?_, ?_, ?_⟩
  · rw [project_change, hs]
    exact jsGet_jsSet_same _ _ _
  · rw [hidem, project_change, hs]
    exact jsGet_jsSet_same _ _ _
  · intro pre k v post hattrs hpost hkeys
    rw [patchedEntity_attributes]
    unfold patchedAttributes
    have h1 : diff.plus.bind (fun toAdd => toAdd.a) = some attrs := by simp [hplus, ha]
    rw [h1]
    dsimp only
    have h2 : jsGet (objectAssign entityState.attributes attrs) k = some v := by
      rw [hattrs]
      exact jsGet_objectAssign_last _ pre post k v hpost
    cases hm : diff.minus with
    | none => exact h2
    | some toRemove =>
      cases hk : toRemove.a with
      | none =>
        simp only [Option.bind, hk]
        exact h2
      | some keys =>
        simp only [Option.bind, hk]
        rw [jsGet_deleteKeys_of_not_mem keys _ k (hkeys toRemove keys hm hk)]
        exact h2

/-- Witness of C17: the patch `"+": {a: {brightness: 1}}` applied twice to `light.x`
leaves `brightness` at 1. -/
theorem C17_change_idempotent_witness :
    jsGet (project sampleISO (project sampleISO sampleSnapshot
        { c := some [("light.x", { plus := some { a := some [("brightness", "1")] } })] }).1
      { c := some [("light.x", { plus := some { a := some [("brightness", "1")] } })] }).1
      "light.x" =
      some
        { entity_id := "light.x"
          state := "on"
          attributes := [("brightness", "1")]
          context := none
          last_changed := "1970-01-01T00:16:40.000Z"
          last_updated := "1970-01-01T00:16:40.000Z" } :=
  (congrArg (fun p => jsGet p.1 "light.x")
    (C17_change_idempotent sampleISO sampleSnapshot "light.x"
      { plus := some { a := some [("brightness", "1")] } }).1).trans (by decide)

/-- C20. Timestamp rule. For a known entity and a change patch: if the added part carries
a non-zero `lc`, `last_changed` and `last_updated` both become the ISO text of `lc`; if it
carries a non-zero `lu` and no non-zero `lc`, `last_updated` becomes the ISO text of `lu`
and `last_changed` is unchanged; if it carries neither (no added part, or `lc` and `lu`
each missing or zero), both are unchanged. In the additions section `last_changed` is the
ISO text of `lc`; a record whose `lu` is missing or zero gets `last_updated` equal to
`last_changed`, and a record with a non-zero `lu` gets the ISO text of `lu`. -/
theorem C20_timestamp_rule (toISO : Int → String) (state : List (String × HassEntity))
    (e : String) (entityState : HassEntity) (diff : EntityDiff) (newState : EntityState)
    (h : jsGet state e = some entityState) :
    jsGet (project toISO state { c := some [(e, diff)] }).1 e =
      some (patchedEntity toISO diff entityState) ∧
    (∀ toAdd lc, diff.plus = some toAdd → toAdd.lc = some lc → lc ≠ 0 →
      (patchedEntity toISO diff entityState).last_changed = toISO lc ∧
      (patchedEntity toISO diff entityState).last_updated = toISO lc) ∧
    (∀ toAdd lu, diff.plus = some toAdd → (toAdd.lc = none ∨ toAdd.lc = some 0) →
      toAdd.lu = some lu → lu ≠ 0 →
      (patchedEntity toISO diff entityState).last_changed = entityState.last_changed ∧
      (patchedEntity toISO diff entityState).last_updated = toISO lu) ∧
    ((∀ toAdd, diff.plus = some toAdd →
        (toAdd.lc = none ∨ toAdd.lc = some 0) ∧ (toAdd.lu = none ∨ toAdd.lu = some 0)) →
      (patchedEntity toISO diff entityState).last_changed = entityState.last_changed ∧
      (patchedEntity toISO diff entityState).last_updated = entityState.last_updated) ∧
    jsGet (project toISO state { a := some [(e, newState)] }).1 e =
      some (addedEntity toISO e newState) ∧
    (addedEntity toISO e newState).last_changed = toISO newState.lc ∧
    ((newState.lu = none ∨ newState.lu = some 0) →
      (addedEntity toISO e newState).last_updated = toISO newState.lc) ∧
    (∀ lu, newState.lu = some lu → lu ≠ 0 →
      (addedEntity toISO e newState).last_updated = toISO lu) := by
  have hts : ∀ toAdd, diff.plus = some toAdd →
      (patchedEntity toISO diff entityState).last_changed =
        (applyToAdd toISO toAdd entityState).last_changed ∧
      (patchedEntity toISO diff entityState).last_updated =
        (applyToAdd toISO toAdd entityState).last_updated := by
    intro toAdd hp
    unfold patchedEntity
    rw [hp]
    dsimp only
    split <;> exact ⟨rfl, rfl⟩
  refine ⟨?_, ?_, ?_, ?_, ?_, rfl, ?_, ?_⟩
  · rw [project_change, h]
    exact jsGet_jsSet_same _ _ _
  · intro toAdd lc hp hlc hne
    rw [(hts toAdd hp).1, (hts toAdd hp).2]
    rw [applyToAdd_eq]
    simp [hlc, truthyNumber, hne]
  · intro toAdd lu hp hlc hlu hne
    rw [(hts toAdd hp).1, (hts toAdd hp).2]
    rw [applyToAdd_eq]
    rcases hlc with hlc | hlc <;> simp [hlc, hlu, truthyNumber, hne]
  · intro hall
    cases hp : diff.plus with
    | none =>
      unfold patchedEntity
      rw [hp]
      dsimp only
      split <;> exact ⟨rfl, rfl⟩
    | some toAdd =>
      obtain ⟨hlc, hlu⟩ := hall toAdd hp
      rw [(hts toAdd hp).1, (hts toAdd hp).2]
      rw [applyToAdd_eq]
      rcases hlc with hlc | hlc <;> rcases hlu with hlu | hlu <;>
        simp [hlc, hlu, truthyNumber]
  · have := jsGet_applyAdditions toISO [] [] e newState state (by simp)
    exact this
  · intro hlu
    rcases hlu with hlu | hlu <;> simp [addedEntity, hlu, truthyNumber]
  · intro lu hlu hne
    simp [addedEntity, hlu, truthyNumber, hne]

/-- Counterexample to C20 as stated: the patch `"+": {lc: 0, lu: 2000}` carries `lc`, yet
`last_changed` of `light.x` stays at the ISO text of 1000 s and only `last_updated` changes,
to the ISO text of 2000 s; neither becomes the ISO text of 0 s. The test `if (toAdd.lc)`
takes the number 0 for a missing field. -/
theorem C20_zero_timestamp_counts_as_absent :
    jsGet (project sampleISO sampleSnapshot
      { c := some [("light.x", { plus := some { lc := some 0, lu := some 2000 } })] }).1
      "light.x" =
      some
        { entity_id := "light.x"
          state := "on"
          attributes := [("brightness", "10")]
          context := none
          last_changed := "1970-01-01T00:16:40.000Z"
          last_updated := "1970-01-01T00:33:20.000Z" } ∧
    sampleISO 0 = "1970-01-01T00:00:00.000Z" := by
  decide

/-- Witness of C20: the patch `"+": {lc: 2000}` on the entity `light.x`. -/
theorem C20_timestamp_rule_witness :
    (patchedEntity sampleISO { plus := some { lc := some 2000 } }
      { entity_id := "light.x", state := "on", attributes := [("brightness", "10")],
        last_changed := "1970-01-01T00:16:40.000Z",
        last_updated := "1970-01-01T00:16:40.000Z" }).last_changed =
      "1970-01-01T00:33:20.000Z" :=
  ((C20_timestamp_rule sampleISO sampleSnapshot "light.x"
    { entity_id := "light.x", state := "on", attributes := [("brightness", "10")],
      last_changed := "1970-01-01T00:16:40.000Z",
      last_updated := "1970-01-01T00:16:40.000Z" }
    { plus := some { lc := some 2000 } } sampleAdded (by decide)).2.1
      { lc := some 2000 } 2000 rfl rfl (by decide)).1

/-! ## C30: the queue after a failed reconnect attempt -/

theorem Connection.reconnectFailed_socket (tries : Nat) (err : Rejection) (c : Connection) :
    (c.reconnectFailed tries err).socket = c.socket := by
  unfold Connection.reconnectFailed
  cases hq : c._queuedMessages with
  | none =>
    by_cases herr : err = .code ERR_INVALID_AUTH
    · simp [herr]
    · simp [herr]
  | some q =>
    by_cases herr : err = .code ERR_INVALID_AUTH
    · simp [herr, Connection.rejectQueued_fields]
    · simp [herr, Connection.rejectQueued_fields]

/-- C30. When a reconnect attempt fails with any error (`ERR_INVALID_AUTH` or another),
the `catch` block sets `_queuedMessages` to `undefined` and calls the `reject` of every
queue element that has one (every queued call and every waiting subscription) with the bare
code `ERR_CONNECTION_LOST`. For an error other than `ERR_INVALID_AUTH` the timer of the next
attempt is set. A call issued after the failure, while there is still no socket, is not
queued: it is rejected at once with `ERR_CONNECTION_LOST` and the queue stays
`undefined`. -/
theorem C30_failed_attempt_discards_queue (c : Connection) (tries : Nat) (err : Rejection)
    (message : Message) (hs : c.socket = none) :
    let c' := c.runCont (.socketCreated tries) (.rejected err)
    let q := c._queuedMessages.getD []
    c'._queuedMessages = none ∧
    (∀ x ∈ q, ∀ p, x.reject? = some p →
      Effect.reject p (.code ERR_CONNECTION_LOST) ∈ c'.trace) ∧
    (err ≠ .code ERR_INVALID_AUTH →
      c'.timers = c.timers ++ [(tries + 1, min (tries + 1) 5 * 1000)]) ∧
    (c'.sendMessagePromise message).2 = c'.nextPromise ∧
    (c'.sendMessagePromise message).1._queuedMessages = none ∧
    (c'.sendMessagePromise message).1.trace =
      c'.trace ++ [.reject c'.nextPromise (.code ERR_CONNECTION_LOST)] := by
  intro c' q
  have hc' : c' = c.reconnectFailed tries err := rfl
  have h := Connection.reconnectFailed_eq tries err c
  rw [← hc'] at h
  have hsock : c'.socket = none := by
    rw [hc', Connection.reconnectFailed_socket]
    exact hs
  have hconn : c'.connected = false := by
    simp [Connection.connected, hsock]
  have hsend := Connection.sendMessagePromise_lost message h.1 hconn
  refine ⟨h.1, ?_, fun herr => (h.2.2.2.2 herr).1, ?_, ?_, ?_⟩
  · intro x hx p hp
    have hmem : Effect.reject p (.code ERR_CONNECTION_LOST) ∈ queueRejections q := by
      simp only [queueRejections, List.mem_filterMap]
      exact ⟨x, hx, by simp [hp]⟩
    by_cases herr : err = .code ERR_INVALID_AUTH
    · rw [(h.2.2.2.1 herr).2]
      exact List.mem_append_left _ (List.mem_append_right _ hmem)
    · rw [(h.2.2.2.2 herr).2]
      exact List.mem_append_left _ (List.mem_append_right _ hmem)
  · rw [hsend]
  · rw [hsend]
    simp [h.1]
  · rw [hsend]
    simp

/-- Witness of C30: the first attempt of the sample connection with a queue fails with
`ERR_CANNOT_CONNECT`; the call `get_states` issued next is rejected at once. -/
theorem C30_failed_attempt_discards_queue_witness :
    ((sampleQueued.runCont (.socketCreated 0)
      (.rejected (.code ERR_CANNOT_CONNECT))).sendMessagePromise sampleCall).1.trace =
      (sampleQueued.runCont (.socketCreated 0) (.rejected (.code ERR_CANNOT_CONNECT))).trace ++
        [.reject 3 (.code ERR_CONNECTION_LOST)] :=
  (C30_failed_attempt_discards_queue sampleQueued 0 (.code ERR_CANNOT_CONNECT) sampleCall
    rfl).2.2.2.2.2

/-! ## C29: `atLeastHaVersion` -/

theorem decimalFrom_no_dot {cs : List Char} {acc v : Nat} (h : decimalFrom acc cs = some v) :
    '.' ∉ cs := by
  induction cs generalizing acc with
  | nil => simp
  | cons c cs ih =>
    unfold decimalFrom at h
    split at h
    · rename_i hc
      intro hmem
      rcases List.mem_cons.1 hmem with h1 | h1
      · rw [← h1] at hc
        exact absurd hc (by decide)
      · exact ih h h1
    · cases h

theorem splitDots_of_no_dot {p : List Char} (h : '.' ∉ p) : splitDots p = [p] := by
  induction p with
  | nil => rfl
  | cons c p ih =>
    have hc : c ≠ '.' := fun hc => h (hc ▸ List.mem_cons_self _ _)
    have hp : '.' ∉ p := fun hp => h (List.mem_cons_of_mem _ hp)
    simp [splitDots, hc, ih hp]

theorem splitDots_append {p : List Char} (rest : List Char) (h : '.' ∉ p) :
    splitDots (p ++ '.' :: rest) = p :: splitDots rest := by
  induction p with
  | nil => simp [splitDots]
  | cons c p ih =>
    have hc : c ≠ '.' := fun hc => h (hc ▸ List.mem_cons_self _ _)
    have hp : '.' ∉ p := fun hp => h (List.mem_cons_of_mem _ hp)
    simp [splitDots, hc, ih hp]

theorem binaryLength_le (fuel : Nat) : ∀ n k : Nat, n < 2 ^ k → binaryLength fuel n ≤ k := by
  induction fuel with
  | zero => intro n k _; exact Nat.zero_le _
  | succ fuel ih =>
    intro n k hn
    unfold binaryLength
    by_cases h0 : n = 0
    · rw [if_pos h0]
      exact Nat.zero_le _
    · rw [if_neg h0]
      cases k with
      | zero =>
        simp at hn
        exact absurd hn h0
      | succ k =>
        have : n / 2 < 2 ^ k := by
          rw [Nat.div_lt_iff_lt_mul (by decide)]
          rw [pow_succ] at hn
          exact hn
        have := ih (n / 2) k this
        omega

theorem binaryLength_pos {n : Nat} (h : n ≠ 0) : 1 ≤ binaryLength n n := by
  cases n with
  | zero => exact absurd rfl h
  | succ n =>
    unfold binaryLength
    rw [if_neg h]
    omega

theorem roundHalfEven_one (a : Nat) : roundHalfEven a 1 = a := by
  simp [roundHalfEven, Nat.mod_one]

/-- A natural number below `2 ^ 53` is a double: the conversion is exact. -/
theorem roundToDouble_exact {M : Nat} (h : M < 2 ^ 53) :
    ∃ j : Nat, roundToDouble false M 1 = .finite false (M * 2 ^ j) (-(j : Int)) := by
  by_cases h0 : M = 0
  · exact ⟨0, by simp [roundToDouble, h0]⟩
  · have hb1 := binaryLength_le M M 53 h
    have hb2 := binaryLength_pos h0
    have hone : binaryLength 1 1 = 1 := by decide
    have he : floorLog2 M 1 ≤ 52 ∧ -1 ≤ floorLog2 M 1 := by
      unfold floorLog2
      rw [hone]
      dsimp only
      split <;> omega
    obtain ⟨j, hj⟩ : ∃ j : Nat, max (floorLog2 M 1) (-1022) - 52 = -(j : Int) ∧ j ≤ 53 := by
      refine ⟨(52 - max (floorLog2 M 1) (-1022)).toNat, ?_, ?_⟩ <;> omega
    refine ⟨j, ?_⟩
    unfold roundToDouble
    rw [if_neg h0]
    dsimp only
    rw [hj.1]
    have e1 : (-(-(j : Int))).toNat = j := by omega
    have e2 : (-(j : Int)).toNat = 0 := by omega
    rw [e1, e2]
    simp only [pow_zero, Nat.mul_one, roundHalfEven_one]
    have hlt : M * 2 ^ j < 2 ^ (53 + j) := by
      rw [pow_add]
      exact Nat.mul_lt_mul_of_pos_right h (by positivity)
    have hb3 := binaryLength_le (M * 2 ^ j) (M * 2 ^ j) (53 + j) hlt
    rw [if_neg (by omega)]

theorem decimalFrom_digits {cs : List Char} {acc v : Nat} (h : decimalFrom acc cs = some v) :
    ∀ c ∈ cs, '0' ≤ c ∧ c ≤ '9' := by
  induction cs generalizing acc with
  | nil => simp
  | cons c cs ih =>
    unfold decimalFrom at h
    split at h
    · rename_i hc
      intro d hd
      rcases List.mem_cons.1 hd with h1 | h1
      · rw [h1]
        exact hc
      · exact ih h d h1
    · cases h

theorem digit_toNat {c : Char} (h : '0' ≤ c ∧ c ≤ '9') : 48 ≤ c.toNat ∧ c.toNat ≤ 57 := by
  obtain ⟨h1, h2⟩ := h
  exact ⟨h1, h2⟩

theorem digit_not_whiteSpace {c : Char} (h : '0' ≤ c ∧ c ≤ '9') : isStrWhiteSpace c = false := by
  have := digit_toNat h
  simp only [isStrWhiteSpace, Bool.or_eq_false_iff, decide_eq_false_iff_not, List.mem_cons,
    List.mem_singleton, List.not_mem_nil, or_false, not_or, not_and]
  omega

theorem digit_ne {c d : Char} (h : '0' ≤ c ∧ c ≤ '9') (hd : d.toNat < 48 ∨ 57 < d.toNat) :
    c ≠ d := by
  intro hc
  have := digit_toNat h
  rw [hc] at this
  omega

theorem trimWhiteSpace_digits {ds : List Char} (h : ∀ c ∈ ds, '0' ≤ c ∧ c ≤ '9') :
    trimWhiteSpace ds = ds := by
  have drop : ∀ l : List Char, (∀ c ∈ l, '0' ≤ c ∧ c ≤ '9') →
      l.dropWhile isStrWhiteSpace = l := by
    intro l hl
    cases l with
    | nil => rfl
    | cons c l =>
      rw [List.dropWhile_cons, digit_not_whiteSpace (hl c (List.mem_cons_self _ _))]
      rfl
  unfold trimWhiteSpace
  rw [drop ds h, drop ds.reverse (fun c hc => h c (List.mem_reverse.1 hc)), List.reverse_reverse]

theorem nonDecimalLiteral_digits {ds : List Char} (h : ∀ c ∈ ds, '0' ≤ c ∧ c ≤ '9') :
    nonDecimalLiteral ds = none := by
  unfold nonDecimalLiteral
  split
  · rename_i z p d ds'
    have hp := h p (by simp)
    have n1 := digit_ne hp (d := 'b') (by decide)
    have n2 := digit_ne hp (d := 'B') (by decide)
    have n3 := digit_ne hp (d := 'o') (by decide)
    have n4 := digit_ne hp (d := 'O') (by decide)
    have n5 := digit_ne hp (d := 'x') (by decide)
    have n6 := digit_ne hp (d := 'X') (by decide)
    simp [n1, n2, n3, n4, n5, n6]
  · rfl

theorem unsignedDecimal_digits {ds : List Char} {M : Nat} (hne : ds ≠ [])
    (hM : decimalFrom 0 ds = some M) : unsignedDecimal ds = some (M, 0) := by
  have h := decimalFrom_digits hM
  have ht : ds.takeWhile isDecimalDigit = ds := by
    rw [List.takeWhile_eq_self_iff]
    intro c hc
    simpa [isDecimalDigit] using h c hc
  have hd : ds.dropWhile isDecimalDigit = [] := by
    rw [List.dropWhile_eq_nil_iff]
    intro c hc
    simpa [isDecimalDigit] using h c hc
  unfold unsignedDecimal
  simp [ht, hd, hne, hM, exponentPart]

theorem strDecimalLiteral_digits {ds : List Char} {M : Nat} (hne : ds ≠ [])
    (hM : decimalFrom 0 ds = some M) : strDecimalLiteral ds = roundToDouble false M 1 := by
  have h := decimalFrom_digits hM
  obtain ⟨c, cs, rfl⟩ := List.exists_cons_of_ne_nil hne
  have hc := h c (List.mem_cons_self _ _)
  have n1 := digit_ne hc (d := '+') (by decide)
  have n2 := digit_ne hc (d := '-') (by decide)
  have n3 := digit_ne hc (d := 'I') (by decide)
  unfold strDecimalLiteral
  simp only [List.head?_cons, Option.some.injEq, n1, n2, or_self, if_false, decide_False]
  rw [if_neg (by intro hi; exact n3 (List.cons.inj hi).1), unsignedDecimal_digits hne hM]
  simp

/-- The conversion `Number` of a string of decimal digits is the double nearest to its
value. -/
theorem Number_digits {ds : List Char} {M : Nat} (hM : decimalFrom 0 ds = some M) :
    Number ds = roundToDouble false M 1 := by
  have h := decimalFrom_digits hM
  unfold Number
  rw [trimWhiteSpace_digits h]
  dsimp only
  by_cases hne : ds = []
  · subst hne
    simp only [decimalFrom, Option.some.injEq] at hM
    subst hM
    rfl
  · rw [if_neg hne, nonDecimalLiteral_digits h]
    exact strDecimalLiteral_digits hne hM

/-- The comparisons of `Number(part)` with an integer, for a part of decimal digits whose
value is below `2 ^ 53`: those of the value. -/
theorem toNumber_digits {ds : List Char} {M : Nat} (hM : decimalFrom 0 ds = some M)
    (hlt : M < 2 ^ 53) (n : Int) :
    numberGt (toNumber (some ds)) n = decide ((M : Int) > n) ∧
    numberGe (toNumber (some ds)) n = decide ((M : Int) ≥ n) ∧
    numberEq (toNumber (some ds)) n = decide ((M : Int) = n) := by
  obtain ⟨j, hj⟩ := roundToDouble_exact hlt
  have e1 : (-(-(j : Int))).toNat = j := by omega
  have e2 : (-(j : Int)).toNat = 0 := by omega
  have hpos : (0 : Int) < 2 ^ j := by positivity
  simp only [toNumber, Number_digits hM, hj, numberGt, numberGe, numberEq, signedMantissa, e1, e2,
    pow_zero, mul_one, Nat.cast_mul, Nat.cast_pow, Nat.cast_ofNat, Bool.false_eq_true, if_false]
  refine ⟨?_, ?_, ?_⟩
  · rw [decide_eq_decide]
    exact mul_lt_mul_right hpos
  · rw [decide_eq_decide]
    exact mul_le_mul_right hpos
  · rw [decide_eq_decide]
    exact mul_left_inj' (ne_of_gt hpos)

/-- The value of `atLeastHaVersion` on a version of three parts of decimal digits with values
below `2 ^ 53`. -/
theorem atLeastHaVersion_eq {dM dm dp : List Char} {M m p : Nat}
    (hM : decimalFrom 0 dM = some M) (hm : decimalFrom 0 dm = some m)
    (hp : decimalFrom 0 dp = some p) (bM : M < 2 ^ 53) (bm : m < 2 ^ 53) (bp : p < 2 ^ 53)
    (major minor : Int) (patch : Option Int) :
    atLeastHaVersion (String.mk (dM ++ '.' :: (dm ++ '.' :: dp))) major minor patch =
      (decide ((M : Int) > major) ||
        (decide ((M : Int) = major) &&
          (match patch with
           | none => decide ((m : Int) ≥ minor)
           | some _ => decide ((m : Int) > minor))) ||
        (match patch with
         | none => false
         | some patch =>
           decide ((M : Int) = major) && decide ((m : Int) = minor) &&
             decide ((p : Int) ≥ patch))) := by
  have hs : splitDots (dM ++ '.' :: (dm ++ '.' :: dp)) = [dM, dm, dp] := by
    rw [splitDots_append _ (decimalFrom_no_dot hM), splitDots_append _ (decimalFrom_no_dot hm),
      splitDots_of_no_dot (decimalFrom_no_dot hp)]
  unfold atLeastHaVersion
  simp only [String.toList, hs]
  simp only [List.take_succ_cons, List.take_zero, List.getElem?_cons_zero,
    List.getElem?_cons_succ, List.take_nil]
  rw [(toNumber_digits hM bM major).1, (toNumber_digits hM bM major).2.2,
    (toNumber_digits hm bm minor).1, (toNumber_digits hm bm minor).2.1,
    (toNumber_digits hm bm minor).2.2]
  cases patch with
  | none => rfl
  | some patch =>
    dsimp only
    rw [(toNumber_digits hp bp patch).2.1]

/-- C29. For a version `M.m.p` whose three parts are strings of decimal digits with values
`M`, `m`, `p` below `2 ^ 53` (the integers that a Number holds exactly), and for all integers
`major`, `minor`, `patch`: `atLeastHaVersion(version, major, minor, patch)` is true exactly
when `(M, m, p)` is at least `(major, minor, patch)` in the lexicographic order, and with
`patch` omitted exactly when `(M, m)` is at least `(major, minor)`. So the handler of an
`auth_ok` message with this version sends `supported_features` exactly when `(M, m)` is at
least `(2022, 9)`, and then resolves with the socket. -/
theorem C29_version_gate (dM dm dp : List Char) (M m p : Nat) (major minor patch : Int)
    (hM : decimalFrom 0 dM = some M) (hm : decimalFrom 0 dm = some m)
    (hp : decimalFrom 0 dp = some p) (bM : M < 2 ^ 53) (bm : m < 2 ^ 53) (bp : p < 2 ^ 53) :
    let version := String.mk (dM ++ '.' :: (dm ++ '.' :: dp))
    (atLeastHaVersion version major minor (some patch) = true ↔
      toLex (major, toLex (minor, patch)) ≤ toLex ((M : Int), toLex ((m : Int), (p : Int)))) ∧
    (atLeastHaVersion version major minor none = true ↔
      toLex (major, minor) ≤ toLex ((M : Int), (m : Int))) ∧
    (∀ (h : Handshake) (socket : Nat) (a : Attempt), jsGet h.attempts socket = some a →
      a.closed = false → a.errored = false → a.onMessage = true →
      (h.socketEvent socket (.message (.auth_ok version))).trace =
        h.trace ++
          (if toLex ((2022 : Int), (9 : Int)) ≤ toLex ((M : Int), (m : Int)) then
            [.send socket supportedFeatures] else []) ++
          [.promResolve socket]) := by
  intro version
  have h1 : atLeastHaVersion version major minor (some patch) = true ↔
      toLex (major, toLex (minor, patch)) ≤
        toLex ((M : Int), toLex ((m : Int), (p : Int))) := by
    simp only [version]
    rw [atLeastHaVersion_eq hM hm hp bM bm bp, Prod.Lex.le_iff]
    simp only [Prod.Lex.le_iff, Prod.Lex.lt_iff, Bool.or_eq_true, Bool.and_eq_true,
      decide_eq_true_eq]
    constructor
    · rintro ((h | ⟨h, h'⟩) | ⟨⟨h, h'⟩, h''⟩)
      · exact Or.inl h
      · exact Or.inr ⟨h.symm, Or.inl h'⟩
      · exact Or.inr ⟨h.symm, Or.inr ⟨h'.symm, h''⟩⟩
    · rintro (h | ⟨h, h' | ⟨h', h''⟩⟩)
      · exact Or.inl (Or.inl h)
      · exact Or.inl (Or.inr ⟨h.symm, h'⟩)
      · exact Or.inr ⟨⟨h.symm, h'.symm⟩, h''⟩
  have h2 : ∀ major minor : Int, atLeastHaVersion version major minor none = true ↔
      toLex (major, minor) ≤ toLex ((M : Int), (m : Int)) := by
    intro major minor
    simp only [version]
    rw [atLeastHaVersion_eq hM hm hp bM bm bp, Prod.Lex.le_iff]
    simp only [Bool.or_eq_true, Bool.and_eq_true, decide_eq_true_eq, Bool.or_false]
    constructor
    · rintro (h | ⟨h, h'⟩)
      · exact Or.inl h
      · exact Or.inr ⟨h.symm, h'⟩
    · rintro (h | ⟨h, h'⟩)
      · exact Or.inl h
      · exact Or.inr ⟨h.symm, h'⟩
  refine ⟨h1, h2 major minor, ?_⟩
  intro h socket a ha hcl herr hmsg
  unfold Handshake.socketEvent
  rw [ha]
  simp only [hcl, herr, hmsg, Bool.false_eq_true, if_false, if_true]
  unfold Handshake.handleMessage
  by_cases hv : toLex ((2022 : Int), (9 : Int)) ≤ toLex ((M : Int), (m : Int))
  · have := (h2 2022 9).2 hv
    simp [this, hv, Handshake.promResolve]
  · have : atLeastHaVersion version 2022 9 none = false := by
      cases hb : atLeastHaVersion version 2022 9 none with
      | false => rfl
      | true => exact absurd ((h2 2022 9).1 hb) hv
    simp [this, hv, Handshake.promResolve]

/-- Witness of C29: the version `2022.10.3` against `2022.9`. -/
theorem C29_version_gate_witness :
    atLeastHaVersion "2022.10.3" 2022 9 none = true ↔
      toLex ((2022 : Int), (9 : Int)) ≤ toLex (((2022 : Nat) : Int), ((10 : Nat) : Int)) :=
  (C29_version_gate ['2', '0', '2', '2'] ['1', '0'] ['3'] 2022 10 3 2022 9 0
    (by decide) (by decide) (by decide) (by decide) (by decide) (by decide)).2.1

/-- Counterexample to C29 as stated: the version `9007199254740993.0.0` against the major
version 9007199254740992 and the minor version 1. As integers `(M, m)` is above
`(major, minor)`, but `Number("9007199254740993")` is the double 9007199254740992, equal to
`major`, and the minor version 0 is below 1: `atLeastHaVersion` returns false. So do the
calls with a patch argument. -/
theorem C29_major_beyond_double_precision :
    toLex ((9007199254740992 : Int), (1 : Int)) ≤
      toLex ((9007199254740993 : Int), (0 : Int)) ∧
    atLeastHaVersion "9007199254740993.0.0" 9007199254740992 1 none = false ∧
    toNumber (some "9007199254740993".toList) = .finite false (2 ^ 52) 1 ∧
    atLeastHaVersion "9007199254740993.0.0" 9007199254740992 1 (some 0) = false := by
  refine ⟨?_, by decide, by decide, by decide⟩
  rw [Prod.Lex.le_iff]
  exact Or.inl (by decide)

/-! ## C22, C23: the retries of the handshake -/

namespace Handshake

theorem socketsOpened_append (tr tr' : List HandshakeEffect) :
    socketsOpened (tr ++ tr') = socketsOpened tr ++ socketsOpened tr' := by
  induction tr with
  | nil => rfl
  | cons e tr ih => cases e <;> simp [socketsOpened, ih]

/-- What `closeMessage` does, case by case. -/
theorem closeMessage_eq (socket : Nat) (a : Attempt) (h : Handshake) :
    (h.closeMessage socket a).attempts = jsSet h.attempts socket { a with onClose := false } ∧
    (h.closeMessage socket a).nextSocket = h.nextSocket ∧
    (a.invalidAuth = true →
      (h.closeMessage socket a).timers = h.timers ∧
      (h.closeMessage socket a).settled =
        some (h.settled.getD (.rejected (.code ERR_INVALID_AUTH))) ∧
      (h.closeMessage socket a).trace = h.trace ++ [.promReject (.code ERR_INVALID_AUTH)]) ∧
    (a.invalidAuth = false → a.triesLeft = 0 →
      (h.closeMessage socket a).timers = h.timers ∧
      (h.closeMessage socket a).settled =
        some (h.settled.getD (.rejected (.code ERR_CANNOT_CONNECT))) ∧
      (h.closeMessage socket a).trace = h.trace ++ [.promReject (.code ERR_CANNOT_CONNECT)]) ∧
    (a.invalidAuth = false → a.triesLeft ≠ 0 →
      (h.closeMessage socket a).timers =
        h.timers ++ [if a.triesLeft = -1 then -1 else a.triesLeft - 1] ∧
      (h.closeMessage socket a).settled = h.settled ∧
      (h.closeMessage socket a).trace =
        h.trace ++ [.setTimeout (if a.triesLeft = -1 then -1 else a.triesLeft - 1) 1000]) := by
  unfold closeMessage
  cases hi : a.invalidAuth with
  | true => simp [promReject]
  | false =>
    by_cases ht : a.triesLeft = 0
    · simp [ht, promReject]
    · simp [ht, promReject]

/-- What the `close` event does to an attempt whose `close` listener is attached. -/
theorem socketEvent_close {h : Handshake} {socket : Nat} {a : Attempt}
    (ha : jsGet h.attempts socket = some a) (hcl : a.closed = false)
    (hclose : a.onClose = true) :
    h.socketEvent socket .close =
      closeMessage socket { a with closed := true }
        { h with attempts := jsSet h.attempts socket { a with closed := true } } := by
  unfold socketEvent
  rw [ha]
  simp [hcl, hclose]

theorem socketEvent_auth_invalid {h : Handshake} {socket : Nat} {a : Attempt}
    (ha : jsGet h.attempts socket = some a) (hcl : a.closed = false)
    (herr : a.errored = false) (hmsg : a.onMessage = true) :
    h.socketEvent socket (.message .auth_invalid) =
      { h with
        attempts := jsSet h.attempts socket { a with invalidAuth := true }
        trace := h.trace ++ [.close socket] } := by
  unfold socketEvent
  rw [ha]
  simp [hcl, herr, hmsg, handleMessage]

theorem socketEvent_close_off {h : Handshake} {socket : Nat} {a : Attempt}
    (ha : jsGet h.attempts socket = some a) (hcl : a.closed = false)
    (hclose : a.onClose = false) :
    h.socketEvent socket .close =
      { h with attempts := jsSet h.attempts socket { a with closed := true } } := by
  unfold socketEvent
  rw [ha]
  simp [hcl, hclose]

theorem socketEvent_error {h : Handshake} {socket : Nat} {a : Attempt}
    (ha : jsGet h.attempts socket = some a) (hcl : a.closed = false)
    (herr : a.errored = false) (hon : a.onError = true) :
    h.socketEvent socket .error =
      closeMessage socket { a with errored := true }
        { h with attempts := jsSet h.attempts socket { a with errored := true } } := by
  unfold socketEvent
  rw [ha]
  simp [hcl, herr, hon]

theorem socketEvent_error_off {h : Handshake} {socket : Nat} {a : Attempt}
    (ha : jsGet h.attempts socket = some a) (hcl : a.closed = false)
    (herr : a.errored = false) (hon : a.onError = false) :
    h.socketEvent socket .error =
      { h with attempts := jsSet h.attempts socket { a with errored := true } } := by
  unfold socketEvent
  rw [ha]
  simp [hcl, herr, hon]

/-- What `closeMessage` can change, for an attempt `a` that replaces the attempt `a0` of the
socket. -/
theorem closeMessage_summary (socket : Nat) (a0 a : Attempt) (h : Handshake)
    (hlive : a0.canFail = true) (hdead : ({ a with onClose := false } : Attempt).canFail = false) :
    (closeMessage socket a { h with attempts := jsSet h.attempts socket a }).nextSocket =
      h.nextSocket ∧
    socketsOpened (closeMessage socket a
      { h with attempts := jsSet h.attempts socket a }).trace = socketsOpened h.trace ∧
    (h.settled.isSome = true →
      (closeMessage socket a { h with attempts := jsSet h.attempts socket a }).settled =
        h.settled) ∧
    (closeMessage socket a { h with attempts := jsSet h.attempts socket a }).attempts =
      jsSet h.attempts socket { a with onClose := false } ∧
    ((closeMessage socket a { h with attempts := jsSet h.attempts socket a }).timers =
        h.timers ∨
      ((∃ n, (closeMessage socket a
          { h with attempts := jsSet h.attempts socket a }).timers = h.timers ++ [n]) ∧
        a0.canFail = true ∧ ({ a with onClose := false } : Attempt).canFail = false)) := by
  have hset : ∀ o : HandshakeOutcome, h.settled.isSome = true →
      some (h.settled.getD o) = h.settled := by
    intro o ho
    cases hs : h.settled with
    | none => simp [hs] at ho
    | some v => rfl
  have hc := closeMessage_eq socket a { h with attempts := jsSet h.attempts socket a }
  refine ⟨hc.2.1, ?_, ?_, ?_, ?_⟩
  · cases hi : a.invalidAuth with
    | true =>
      rw [(hc.2.2.1 hi).2.2]
      simp [socketsOpened_append, socketsOpened]
    | false =>
      by_cases ht : a.triesLeft = 0
      · rw [(hc.2.2.2.1 hi ht).2.2]
        simp [socketsOpened_append, socketsOpened]
      · rw [(hc.2.2.2.2 hi ht).2.2]
        simp [socketsOpened_append, socketsOpened]
  · intro hs
    cases hi : a.invalidAuth with
    | true =>
      rw [(hc.2.2.1 hi).2.1]
      exact hset _ hs
    | false =>
      by_cases ht : a.triesLeft = 0
      · rw [(hc.2.2.2.1 hi ht).2.1]
        exact hset _ hs
      · rw [(hc.2.2.2.2 hi ht).2.1]
  · rw [hc.1]
    exact jsSet_jsSet_same _ _ _ _
  · cases hi : a.invalidAuth with
    | true => exact Or.inl (hc.2.2.1 hi).1
    | false =>
      by_cases ht : a.triesLeft = 0
      · exact Or.inl (hc.2.2.2.1 hi ht).1
      · exact Or.inr ⟨⟨_, (hc.2.2.2.2 hi ht).1⟩, hlive, hdead⟩

theorem socketEvent_none {h : Handshake} {socket : Nat} (ev : SocketEvent)
    (ha : jsGet h.attempts socket = none) : h.socketEvent socket ev = h := by
  unfold socketEvent
  rw [ha]

theorem socketEvent_closed {h : Handshake} {socket : Nat} {a : Attempt} (ev : SocketEvent)
    (ha : jsGet h.attempts socket = some a) (hcl : a.closed = true) :
    h.socketEvent socket ev = h := by
  unfold socketEvent
  rw [ha]
  simp [hcl]

theorem socketEvent_errored {h : Handshake} {socket : Nat} {a : Attempt} {ev : SocketEvent}
    (ha : jsGet h.attempts socket = some a) (herr : a.errored = true) (hev : ev ≠ .close) :
    h.socketEvent socket ev = h := by
  unfold socketEvent
  rw [ha]
  cases ev <;> simp_all

theorem socketEvent_opened {h : Handshake} {socket : Nat} {a : Attempt}
    (thrown : Option Rejection) (ha : jsGet h.attempts socket = some a)
    (hcl : a.closed = false) (herr : a.errored = false) :
    h.socketEvent socket (.opened thrown) =
      if a.onOpen then h.handleOpen socket a thrown else h := by
  unfold socketEvent
  rw [ha]
  simp [hcl, herr]

theorem socketEvent_openedExpired {h : Handshake} {socket : Nat} {a : Attempt}
    (ha : jsGet h.attempts socket = some a) (hcl : a.closed = false)
    (herr : a.errored = false) :
    h.socketEvent socket .openedExpired =
      if a.onOpen then h.handleOpenExpired socket a else h := by
  unfold socketEvent
  rw [ha]
  simp [hcl, herr]

theorem socketEvent_message {h : Handshake} {socket : Nat} {a : Attempt} (m : AuthMessage)
    (ha : jsGet h.attempts socket = some a) (hcl : a.closed = false)
    (herr : a.errored = false) :
    h.socketEvent socket (.message m) =
      if a.onMessage then h.handleMessage socket a m else h := by
  unfold socketEvent
  rw [ha]
  simp [hcl, herr]

/-- What an event of a socket can change: no socket is opened; a settled promise stays as
it is; at most the attempt of that socket changes, and it does not come back to life; a timer
is set only by an attempt that could still fail and no longer can. -/
theorem socketEvent_summary (socket : Nat) (ev : SocketEvent) (h : Handshake) :
    (h.socketEvent socket ev).nextSocket = h.nextSocket ∧
    socketsOpened (h.socketEvent socket ev).trace = socketsOpened h.trace ∧
    (h.settled.isSome = true → (h.socketEvent socket ev).settled = h.settled) ∧
    (((h.socketEvent socket ev).attempts = h.attempts ∧
        (h.socketEvent socket ev).timers = h.timers) ∨
      ∃ a a', jsGet h.attempts socket = some a ∧
        (h.socketEvent socket ev).attempts = jsSet h.attempts socket a' ∧
        (a'.canFail = true → a.canFail = true) ∧
        ((h.socketEvent socket ev).timers = h.timers ∨
          ((∃ n, (h.socketEvent socket ev).timers = h.timers ++ [n]) ∧
            a.canFail = true ∧ a'.canFail = false))) := by
  have hset : ∀ o : HandshakeOutcome, h.settled.isSome = true →
      some (h.settled.getD o) = h.settled := by
    intro o ho
    cases hs : h.settled with
    | none => simp [hs] at ho
    | some v => rfl
  have same : ∀ h' : Handshake, h' = h →
      h'.nextSocket = h.nextSocket ∧ socketsOpened h'.trace = socketsOpened h.trace ∧
      (h.settled.isSome = true → h'.settled = h.settled) ∧
      ((h'.attempts = h.attempts ∧ h'.timers = h.timers) ∨
        ∃ a a', jsGet h.attempts socket = some a ∧ h'.attempts = jsSet h.attempts socket a' ∧
          (a'.canFail = true → a.canFail = true) ∧
          (h'.timers = h.timers ∨
            ((∃ n, h'.timers = h.timers ++ [n]) ∧ a.canFail = true ∧ a'.canFail = false))) := by
    intro h' hh
    subst hh
    exact ⟨rfl, rfl, fun _ => rfl, Or.inl ⟨rfl, rfl⟩⟩
  rcases Option.eq_none_or_eq_some (jsGet h.attempts socket) with ha | ⟨a, ha⟩
  · exact same _ (socketEvent_none ev ha)
  · cases hcl : a.closed with
    | true => exact same _ (socketEvent_closed ev ha hcl)
    | false =>
      cases ev with
      | opened thrown =>
        cases herr : a.errored with
        | true => exact same _ (socketEvent_errored ha herr (by intro hc; cases hc))
        | false =>
          rw [socketEvent_opened thrown ha hcl herr]
          cases hop : a.onOpen with
          | false => exact same _ rfl
          | true =>
            simp only [if_true]
            cases thrown with
            | none =>
              refine ⟨rfl, ?_, fun _ => rfl, Or.inl ⟨rfl, rfl⟩⟩
              simp [handleOpen, socketsOpened_append, socketsOpened]
            | some e =>
              refine ⟨rfl, ?_, fun _ => rfl, Or.inr ⟨a, _, ha, rfl, ?_, Or.inl rfl⟩⟩
              · simp [handleOpen, socketsOpened_append, socketsOpened]
              · simp [Attempt.canFail]
      | openedExpired =>
        cases herr : a.errored with
        | true => exact same _ (socketEvent_errored ha herr (by intro hc; cases hc))
        | false =>
          rw [socketEvent_openedExpired ha hcl herr]
          cases hop : a.onOpen with
          | false => exact same _ rfl
          | true =>
            simp only [if_true]
            refine ⟨rfl, rfl, fun _ => rfl, Or.inr ⟨a, _, ha, rfl, ?_, Or.inl rfl⟩⟩
            simp [Attempt.canFail]
      | message m =>
        cases herr : a.errored with
        | true => exact same _ (socketEvent_errored ha herr (by intro hc; cases hc))
        | false =>
          rw [socketEvent_message m ha hcl herr]
          cases hop : a.onMessage with
          | false => exact same _ rfl
          | true =>
            simp only [if_true]
            cases m with
            | auth_invalid =>
              refine ⟨rfl, ?_, fun _ => rfl, Or.inr ⟨a, _, ha, rfl, ?_, Or.inl rfl⟩⟩
              · simp [handleMessage, socketsOpened_append, socketsOpened]
              · simp [Attempt.canFail]
            | auth_ok v =>
              refine ⟨?_, ?_, ?_, Or.inr ⟨a, { a with
                  onOpen := false, onMessage := false, onClose := false, onError := false
                  haVersion := some v }, ha, ?_, ?_, Or.inl ?_⟩⟩
              · unfold handleMessage promResolve
                dsimp only
                split <;> rfl
              · unfold handleMessage promResolve
                dsimp only
                split <;> simp [socketsOpened_append, socketsOpened]
              · intro hs
                unfold handleMessage promResolve
                dsimp only
                split <;> exact hset _ hs
              · unfold handleMessage promResolve
                dsimp only
                split <;> rfl
              · simp [Attempt.canFail]
              · unfold handleMessage promResolve
                dsimp only
                split <;> rfl
            | other t => exact same _ rfl
      | error =>
        cases herr : a.errored with
        | true => exact same _ (socketEvent_errored ha herr (by intro hc; cases hc))
        | false =>
          cases hon : a.onError with
          | false =>
            rw [socketEvent_error_off ha hcl herr hon]
            refine ⟨rfl, rfl, fun _ => rfl, Or.inr ⟨a, _, ha, rfl, ?_, Or.inl rfl⟩⟩
            simp [Attempt.canFail, hon]
          | true =>
            rw [socketEvent_error ha hcl herr hon]
            have hlive : a.canFail = true := by simp [Attempt.canFail, hcl, hon, herr]
            have hsum := closeMessage_summary socket a { a with errored := true } h hlive
              (by simp [Attempt.canFail])
            exact ⟨hsum.1, hsum.2.1, hsum.2.2.1,
              Or.inr ⟨a, _, ha, hsum.2.2.2.1, by simp [Attempt.canFail], hsum.2.2.2.2⟩⟩
      | close =>
        cases hon : a.onClose with
        | false =>
          rw [socketEvent_close_off ha hcl hon]
          refine ⟨rfl, rfl, fun _ => rfl, Or.inr ⟨a, _, ha, rfl, ?_, Or.inl rfl⟩⟩
          simp [Attempt.canFail]
        | true =>
          rw [socketEvent_close ha hcl hon]
          have hlive : a.canFail = true := by simp [Attempt.canFail, hcl, hon]
          have hsum := closeMessage_summary socket a { a with closed := true } h hlive
            (by simp [Attempt.canFail])
          exact ⟨hsum.1, hsum.2.1, hsum.2.2.1,
            Or.inr ⟨a, _, ha, hsum.2.2.2.1, by simp [Attempt.canFail], hsum.2.2.2.2⟩⟩

/-- What the end of an awaited token refresh can change: the flag `invalidAuth` and the count
of waiting runs of the attempt of that socket, and the trace (a send or a `close()`). -/
theorem refreshed_eq {h : Handshake} {socket : Nat} {a : Attempt}
    (thrown : Option Rejection) (ha : jsGet h.attempts socket = some a) (hw : a.awaiting ≠ 0) :
    h.refreshed socket thrown =
      { h with
        attempts := jsSet h.attempts socket
          { a with
            awaiting := a.awaiting - 1
            invalidAuth := thrown.elim a.invalidAuth (fun err => decide (err = .code ERR_INVALID_AUTH)) }
        trace := h.trace ++ [thrown.elim (.send socket auth) (fun _ => .close socket)] } := by
  unfold refreshed
  rw [ha]
  simp only [if_neg hw]
  cases thrown with
  | none => rfl
  | some err =>
    simp only [handleOpen, Option.elim, jsSet_jsSet_same]

theorem refreshed_idle {h : Handshake} {socket : Nat} (thrown : Option Rejection)
    (ha : ∀ a, jsGet h.attempts socket = some a → a.awaiting = 0) :
    h.refreshed socket thrown = h := by
  unfold refreshed
  rcases Option.eq_none_or_eq_some (jsGet h.attempts socket) with h0 | ⟨a, h0⟩
  · rw [h0]
  · rw [h0]
    simp [ha a h0]

theorem refreshed_summary (socket : Nat) (thrown : Option Rejection) (h : Handshake) :
    (h.refreshed socket thrown).nextSocket = h.nextSocket ∧
    socketsOpened (h.refreshed socket thrown).trace = socketsOpened h.trace ∧
    (h.settled.isSome = true → (h.refreshed socket thrown).settled = h.settled) ∧
    (((h.refreshed socket thrown).attempts = h.attempts ∧
        (h.refreshed socket thrown).timers = h.timers) ∨
      ∃ a a', jsGet h.attempts socket = some a ∧
        (h.refreshed socket thrown).attempts = jsSet h.attempts socket a' ∧
        (a'.canFail = true → a.canFail = true) ∧
        ((h.refreshed socket thrown).timers = h.timers ∨
          ((∃ n, (h.refreshed socket thrown).timers = h.timers ++ [n]) ∧
            a.canFail = true ∧ a'.canFail = false))) := by
  by_cases hw : ∀ a, jsGet h.attempts socket = some a → a.awaiting = 0
  · rw [refreshed_idle thrown hw]
    exact ⟨rfl, rfl, fun _ => rfl, Or.inl ⟨rfl, rfl⟩⟩
  · push_neg at hw
    obtain ⟨a, ha, hw⟩ := hw
    rw [refreshed_eq thrown ha hw]
    refine ⟨rfl, ?_, fun _ => rfl, Or.inr ⟨a, _, ha, rfl, ?_, Or.inl rfl⟩⟩
    · cases thrown <;> simp [socketsOpened_append, socketsOpened]
    · simp [Attempt.canFail]

theorem keys_jsSet {κ α : Type} [DecidableEq κ] {m : List (κ × α)} {k : κ} {w : α} (v : α)
    (h : jsGet m k = some w) : (jsSet m k v).map Prod.fst = m.map Prod.fst := by
  induction m with
  | nil => simp [jsGet] at h
  | cons e m ih =>
    obtain ⟨a, x⟩ := e
    by_cases h1 : a = k
    · simp [jsSet, h1]
    · simp [jsGet, h1] at h
      simp [jsSet, h1, ih h]

theorem eq_of_mem_jsSet {κ α : Type} [DecidableEq κ] {m : List (κ × α)} {k : κ} {v : α}
    {x : κ × α} (hn : (m.map Prod.fst).Nodup) (hx : x ∈ jsSet m k v) (hk : x.1 = k) :
    x = (k, v) := by
  induction m with
  | nil => simpa [jsSet] using hx
  | cons e m ih =>
    obtain ⟨a, w⟩ := e
    simp only [List.map_cons, List.nodup_cons] at hn
    by_cases h1 : a = k
    · simp only [jsSet, h1, if_true, List.mem_cons] at hx
      rcases hx with hx | hx
      · exact hx
      · exfalso
        apply hn.1
        rw [h1, ← hk]
        exact List.mem_map_of_mem _ hx
    · simp only [jsSet, h1, if_false, List.mem_cons] at hx
      rcases hx with hx | hx
      · rw [hx] at hk
        exact absurd hk h1
      · exact ih hn.2 hx

/-- What an event of a socket, or of a token refresh awaited for it, changes of a handshake
in which no attempt can fail and no timer is pending: neither. -/
theorem idle_of_summary {socket : Nat} {h h' : Handshake} (ht : h.timers = [])
    (hd : ∀ x ∈ h.attempts, x.2.canFail = false)
    (h4 : (h'.attempts = h.attempts ∧ h'.timers = h.timers) ∨
      ∃ a a', jsGet h.attempts socket = some a ∧ h'.attempts = jsSet h.attempts socket a' ∧
        (a'.canFail = true → a.canFail = true) ∧
        (h'.timers = h.timers ∨
          ((∃ n, h'.timers = h.timers ++ [n]) ∧ a.canFail = true ∧ a'.canFail = false))) :
    h'.timers = [] ∧ (∀ x ∈ h'.attempts, x.2.canFail = false) := by
  refine ⟨?_, ?_⟩
  · rcases h4 with ⟨_, h4⟩ | ⟨a, a', ha, _, _, h4 | ⟨_, hlive, _⟩⟩
    · exact h4.trans ht
    · exact h4.trans ht
    · rw [hd _ (mem_of_jsGet ha)] at hlive
      cases hlive
  · rcases h4 with ⟨h4, _⟩ | ⟨a, a', ha, hatt, hback, _⟩
    · intro x hx
      exact hd x (h4 ▸ hx)
    · intro x hx
      have hx' : x ∈ jsSet h.attempts socket a' := hatt ▸ hx
      rcases mem_jsSet hx' with hx' | hx'
      · subst hx'
        cases hc : a'.canFail with
        | false => rfl
        | true =>
          have := hback hc
          rw [hd _ (mem_of_jsGet ha)] at this
          cases this
      · exact hd x hx'

/-- Once no attempt can fail and no timer is pending, an event changes neither. -/
theorem step_idle (e : HandshakeEvent) {h : Handshake} (ht : h.timers = [])
    (hd : ∀ x ∈ h.attempts, x.2.canFail = false) :
    (h.step e).timers = [] ∧ (∀ x ∈ (h.step e).attempts, x.2.canFail = false) ∧
    (h.step e).nextSocket = h.nextSocket ∧
    socketsOpened (h.step e).trace = socketsOpened h.trace ∧
    (h.settled.isSome = true → (h.step e).settled = h.settled) := by
  cases e with
  | timer =>
    have : h.step .timer = h := by simp [step, timerFired, ht]
    rw [this]
    exact ⟨ht, hd, rfl, rfl, fun _ => rfl⟩
  | refreshed socket thrown =>
    obtain ⟨h1, h2, h3, h4⟩ := refreshed_summary socket thrown h
    obtain ⟨i1, i2⟩ := idle_of_summary ht hd h4
    exact ⟨i1, i2, h1, h2, h3⟩
  | socket socket ev =>
    obtain ⟨h1, h2, h3, h4⟩ := socketEvent_summary socket ev h
    refine ⟨?_, ?_, h1, h2, h3⟩
    · rcases h4 with ⟨_, h4⟩ | ⟨a, a', ha, _, _, h4 | ⟨_, hlive, _⟩⟩
      · exact h4.trans ht
      · exact h4.trans ht
      · rw [hd _ (mem_of_jsGet ha)] at hlive
        cases hlive
    · rcases h4 with ⟨h4, _⟩ | ⟨a, a', ha, hatt, hback, _⟩
      · intro x hx
        exact hd x (h4 ▸ hx)
      · intro x hx
        have hx' : x ∈ jsSet h.attempts socket a' := hatt ▸ hx
        rcases mem_jsSet hx' with hx' | hx'
        · subst hx'
          cases hc : a'.canFail with
          | false => rfl
          | true =>
            have := hback hc
            rw [hd _ (mem_of_jsGet ha)] at this
            cases this
        · exact hd x hx'

theorem run_idle (es : List HandshakeEvent) {h : Handshake} (ht : h.timers = [])
    (hd : ∀ x ∈ h.attempts, x.2.canFail = false) :
    (h.run es).nextSocket = h.nextSocket ∧
    socketsOpened (h.run es).trace = socketsOpened h.trace ∧
    (h.settled.isSome = true → (h.run es).settled = h.settled) := by
  induction es generalizing h with
  | nil => exact ⟨rfl, rfl, fun _ => rfl⟩
  | cons e es ih =>
    obtain ⟨h1, h2, h3, h4, h5⟩ := step_idle e ht hd
    obtain ⟨i1, i2, i3⟩ := ih h1 h2
    refine ⟨i1.trans h3, i2.trans h4, fun hs => ?_⟩
    have hs' : (h.step e).settled.isSome = true := by rw [h5 hs]; exact hs
    exact (i3 hs').trans (h5 hs)

/-- An event of a socket, or of a token refresh awaited for it, keeps at most one attempt
under way. -/
theorem single_of_summary {socket : Nat} {h h' : Handshake} (hs : h.Single)
    (h1 : h'.nextSocket = h.nextSocket)
    (h4 : (h'.attempts = h.attempts ∧ h'.timers = h.timers) ∨
      ∃ a a', jsGet h.attempts socket = some a ∧ h'.attempts = jsSet h.attempts socket a' ∧
        (a'.canFail = true → a.canFail = true) ∧
        (h'.timers = h.timers ∨
          ((∃ n, h'.timers = h.timers ++ [n]) ∧ a.canFail = true ∧ a'.canFail = false))) :
    h'.Single := by
  obtain ⟨hn, hlt, huniq, htim⟩ := hs
  rcases h4 with ⟨hatt, htm⟩ | ⟨a, a', ha, hatt, hback, htm⟩
  · refine ⟨hatt ▸ hn, ?_, ?_, ?_⟩
    · rw [hatt, h1]
      exact hlt
    · rw [hatt]
      exact huniq
    · rw [hatt, htm]
      exact htim
  · have hmem := mem_of_jsGet ha
    have hkeys : h'.attempts.map Prod.fst = h.attempts.map Prod.fst := by
      rw [hatt]
      exact keys_jsSet a' ha
    have hold : ∀ x ∈ h'.attempts,
        x = (socket, a') ∨ (x ∈ h.attempts ∧ x.1 ≠ socket) := by
      intro x hx
      rw [hatt] at hx
      by_cases hk : x.1 = socket
      · exact Or.inl (eq_of_mem_jsSet hn hx hk)
      · rcases mem_jsSet hx with hx' | hx'
        · rw [hx'] at hk
          exact absurd rfl hk
        · exact Or.inr ⟨hx', hk⟩
    have hdeadOld : a.canFail = false → ∀ x ∈ h'.attempts,
        x.1 ≠ socket → x ∈ h.attempts := by
      intro _ x hx hne
      rcases hold x hx with hx' | ⟨hx', _⟩
      · rw [hx'] at hne
        exact absurd rfl hne
      · exact hx'
    have hother : a.canFail = true → ∀ x ∈ h'.attempts,
        x.2.canFail = true → x = (socket, a') := by
      intro hal x hx hxl
      rcases hold x hx with hx' | ⟨hx', hne⟩
      · exact hx'
      · exact absurd (huniq x hx' (socket, a) hmem hxl hal) hne
    refine ⟨hkeys ▸ hn, ?_, ?_, ?_⟩
    · intro x hx
      rw [h1]
      have hk : x.1 ∈ h'.attempts.map Prod.fst :=
        List.mem_map_of_mem _ hx
      rw [hkeys] at hk
      obtain ⟨y, hy, hyx⟩ := List.mem_map.1 hk
      rw [← hyx]
      exact hlt y hy
    · intro x hx y hy hxl hyl
      cases hal : a.canFail with
      | true => rw [hother hal x hx hxl, hother hal y hy hyl]
      | false =>
        have hx' : x ∈ h.attempts ∧ x.1 ≠ socket := by
          rcases hold x hx with hx' | hx'
          · rw [hx'] at hxl
            have := hback hxl
            rw [hal] at this
            cases this
          · exact hx'
        have hy' : y ∈ h.attempts ∧ y.1 ≠ socket := by
          rcases hold y hy with hy' | hy'
          · rw [hy'] at hyl
            have := hback hyl
            rw [hal] at this
            cases this
          · exact hy'
        exact huniq x hx'.1 y hy'.1 hxl hyl
    · rcases htm with htm | ⟨⟨n, htm⟩, hal, hdead'⟩
      · rw [htm]
        rcases htim with htim | ⟨n, htim, hdead⟩
        · exact Or.inl htim
        · refine Or.inr ⟨n, htim, ?_⟩
          intro x hx
          rcases hold x hx with hx' | ⟨hx', _⟩
          · rw [hx']
            cases hc : a'.canFail with
            | false => rfl
            | true =>
              have := hback hc
              rw [hdead _ hmem] at this
              cases this
          · exact hdead x hx'
      · have ht0 : h.timers = [] := by
          rcases htim with htim | ⟨n', _, hdead⟩
          · exact htim
          · rw [hdead _ hmem] at hal
            cases hal
        refine Or.inr ⟨n, by rw [htm, ht0]; rfl, ?_⟩
        intro x hx
        cases hc : x.2.canFail with
        | false => rfl
        | true =>
          have := hother hal x hx hc
          rw [this] at hc
          rw [hdead'] at hc
          cases hc

/-- An event keeps at most one attempt under way. -/
theorem step_single (e : HandshakeEvent) {h : Handshake} (hs : h.Single) :
    (h.step e).Single := by
  obtain ⟨hn, hlt, huniq, htim⟩ := hs
  cases e with
  | timer =>
    show h.timerFired.Single
    unfold timerFired
    cases ht : h.timers with
    | nil => exact ⟨hn, hlt, huniq, htim⟩
    | cons n rest =>
      rcases htim with htim | ⟨n', htim, hdead⟩
      · rw [ht] at htim
        cases htim
      · rw [ht] at htim
        obtain ⟨rfl, rfl⟩ := List.cons.inj htim
        refine ⟨?_, ?_, ?_, Or.inl rfl⟩
        · simp only [connect, List.map_append, List.map_cons, List.map_nil]
          rw [List.nodup_append]
          refine ⟨hn, by simp, ?_⟩
          intro k hk hk'
          simp only [List.mem_singleton] at hk'
          obtain ⟨x, hx, rfl⟩ := List.mem_map.1 hk
          have := hlt x hx
          omega
        · intro x hx
          simp only [connect, List.mem_append, List.mem_singleton] at hx
          rcases hx with hx | hx
          · have := hlt x hx
            show x.1 < h.nextSocket + 1
            omega
          · subst hx
            show h.nextSocket < h.nextSocket + 1
            omega
        · intro x hx y hy hxl hyl
          simp only [connect, List.mem_append, List.mem_singleton] at hx hy
          rcases hx with hx | hx
          · rw [hdead x hx] at hxl
            cases hxl
          · rcases hy with hy | hy
            · rw [hdead y hy] at hyl
              cases hyl
            · rw [hx, hy]
  | socket socket ev =>
    obtain ⟨h1, _, _, h4⟩ := socketEvent_summary socket ev h
    exact single_of_summary ⟨hn, hlt, huniq, htim⟩ h1 h4
  | refreshed socket thrown =>
    obtain ⟨h1, _, _, h4⟩ := refreshed_summary socket thrown h
    exact single_of_summary ⟨hn, hlt, huniq, htim⟩ h1 h4

theorem run_single (es : List HandshakeEvent) {h : Handshake} (hs : h.Single) :
    (h.run es).Single := by
  induction es generalizing h with
  | nil => exact hs
  | cons e es ih => exact ih (step_single e hs)

end Handshake

theorem createSocket_single (setupRetry : Int) : (createSocket setupRetry).Single := by
  refine ⟨by simp [createSocket, Handshake.connect], ?_, ?_, Or.inl rfl⟩
  · intro x hx
    simp only [createSocket, Handshake.connect, List.nil_append, List.mem_singleton] at hx
    subst hx
    show 0 < 0 + 1
    omega
  · intro x hx y hy _ _
    simp only [createSocket, Handshake.connect, List.nil_append, List.mem_singleton] at hx hy
    rw [hx, hy]

namespace Handshake

/-- When the one attempt that can fail no longer can, none can. -/
theorem dead_of_single {h : Handshake} {socket : Nat} {a a' : Attempt} (hs : h.Single)
    (ha : jsGet h.attempts socket = some a) (halive : a.canFail = true)
    (hdead : a'.canFail = false) : ∀ x ∈ jsSet h.attempts socket a', x.2.canFail = false := by
  obtain ⟨hn, _, huniq, _⟩ := hs
  intro x hx
  by_cases hk : x.1 = socket
  · rw [eq_of_mem_jsSet hn hx hk]
    exact hdead
  · rcases mem_jsSet hx with hx' | hx'
    · rw [hx'] at hk
      exact absurd rfl hk
    · cases hc : x.2.canFail with
      | false => rfl
      | true => exact absurd (huniq x hx' (socket, a) (mem_of_jsGet ha) hc halive) hk

/-- What an event of a socket whose attempt can no longer fail changes, unless it is an
`auth_ok` message: at most that attempt. -/
theorem socketEvent_dead {h : Handshake} {s : Nat} {y : Attempt} {ev : SocketEvent}
    (hy : jsGet h.attempts s = some y) (hdead : y.canFail = false)
    (hev : ∀ v, ev ≠ .message (.auth_ok v)) :
    (h.socketEvent s ev).settled = h.settled ∧ (h.socketEvent s ev).timers = h.timers ∧
    ((h.socketEvent s ev).attempts = h.attempts ∨
      ∃ y', (h.socketEvent s ev).attempts = jsSet h.attempts s y') := by
  have same : ∀ h' : Handshake, h' = h →
      h'.settled = h.settled ∧ h'.timers = h.timers ∧
      (h'.attempts = h.attempts ∨ ∃ y', h'.attempts = jsSet h.attempts s y') := by
    intro h' hh
    subst hh
    exact ⟨rfl, rfl, Or.inl rfl⟩
  cases hcl : y.closed with
  | true => exact same _ (socketEvent_closed ev hy hcl)
  | false =>
    have hoff : y.onClose = false ∧ (y.onError = false ∨ y.errored = true) := by
      simp only [Attempt.canFail, hcl, Bool.not_false, Bool.true_and, Bool.or_eq_false_iff,
        Bool.and_eq_false_iff, Bool.not_eq_false'] at hdead
      exact hdead
    cases herr : y.errored with
    | true =>
      by_cases hc : ev = .close
      · subst hc
        rw [socketEvent_close_off hy hcl hoff.1]
        exact ⟨rfl, rfl, Or.inr ⟨_, rfl⟩⟩
      · exact same _ (socketEvent_errored hy herr hc)
    | false =>
      cases ev with
      | opened thrown =>
        rw [socketEvent_opened thrown hy hcl herr]
        cases y.onOpen with
        | false => exact same _ rfl
        | true =>
          cases thrown with
          | none => exact ⟨rfl, rfl, Or.inl rfl⟩
          | some err => exact ⟨rfl, rfl, Or.inr ⟨_, rfl⟩⟩
      | openedExpired =>
        rw [socketEvent_openedExpired hy hcl herr]
        cases y.onOpen with
        | false => exact same _ rfl
        | true => exact ⟨rfl, rfl, Or.inr ⟨_, rfl⟩⟩
      | message m =>
        rw [socketEvent_message m hy hcl herr]
        cases y.onMessage with
        | false => exact same _ rfl
        | true =>
          cases m with
          | auth_invalid => exact ⟨rfl, rfl, Or.inr ⟨_, rfl⟩⟩
          | auth_ok v => exact absurd rfl (hev v)
          | other t => exact same _ rfl
      | error =>
        have hon : y.onError = false := by
          rcases hoff.2 with h1 | h1
          · exact h1
          · rw [herr] at h1
            cases h1
        rw [socketEvent_error_off hy hcl herr hon]
        exact ⟨rfl, rfl, Or.inr ⟨_, rfl⟩⟩
      | close =>
        rw [socketEvent_close_off hy hcl hoff.1]
        exact ⟨rfl, rfl, Or.inr ⟨_, rfl⟩⟩

/-- The listener `closeMessage` of an attempt whose flag `invalidAuth` is set, with the
promise pending: the promise is rejected with `ERR_INVALID_AUTH` and no timer is set. -/
theorem closeMessage_invalid {h : Handshake} {socket : Nat} {a a' : Attempt} (hs : h.Single)
    (ha : jsGet h.attempts socket = some a) (halive : a.canFail = true)
    (hinv : a'.invalidAuth = true) (hset : h.settled = none) (ht : h.timers = [])
    (hdead : ({ a' with onClose := false } : Attempt).canFail = false) :
    (closeMessage socket a' { h with attempts := jsSet h.attempts socket a' }).Refused ∧
    (closeMessage socket a' { h with attempts := jsSet h.attempts socket a' }).trace =
      h.trace ++ [.promReject (.code ERR_INVALID_AUTH)] := by
  obtain ⟨hatt, _, hc, _, _⟩ :=
    closeMessage_eq socket a' { h with attempts := jsSet h.attempts socket a' }
  obtain ⟨htm, hst, htr⟩ := hc hinv
  refine ⟨⟨?_, htm.trans ht, ?_⟩, htr⟩
  · rw [hst]
    show some (h.settled.getD _) = _
    rw [hset]
    rfl
  · rw [hatt]
    show ∀ x ∈ jsSet (jsSet h.attempts socket a') socket _, _
    rw [jsSet_jsSet_same]
    exact dead_of_single hs ha halive hdead

/-- An event that keeps the flag `invalidAuth` of `socket` leaves a doomed attempt doomed, or
makes it fail with `ERR_INVALID_AUTH`. -/
theorem step_doomed {h : Handshake} {socket : Nat} (e : HandshakeEvent) (hs : h.Single)
    (hd : h.Doomed socket) (hk : e.keepsInvalidAuth socket = true) :
    (h.step e).Doomed socket ∨ (h.step e).Refused := by
  obtain ⟨hset, ht, a, ha, hinv, hcl, hclose⟩ := hd
  have halive : a.canFail = true := by simp [Attempt.canFail, hcl, hclose]
  have keep : ∀ a' : Attempt, a'.invalidAuth = true → a'.closed = false → a'.onClose = true →
      Doomed socket { h with attempts := jsSet h.attempts socket a' } :=
    fun a' h1 h2 h3 => ⟨hset, ht, a', jsGet_jsSet_same _ _ _, h1, h2, h3⟩
  have other : ∀ (s : Nat) (h' : Handshake), s ≠ socket → h'.settled = h.settled →
      h'.timers = h.timers →
      (h'.attempts = h.attempts ∨ ∃ y', h'.attempts = jsSet h.attempts s y') →
      h'.Doomed socket := by
    intro s h' hne h1 h2 h3
    refine ⟨h1.trans hset, h2.trans ht, a, ?_, hinv, hcl, hclose⟩
    rcases h3 with h3 | ⟨y', h3⟩
    · rw [h3]
      exact ha
    · rw [h3, jsGet_jsSet_ne _ _ _ _ (Ne.symm hne)]
      exact ha
  cases e with
  | timer =>
    have : h.step .timer = h := by simp [step, timerFired, ht]
    rw [this]
    exact Or.inl ⟨hset, ht, a, ha, hinv, hcl, hclose⟩
  | refreshed s thrown =>
    left
    show (h.refreshed s thrown).Doomed socket
    by_cases hw : ∀ y, jsGet h.attempts s = some y → y.awaiting = 0
    · rw [refreshed_idle thrown hw]
      exact ⟨hset, ht, a, ha, hinv, hcl, hclose⟩
    · push_neg at hw
      obtain ⟨y, hy, hw⟩ := hw
      rw [refreshed_eq thrown hy hw]
      by_cases hne : s = socket
      · subst hne
        rw [ha] at hy
        cases hy
        refine keep _ ?_ hcl hclose
        cases thrown with
        | none => exact hinv
        | some err =>
          simpa [HandshakeEvent.keepsInvalidAuth] using hk
      · exact other s _ hne rfl rfl (Or.inr ⟨_, rfl⟩)
  | socket s ev =>
    show (h.socketEvent s ev).Doomed socket ∨ (h.socketEvent s ev).Refused
    by_cases hne : s = socket
    · subst hne
      have same : ∀ h' : Handshake, h' = h → h'.Doomed s ∨ h'.Refused := by
        intro h' hh
        subst hh
        exact Or.inl ⟨hset, ht, a, ha, hinv, hcl, hclose⟩
      cases ev with
      | close =>
        rw [socketEvent_close ha hcl hclose]
        exact Or.inr (@closeMessage_invalid h s a { a with closed := true } hs ha halive hinv
          hset ht (by simp [Attempt.canFail])).1
      | error =>
        cases herr : a.errored with
        | true => exact same _ (socketEvent_errored ha herr (by intro hc; cases hc))
        | false =>
          cases hon : a.onError with
          | false =>
            rw [socketEvent_error_off ha hcl herr hon]
            exact Or.inl (keep _ hinv hcl hclose)
          | true =>
            rw [socketEvent_error ha hcl herr hon]
            exact Or.inr (@closeMessage_invalid h s a { a with errored := true } hs ha halive
              hinv hset ht (by simp [Attempt.canFail])).1
      | opened thrown =>
        cases herr : a.errored with
        | true => exact same _ (socketEvent_errored ha herr (by intro hc; cases hc))
        | false =>
          rw [socketEvent_opened thrown ha hcl herr]
          cases a.onOpen with
          | false => exact same _ rfl
          | true =>
            cases thrown with
            | none => exact Or.inl ⟨hset, ht, a, ha, hinv, hcl, hclose⟩
            | some err =>
              refine Or.inl (keep _ ?_ hcl hclose)
              simpa [HandshakeEvent.keepsInvalidAuth] using hk
      | openedExpired =>
        cases herr : a.errored with
        | true => exact same _ (socketEvent_errored ha herr (by intro hc; cases hc))
        | false =>
          rw [socketEvent_openedExpired ha hcl herr]
          cases a.onOpen with
          | false => exact same _ rfl
          | true => exact Or.inl (keep _ hinv hcl hclose)
      | message m =>
        cases herr : a.errored with
        | true => exact same _ (socketEvent_errored ha herr (by intro hc; cases hc))
        | false =>
          rw [socketEvent_message m ha hcl herr]
          cases a.onMessage with
          | false => exact same _ rfl
          | true =>
            cases m with
            | auth_invalid => exact Or.inl (keep _ rfl hcl hclose)
            | auth_ok v => simp [HandshakeEvent.keepsInvalidAuth] at hk
            | other t => exact same _ rfl
    · left
      rcases Option.eq_none_or_eq_some (jsGet h.attempts s) with hy | ⟨y, hy⟩
      · rw [socketEvent_none ev hy]
        exact ⟨hset, ht, a, ha, hinv, hcl, hclose⟩
      · have hdead : y.canFail = false := by
          cases hc : y.canFail with
          | false => rfl
          | true =>
            exact absurd (hs.2.2.1 (s, y) (mem_of_jsGet hy) (socket, a) (mem_of_jsGet ha) hc
              halive) hne
        have hev : ∀ v, ev ≠ .message (.auth_ok v) := by
          intro v hv
          subst hv
          simp [HandshakeEvent.keepsInvalidAuth] at hk
        obtain ⟨h1, h2, h3⟩ := socketEvent_dead hy hdead hev
        exact other s _ hne h1 h2 h3

/-- Events that keep the flag `invalidAuth` of `socket` open no socket and leave a doomed
attempt doomed, or failed with `ERR_INVALID_AUTH`. -/
theorem run_doomed {socket : Nat} (es : List HandshakeEvent) {h : Handshake} (hs : h.Single)
    (hd : h.Doomed socket ∨ h.Refused) (hk : ∀ e ∈ es, e.keepsInvalidAuth socket = true) :
    ((h.run es).Doomed socket ∨ (h.run es).Refused) ∧ (h.run es).nextSocket = h.nextSocket ∧
    socketsOpened (h.run es).trace = socketsOpened h.trace := by
  induction es generalizing h with
  | nil => exact ⟨hd, rfl, rfl⟩
  | cons e es ih =>
    have hk' : ∀ e' ∈ es, e'.keepsInvalidAuth socket = true :=
      fun e' he' => hk e' (List.mem_cons_of_mem _ he')
    have hstep : ((h.step e).Doomed socket ∨ (h.step e).Refused) ∧
        (h.step e).nextSocket = h.nextSocket ∧
        socketsOpened (h.step e).trace = socketsOpened h.trace := by
      rcases hd with hd | hd
      · have ht : h.timers = [] := hd.2.1
        refine ⟨step_doomed e hs hd (hk e (List.mem_cons_self _ _)), ?_⟩
        cases e with
        | timer =>
          have : h.step .timer = h := by simp [step, timerFired, ht]
          rw [this]
          exact ⟨rfl, rfl⟩
        | refreshed s thrown =>
          exact ⟨(refreshed_summary s thrown h).1, (refreshed_summary s thrown h).2.1⟩
        | socket s ev =>
          exact ⟨(socketEvent_summary s ev h).1, (socketEvent_summary s ev h).2.1⟩
      · obtain ⟨i1, i2, i3, i4, i5⟩ := step_idle e hd.2.1 hd.2.2
        refine ⟨Or.inr ⟨?_, i1, i2⟩, i3, i4⟩
        rw [i5 (by rw [hd.1]; rfl)]
        exact hd.1
    obtain ⟨j1, j2, j3⟩ := ih (step_single e hs) hstep.1 hk'
    exact ⟨j1, j2.trans hstep.2.1, j3.trans hstep.2.2⟩

end Handshake

/-- C22. Take any retry budget `setupRetry` (0, positive, `-1` or any other integer) and
any state that the handshake reaches while its promise is pending, and in it a socket of an
attempt whose listeners are attached. This socket delivers an `auth_invalid` message:
`socket.close()` is called. Then come any events `mid` among which no run of `handleOpen` of
this socket catches an error other than `ERR_INVALID_AUTH` (a token refresh that failed) and
no `auth_ok` message arrives, and then the `close` event of the socket. After it the promise
is rejected with `ERR_INVALID_AUTH`, no timer is set and no socket has been opened; with
nothing in between, the trace has gained the call `socket.close()` and the rejection.
Whatever events follow, no further socket is opened and the promise stays rejected with
`ERR_INVALID_AUTH`. -/
theorem C22_auth_invalid_fails_without_retry (setupRetry : Int)
    (pre mid post : List HandshakeEvent) (socket : Nat) (a : Attempt)
    (ha : jsGet ((createSocket setupRetry).run pre).attempts socket = some a)
    (hcl : a.closed = false) (herr : a.errored = false) (hmsg : a.onMessage = true)
    (hclose : a.onClose = true) (hpending : ((createSocket setupRetry).run pre).settled = none)
    (hmid : ∀ e ∈ mid, e.keepsInvalidAuth socket = true) :
    let h := (createSocket setupRetry).run pre
    let h1 := h.socketEvent socket (.message .auth_invalid)
    let h2 := (h1.run mid).socketEvent socket .close
    h1.trace = h.trace ++ [.close socket] ∧
    h2.settled = some (.rejected (.code ERR_INVALID_AUTH)) ∧
    h2.timers = [] ∧
    h2.nextSocket = h.nextSocket ∧
    socketsOpened h2.trace = socketsOpened h.trace ∧
    (mid = [] →
      h2.trace = h.trace ++ [.close socket, .promReject (.code ERR_INVALID_AUTH)]) ∧
    (h2.run post).nextSocket = h.nextSocket ∧
    socketsOpened (h2.run post).trace = socketsOpened h.trace ∧
    (h2.run post).settled = some (.rejected (.code ERR_INVALID_AUTH)) := by
  intro h h1 h2
  have hs : h.Single := Handshake.run_single pre (createSocket_single setupRetry)
  have hmem : (socket, a) ∈ h.attempts := mem_of_jsGet ha
  have halive : a.canFail = true := by simp [Attempt.canFail, hcl, hclose]
  have ht0 : h.timers = [] := by
    rcases hs.2.2.2 with htim | ⟨n, _, hdead⟩
    · exact htim
    · rw [hdead _ hmem] at halive
      cases halive
  have e1 : h1 = _ := Handshake.socketEvent_auth_invalid ha hcl herr hmsg
  have hs1 : h1.Single := Handshake.step_single (.socket socket (.message .auth_invalid)) hs
  have hd1 : h1.Doomed socket := by
    rw [e1]
    exact ⟨hpending, ht0, _, jsGet_jsSet_same _ _ _, rfl, hcl, hclose⟩
  have htr1 : h1.trace = h.trace ++ [.close socket] := by rw [e1]
  have hn1 : h1.nextSocket = h.nextSocket := by rw [e1]
  have hso1 : socketsOpened h1.trace = socketsOpened h.trace := by
    rw [htr1, Handshake.socketsOpened_append]
    simp [socketsOpened]
  obtain ⟨m1, m2, m3⟩ := Handshake.run_doomed mid hs1 (Or.inl hd1) hmid
  have hsm : (h1.run mid).Single := Handshake.run_single mid hs1
  have hfin : h2.Refused := by
    rcases m1 with hd | hr
    · rcases Handshake.step_doomed (.socket socket .close) hsm hd rfl with hd2 | hr2
      · obtain ⟨_, _, a2, ha2, _, hcl2, _⟩ := hd2
        obtain ⟨_, _, a1, ha1, _, hcl1, hclose1⟩ := hd
        have e2 : (h1.run mid).socketEvent socket .close = _ :=
          Handshake.socketEvent_close ha1 hcl1 hclose1
        have hatt := (Handshake.closeMessage_eq socket { a1 with closed := true }
          { h1.run mid with
            attempts := jsSet (h1.run mid).attempts socket { a1 with closed := true } }).1
        rw [← e2] at hatt
        have ha2' : jsGet (((h1.run mid).step (.socket socket .close))).attempts socket =
            some a2 := ha2
        have hst : (h1.run mid).step (.socket socket .close) =
            (h1.run mid).socketEvent socket .close := rfl
        rw [hst, hatt] at ha2'
        simp only [jsSet_jsSet_same, jsGet_jsSet_same, Option.some.injEq] at ha2'
        rw [← ha2'] at hcl2
        cases hcl2
      · exact hr2
    · obtain ⟨i1, i2, _, _, i5⟩ := Handshake.step_idle (.socket socket .close) hr.2.1 hr.2.2
      refine ⟨?_, i1, i2⟩
      show ((h1.run mid).step (.socket socket .close)).settled = _
      rw [i5 (by rw [hr.1]; rfl)]
      exact hr.1
  have hn2 : h2.nextSocket = h.nextSocket :=
    ((Handshake.socketEvent_summary socket .close (h1.run mid)).1.trans m2).trans hn1
  have hso2 : socketsOpened h2.trace = socketsOpened h.trace :=
    ((Handshake.socketEvent_summary socket .close (h1.run mid)).2.1.trans m3).trans hso1
  obtain ⟨i1, i2, i3⟩ := Handshake.run_idle post hfin.2.1 hfin.2.2
  refine ⟨htr1, hfin.1, hfin.2.1, hn2, hso2, ?_, i1.trans hn2, i2.trans hso2, ?_⟩
  · intro hmid0
    have hh2 : h2 = h1.socketEvent socket .close := by
      show ((h1.run mid).socketEvent socket .close) = _
      rw [hmid0]
      rfl
    obtain ⟨hset1, ht1, a1, ha1, hinv1, hcl1, hclose1⟩ := hd1
    have halive1 : a1.canFail = true := by simp [Attempt.canFail, hcl1, hclose1]
    have e2 : h1.socketEvent socket .close = _ := Handshake.socketEvent_close ha1 hcl1 hclose1
    have hc := (@Handshake.closeMessage_invalid h1 socket a1 { a1 with closed := true } hs1 ha1
      halive1 hinv1 hset1 ht1 (by simp [Attempt.canFail])).2
    rw [← e2, ← hh2] at hc
    rw [hc, htr1]
    simp
  · rw [i3 (by rw [hfin.1]; rfl)]
    exact hfin.1

/-- Witness of C22: with the budget 5 the first attempt fails; the second socket opens while
the token is expired and is asked for auth, then gets `auth_invalid`; the token refresh ends
and the auth message is sent, and the socket closes. -/
theorem C22_auth_invalid_fails_without_retry_witness :
    (((((createSocket 5).run [.socket 0 .error, .socket 0 .close, .timer,
        .socket 1 .openedExpired, .socket 1 (.message (.other "auth_required"))]).socketEvent 1
      (.message .auth_invalid)).run [.refreshed 1 none]).socketEvent 1 .close).settled =
      some (.rejected (.code ERR_INVALID_AUTH)) :=
  (C22_auth_invalid_fails_without_retry 5
    [.socket 0 .error, .socket 0 .close, .timer, .socket 1 .openedExpired,
      .socket 1 (.message (.other "auth_required"))] [.refreshed 1 none] [] 1
    { triesLeft := 4, awaiting := 1 }
    (by decide) rfl rfl rfl rfl (by decide) (by decide)).2.1

/-- Counterexample to C22 as stated: with the budget 5 the socket 0 opens while the token
is expired, so `handleOpen` waits for the token refresh. The socket delivers `auth_invalid`
(`invalidAuth` is set, `socket.close()` is called); then the refresh fails with an error
other than `ERR_INVALID_AUTH`, and the `catch` block of `handleOpen` sets `invalidAuth` to
false. The `close` event then finds the flag cleared: the promise is not rejected, a retry
timer is set with the budget 4, and when it fires the socket 1 is opened. With the budget 0
the promise is rejected with `ERR_CANNOT_CONNECT`, not with `ERR_INVALID_AUTH`. -/
theorem C22_failed_refresh_clears_invalid_auth :
    ((createSocket 5).run [.socket 0 .openedExpired, .socket 0 (.message .auth_invalid),
        .refreshed 0 (some (.exception "Unable to fetch tokens")),
        .socket 0 .close]).trace =
      [.newWebSocket 0, .close 0, .close 0, .setTimeout 4 1000] ∧
    ((createSocket 5).run [.socket 0 .openedExpired, .socket 0 (.message .auth_invalid),
        .refreshed 0 (some (.exception "Unable to fetch tokens")),
        .socket 0 .close]).settled = none ∧
    socketsOpened ((createSocket 5).run [.socket 0 .openedExpired,
        .socket 0 (.message .auth_invalid),
        .refreshed 0 (some (.exception "Unable to fetch tokens")),
        .socket 0 .close, .timer]).trace = [0, 1] ∧
    ((createSocket 0).run [.socket 0 .openedExpired, .socket 0 (.message .auth_invalid),
        .refreshed 0 (some (.exception "Unable to fetch tokens")),
        .socket 0 .close]).settled = some (.rejected (.code ERR_CANNOT_CONNECT)) := by
  decide

namespace Handshake

theorem createSocket_trying (setupRetry : Int) : (createSocket setupRetry).Trying setupRetry 0 := by
  refine ⟨rfl, ?_, rfl, rfl, rfl, ?_, ?_, ?_⟩
  · simp [createSocket, connect, jsGet]
  · simp [createSocket, connect]
  · intro x hx
    simp only [createSocket, connect, List.nil_append, List.mem_singleton] at hx
    subst hx
    exact le_refl _
  · intro x hx hne
    simp only [createSocket, connect, List.nil_append, List.mem_singleton] at hx
    subst hx
    exact absurd rfl hne

/-- What the `close` event of the attempt under way leaves of the attempts: none of them
can fail any more. -/
theorem trying_closed {t : Int} {j : Nat} {h : Handshake} (hp : h.Trying t j) :
    (h.socketEvent j .close).attempts =
      jsSet h.attempts j { triesLeft := t, closed := true, onClose := false } ∧
    (h.socketEvent j .close).nextSocket = h.nextSocket ∧
    ((h.socketEvent j .close).attempts.map Prod.fst).Nodup ∧
    (∀ x ∈ (h.socketEvent j .close).attempts, x.1 ≤ j ∧ x.2.canFail = false) := by
  obtain ⟨hnext, ha, htim, hset, htr, hn, hle, hdead⟩ := hp
  have e1 : h.socketEvent j .close = _ := socketEvent_close ha rfl rfl
  have hc := closeMessage_eq j { triesLeft := t, closed := true }
    { h with attempts := jsSet h.attempts j { triesLeft := t, closed := true } }
  obtain ⟨hatt, hnx, _⟩ := hc
  rw [← e1] at hatt hnx
  have hatt' : (h.socketEvent j .close).attempts =
      jsSet h.attempts j { triesLeft := t, closed := true, onClose := false } := by
    rw [hatt]
    exact jsSet_jsSet_same _ _ _ _
  refine ⟨hatt', hnx, ?_, ?_⟩
  · rw [hatt', keys_jsSet _ ha]
    exact hn
  · intro x hx
    rw [hatt'] at hx
    by_cases hk : x.1 = j
    · rw [eq_of_mem_jsSet hn hx hk]
      exact ⟨le_refl _, by simp [Attempt.canFail]⟩
    · rcases mem_jsSet hx with hx' | hx'
      · rw [hx'] at hk
        exact absurd rfl hk
      · exact ⟨hle x hx', hdead x hx' hk⟩

/-- The attempt under way closes with budget left: a timer is set and fires, and the next
attempt is under way with the new budget. -/
theorem attemptCloses_trying {t : Int} {j : Nat} {h : Handshake} (hp : h.Trying t j)
    (ht : t ≠ 0) :
    h.attemptCloses.Trying (if t = -1 then -1 else t - 1) (j + 1) ∧
    h.attemptCloses.trace =
      h.trace ++ [.setTimeout (if t = -1 then -1 else t - 1) 1000, .newWebSocket (j + 1)] := by
  obtain ⟨hatt', hnx', hn', hmem⟩ := trying_closed hp
  obtain ⟨hnext, ha, htim, hset, htr, hn, hle, hdead⟩ := hp
  have e1 : h.socketEvent j .close = _ := socketEvent_close ha rfl rfl
  have hc := closeMessage_eq j { triesLeft := t, closed := true }
    { h with attempts := jsSet h.attempts j { triesLeft := t, closed := true } }
  obtain ⟨_, _, _, _, hretry⟩ := hc
  obtain ⟨htm, hst, htrc⟩ := hretry rfl ht
  rw [← e1] at htm hst htrc
  have hfire : h.attemptCloses =
      connect (if t = -1 then -1 else t - 1) { h.socketEvent j .close with timers := [] } := by
    have hj : h.nextSocket - 1 = j := by omega
    unfold attemptCloses timerFired
    rw [hj, htm]
    simp [htim]
  have hnone : jsGet (h.socketEvent j .close).attempts (j + 1) = none := by
    apply jsGet_eq_none
    intro x hx
    have := (hmem x hx).1
    omega
  have htrace : h.attemptCloses.trace =
      h.trace ++ [.setTimeout (if t = -1 then -1 else t - 1) 1000, .newWebSocket (j + 1)] := by
    rw [hfire]
    simp only [connect, htrc, hnx', hnext]
    simp
  refine ⟨⟨?_, ?_, ?_, ?_, ?_, ?_, ?_, ?_⟩, htrace⟩
  · rw [hfire]
    simp [connect, hnx', hnext]
  · rw [hfire]
    simp only [connect, hnx', hnext, jsGet_append, hnone]
    simp [jsGet]
  · rw [hfire]
    rfl
  · rw [hfire]
    exact hst.trans hset
  · rw [htrace, socketsOpened_append, htr]
    simp [socketsOpened, List.range_succ]
  · rw [hfire]
    simp only [connect, List.map_append, List.map_cons, List.map_nil, hnx', hnext]
    rw [List.nodup_append]
    refine ⟨hn', by simp, ?_⟩
    intro k hk hk'
    simp only [List.mem_singleton] at hk'
    obtain ⟨x, hx, rfl⟩ := List.mem_map.1 hk
    have := (hmem x hx).1
    omega
  · intro x hx
    rw [hfire] at hx
    simp only [connect, List.mem_append, List.mem_singleton, hnx', hnext] at hx
    rcases hx with hx | hx
    · have := (hmem x hx).1
      omega
    · rw [hx]
  · intro x hx hne
    rw [hfire] at hx
    simp only [connect, List.mem_append, List.mem_singleton, hnx', hnext] at hx
    rcases hx with hx | hx
    · exact (hmem x hx).2
    · rw [hx] at hne
      exact absurd rfl hne

/-- The attempt under way closes with no budget left: the promise is rejected with
`ERR_CANNOT_CONNECT`, no timer is set and no attempt can fail any more. -/
theorem attemptCloses_last {j : Nat} {h : Handshake} (hp : h.Trying 0 j) :
    h.attemptCloses.settled = some (.rejected (.code ERR_CANNOT_CONNECT)) ∧
    h.attemptCloses.trace = h.trace ++ [.promReject (.code ERR_CANNOT_CONNECT)] ∧
    h.attemptCloses.timers = [] ∧
    (∀ x ∈ h.attemptCloses.attempts, x.2.canFail = false) := by
  obtain ⟨hatt', hnx', hn', hmem⟩ := trying_closed hp
  obtain ⟨hnext, ha, htim, hset, htr, hn, hle, hdead⟩ := hp
  have e1 : h.socketEvent j .close = _ := socketEvent_close ha rfl rfl
  have hc := closeMessage_eq j { triesLeft := 0, closed := true }
    { h with attempts := jsSet h.attempts j { triesLeft := 0, closed := true } }
  obtain ⟨_, _, _, hlast, _⟩ := hc
  obtain ⟨htm, hst, htrc⟩ := hlast rfl rfl
  rw [← e1] at htm hst htrc
  have htm' : (h.socketEvent j .close).timers = [] := htm.trans htim
  have hfire : h.attemptCloses = h.socketEvent j .close := by
    have hj : h.nextSocket - 1 = j := by omega
    unfold attemptCloses timerFired
    rw [hj, htm']
  rw [hfire]
  refine ⟨?_, htrc, htm', fun x hx => (hmem x hx).2⟩
  rw [hst]
  show some (h.settled.getD _) = _
  rw [hset]
  rfl

theorem attemptsClose_trying (k : Nat) {n : Nat} {j : Nat} {h : Handshake}
    (hp : h.Trying (n : Int) j) (hk : k ≤ n) :
    (h.attemptsClose k).Trying ((n - k : Nat) : Int) (j + k) := by
  induction k generalizing n j h with
  | zero => exact hp
  | succ k ih =>
    have hn : (n : Int) ≠ 0 := by omega
    have h1 := (attemptCloses_trying hp hn).1
    have hne : ¬ (n : Int) = -1 := by omega
    rw [if_neg hne] at h1
    have h2 : ((n : Int) - 1) = ((n - 1 : Nat) : Int) := by omega
    rw [h2] at h1
    have := ih h1 (by omega)
    have e : n - 1 - k = n - (k + 1) := by omega
    have e' : j + 1 + k = j + (k + 1) := by omega
    rw [e, e'] at this
    exact this

theorem attemptsClose_unlimited (k : Nat) {j : Nat} {h : Handshake} (hp : h.Trying (-1) j) :
    (h.attemptsClose k).Trying (-1) (j + k) := by
  induction k generalizing j h with
  | zero => exact hp
  | succ k ih =>
    have h1 := (attemptCloses_trying hp (by decide)).1
    rw [if_pos rfl] at h1
    have := ih h1
    have e' : j + 1 + k = j + (k + 1) := by omega
    rw [e'] at this
    exact this

theorem attemptsClose_succ (k : Nat) (h : Handshake) :
    h.attemptsClose (k + 1) = (h.attemptsClose k).attemptCloses := by
  induction k generalizing h with
  | zero => rfl
  | succ k ih =>
    show h.attemptCloses.attemptsClose (k + 1) = _
    rw [ih]
    rfl

end Handshake

/-- C23. With a finite budget `n` and every attempt ending with the `close` event of its
socket: after `k <= n` such closes the sockets `0, ..., k` have been opened, attempt `k` runs
with the budget `n - k`, and the promise is pending; after `n + 1` closes exactly the `n + 1`
sockets `0, ..., n` have been opened and the promise is rejected with `ERR_CANNOT_CONNECT`,
and whatever events follow, no further socket is opened. With the budget `-1`, after any
number `k` of closes attempt `k` runs with the budget `-1` and the promise is still
pending. -/
theorem C23_retry_budget (n : Nat) (k : Nat) (post : List HandshakeEvent) :
    (k ≤ n →
      socketsOpened ((createSocket n).attemptsClose k).trace = List.range (k + 1) ∧
      jsGet ((createSocket n).attemptsClose k).attempts k =
        some { triesLeft := ((n - k : Nat) : Int) } ∧
      ((createSocket n).attemptsClose k).settled = none) ∧
    ((createSocket n).attemptsClose (n + 1)).settled =
      some (.rejected (.code ERR_CANNOT_CONNECT)) ∧
    socketsOpened ((createSocket n).attemptsClose (n + 1)).trace = List.range (n + 1) ∧
    socketsOpened (((createSocket n).attemptsClose (n + 1)).run post).trace =
      List.range (n + 1) ∧
    (((createSocket n).attemptsClose (n + 1)).run post).settled =
      some (.rejected (.code ERR_CANNOT_CONNECT)) ∧
    socketsOpened ((createSocket (-1)).attemptsClose k).trace = List.range (k + 1) ∧
    jsGet ((createSocket (-1)).attemptsClose k).attempts k = some { triesLeft := -1 } ∧
    ((createSocket (-1)).attemptsClose k).settled = none := by
  have h0 := Handshake.createSocket_trying (n : Int)
  have hn := Handshake.attemptsClose_trying n h0 (le_refl n)
  simp only [Nat.sub_self, Nat.zero_add] at hn
  have hlast := Handshake.attemptCloses_last hn
  rw [← Handshake.attemptsClose_succ] at hlast
  obtain ⟨l1, l2, l3, l4⟩ := hlast
  have htr : socketsOpened ((createSocket n).attemptsClose (n + 1)).trace =
      List.range (n + 1) := by
    rw [l2, Handshake.socketsOpened_append, hn.2.2.2.2.1]
    simp [socketsOpened]
  obtain ⟨_, i2, i3⟩ := Handshake.run_idle post l3 l4
  have hu : ((createSocket (-1)).attemptsClose k).Trying (-1) k := by
    have := Handshake.attemptsClose_unlimited k (Handshake.createSocket_trying (-1))
    simpa using this
  refine ⟨fun hk => ?_, l1, htr, i2.trans htr, ?_, hu.2.2.2.2.1, hu.2.1, hu.2.2.2.1⟩
  · have : ((createSocket n).attemptsClose k).Trying ((n - k : Nat) : Int) k := by
      have := Handshake.attemptsClose_trying k h0 hk
      simpa using this
    exact ⟨this.2.2.2.2.1, this.2.1, this.2.2.2.1⟩
  · rw [i3 (by rw [l1]; rfl)]
    exact l1

/-- Witness of C23: the budget 2 allows three attempts. -/
theorem C23_retry_budget_witness :
    jsGet ((createSocket 2).attemptsClose 1).attempts 1 = some { triesLeft := 1 } ∧
    ((createSocket 2).attemptsClose 3).settled = some (.rejected (.code ERR_CANNOT_CONNECT)) :=
  ⟨((C23_retry_budget 2 1 []).1 (by decide)).2.1, (C23_retry_budget 2 1 []).2.1⟩


/-! ## Collections: listeners and timers -/

namespace Host

theorem disconnected_addEventListener (cb : Nat) (h : Host) :
    (h.addEventListener "disconnected" cb).disconnectedListeners =
      h.disconnectedListeners ++ [cb] := by
  simp [disconnectedListeners, addEventListener, Connection.addEventListener,
    Connection.listenersOf, jsGet_jsSet_same]

theorem disconnected_addEventListener_ne {eventType : String} (cb : Nat) (h : Host)
    (hne : eventType ≠ "disconnected") :
    (h.addEventListener eventType cb).disconnectedListeners = h.disconnectedListeners := by
  simp [disconnectedListeners, addEventListener, Connection.addEventListener,
    Connection.listenersOf, jsGet_jsSet_ne _ _ _ _ (Ne.symm hne)]

theorem disconnected_removeEventListener (cb : Nat) (h : Host) :
    (h.removeEventListener "disconnected" cb).disconnectedListeners =
      h.disconnectedListeners.erase cb := by
  unfold disconnectedListeners removeEventListener Connection.removeEventListener
    Connection.listenersOf
  cases hg : jsGet h.conn.eventListeners "disconnected" with
  | none => simp [hg]
  | some l => simp [hg, jsGet_jsSet_same]

theorem disconnected_removeEventListener_ne {eventType : String} (cb : Nat) (h : Host)
    (hne : eventType ≠ "disconnected") :
    (h.removeEventListener eventType cb).disconnectedListeners = h.disconnectedListeners := by
  unfold disconnectedListeners removeEventListener Connection.removeEventListener
    Connection.listenersOf
  cases hg : jsGet h.conn.eventListeners eventType with
  | none => simp [hg]
  | some l => simp [hg, jsGet_jsSet_ne _ _ _ _ (Ne.symm hne)]

/-- What `teardownUpdateSubscription` does. -/
theorem teardown_eq (key : String) (c : Collection) (h : Host) :
    (teardownUpdateSubscription key c h).1 = { c with unsubTimer := none, state := none } ∧
    (teardownUpdateSubscription key c h).2.collections = h.collections ∧
    (teardownUpdateSubscription key c h).2.timers = h.timers ∧
    (teardownUpdateSubscription key c h).2.nextTimer = h.nextTimer ∧
    (teardownUpdateSubscription key c h).2.disconnectedListeners =
      h.disconnectedListeners.erase c.handleDisconnect ∧
    (teardownUpdateSubscription key c h).2.trace =
      h.trace ++ (match c.unsubProm with
        | some p => [.thenUnsub key p]
        | none => []) ++ [.clearState key] := by
  unfold teardownUpdateSubscription
  dsimp only
  refine ⟨rfl, ?_, ?_, ?_, ?_, ?_⟩
  · cases c.unsubProm <;> simp [removeEventListener, log]
  · cases c.unsubProm <;> simp [removeEventListener, log]
  · cases c.unsubProm <;> simp [removeEventListener, log]
  · rw [disconnected_removeEventListener,
      disconnected_removeEventListener_ne _ _ (by decide)]
    cases c.unsubProm <;> simp [disconnectedListeners, log]
  · cases c.unsubProm <;> simp [removeEventListener, log]

/-- What `setupUpdateSubscription` does while the grace timer is set: it only clears the
timer. -/
theorem setup_pending (key : String) {c : Collection} (h : Host) {t : Nat}
    (ht : c.unsubTimer = some t) :
    setupUpdateSubscription key c h = ({ c with unsubTimer := none }, h.clearTimeout t) := by
  unfold setupUpdateSubscription
  rw [ht]

/-- What `setupUpdateSubscription` does when no grace timer is set. -/
theorem setup_fresh (key : String) {c : Collection} (h : Host) (ht : c.unsubTimer = none) :
    (setupUpdateSubscription key c h).1 =
      { c with
        unsubProm :=
          match c.subscribeUpdates with
          | some _ => some h.nextPromise
          | none => c.unsubProm } ∧
    (setupUpdateSubscription key c h).2.collections = h.collections ∧
    (setupUpdateSubscription key c h).2.timers = h.timers ∧
    (setupUpdateSubscription key c h).2.nextTimer = h.nextTimer ∧
    (setupUpdateSubscription key c h).2.disconnectedListeners =
      h.disconnectedListeners ++ [c.handleDisconnect] ∧
    (setupUpdateSubscription key c h).2.trace =
      h.trace ++
        (match c.subscribeUpdates with
          | some fn => [.subscribeUpdates fn key h.nextPromise]
          | none => []) ++
        (match c.fetchCollection with
          | some fn => [.fetchCollection fn key]
          | none => []) := by
  obtain ⟨id, fetch, sub, grace, r, rs, hd, active, up, ut, st, ls⟩ := c
  simp only at ht
  subst ht
  have hne : "disconnected" ≠ "ready" := by decide
  cases fetch <;> cases sub <;>
    simp [setupUpdateSubscription, refresh, log, disconnectedListeners, addEventListener,
      Connection.addEventListener, Connection.listenersOf, jsGet_jsSet_same,
      jsGet_jsSet_ne _ _ _ _ hne]

theorem clearTimeout_eq (t : Nat) (h : Host) :
    (h.clearTimeout t).collections = h.collections ∧
    (h.clearTimeout t).timers = jsDelete h.timers t ∧
    (h.clearTimeout t).nextTimer = h.nextTimer ∧
    (h.clearTimeout t).disconnectedListeners = h.disconnectedListeners ∧
    (h.clearTimeout t).trace = h.trace ++ [.clearTimeout t] :=
  ⟨rfl, rfl, rfl, rfl, rfl⟩

/-- What `scheduleTeardownUpdateSubscription` does. -/
theorem schedule_eq (key : String) (c : Collection) (h : Host) :
    (scheduleTeardownUpdateSubscription key c h).1 = { c with unsubTimer := some h.nextTimer } ∧
    (scheduleTeardownUpdateSubscription key c h).2.collections = h.collections ∧
    (scheduleTeardownUpdateSubscription key c h).2.timers =
      h.timers ++ [(h.nextTimer, .teardown key)] ∧
    (scheduleTeardownUpdateSubscription key c h).2.nextTimer = h.nextTimer + 1 ∧
    (scheduleTeardownUpdateSubscription key c h).2.disconnectedListeners =
      h.disconnectedListeners ∧
    (scheduleTeardownUpdateSubscription key c h).2.trace =
      h.trace ++ [.setTimeout h.nextTimer UNSUB_GRACE_PERIOD] :=
  ⟨rfl, rfl, rfl, rfl, rfl, rfl⟩

/-- Running a closure of `conn[key]` that leaves the table of collections alone. -/
theorem onCollection_eq {key : String} {c : Collection} {h : Host}
    (f : Collection → Host → Collection × Host) (hc : jsGet h.collections key = some c)
    (hf : (f c h).2.collections = h.collections) :
    (h.onCollection key f).collections = jsSet h.collections key (f c h).1 ∧
    jsGet (h.onCollection key f).collections key = some (f c h).1 ∧
    (∀ k, k ≠ key → jsGet (h.onCollection key f).collections k = jsGet h.collections k) ∧
    (h.onCollection key f).timers = (f c h).2.timers ∧
    (h.onCollection key f).nextTimer = (f c h).2.nextTimer ∧
    (h.onCollection key f).disconnectedListeners = (f c h).2.disconnectedListeners ∧
    (h.onCollection key f).trace = (f c h).2.trace := by
  unfold onCollection
  rw [hc]
  dsimp only
  rw [hf]
  exact ⟨rfl, jsGet_jsSet_same _ _ _, fun k hk => jsGet_jsSet_ne _ _ _ _ hk, rfl, rfl, rfl, rfl⟩

/-! ### The coherence of a collection, step by step -/

theorem jsGet_append_new {timers : List (Nat × TimerTask)} {n : Nat} (task : TimerTask)
    (hlt : ∀ x ∈ timers, x.1 < n) (id : Nat) :
    jsGet (timers ++ [(n, task)]) id =
      if id = n then some task else jsGet timers id := by
  rw [jsGet_append]
  by_cases h : id = n
  · subst h
    have : jsGet timers id = none := by
      apply jsGet_eq_none
      intro e he
      have := hlt e he
      omega
    simp [this, jsGet]
  · cases hg : jsGet timers id with
    | none => simp [jsGet, Ne.symm h, h]
    | some v => simp [h]

/-- A timer that notifies a subscriber can be set at any time. -/
theorem good_notify {key : String} {active : Int} {unsubTimer : Option Nat} {hd : Nat}
    {ds : List Nat} {timers : List (Nat × TimerTask)} {n : Nat} (k : String) (s : Nat)
    (hg : Good key active unsubTimer hd ds timers n) :
    Good key active unsubTimer hd ds (timers ++ [(n, .notify k s)]) (n + 1) := by
  obtain ⟨h1, h2, h3, h4, h5⟩ := hg
  refine ⟨h1, h2, h3, ?_, ?_⟩
  · intro id
    rw [jsGet_append_new _ h5]
    by_cases hid : id = n
    · subst hid
      simp only [if_true]
      constructor
      · intro hc
        cases hc
      · intro hu
        have := (h4 id).2 hu
        have := h5 _ (mem_of_jsGet this)
        simp at this
    · simp only [hid, if_false]
      exact h4 id
  · intro x hx
    rcases List.mem_append.1 hx with hx | hx
    · have := h5 x hx
      omega
    · simp only [List.mem_singleton] at hx
      rw [hx]
      show n < n + 1
      omega

/-- The first subscriber arrives and nothing is set up: `handleDisconnect` is registered. -/
theorem good_setup {key : String} {active : Int} {hd : Nat} {ds : List Nat}
    {timers : List (Nat × TimerTask)} {n : Nat} (ha : active = 0)
    (hg : Good key active none hd ds timers n) :
    Good key (active + 1) none hd (ds ++ [hd]) timers n := by
  obtain ⟨h1, h2, h3, h4, h5⟩ := hg
  have hnot : hd ∉ ds := by
    intro hm
    rcases h2.1 hm with h | h
    · omega
    · simp at h
  refine ⟨?_, ?_, by simp, h4, h5⟩
  · rw [List.count_append, List.count_eq_zero_of_not_mem hnot]
    simp
  · simp only [List.mem_append, List.mem_singleton, or_true, true_iff]
    left
    omega

/-- The first subscriber arrives within the grace period: the timer is cleared. -/
theorem good_cancel {key : String} {active : Int} {t : Nat} {hd : Nat} {ds : List Nat}
    {timers : List (Nat × TimerTask)} {n : Nat} (ha : active = 0)
    (hg : Good key active (some t) hd ds timers n) :
    Good key (active + 1) none hd ds (jsDelete timers t) n := by
  obtain ⟨h1, h2, h3, h4, h5⟩ := hg
  refine ⟨h1, ?_, by simp, ?_, ?_⟩
  · constructor
    · intro _
      left
      omega
    · intro _
      exact h2.2 (Or.inr rfl)
  · intro id
    constructor
    · intro hj
      by_cases hid : id = t
      · subst hid
        rw [jsGet_jsDelete_same] at hj
        cases hj
      · rw [jsGet_jsDelete_ne _ _ _ hid] at hj
        have := (h4 id).1 hj
        simp only [Option.some.injEq] at this
        exact absurd this.symm hid
    · intro hc
      cases hc
  · intro x hx
    exact h5 x (mem_jsDelete.1 hx).1

/-- A subscriber arrives and is not the first, or the counter is below zero. -/
theorem good_more {key : String} {active : Int} {unsubTimer : Option Nat} {hd : Nat}
    {ds : List Nat} {timers : List (Nat × TimerTask)} {n : Nat} (ha : active ≠ 0)
    (hg : Good key active unsubTimer hd ds timers n) :
    Good key (active + 1) unsubTimer hd ds timers n := by
  obtain ⟨h1, h2, h3, h4, h5⟩ := hg
  refine ⟨h1, ?_, ?_, h4, h5⟩
  · constructor
    · intro hm
      rcases h2.1 hm with h | h
      · left
        omega
      · exact Or.inr h
    · rintro (h | h)
      · by_cases h' : 1 ≤ active
        · exact h2.2 (Or.inl h')
        · omega
      · exact h2.2 (Or.inr h)
  · intro hs
    have := h3 hs
    omega

/-- A subscriber leaves and is not the last, or the counter is below one. -/
theorem good_less {key : String} {active : Int} {unsubTimer : Option Nat} {hd : Nat}
    {ds : List Nat} {timers : List (Nat × TimerTask)} {n : Nat} (ha : active ≠ 1)
    (hg : Good key active unsubTimer hd ds timers n) :
    Good key (active - 1) unsubTimer hd ds timers n := by
  obtain ⟨h1, h2, h3, h4, h5⟩ := hg
  refine ⟨h1, ?_, ?_, h4, h5⟩
  · constructor
    · intro hm
      rcases h2.1 hm with h | h
      · left
        omega
      · exact Or.inr h
    · rintro (h | h)
      · exact h2.2 (Or.inl (by omega))
      · exact h2.2 (Or.inr h)
  · intro hs
    have := h3 hs
    omega

/-- The last subscriber leaves and the teardown is scheduled. -/
theorem good_schedule {key : String} {active : Int} {unsubTimer : Option Nat} {hd : Nat}
    {ds : List Nat} {timers : List (Nat × TimerTask)} {n : Nat} (ha : active = 1)
    (hg : Good key active unsubTimer hd ds timers n) :
    Good key (active - 1) (some n) hd ds (timers ++ [(n, .teardown key)]) (n + 1) := by
  obtain ⟨h1, h2, h3, h4, h5⟩ := hg
  have hnone : unsubTimer = none := by
    cases hu : unsubTimer with
    | none => rfl
    | some t =>
      have := h3 (by simp [hu])
      omega
  refine ⟨h1, ?_, ?_, ?_, ?_⟩
  · constructor
    · intro _
      exact Or.inr rfl
    · intro _
      exact h2.2 (Or.inl (by omega))
  · intro _
    omega
  · intro id
    rw [jsGet_append_new _ h5]
    by_cases hid : id = n
    · subst hid
      simp
    · simp only [hid, if_false]
      constructor
      · intro hj
        have := (h4 id).1 hj
        rw [hnone] at this
        cases this
      · intro hc
        simp only [Option.some.injEq] at hc
        exact absurd hc.symm hid
  · intro x hx
    rcases List.mem_append.1 hx with hx | hx
    · have := h5 x hx
      omega
    · simp only [List.mem_singleton] at hx
      rw [hx]
      show n < n + 1
      omega

/-- A teardown, with the teardown timer (if one was set) out of the pending timers. -/
theorem good_teardown {key : String} {active active' : Int} {unsubTimer : Option Nat}
    {hd : Nat} {ds : List Nat} {timers timers' : List (Nat × TimerTask)} {n : Nat}
    (ha : active' ≤ 0)
    (hg : Good key active unsubTimer hd ds timers n)
    (hsub : ∀ x ∈ timers', x ∈ timers)
    (hgone : ∀ id, jsGet timers' id ≠ some (.teardown key)) :
    Good key active' none hd (ds.erase hd) timers' n := by
  obtain ⟨h1, h2, h3, h4, h5⟩ := hg
  have hc0 : (ds.erase hd).count hd = 0 := by
    rw [List.count_erase_self]
    omega
  refine ⟨by omega, ?_, by simp, ?_, fun x hx => h5 x (hsub x hx)⟩
  · constructor
    · intro hm
      have := List.count_pos_iff.2 hm
      omega
    · rintro (h | h)
      · omega
      · simp at h
  · intro id
    constructor
    · intro hj
      exact absurd hj (hgone id)
    · intro hc
      cases hc

/-- A teardown while the grace timer `t` is set, with `t` out of the pending timers. -/
theorem good_teardown_timer {key : String} {active : Int} {t : Nat} {hd : Nat}
    {ds : List Nat} {timers : List (Nat × TimerTask)} {n : Nat}
    (hg : Good key active (some t) hd ds timers n) :
    Good key active none hd (ds.erase hd) (jsDelete timers t) n := by
  have ha : active ≤ 0 := hg.2.2.1 rfl
  refine good_teardown ha hg (fun x hx => (mem_jsDelete.1 hx).1) ?_
  intro id hj
  by_cases hid : id = t
  · subst hid
    rw [jsGet_jsDelete_same] at hj
    cases hj
  · rw [jsGet_jsDelete_ne _ _ _ hid] at hj
    have := (hg.2.2.2.1 id).1 hj
    simp only [Option.some.injEq] at this
    exact hid this.symm

/-- A timer that is not the teardown timer of `key` goes away. -/
theorem good_delete {key : String} {active : Int} {unsubTimer : Option Nat} {hd : Nat}
    {ds : List Nat} {timers : List (Nat × TimerTask)} {n : Nat} {id : Nat}
    (hj : jsGet timers id ≠ some (.teardown key))
    (hg : Good key active unsubTimer hd ds timers n) :
    Good key active unsubTimer hd ds (jsDelete timers id) n := by
  obtain ⟨h1, h2, h3, h4, h5⟩ := hg
  refine ⟨h1, h2, h3, ?_, fun x hx => h5 x (mem_jsDelete.1 hx).1⟩
  intro id'
  by_cases hid : id' = id
  · subst hid
    rw [jsGet_jsDelete_same]
    constructor
    · intro hc
      cases hc
    · intro hu
      exact absurd ((h4 id').2 hu) hj
  · rw [jsGet_jsDelete_ne _ _ _ hid]
    exact h4 id'

/-- Another listener leaves the `disconnected` list. -/
theorem good_erase_other {key : String} {active : Int} {unsubTimer : Option Nat}
    {hd hd' : Nat} {ds : List Nat} {timers : List (Nat × TimerTask)} {n : Nat}
    (hne : hd' ≠ hd)
    (hg : Good key active unsubTimer hd ds timers n) :
    Good key active unsubTimer hd (ds.erase hd') timers n := by
  obtain ⟨h1, h2, h3, h4, h5⟩ := hg
  refine ⟨?_, ?_, h3, h4, h5⟩
  · rw [List.count_erase_of_ne (Ne.symm hne)]
    exact h1
  · rw [List.mem_erase_of_ne (Ne.symm hne)]
    exact h2

theorem subscribeBody_fst (key : String) (s : Nat) (c : Collection) (h : Host) :
    (subscribeBody key s c h).1 =
      { (if c.active + 1 = 1 then
            setupUpdateSubscription key { c with active := c.active + 1 } h
          else ({ c with active := c.active + 1 }, h)).1 with
        listeners :=
          (if c.active + 1 = 1 then
            setupUpdateSubscription key { c with active := c.active + 1 } h
          else ({ c with active := c.active + 1 }, h)).1.listeners ++ [s] } := by
  unfold subscribeBody
  dsimp only
  generalize (if c.active + 1 = 1 then
      setupUpdateSubscription key { c with active := c.active + 1 } h
    else ({ c with active := c.active + 1 }, h)) = S
  cases hS : S.1.state <;> rfl

theorem subscribeBody_snd (key : String) (s : Nat) (c : Collection) (h : Host) :
    (subscribeBody key s c h).2 =
      if (if c.active + 1 = 1 then
            setupUpdateSubscription key { c with active := c.active + 1 } h
          else ({ c with active := c.active + 1 }, h)).1.state.isSome = true then
        ((if c.active + 1 = 1 then
            setupUpdateSubscription key { c with active := c.active + 1 } h
          else ({ c with active := c.active + 1 }, h)).2.setTimeout (.notify key s) 0).1
      else
        (if c.active + 1 = 1 then
            setupUpdateSubscription key { c with active := c.active + 1 } h
          else ({ c with active := c.active + 1 }, h)).2 := by
  unfold subscribeBody
  dsimp only
  generalize (if c.active + 1 = 1 then
      setupUpdateSubscription key { c with active := c.active + 1 } h
    else ({ c with active := c.active + 1 }, h)) = S
  cases hS : S.1.state <;> simp

/-- The first part of `subscribe`: the counter goes up and the first subscriber sets up
the upstream subscription. -/
theorem subscribeSet_good {key : String} (c : Collection) (h : Host)
    (hg : Good key c.active c.unsubTimer c.handleDisconnect h.disconnectedListeners h.timers
      h.nextTimer) :
    (if c.active + 1 = 1 then
        setupUpdateSubscription key { c with active := c.active + 1 } h
      else ({ c with active := c.active + 1 }, h)).2.collections = h.collections ∧
    (if c.active + 1 = 1 then
        setupUpdateSubscription key { c with active := c.active + 1 } h
      else ({ c with active := c.active + 1 }, h)).1.handleDisconnect = c.handleDisconnect ∧
    Good key
      (if c.active + 1 = 1 then
        setupUpdateSubscription key { c with active := c.active + 1 } h
      else ({ c with active := c.active + 1 }, h)).1.active
      (if c.active + 1 = 1 then
        setupUpdateSubscription key { c with active := c.active + 1 } h
      else ({ c with active := c.active + 1 }, h)).1.unsubTimer
      c.handleDisconnect
      (if c.active + 1 = 1 then
        setupUpdateSubscription key { c with active := c.active + 1 } h
      else ({ c with active := c.active + 1 }, h)).2.disconnectedListeners
      (if c.active + 1 = 1 then
        setupUpdateSubscription key { c with active := c.active + 1 } h
      else ({ c with active := c.active + 1 }, h)).2.timers
      (if c.active + 1 = 1 then
        setupUpdateSubscription key { c with active := c.active + 1 } h
      else ({ c with active := c.active + 1 }, h)).2.nextTimer := by
  by_cases h1 : c.active + 1 = 1
  · have h0 : c.active = 0 := by omega
    rw [if_pos h1]
    rcases Option.eq_none_or_eq_some c.unsubTimer with ht | ⟨t, ht⟩
    · obtain ⟨e1, e2, e3, e4, e5, _⟩ :=
        setup_fresh key (c := { c with active := c.active + 1 }) h ht
      rw [e1, e2, e3, e4, e5]
      rw [ht] at hg
      exact ⟨rfl, rfl, ht ▸ good_setup h0 hg⟩
    · rw [setup_pending key (c := { c with active := c.active + 1 }) h ht]
      rw [ht] at hg
      exact ⟨rfl, rfl, good_cancel h0 hg⟩
  · have h0 : c.active ≠ 0 := by omega
    rw [if_neg h1]
    exact ⟨rfl, rfl, good_more h0 hg⟩

/-- What `subscribe` does to the variables of the collection and to the connection. -/
theorem subscribeBody_good {key : String} (s : Nat) (c : Collection) (h : Host)
    (hg : Good key c.active c.unsubTimer c.handleDisconnect h.disconnectedListeners h.timers
      h.nextTimer) :
    (subscribeBody key s c h).2.collections = h.collections ∧
    (subscribeBody key s c h).1.handleDisconnect = c.handleDisconnect ∧
    Good key (subscribeBody key s c h).1.active (subscribeBody key s c h).1.unsubTimer
      c.handleDisconnect (subscribeBody key s c h).2.disconnectedListeners
      (subscribeBody key s c h).2.timers (subscribeBody key s c h).2.nextTimer := by
  have hS := subscribeSet_good c h hg
  rw [subscribeBody_fst, subscribeBody_snd]
  generalize (if c.active + 1 = 1 then
      setupUpdateSubscription key { c with active := c.active + 1 } h
    else ({ c with active := c.active + 1 }, h)) = S at hS ⊢
  obtain ⟨e1, e2, e3⟩ := hS
  by_cases hst : S.1.state.isSome = true
  · rw [if_pos hst]
    exact ⟨e1, e2, good_notify key s e3⟩
  · rw [if_neg hst]
    exact ⟨e1, e2, e3⟩

/-- What the function returned by `subscribe` does to the variables of the collection and
to the connection. -/
theorem unsubscribeBody_good {key : String} (s : Nat) (c : Collection) (h : Host)
    (hg : Good key c.active c.unsubTimer c.handleDisconnect h.disconnectedListeners h.timers
      h.nextTimer) :
    (unsubscribeBody key s c h).2.collections = h.collections ∧
    (unsubscribeBody key s c h).1.handleDisconnect = c.handleDisconnect ∧
    Good key (unsubscribeBody key s c h).1.active (unsubscribeBody key s c h).1.unsubTimer
      c.handleDisconnect (unsubscribeBody key s c h).2.disconnectedListeners
      (unsubscribeBody key s c h).2.timers (unsubscribeBody key s c h).2.nextTimer := by
  unfold unsubscribeBody
  dsimp only
  by_cases h1 : c.active - 1 = 0
  · have h0 : c.active = 1 := by omega
    rw [if_pos h1]
    by_cases hgr : c.unsubGrace = true
    · rw [if_pos hgr]
      exact ⟨rfl, rfl, good_schedule h0 hg⟩
    · rw [if_neg hgr]
      obtain ⟨e1, e2, e3, e4, e5, _⟩ := teardown_eq key
        { c with listeners := c.listeners.erase s, active := c.active - 1 } h
      rw [e1, e2, e3, e4, e5]
      refine ⟨rfl, rfl, ?_⟩
      have hnone : c.unsubTimer = none := by
        cases hu : c.unsubTimer with
        | none => rfl
        | some t =>
          have := hg.2.2.1 (by simp [hu])
          omega
      refine good_teardown (by show c.active - 1 ≤ 0; omega) hg (fun x hx => hx) ?_
      intro id hj
      have := (hg.2.2.2.1 id).1 hj
      rw [hnone] at this
      cases this
  · have h0 : c.active ≠ 1 := by omega
    rw [if_neg h1]
    exact ⟨rfl, rfl, good_less h0 hg⟩

/-- What `handleDisconnect` does to the variables of the collection and to the
connection. -/
theorem handleDisconnect_good {key : String} (c : Collection) (h : Host)
    (hg : Good key c.active c.unsubTimer c.handleDisconnect h.disconnectedListeners h.timers
      h.nextTimer) :
    (handleDisconnect key c h).2.collections = h.collections ∧
    (handleDisconnect key c h).1.handleDisconnect = c.handleDisconnect ∧
    Good key (handleDisconnect key c h).1.active (handleDisconnect key c h).1.unsubTimer
      c.handleDisconnect (handleDisconnect key c h).2.disconnectedListeners
      (handleDisconnect key c h).2.timers (handleDisconnect key c h).2.nextTimer := by
  unfold handleDisconnect
  rcases Option.eq_none_or_eq_some c.unsubTimer with ht | ⟨t, ht⟩
  · rw [ht]
    dsimp only
    rw [ht] at hg
    exact ⟨rfl, rfl, ht ▸ hg⟩
  · rw [ht]
    dsimp only
    obtain ⟨e1, e2, e3, e4, e5, _⟩ := teardown_eq key c (h.clearTimeout t)
    rw [e1, e2, e3, e4, e5]
    rw [ht] at hg
    exact ⟨rfl, rfl, good_teardown_timer hg⟩

/-- Running a closure of `conn[key]` that keeps the coherence. -/
theorem coherent_onCollection {key : String} {c : Collection} {h : Host}
    {f : Collection → Host → Collection × Host}
    (hc : jsGet h.collections key = some c)
    (hoth : ∀ k c', k ≠ key → jsGet h.collections k = some c' →
      c'.handleDisconnect ≠ c.handleDisconnect)
    (hf : (f c h).2.collections = h.collections)
    (hhd : (f c h).1.handleDisconnect = c.handleDisconnect)
    (hg : Good key (f c h).1.active (f c h).1.unsubTimer c.handleDisconnect
      (f c h).2.disconnectedListeners (f c h).2.timers (f c h).2.nextTimer) :
    Coherent key (h.onCollection key f) := by
  obtain ⟨_, e2, e3, e4, e5, e6, _⟩ := onCollection_eq f hc hf
  refine ⟨(f c h).1, e2, ?_, ?_⟩
  · rw [e4, e5, e6, hhd]
    exact hg
  · intro k c' hk hj
    rw [e3 k hk] at hj
    rw [hhd]
    exact hoth k c' hk hj

theorem subscribe_coherent {key : String} (s : Nat) {h : Host} (hc : Coherent key h) :
    Coherent key (h.subscribe key s) := by
  obtain ⟨c, hj, hg, hoth⟩ := hc
  obtain ⟨e1, e2, e3⟩ := subscribeBody_good s c h hg
  exact coherent_onCollection hj hoth e1 e2 e3

theorem unsubscribe_coherent {key : String} (s : Nat) {h : Host} (hc : Coherent key h) :
    Coherent key (h.unsubscribe key s) := by
  obtain ⟨c, hj, hg, hoth⟩ := hc
  obtain ⟨e1, e2, e3⟩ := unsubscribeBody_good s c h hg
  exact coherent_onCollection hj hoth e1 e2 e3

theorem disconnected_coherent {key : String} {h : Host} (hc : Coherent key h) :
    Coherent key (h.disconnected key) := by
  obtain ⟨c, hj, hg, hoth⟩ := hc
  obtain ⟨e1, e2, e3⟩ := handleDisconnect_good c h hg
  exact coherent_onCollection hj hoth e1 e2 e3

theorem setState_coherent {key : String} (state : Json) {h : Host} (hc : Coherent key h) :
    Coherent key (h.setState key state) := by
  obtain ⟨c, hj, hg, hoth⟩ := hc
  exact coherent_onCollection hj hoth rfl rfl hg

theorem timerFired_coherent {key : String} (id : Nat) {h : Host} (hc : Coherent key h) :
    Coherent key (h.timerFired id) := by
  obtain ⟨c, hj, hg, hoth⟩ := hc
  unfold timerFired
  rcases Option.eq_none_or_eq_some (jsGet h.timers id) with ht | ⟨task, ht⟩
  · rw [ht]
    exact ⟨c, hj, hg, hoth⟩
  · rw [ht]
    dsimp only
    cases task with
    | teardown k =>
      dsimp only
      by_cases hk : k = key
      · subst hk
        have hu : c.unsubTimer = some id := (hg.2.2.2.1 id).1 ht
        rw [hu] at hg
        obtain ⟨e1, e2, e3, e4, e5, _⟩ :=
          teardown_eq k c { h with timers := jsDelete h.timers id }
        refine coherent_onCollection (h := { h with timers := jsDelete h.timers id }) hj hoth
          e2 (by rw [e1]) ?_
        rw [e1, e3, e4, e5]
        exact good_teardown_timer hg
      · have hdel : Good key c.active c.unsubTimer c.handleDisconnect h.disconnectedListeners
            (jsDelete h.timers id) h.nextTimer := by
          refine good_delete ?_ hg
          rw [ht]
          intro hc
          simp only [Option.some.injEq, TimerTask.teardown.injEq] at hc
          exact hk hc
        rcases Option.eq_none_or_eq_some (jsGet h.collections k) with hn | ⟨c', hs⟩
        · have : Host.onCollection k (teardownUpdateSubscription k)
              { h with timers := jsDelete h.timers id } =
              { h with timers := jsDelete h.timers id } := by
            unfold onCollection
            rw [hn]
          rw [this]
          exact ⟨c, hj, hdel, hoth⟩
        · obtain ⟨e1, e2, e3, e4, e5, _⟩ :=
            teardown_eq k c' { h with timers := jsDelete h.timers id }
          obtain ⟨_, o2, o3, o4, o5, o6, _⟩ :=
            onCollection_eq (h := { h with timers := jsDelete h.timers id })
              (teardownUpdateSubscription k) hs e2
          have hne : c'.handleDisconnect ≠ c.handleDisconnect := hoth k c' hk hs
          refine ⟨c, ?_, ?_, ?_⟩
          · rw [o3 key (Ne.symm hk)]
            exact hj
          · rw [o4, o5, o6, e3, e4, e5]
            exact good_erase_other hne hdel
          · intro k2 c2 hk2 hj2
            by_cases hkk : k2 = k
            · subst hkk
              rw [o2, e1] at hj2
              simp only [Option.some.injEq] at hj2
              rw [← hj2]
              exact hne
            · rw [o3 k2 hkk] at hj2
              exact hoth k2 c2 hk2 hj2
    | notify k s =>
      dsimp only
      have hdel : Good key c.active c.unsubTimer c.handleDisconnect h.disconnectedListeners
          (jsDelete h.timers id) h.nextTimer := by
        refine good_delete ?_ hg
        rw [ht]
        intro hc
        cases hc
      cases jsGet h.collections k with
      | none => exact ⟨c, hj, hdel, hoth⟩
      | some c' => exact ⟨c, hj, hdel, hoth⟩

theorem act_coherent {key : String} (a : CollectionAction) {h : Host} (hc : Coherent key h) :
    Coherent key (h.act key a) := by
  cases a with
  | subscribe s => exact subscribe_coherent s hc
  | unsubscribe s => exact unsubscribe_coherent s hc
  | timer id => exact timerFired_coherent id hc
  | disconnected => exact disconnected_coherent hc
  | setState state => exact setState_coherent state hc

theorem acts_coherent {key : String} (as : List CollectionAction) {h : Host}
    (hc : Coherent key h) : Coherent key (h.acts key as) := by
  induction as generalizing h with
  | nil => exact hc
  | cons a as ih => exact ih (act_coherent a hc)

theorem getCollection_coherent {key : String} (fetchCollection subscribeUpdates : Option Nat)
    (unsubGrace : Bool) {h : Host} (hf : h.Fresh key) :
    Coherent key (h.getCollection key fetchCollection subscribeUpdates unsubGrace).1 := by
  obtain ⟨f1, f2, f3, f4⟩ := hf
  unfold getCollection
  rw [f1]
  dsimp only
  refine ⟨_, jsGet_jsSet_same _ _ _, ⟨?_, ?_, ?_, ?_, ?_⟩, ?_⟩
  · rw [List.count_eq_zero_of_not_mem]
    · omega
    · intro hm
      have := f2 _ hm
      dsimp only at this
      omega
  · constructor
    · intro hm
      have := f2 _ hm
      dsimp only at this
      omega
    · rintro (hc | hc)
      · simp at hc
      · simp at hc
  · intro hc
    simp at hc
  · intro id
    constructor
    · intro hj
      exact absurd rfl (f4 _ (mem_of_jsGet hj)).2
    · intro hc
      cases hc
  · intro x hx
    exact (f4 x hx).1
  · intro k c' hk hj
    rw [jsGet_jsSet_ne _ _ _ _ hk] at hj
    have := f3 _ (mem_of_jsGet hj)
    simp only at this
    show c'.handleDisconnect ≠ h.nextObject + 3
    omega

/-! ### A collection without subscribers -/

theorem clearStateCalls_append (key : String) (tr tr' : List CollectionEffect) :
    clearStateCalls key (tr ++ tr') = clearStateCalls key tr + clearStateCalls key tr' := by
  simp [clearStateCalls]

theorem unsubCalls_append (key : String) (tr tr' : List CollectionEffect) :
    unsubCalls key (tr ++ tr') = unsubCalls key tr + unsubCalls key tr' := by
  simp [unsubCalls]

theorem upstreamCalls_append (tr tr' : List CollectionEffect) :
    upstreamCalls (tr ++ tr') = upstreamCalls tr ++ upstreamCalls tr' := by
  induction tr with
  | nil => rfl
  | cons e tr ih => cases e <;> simp [upstreamCalls, ih]

/-- The effects of a teardown of the collection `k`, counted for `key`. -/
theorem teardown_counts (key k : String) (up : Option Nat) :
    clearStateCalls key ((match up with
        | some p => [CollectionEffect.thenUnsub k p]
        | none => []) ++ [.clearState k]) = (if k = key then 1 else 0) ∧
    unsubCalls key ((match up with
        | some p => [CollectionEffect.thenUnsub k p]
        | none => []) ++ [.clearState k]) =
      (if k = key ∧ up.isSome = true then 1 else 0) := by
  by_cases hk : k = key
  · subst hk
    cases up <;> simp [clearStateCalls, unsubCalls, List.count_cons]
  · cases up <;> simp [clearStateCalls, unsubCalls, List.count_cons, hk]

theorem calls_counts (key : String) (ls : List Nat) (state : Option Json) :
    clearStateCalls key (ls.map (fun l => CollectionEffect.call l state)) = 0 ∧
    unsubCalls key (ls.map (fun l => CollectionEffect.call l state)) = 0 := by
  induction ls with
  | nil => exact ⟨rfl, rfl⟩
  | cons l ls ih =>
    obtain ⟨i1, i2⟩ := ih
    simp only [clearStateCalls, unsubCalls] at i1 i2 ⊢
    simp only [List.map_cons, List.count_cons, List.countP_cons, i1, i2]
    simp

/-- What one step does to a collection without subscribers when no subscriber comes: the
teardown runs in the step exactly when the grace timer is set and it is that timer that
fires, or a disconnect notification comes. -/
theorem act_quiet {key : String} {h : Host} {c : Collection} (hc : Coherent key h)
    (hj : jsGet h.collections key = some c) (ha : c.active ≤ 0) (a : CollectionAction)
    (hns : ∀ s, a ≠ .subscribe s) :
    ∃ c', jsGet (h.act key a).collections key = some c' ∧ c'.active ≤ 0 ∧
      c'.unsubProm = c.unsubProm ∧
      ((∃ t, c.unsubTimer = some t ∧ (a = .timer t ∨ a = .disconnected)) →
        c'.unsubTimer = none ∧
        clearStateCalls key (h.act key a).trace = clearStateCalls key h.trace + 1 ∧
        unsubCalls key (h.act key a).trace =
          unsubCalls key h.trace + (if c.unsubProm.isSome = true then 1 else 0)) ∧
      (¬ (∃ t, c.unsubTimer = some t ∧ (a = .timer t ∨ a = .disconnected)) →
        c'.unsubTimer = c.unsubTimer ∧
        clearStateCalls key (h.act key a).trace = clearStateCalls key h.trace ∧
        unsubCalls key (h.act key a).trace = unsubCalls key h.trace) := by
  obtain ⟨c0, hj0, hg, hoth⟩ := hc
  rw [hj] at hj0
  simp only [Option.some.injEq] at hj0
  subst hj0
  cases a with
  | subscribe s => exact absurd rfl (hns s)
  | unsubscribe s =>
    have hb : unsubscribeBody key s c h =
        ({ c with listeners := c.listeners.erase s, active := c.active - 1 }, h) := by
      unfold unsubscribeBody
      dsimp only
      rw [if_neg (by omega)]
    obtain ⟨_, o2, _, _, _, _, o7⟩ := onCollection_eq (unsubscribeBody key s) hj
      (by rw [hb])
    rw [hb] at o2 o7
    refine ⟨_, o2, by show c.active - 1 ≤ 0; omega, rfl, ?_, ?_⟩
    · rintro ⟨t, _, h1 | h1⟩ <;> cases h1
    · intro _
      exact ⟨rfl, by rw [show (h.act key (.unsubscribe s)).trace = h.trace from o7],
        by rw [show (h.act key (.unsubscribe s)).trace = h.trace from o7]⟩
  | disconnected =>
    rcases Option.eq_none_or_eq_some c.unsubTimer with ht | ⟨t, ht⟩
    · have hb : handleDisconnect key c h = (c, h) := by
        unfold handleDisconnect
        rw [ht]
      obtain ⟨_, o2, _, _, _, _, o7⟩ := onCollection_eq (handleDisconnect key) hj
        (by rw [hb])
      rw [hb] at o2 o7
      refine ⟨_, o2, ha, rfl, ?_, ?_⟩
      · rintro ⟨t, h1, _⟩
        rw [ht] at h1
        cases h1
      · intro _
        exact ⟨rfl, by rw [show (h.act key .disconnected).trace = h.trace from o7],
          by rw [show (h.act key .disconnected).trace = h.trace from o7]⟩
    · have hb : handleDisconnect key c h =
          teardownUpdateSubscription key c (h.clearTimeout t) := by
        unfold handleDisconnect
        rw [ht]
      obtain ⟨e1, e2, _, _, _, e6⟩ := teardown_eq key c (h.clearTimeout t)
      obtain ⟨_, o2, _, _, _, _, o7⟩ := onCollection_eq (handleDisconnect key) hj
        (by rw [hb, e2]; rfl)
      rw [hb] at o2 o7
      rw [e1] at o2
      rw [e6] at o7
      have htr : (h.act key .disconnected).trace = _ := o7
      obtain ⟨k1, k2⟩ := teardown_counts key key c.unsubProm
      refine ⟨_, o2, ha, rfl, ?_, ?_⟩
      · intro _
        refine ⟨rfl, ?_, ?_⟩
        · rw [htr, List.append_assoc, clearStateCalls_append, k1]
          simp [clearTimeout, clearStateCalls_append, clearStateCalls, List.count_cons]
        · rw [htr, List.append_assoc, unsubCalls_append, k2]
          simp [clearTimeout, unsubCalls_append, unsubCalls]
      · intro hn
        exact absurd ⟨t, ht, Or.inr rfl⟩ hn
  | setState state =>
    obtain ⟨_, o2, _, _, _, _, o7⟩ := @onCollection_eq key c h
      (fun c h => (({ c with state := some state } : Collection),
        ({ h with trace := h.trace ++ c.listeners.map (fun l => .call l (some state)) } : Host)))
      hj rfl
    have htr : (h.act key (.setState state)).trace =
        h.trace ++ c.listeners.map (fun l => .call l (some state)) := o7
    obtain ⟨k1, k2⟩ := calls_counts key c.listeners (some state)
    refine ⟨_, o2, ha, rfl, ?_, ?_⟩
    · rintro ⟨t, _, h1 | h1⟩ <;> cases h1
    · intro _
      refine ⟨rfl, ?_, ?_⟩
      · rw [htr, clearStateCalls_append, k1]
        rfl
      · rw [htr, unsubCalls_append, k2]
        rfl
  | timer id =>
    have hact : h.act key (.timer id) = h.timerFired id := rfl
    rw [hact]
    rcases Option.eq_none_or_eq_some (jsGet h.timers id) with hti | ⟨task, hti⟩
    · have hb : h.timerFired id = h := by
        unfold timerFired
        rw [hti]
      rw [hb]
      refine ⟨c, hj, ha, rfl, ?_, ?_⟩
      · rintro ⟨t, h1, h2 | h2⟩
        · simp only [CollectionAction.timer.injEq] at h2
          subst h2
          have := (hg.2.2.2.1 id).2 h1
          rw [hti] at this
          cases this
        · cases h2
      · intro _
        exact ⟨rfl, rfl, rfl⟩
    · cases task with
      | teardown k =>
        have hb : h.timerFired id = Host.onCollection k (teardownUpdateSubscription k)
            { h with timers := jsDelete h.timers id } := by
          unfold timerFired
          rw [hti]
        rw [hb]
        by_cases hk : k = key
        · subst hk
          have hu : c.unsubTimer = some id := (hg.2.2.2.1 id).1 hti
          obtain ⟨e1, e2, _, _, _, e6⟩ :=
            teardown_eq k c { h with timers := jsDelete h.timers id }
          obtain ⟨_, o2, _, _, _, _, o7⟩ :=
            onCollection_eq (h := { h with timers := jsDelete h.timers id })
              (teardownUpdateSubscription k) hj e2
          rw [e1] at o2
          rw [e6] at o7
          obtain ⟨k1, k2⟩ := teardown_counts k k c.unsubProm
          refine ⟨_, o2, ha, rfl, ?_, ?_⟩
          · intro _
            refine ⟨rfl, ?_, ?_⟩
            · rw [o7, List.append_assoc, clearStateCalls_append, k1]
              simp
            · rw [o7, List.append_assoc, unsubCalls_append, k2]
              simp
          · intro hn
            exact absurd ⟨id, hu, Or.inl rfl⟩ hn
        · have hnt : ¬ (∃ t, c.unsubTimer = some t ∧
              (CollectionAction.timer id = .timer t ∨
                CollectionAction.timer id = .disconnected)) := by
            rintro ⟨t, h1, h2 | h2⟩
            · simp only [CollectionAction.timer.injEq] at h2
              subst h2
              have := (hg.2.2.2.1 id).2 h1
              rw [hti] at this
              simp only [Option.some.injEq, TimerTask.teardown.injEq] at this
              exact hk this
            · cases h2
          rcases Option.eq_none_or_eq_some (jsGet h.collections k) with hn | ⟨c2, hs⟩
          · have : Host.onCollection k (teardownUpdateSubscription k)
                { h with timers := jsDelete h.timers id } =
                { h with timers := jsDelete h.timers id } := by
              unfold onCollection
              rw [hn]
            rw [this]
            exact ⟨c, hj, ha, rfl, fun hx => absurd hx hnt, fun _ => ⟨rfl, rfl, rfl⟩⟩
          · obtain ⟨e1, e2, _, _, _, e6⟩ :=
              teardown_eq k c2 { h with timers := jsDelete h.timers id }
            obtain ⟨_, _, o3, _, _, _, o7⟩ :=
              onCollection_eq (h := { h with timers := jsDelete h.timers id })
                (teardownUpdateSubscription k) hs e2
            rw [e6] at o7
            obtain ⟨k1, k2⟩ := teardown_counts key k c2.unsubProm
            refine ⟨c, ?_, ha, rfl, fun hx => absurd hx hnt, fun _ => ⟨rfl, ?_, ?_⟩⟩
            · rw [o3 key (Ne.symm hk)]
              exact hj
            · rw [o7, List.append_assoc, clearStateCalls_append, k1]
              simp [hk]
            · rw [o7, List.append_assoc, unsubCalls_append, k2]
              simp [hk]
      | notify k s =>
        have hnt : ¬ (∃ t, c.unsubTimer = some t ∧
            (CollectionAction.timer id = .timer t ∨
              CollectionAction.timer id = .disconnected)) := by
          rintro ⟨t, h1, h2 | h2⟩
          · simp only [CollectionAction.timer.injEq] at h2
            subst h2
            have := (hg.2.2.2.1 id).2 h1
            rw [hti] at this
            cases this
          · cases h2
        rcases Option.eq_none_or_eq_some (jsGet h.collections k) with hn | ⟨c2, hs⟩
        · have hb : h.timerFired id = { h with timers := jsDelete h.timers id } := by
            unfold timerFired
            rw [hti]
            dsimp only
            rw [hn]
          rw [hb]
          exact ⟨c, hj, ha, rfl, fun hx => absurd hx hnt, fun _ => ⟨rfl, rfl, rfl⟩⟩
        · have hb : h.timerFired id =
              Host.log (.call s c2.state) { h with timers := jsDelete h.timers id } := by
            unfold timerFired
            rw [hti]
            dsimp only
            rw [hs]
          rw [hb]
          refine ⟨c, hj, ha, rfl, fun hx => absurd hx hnt, fun _ => ⟨rfl, ?_, ?_⟩⟩
          · simp [log, clearStateCalls_append, clearStateCalls, List.count_cons]
          · simp [log, unsubCalls_append, unsubCalls]

/-- Without a grace timer and without subscribers, nothing tears the collection down. -/
theorem acts_quiet_done {key : String} (as : List CollectionAction) {h : Host}
    {c : Collection} (hc : Coherent key h) (hj : jsGet h.collections key = some c)
    (ha : c.active ≤ 0) (ht : c.unsubTimer = none)
    (hns : ∀ a ∈ as, ∀ s, a ≠ .subscribe s) :
    clearStateCalls key (h.acts key as).trace = clearStateCalls key h.trace ∧
    unsubCalls key (h.acts key as).trace = unsubCalls key h.trace := by
  induction as generalizing h c with
  | nil => exact ⟨rfl, rfl⟩
  | cons a as ih =>
    obtain ⟨c', j', a', _, _, hno⟩ :=
      act_quiet hc hj ha a (hns a (List.mem_cons_self _ _))
    obtain ⟨n1, n2, n3⟩ := hno (by
      rintro ⟨t, h1, _⟩
      rw [ht] at h1
      cases h1)
    obtain ⟨i1, i2⟩ := ih (act_coherent a hc) j' a' (n1.trans ht)
      (fun b hb => hns b (List.mem_cons_of_mem _ hb))
    exact ⟨i1.trans n2, i2.trans n3⟩

/-- In the grace period and without a new subscriber, the teardown runs once: when the
grace timer fires or a disconnect notification comes, whichever is first. -/
theorem acts_quiet_pending {key : String} (as : List CollectionAction) {h : Host}
    {c : Collection} {t : Nat} (hc : Coherent key h)
    (hj : jsGet h.collections key = some c)
    (ha : c.active ≤ 0) (ht : c.unsubTimer = some t)
    (hns : ∀ a ∈ as, ∀ s, a ≠ .subscribe s) :
    clearStateCalls key (h.acts key as).trace =
      clearStateCalls key h.trace +
        (if CollectionAction.timer t ∈ as ∨ CollectionAction.disconnected ∈ as then 1
          else 0) ∧
    unsubCalls key (h.acts key as).trace =
      unsubCalls key h.trace +
        (if (CollectionAction.timer t ∈ as ∨ CollectionAction.disconnected ∈ as) ∧
            c.unsubProm.isSome = true then 1
          else 0) := by
  induction as generalizing h c with
  | nil => simp [acts]
  | cons a as ih =>
    obtain ⟨c', j', a', p', hyes, hno⟩ :=
      act_quiet hc hj ha a (hns a (List.mem_cons_self _ _))
    rw [show Host.acts key (a :: as) h = Host.acts key as (h.act key a) from rfl]
    have hns' : ∀ b ∈ as, ∀ s, b ≠ .subscribe s :=
      fun b hb => hns b (List.mem_cons_of_mem _ hb)
    by_cases htorn : a = .timer t ∨ a = .disconnected
    · obtain ⟨y1, y2, y3⟩ := hyes ⟨t, ht, htorn⟩
      obtain ⟨i1, i2⟩ := acts_quiet_done as (act_coherent a hc) j' a' y1 hns'
      have hm : CollectionAction.timer t ∈ a :: as ∨
          CollectionAction.disconnected ∈ a :: as := by
        rcases htorn with e | e
        · exact Or.inl (e ▸ List.mem_cons_self _ _)
        · exact Or.inr (e ▸ List.mem_cons_self _ _)
      refine ⟨?_, ?_⟩
      · rw [if_pos hm]
        exact i1.trans y2
      · rw [i2.trans y3]
        by_cases hp : c.unsubProm.isSome = true
        · rw [if_pos hp, if_pos ⟨hm, hp⟩]
        · rw [if_neg hp, if_neg (fun hx => hp hx.2)]
    · obtain ⟨n1, n2, n3⟩ := hno (by
        rintro ⟨t', h1, h2⟩
        rw [ht] at h1
        simp only [Option.some.injEq] at h1
        subst h1
        exact htorn h2)
      obtain ⟨i1, i2⟩ := ih (act_coherent a hc) j' a' (n1.trans ht) hns'
      have hiff : (CollectionAction.timer t ∈ a :: as ∨
          CollectionAction.disconnected ∈ a :: as) ↔
          (CollectionAction.timer t ∈ as ∨ CollectionAction.disconnected ∈ as) := by
        simp only [List.mem_cons]
        constructor
        · rintro ((e | e) | (e | e))
          · exact absurd (Or.inl e.symm) htorn
          · exact Or.inl e
          · exact absurd (Or.inr e.symm) htorn
          · exact Or.inr e
        · rintro (e | e)
          · exact Or.inl (Or.inr e)
          · exact Or.inr (Or.inr e)
      refine ⟨?_, ?_⟩
      · rw [i1, n2]
        simp only [hiff]
      · rw [i2, n3, p']
        simp only [hiff]

/-- What `subscribe` does in the grace period. -/
theorem subscribeBody_pending (key : String) (s : Nat) {c : Collection} (h : Host) {t : Nat}
    (ha : c.active = 0) (ht : c.unsubTimer = some t) :
    subscribeBody key s c h =
      ({ c with active := 1, unsubTimer := none, listeners := c.listeners ++ [s] },
        if c.state.isSome = true then
          ((h.clearTimeout t).setTimeout (.notify key s) 0).1
        else h.clearTimeout t) := by
  obtain ⟨id, fetch, sub, grace, r, rs, hd, active, up, ut, st, ls⟩ := c
  simp only at ha ht
  subst ha
  subst ht
  cases st <;> rfl

end Host

/-! ## C24 to C27: the upstream subscription of a collection -/

/-- C24: after `getCollection` has created the collection `conn[key]`, and after every
sequence of `subscribe` calls, invocations of the functions they returned, timers firing,
disconnect notifications and state updates, the upstream subscription is active (the
collection's `handleDisconnect` is registered, which the setup does and the teardown
undoes) exactly when the counter `active` is at least 1 or the grace timer is set; and the
grace timer is set exactly when a teardown of the collection is pending among the
timers. -/
theorem C24_upstream_active_iff (key : String) (fetchCollection subscribeUpdates : Option Nat)
    (unsubGrace : Bool) (h0 : Host) (hf : h0.Fresh key) (as : List CollectionAction)
    (H : Host)
    (hH : H = (h0.getCollection key fetchCollection subscribeUpdates unsubGrace).1.acts key as) :
    (jsGet H.collections key).isSome = true ∧
    ∀ c, jsGet H.collections key = some c →
      (Host.upstreamActive c H = true ↔ (1 ≤ c.active ∨ c.unsubTimer.isSome = true)) ∧
      (∀ id, c.unsubTimer = some id ↔ jsGet H.timers id = some (.teardown key)) := by
  subst hH
  obtain ⟨c, hj, hg, _⟩ := Host.acts_coherent as
    (Host.getCollection_coherent fetchCollection subscribeUpdates unsubGrace hf)
  refine ⟨by rw [hj]; rfl, ?_⟩
  intro c' hj'
  rw [hj] at hj'
  simp only [Option.some.injEq] at hj'
  subst hj'
  refine ⟨?_, fun id => (hg.2.2.2.1 id).symm⟩
  unfold Host.upstreamActive
  rw [decide_eq_true_iff]
  exact hg.2.1

/-- Witness of C24: in the grace period of the sample collection no subscriber is active,
the grace timer is set and the upstream subscription is active. -/
theorem C24_upstream_active_iff_witness :
    (Host.upstreamActive sampleGraceCollection sampleGraceHost = true ↔
      (1 ≤ sampleGraceCollection.active ∨ sampleGraceCollection.unsubTimer.isSome = true)) :=
  ((C24_upstream_active_iff "_cnf" (some 20) (some 21) true { conn := sampleConnection }
    (by simp [Host.Fresh, Host.disconnectedListeners, sampleConnection,
      Connection.listenersOf, jsGet])
    [.subscribe 7, .unsubscribe 7] sampleGraceHost rfl).2 sampleGraceCollection
      (by decide)).1

/-- C25: in the grace period of a collection (no subscriber is active and the grace timer
`t` is set), `subscribe` clears the timer and makes no upstream call: the trace gains
`clearTimeout(t)` and at most the timer that hands the cached state to the new subscriber,
no teardown stays pending, the promise of the upstream subscription and the listeners of
the connection are kept, and the upstream subscription is active before and after. -/
theorem C25_resubscribe_within_grace (key : String)
    (fetchCollection subscribeUpdates : Option Nat) (h0 : Host) (hf : h0.Fresh key)
    (pre : List CollectionAction) (H : Host)
    (hH : H = (h0.getCollection key fetchCollection subscribeUpdates true).1.acts key pre)
    (c : Collection) (hc : jsGet H.collections key = some c) (t : Nat)
    (ha : c.active = 0) (ht : c.unsubTimer = some t) (s : Nat) :
    (H.subscribe key s).trace =
      H.trace ++ [.clearTimeout t] ++
        (if c.state.isSome = true then [.setTimeout H.nextTimer 0] else []) ∧
    upstreamCalls (H.subscribe key s).trace = upstreamCalls H.trace ∧
    (∀ id, jsGet (H.subscribe key s).timers id ≠ some (.teardown key)) ∧
    jsGet (H.subscribe key s).collections key =
      some { c with active := 1, unsubTimer := none, listeners := c.listeners ++ [s] } ∧
    (H.subscribe key s).conn = H.conn ∧
    Host.upstreamActive c H = true ∧
    Host.upstreamActive c (H.subscribe key s) = true := by
  have hco : H.Coherent key := by
    rw [hH]
    exact Host.acts_coherent pre
      (Host.getCollection_coherent fetchCollection subscribeUpdates true hf)
  have hco' := Host.subscribe_coherent s hco
  have hb := Host.subscribeBody_pending key s H ha ht
  have hcol : (Host.subscribeBody key s c H).2.collections = H.collections := by
    rw [hb]
    by_cases hst : c.state.isSome = true
    · rw [if_pos hst]
      rfl
    · rw [if_neg hst]
      rfl
  obtain ⟨_, o2, _, _, _, _, o7⟩ := Host.onCollection_eq (Host.subscribeBody key s) hc hcol
  have htr : (H.subscribe key s).trace =
      H.trace ++ [.clearTimeout t] ++
        (if c.state.isSome = true then [.setTimeout H.nextTimer 0] else []) := by
    refine o7.trans ?_
    rw [hb]
    by_cases hst : c.state.isSome = true
    · rw [if_pos hst, if_pos hst]
      rfl
    · rw [if_neg hst, if_neg hst, List.append_nil]
      rfl
  have hj' : jsGet (H.subscribe key s).collections key =
      some { c with active := 1, unsubTimer := none, listeners := c.listeners ++ [s] } := by
    refine o2.trans ?_
    rw [hb]
  have hconn : (H.subscribe key s).conn = H.conn := by
    show (H.onCollection key (Host.subscribeBody key s)).conn = H.conn
    unfold Host.onCollection
    rw [hc]
    dsimp only
    rw [hb]
    by_cases hst : c.state.isSome = true
    · rw [if_pos hst]
      rfl
    · rw [if_neg hst]
      rfl
  obtain ⟨c0, j0, g0, _⟩ := hco
  rw [hc] at j0
  simp only [Option.some.injEq] at j0
  subst j0
  obtain ⟨c1, j1, g1, _⟩ := hco'
  rw [hj'] at j1
  simp only [Option.some.injEq] at j1
  subst j1
  have hup : Host.upstreamActive c H = true := by
    unfold Host.upstreamActive
    rw [decide_eq_true_iff]
    exact g0.2.1.2 (Or.inr (by rw [ht]; rfl))
  refine ⟨htr, ?_, ?_, hj', hconn, hup, ?_⟩
  · rw [htr]
    by_cases hst : c.state.isSome = true
    · rw [if_pos hst]
      simp [Host.upstreamCalls_append, upstreamCalls]
    · rw [if_neg hst]
      simp [Host.upstreamCalls_append, upstreamCalls]
  · intro id hj
    have := (g1.2.2.2.1 id).1 hj
    cases this
  · unfold Host.upstreamActive at hup ⊢
    rw [hconn]
    exact hup

/-- Witness of C25: a subscriber 8 comes in the grace period of the sample collection. -/
theorem C25_resubscribe_within_grace_witness :
    (sampleGraceHost.subscribe "_cnf" 8).trace =
      sampleGraceHost.trace ++ [.clearTimeout 1] ++
        (if sampleGraceCollection.state.isSome = true then
          [.setTimeout sampleGraceHost.nextTimer 0] else []) ∧
    upstreamCalls (sampleGraceHost.subscribe "_cnf" 8).trace =
      upstreamCalls sampleGraceHost.trace :=
  ⟨(C25_resubscribe_within_grace "_cnf" (some 20) (some 21) { conn := sampleConnection }
      (by simp [Host.Fresh, Host.disconnectedListeners, sampleConnection,
        Connection.listenersOf, jsGet])
      [.subscribe 7, .unsubscribe 7] sampleGraceHost rfl sampleGraceCollection (by decide) 1
      rfl rfl 8).1,
    (C25_resubscribe_within_grace "_cnf" (some 20) (some 21) { conn := sampleConnection }
      (by simp [Host.Fresh, Host.disconnectedListeners, sampleConnection,
        Connection.listenersOf, jsGet])
      [.subscribe 7, .unsubscribe 7] sampleGraceHost rfl sampleGraceCollection (by decide) 1
      rfl rfl 8).2.1⟩

/-- Counterexample to C25 as stated: a collection with grace enabled, `u = subscribe(7)`,
then `u()` twice. The last subscriber has left and the grace timer 1 is pending, with the
counter `active` at -1. The call `subscribe(8)` that arrives before the timer fires raises
the counter to 0, not 1, so `setupUpdateSubscription` is not called: nothing is added to the
trace (no `clearTimeout`), and the teardown stays pending. When the timer fires, the
teardown runs although subscriber 8 is listening: the upstream subscription is unsubscribed,
the state is cleared, and the upstream subscription is no longer active. -/
theorem C25_double_unsubscribe_keeps_teardown :
    (jsGet sampleDoubleUnsubscribed.collections "_cnf").map
        (fun c => (c.unsubGrace, c.listeners, c.active, c.unsubTimer)) =
      some (true, [], -1, some 1) ∧
    jsGet sampleDoubleUnsubscribed.timers 1 = some (.teardown "_cnf") ∧
    (sampleDoubleUnsubscribed.subscribe "_cnf" 8).trace = sampleDoubleUnsubscribed.trace ∧
    jsGet (sampleDoubleUnsubscribed.subscribe "_cnf" 8).timers 1 = some (.teardown "_cnf") ∧
    (jsGet (sampleDoubleUnsubscribed.subscribe "_cnf" 8).collections "_cnf").map
        (fun c => (c.listeners, c.active, c.unsubTimer)) =
      some ([8], 0, some 1) ∧
    ((sampleDoubleUnsubscribed.subscribe "_cnf" 8).timerFired 1).trace =
      sampleDoubleUnsubscribed.trace ++ [.thenUnsub "_cnf" 0, .clearState "_cnf"] ∧
    (jsGet ((sampleDoubleUnsubscribed.subscribe "_cnf" 8).timerFired 1).collections "_cnf").map
        (fun c => (c.listeners,
          Host.upstreamActive c ((sampleDoubleUnsubscribed.subscribe "_cnf" 8).timerFired 1))) =
      some ([8], false) := by
  decide

/-- C26: in the grace period of a collection (grace enabled, the counter `active` is zero
and the grace timer `t` is set), over every sequence of steps in which no subscriber comes
the teardown runs at most once, and exactly once when the grace timer fires or a disconnect
notification comes in the sequence: `store.clearState()` is called once more, and the
upstream unsubscribe `unsubProm.then((unsub) => unsub())` once more when the collection has
an upstream subscription promise. -/
theorem C26_teardown_exactly_once (key : String)
    (fetchCollection subscribeUpdates : Option Nat) (h0 : Host) (hf : h0.Fresh key)
    (pre : List CollectionAction) (H : Host)
    (hH : H = (h0.getCollection key fetchCollection subscribeUpdates true).1.acts key pre)
    (c : Collection) (hc : jsGet H.collections key = some c) (t : Nat)
    (ha : c.active = 0) (ht : c.unsubTimer = some t) (as : List CollectionAction)
    (hns : ∀ a ∈ as, ∀ s, a ≠ CollectionAction.subscribe s) :
    clearStateCalls key (H.acts key as).trace =
      clearStateCalls key H.trace +
        (if CollectionAction.timer t ∈ as ∨ CollectionAction.disconnected ∈ as then 1
          else 0) ∧
    unsubCalls key (H.acts key as).trace =
      unsubCalls key H.trace +
        (if (CollectionAction.timer t ∈ as ∨ CollectionAction.disconnected ∈ as) ∧
            c.unsubProm.isSome = true then 1
          else 0) := by
  have hco : H.Coherent key := by
    rw [hH]
    exact Host.acts_coherent pre
      (Host.getCollection_coherent fetchCollection subscribeUpdates true hf)
  exact Host.acts_quiet_pending as hco hc (by omega) ht hns

/-- Witness of C26: in the grace period of the sample collection a disconnect notification
comes and then the grace timer 1 fires; the state is cleared once. -/
theorem C26_teardown_exactly_once_witness :
    clearStateCalls "_cnf" (sampleGraceHost.acts "_cnf" [.disconnected, .timer 1]).trace =
      clearStateCalls "_cnf" sampleGraceHost.trace +
        (if CollectionAction.timer 1 ∈ [CollectionAction.disconnected, .timer 1] ∨
            CollectionAction.disconnected ∈ [CollectionAction.disconnected, .timer 1]
          then 1 else 0) :=
  (C26_teardown_exactly_once "_cnf" (some 20) (some 21) { conn := sampleConnection }
    (by simp [Host.Fresh, Host.disconnectedListeners, sampleConnection,
      Connection.listenersOf, jsGet])
    [.subscribe 7, .unsubscribe 7] sampleGraceHost rfl sampleGraceCollection (by decide) 1
    rfl rfl [.disconnected, .timer 1]
    (by
      intro a ha s
      simp only [List.mem_cons, List.mem_singleton, List.not_mem_nil, or_false] at ha
      rcases ha with rfl | rfl
      · intro hx
        cases hx
      · intro hx
        cases hx)).1

/-- C27: when `handleDisconnect` of a collection is called and the grace timer `t` is set,
the timer is cleared and the teardown runs at once (the upstream unsubscribe, the state
cleared, the listener removed: the upstream subscription is no longer active); when no
grace timer is set, the call changes nothing at all; and no grace timer is set exactly when
a subscriber is active or the upstream subscription is not active. -/
theorem C27_disconnect_notification (key : String)
    (fetchCollection subscribeUpdates : Option Nat) (unsubGrace : Bool) (h0 : Host)
    (hf : h0.Fresh key) (as : List CollectionAction) (H : Host)
    (hH : H = (h0.getCollection key fetchCollection subscribeUpdates unsubGrace).1.acts key as)
    (c : Collection) (hc : jsGet H.collections key = some c) :
    (∀ t, c.unsubTimer = some t →
      (H.disconnected key).trace =
        H.trace ++ [.clearTimeout t] ++
          (match c.unsubProm with
            | some p => [.thenUnsub key p]
            | none => []) ++ [.clearState key] ∧
      (H.disconnected key).timers = jsDelete H.timers t ∧
      jsGet (H.disconnected key).collections key =
        some { c with unsubTimer := none, state := none } ∧
      Host.upstreamActive c H = true ∧
      Host.upstreamActive c (H.disconnected key) = false) ∧
    (c.unsubTimer = none → H.disconnected key = H) ∧
    (c.unsubTimer = none ↔ (1 ≤ c.active ∨ Host.upstreamActive c H = false)) := by
  have hco : H.Coherent key := by
    rw [hH]
    exact Host.acts_coherent as
      (Host.getCollection_coherent fetchCollection subscribeUpdates unsubGrace hf)
  obtain ⟨c0, j0, g0, _⟩ := hco
  rw [hc] at j0
  simp only [Option.some.injEq] at j0
  subst j0
  obtain ⟨g1, g2, g3, g4, g5⟩ := g0
  have hact : Host.upstreamActive c H = true ↔ c.handleDisconnect ∈ H.disconnectedListeners := by
    unfold Host.upstreamActive
    rw [decide_eq_true_iff]
    rfl
  refine ⟨?_, ?_, ?_⟩
  · intro t ht
    have hb : Host.handleDisconnect key c H =
        Host.teardownUpdateSubscription key c (H.clearTimeout t) := by
      unfold Host.handleDisconnect
      rw [ht]
    obtain ⟨e1, e2, e3, _, e5, e6⟩ := Host.teardown_eq key c (H.clearTimeout t)
    obtain ⟨_, o2, _, o4, _, o6, o7⟩ := Host.onCollection_eq (Host.handleDisconnect key) hc
      (by rw [hb, e2]; rfl)
    rw [hb] at o2 o4 o6 o7
    refine ⟨o7.trans e6, o4.trans e3, o2.trans (by rw [e1]),
      hact.2 (g2.2 (Or.inr (by rw [ht]; rfl))), ?_⟩
    have hd : (H.disconnected key).disconnectedListeners =
        H.disconnectedListeners.erase c.handleDisconnect := o6.trans e5
    cases hu : Host.upstreamActive c (H.disconnected key) with
    | false => rfl
    | true =>
      unfold Host.upstreamActive at hu
      rw [decide_eq_true_iff] at hu
      have hm : c.handleDisconnect ∈ (H.disconnected key).disconnectedListeners := hu
      rw [hd] at hm
      have h1 := List.count_pos_iff.2 hm
      rw [List.count_erase_self] at h1
      omega
  · intro ht
    show H.onCollection key (Host.handleDisconnect key) = H
    unfold Host.onCollection
    rw [hc]
    dsimp only
    have hb : Host.handleDisconnect key c H = (c, H) := by
      unfold Host.handleDisconnect
      rw [ht]
    rw [hb, jsSet_of_jsGet hc]
  · constructor
    · intro ht
      by_cases h1 : 1 ≤ c.active
      · exact Or.inl h1
      · right
        cases hu : Host.upstreamActive c H with
        | false => rfl
        | true =>
          rcases g2.1 (hact.1 hu) with h | h
          · exact absurd h h1
          · rw [ht] at h
            cases h
    · rintro (h1 | h1)
      · cases hu : c.unsubTimer with
        | none => rfl
        | some t =>
          have := g3 (by rw [hu]; rfl)
          omega
      · cases hu : c.unsubTimer with
        | none => rfl
        | some t =>
          have := hact.2 (g2.2 (Or.inr (by rw [hu]; rfl)))
          rw [h1] at this
          cases this

/-- Witness of C27: a disconnect notification in the grace period of the sample collection
tears it down. -/
theorem C27_disconnect_notification_witness :
    (sampleGraceHost.disconnected "_cnf").trace =
      sampleGraceHost.trace ++ [.clearTimeout 1] ++
        (match sampleGraceCollection.unsubProm with
          | some p => [.thenUnsub "_cnf" p]
          | none => []) ++ [.clearState "_cnf"] :=
  ((C27_disconnect_notification "_cnf" (some 20) (some 21) true { conn := sampleConnection }
    (by simp [Host.Fresh, Host.disconnectedListeners, sampleConnection,
      Connection.listenersOf, jsGet])
    [.subscribe 7, .unsubscribe 7] sampleGraceHost rfl sampleGraceCollection
      (by decide)).1 1 rfl).1

namespace Host

/-- The parts of a collection that are fixed when `getCollection` creates it. -/
theorem setup_static (key : String) (c : Collection) (h : Host) :
    (setupUpdateSubscription key c h).2.collections = h.collections ∧
    (setupUpdateSubscription key c h).1.id = c.id ∧
    (setupUpdateSubscription key c h).1.fetchCollection = c.fetchCollection ∧
    (setupUpdateSubscription key c h).1.subscribeUpdates = c.subscribeUpdates ∧
    (setupUpdateSubscription key c h).1.unsubGrace = c.unsubGrace := by
  rcases Option.eq_none_or_eq_some c.unsubTimer with ht | ⟨t, ht⟩
  · obtain ⟨e1, e2, _⟩ := setup_fresh key h ht
    rw [e1, e2]
    exact ⟨rfl, rfl, rfl, rfl, rfl⟩
  · rw [setup_pending key h ht]
    exact ⟨rfl, rfl, rfl, rfl, rfl⟩

theorem subscribeBody_static (key : String) (s : Nat) (c : Collection) (h : Host) :
    (subscribeBody key s c h).2.collections = h.collections ∧
    (subscribeBody key s c h).1.id = c.id ∧
    (subscribeBody key s c h).1.fetchCollection = c.fetchCollection ∧
    (subscribeBody key s c h).1.subscribeUpdates = c.subscribeUpdates ∧
    (subscribeBody key s c h).1.unsubGrace = c.unsubGrace := by
  have hS : (if c.active + 1 = 1 then
        setupUpdateSubscription key { c with active := c.active + 1 } h
      else ({ c with active := c.active + 1 }, h)).2.collections = h.collections ∧
      (if c.active + 1 = 1 then
        setupUpdateSubscription key { c with active := c.active + 1 } h
      else ({ c with active := c.active + 1 }, h)).1.id = c.id ∧
      (if c.active + 1 = 1 then
        setupUpdateSubscription key { c with active := c.active + 1 } h
      else ({ c with active := c.active + 1 }, h)).1.fetchCollection = c.fetchCollection ∧
      (if c.active + 1 = 1 then
        setupUpdateSubscription key { c with active := c.active + 1 } h
      else ({ c with active := c.active + 1 }, h)).1.subscribeUpdates =
        c.subscribeUpdates ∧
      (if c.active + 1 = 1 then
        setupUpdateSubscription key { c with active := c.active + 1 } h
      else ({ c with active := c.active + 1 }, h)).1.unsubGrace = c.unsubGrace := by
    by_cases h1 : c.active + 1 = 1
    · rw [if_pos h1]
      exact setup_static key { c with active := c.active + 1 } h
    · rw [if_neg h1]
      exact ⟨rfl, rfl, rfl, rfl, rfl⟩
  rw [subscribeBody_fst, subscribeBody_snd]
  generalize (if c.active + 1 = 1 then
      setupUpdateSubscription key { c with active := c.active + 1 } h
    else ({ c with active := c.active + 1 }, h)) = S at hS ⊢
  obtain ⟨e1, e2, e3, e4, e5⟩ := hS
  by_cases hst : S.1.state.isSome = true
  · rw [if_pos hst]
    exact ⟨e1, e2, e3, e4, e5⟩
  · rw [if_neg hst]
    exact ⟨e1, e2, e3, e4, e5⟩

theorem teardown_static (key : String) (c : Collection) (h : Host) :
    (teardownUpdateSubscription key c h).2.collections = h.collections ∧
    (teardownUpdateSubscription key c h).1.id = c.id ∧
    (teardownUpdateSubscription key c h).1.fetchCollection = c.fetchCollection ∧
    (teardownUpdateSubscription key c h).1.subscribeUpdates = c.subscribeUpdates ∧
    (teardownUpdateSubscription key c h).1.unsubGrace = c.unsubGrace := by
  obtain ⟨e1, e2, _⟩ := teardown_eq key c h
  rw [e1, e2]
  exact ⟨rfl, rfl, rfl, rfl, rfl⟩

theorem unsubscribeBody_static (key : String) (s : Nat) (c : Collection) (h : Host) :
    (unsubscribeBody key s c h).2.collections = h.collections ∧
    (unsubscribeBody key s c h).1.id = c.id ∧
    (unsubscribeBody key s c h).1.fetchCollection = c.fetchCollection ∧
    (unsubscribeBody key s c h).1.subscribeUpdates = c.subscribeUpdates ∧
    (unsubscribeBody key s c h).1.unsubGrace = c.unsubGrace := by
  unfold unsubscribeBody
  dsimp only
  by_cases h1 : c.active - 1 = 0
  · rw [if_pos h1]
    by_cases hg : c.unsubGrace = true
    · rw [if_pos hg]
      exact ⟨rfl, rfl, rfl, rfl, rfl⟩
    · rw [if_neg hg]
      exact teardown_static key _ h
  · rw [if_neg h1]
    exact ⟨rfl, rfl, rfl, rfl, rfl⟩

theorem handleDisconnect_static (key : String) (c : Collection) (h : Host) :
    (handleDisconnect key c h).2.collections = h.collections ∧
    (handleDisconnect key c h).1.id = c.id ∧
    (handleDisconnect key c h).1.fetchCollection = c.fetchCollection ∧
    (handleDisconnect key c h).1.subscribeUpdates = c.subscribeUpdates ∧
    (handleDisconnect key c h).1.unsubGrace = c.unsubGrace := by
  unfold handleDisconnect
  rcases Option.eq_none_or_eq_some c.unsubTimer with ht | ⟨t, ht⟩
  · rw [ht]
    exact ⟨rfl, rfl, rfl, rfl, rfl⟩
  · rw [ht]
    exact teardown_static key c (h.clearTimeout t)

/-- Running a closure of a collection `k` keeps the object `conn[key]` and its fixed
parts. -/
theorem onCollection_static {key k : String} {c : Collection} {h : Host}
    {f : Collection → Host → Collection × Host}
    (hj : jsGet h.collections key = some c)
    (hf : ∀ c h, (f c h).2.collections = h.collections ∧ (f c h).1.id = c.id ∧
      (f c h).1.fetchCollection = c.fetchCollection ∧
      (f c h).1.subscribeUpdates = c.subscribeUpdates ∧
      (f c h).1.unsubGrace = c.unsubGrace) :
    ∃ c', jsGet (h.onCollection k f).collections key = some c' ∧ c'.id = c.id ∧
      c'.fetchCollection = c.fetchCollection ∧ c'.subscribeUpdates = c.subscribeUpdates ∧
      c'.unsubGrace = c.unsubGrace := by
  rcases Option.eq_none_or_eq_some (jsGet h.collections k) with hn | ⟨c2, hs⟩
  · have : h.onCollection k f = h := by
      unfold onCollection
      rw [hn]
    rw [this]
    exact ⟨c, hj, rfl, rfl, rfl, rfl⟩
  · obtain ⟨e1, e2, e3, e4, e5⟩ := hf c2 h
    obtain ⟨_, o2, o3, _⟩ := onCollection_eq f hs e1
    by_cases hk : key = k
    · subst hk
      rw [hj] at hs
      simp only [Option.some.injEq] at hs
      subst hs
      exact ⟨_, o2, e2, e3, e4, e5⟩
    · refine ⟨c, ?_, rfl, rfl, rfl, rfl⟩
      rw [o3 key hk]
      exact hj

theorem act_static {key : String} {c : Collection} {h : Host} (a : CollectionAction)
    (hj : jsGet h.collections key = some c) :
    ∃ c', jsGet (h.act key a).collections key = some c' ∧ c'.id = c.id ∧
      c'.fetchCollection = c.fetchCollection ∧ c'.subscribeUpdates = c.subscribeUpdates ∧
      c'.unsubGrace = c.unsubGrace := by
  cases a with
  | subscribe s => exact onCollection_static hj (subscribeBody_static key s)
  | unsubscribe s => exact onCollection_static hj (unsubscribeBody_static key s)
  | disconnected => exact onCollection_static hj (handleDisconnect_static key)
  | setState state =>
    exact onCollection_static (k := key) hj (fun c h => ⟨rfl, rfl, rfl, rfl, rfl⟩)
  | timer id =>
    have hact : h.act key (.timer id) = h.timerFired id := rfl
    rw [hact]
    unfold timerFired
    rcases Option.eq_none_or_eq_some (jsGet h.timers id) with hti | ⟨task, hti⟩
    · rw [hti]
      exact ⟨c, hj, rfl, rfl, rfl, rfl⟩
    · rw [hti]
      dsimp only
      cases task with
      | teardown k =>
        dsimp only
        exact onCollection_static (h := { h with timers := jsDelete h.timers id }) hj
          (teardown_static k)
      | notify k s =>
        dsimp only
        cases jsGet h.collections k with
        | none => exact ⟨c, hj, rfl, rfl, rfl, rfl⟩
        | some c2 => exact ⟨c, hj, rfl, rfl, rfl, rfl⟩

theorem acts_static {key : String} (as : List CollectionAction) {c : Collection} {h : Host}
    (hj : jsGet h.collections key = some c) :
    ∃ c', jsGet (h.acts key as).collections key = some c' ∧ c'.id = c.id ∧
      c'.fetchCollection = c.fetchCollection ∧ c'.subscribeUpdates = c.subscribeUpdates ∧
      c'.unsubGrace = c.unsubGrace := by
  induction as generalizing c h with
  | nil => exact ⟨c, hj, rfl, rfl, rfl, rfl⟩
  | cons a as ih =>
    obtain ⟨c1, j1, a1, a2, a3, a4⟩ := act_static a hj
    obtain ⟨c2, j2, b1, b2, b3, b4⟩ := ih j1
    exact ⟨c2, j2, b1.trans a1, b2.trans a2, b3.trans a3, b4.trans a4⟩

/-- What the first `getCollection` for a key returns and stores. -/
theorem getCollection_new {key : String} (fetchCollection subscribeUpdates : Option Nat)
    (unsubGrace : Bool) {h : Host} (hn : jsGet h.collections key = none) :
    ∃ c, jsGet (h.getCollection key fetchCollection subscribeUpdates unsubGrace).1.collections
        key = some c ∧
      c.id = (h.getCollection key fetchCollection subscribeUpdates unsubGrace).2 ∧
      c.fetchCollection = fetchCollection ∧ c.subscribeUpdates = subscribeUpdates ∧
      c.unsubGrace = unsubGrace ∧
      (h.getCollection key fetchCollection subscribeUpdates unsubGrace).2 = h.nextObject := by
  unfold getCollection
  rw [hn]
  exact ⟨_, jsGet_jsSet_same _ _ _, rfl, rfl, rfl, rfl, rfl⟩

/-- What `getCollection` does when `conn[key]` is set. -/
theorem getCollection_old {key : String} (fetchCollection subscribeUpdates : Option Nat)
    (unsubGrace : Bool) {h : Host} {c : Collection} (hj : jsGet h.collections key = some c) :
    h.getCollection key fetchCollection subscribeUpdates unsubGrace = (h, c.id) := by
  unfold getCollection
  rw [hj]

end Host

namespace World

theorem act_other {a b : Nat} (key : String) (x : CollectionAction) (w : World)
    (hab : a ≠ b) : jsGet (w.act a key x).hosts b = jsGet w.hosts b := by
  unfold act
  cases jsGet w.hosts a with
  | none => rfl
  | some h => exact jsGet_jsSet_ne _ _ _ _ (Ne.symm hab)

theorem acts_other {a b : Nat} (key : String) (as : List CollectionAction) (w : World)
    (hab : a ≠ b) : jsGet (w.acts a key as).hosts b = jsGet w.hosts b := by
  induction as generalizing w with
  | nil => rfl
  | cons x as ih =>
    show jsGet ((w.act a key x).acts a key as).hosts b = _
    rw [ih, act_other key x w hab]

theorem act_same {a : Nat} {h : Host} (key : String) (x : CollectionAction) (w : World)
    (hj : jsGet w.hosts a = some h) : jsGet (w.act a key x).hosts a = some (h.act key x) := by
  unfold act
  rw [hj]
  exact jsGet_jsSet_same _ _ _

theorem acts_same {a : Nat} {h : Host} (key : String) (as : List CollectionAction) (w : World)
    (hj : jsGet w.hosts a = some h) :
    jsGet (w.acts a key as).hosts a = some (h.acts key as) := by
  induction as generalizing w h with
  | nil => exact hj
  | cons x as ih =>
    show jsGet ((w.act a key x).acts a key as).hosts a = _
    rw [ih (w.act a key x) (act_same key x w hj)]
    rfl

theorem getCollection_eq {a : Nat} {h : Host} (key : String)
    (fetchCollection subscribeUpdates : Option Nat) (unsubGrace : Bool) (w : World)
    (hj : jsGet w.hosts a = some h) :
    (w.getCollection a key fetchCollection subscribeUpdates unsubGrace).2 =
      some (a, (h.getCollection key fetchCollection subscribeUpdates unsubGrace).2) ∧
    jsGet (w.getCollection a key fetchCollection subscribeUpdates unsubGrace).1.hosts a =
      some (h.getCollection key fetchCollection subscribeUpdates unsubGrace).1 ∧
    ∀ b, a ≠ b →
      jsGet (w.getCollection a key fetchCollection subscribeUpdates unsubGrace).1.hosts b =
        jsGet w.hosts b := by
  unfold getCollection
  rw [hj]
  exact ⟨rfl, jsGet_jsSet_same _ _ _, fun b hab => jsGet_jsSet_ne _ _ _ _ (Ne.symm hab)⟩

end World

/-! ## C28: `getCollection` gets or creates -/

/-- C28: on one connection object, a call of `getCollection` for a key, whatever happens
to the collection afterwards, and a second call for the same key with any other functions
and options: the second call changes nothing and returns the object of the first, and when
the first call created it, the object still has the functions and the option of the first
call. On two connection objects `a` and `b`, a call for `a` and then one for `b` with the
same key return two objects, and the connection `b` is as if the call for `a` had not been
made, also after anything that happens to the collection of `a`: when `b[key]` was not set,
its collection is new, with the functions and the option of its own call, no subscriber
and no state. -/
theorem C28_get_or_create (key : String) (f1 s1 f2 s2 : Option Nat) (g1 g2 : Bool) (h : Host)
    (as : List CollectionAction) (w : World) (a b : Nat) (ha hb : Host) (hab : a ≠ b)
    (hwa : jsGet w.hosts a = some ha) (hwb : jsGet w.hosts b = some hb) :
    (((h.getCollection key f1 s1 g1).1.acts key as).getCollection key f2 s2 g2 =
      ((h.getCollection key f1 s1 g1).1.acts key as, (h.getCollection key f1 s1 g1).2)) ∧
    (jsGet h.collections key = none →
      ∃ c, jsGet ((h.getCollection key f1 s1 g1).1.acts key as).collections key = some c ∧
        c.id = (h.getCollection key f1 s1 g1).2 ∧
        c.fetchCollection = f1 ∧ c.subscribeUpdates = s1 ∧ c.unsubGrace = g1) ∧
    (w.getCollection a key f1 s1 g1).2 = some (a, (ha.getCollection key f1 s1 g1).2) ∧
    ((w.getCollection a key f1 s1 g1).1.getCollection b key f2 s2 g2).2 =
      some (b, (hb.getCollection key f2 s2 g2).2) ∧
    (w.getCollection a key f1 s1 g1).2 ≠
      ((w.getCollection a key f1 s1 g1).1.getCollection b key f2 s2 g2).2 ∧
    jsGet ((((w.getCollection a key f1 s1 g1).1.getCollection b key f2 s2 g2).1.acts a key
      as).hosts) a = some ((ha.getCollection key f1 s1 g1).1.acts key as) ∧
    jsGet ((((w.getCollection a key f1 s1 g1).1.getCollection b key f2 s2 g2).1.acts a key
      as).hosts) b = some (hb.getCollection key f2 s2 g2).1 ∧
    (jsGet hb.collections key = none →
      ∃ c, jsGet (hb.getCollection key f2 s2 g2).1.collections key = some c ∧
        c.fetchCollection = f2 ∧ c.subscribeUpdates = s2 ∧ c.unsubGrace = g2 ∧
        c.active = 0 ∧ c.state = none ∧ c.listeners = []) := by
  have hsame : ∃ c, jsGet ((h.getCollection key f1 s1 g1).1.acts key as).collections key =
      some c ∧ c.id = (h.getCollection key f1 s1 g1).2 := by
    rcases Option.eq_none_or_eq_some (jsGet h.collections key) with hn | ⟨c0, hs⟩
    · obtain ⟨c, j, i, _⟩ := Host.getCollection_new f1 s1 g1 hn
      obtain ⟨c', j', i', _⟩ := Host.acts_static as j
      exact ⟨c', j', i'.trans i⟩
    · rw [Host.getCollection_old f1 s1 g1 hs]
      obtain ⟨c', j', i', _⟩ := Host.acts_static as hs
      exact ⟨c', j', i'⟩
  obtain ⟨a1, a2, a3⟩ := World.getCollection_eq key f1 s1 g1 w hwa
  have hwb1 : jsGet (w.getCollection a key f1 s1 g1).1.hosts b = some hb :=
    (a3 b hab).trans hwb
  obtain ⟨b1, b2, b3⟩ :=
    World.getCollection_eq key f2 s2 g2 (w.getCollection a key f1 s1 g1).1 hwb1
  refine ⟨?_, ?_, a1, b1, ?_, ?_, ?_, ?_⟩
  · obtain ⟨c, j, i⟩ := hsame
    rw [Host.getCollection_old f2 s2 g2 j, i]
  · intro hn
    obtain ⟨c, j, i, e1, e2, e3, _⟩ := Host.getCollection_new f1 s1 g1 hn
    obtain ⟨c', j', i', e1', e2', e3'⟩ := Host.acts_static as j
    exact ⟨c', j', i'.trans i, e1'.trans e1, e2'.trans e2, e3'.trans e3⟩
  · rw [a1, b1]
    intro hx
    simp only [Option.some.injEq, Prod.mk.injEq] at hx
    exact hab hx.1
  · exact World.acts_same key as _ (((b3 a (Ne.symm hab))).trans a2)
  · rw [World.acts_other key as _ hab]
    exact b2
  · intro hn
    unfold Host.getCollection
    rw [hn]
    exact ⟨_, jsGet_jsSet_same _ _ _, rfl, rfl, rfl, rfl, rfl, rfl⟩

/-- Witness of C28: the sample collection is asked for again after a subscriber came, and
a collection with the same key is created on two connection objects. -/
theorem C28_get_or_create_witness :
    ((sampleHost.acts "_cnf" [.subscribe 7]).getCollection "_cnf" none none false =
      (sampleHost.acts "_cnf" [.subscribe 7], 0)) ∧
    (sampleWorld.getCollection 1 "_cnf" (some 20) (some 21) true).2 ≠
      ((sampleWorld.getCollection 1 "_cnf" (some 20) (some 21) true).1.getCollection 2
        "_cnf" none none false).2 :=
  ⟨(C28_get_or_create "_cnf" (some 20) (some 21) none none true false
      { conn := sampleConnection } [.subscribe 7] sampleWorld 1 2
      { conn := sampleConnection } { conn := sampleConnection } (by decide) rfl rfl).1,
    (C28_get_or_create "_cnf" (some 20) (some 21) none none true false
      { conn := sampleConnection } [.subscribe 7] sampleWorld 1 2
      { conn := sampleConnection } { conn := sampleConnection } (by decide) rfl
      rfl).2.2.2.2.1⟩

/-! ## C31: the listeners a teardown leaves behind -/

namespace Host

theorem ready_removeEventListener (cb : Nat) (h : Host) :
    (h.removeEventListener "ready" cb).readyListeners = h.readyListeners.erase cb := by
  unfold readyListeners removeEventListener Connection.removeEventListener
    Connection.listenersOf
  cases hg : jsGet h.conn.eventListeners "ready" with
  | none => simp [hg]
  | some l => simp [hg, jsGet_jsSet_same]

theorem ready_removeEventListener_ne {eventType : String} (cb : Nat) (h : Host)
    (hne : eventType ≠ "ready") :
    (h.removeEventListener eventType cb).readyListeners = h.readyListeners := by
  unfold readyListeners removeEventListener Connection.removeEventListener
    Connection.listenersOf
  cases hg : jsGet h.conn.eventListeners eventType with
  | none => simp [hg]
  | some l => simp [hg, jsGet_jsSet_ne _ _ _ _ (Ne.symm hne)]

/-- The teardown removes the closure `refresh` from the listeners of `ready`, not the
closure `refreshSwallow` that the setup registered. -/
theorem teardown_ready (key : String) (c : Collection) (h : Host) :
    (teardownUpdateSubscription key c h).2.readyListeners =
      h.readyListeners.erase c.refresh := by
  unfold teardownUpdateSubscription
  dsimp only
  rw [ready_removeEventListener_ne _ _ (by decide), ready_removeEventListener]
  cases c.unsubProm <;> rfl

end Host

/-- C31, a collection created with a fetch function and torn down: after one subscribe and
unsubscribe (no grace period) the upstream subscription is not active and the listener
`handleDisconnect` is gone, but the listener `refreshSwallow` (2) is still registered for
`ready`, and firing `ready` makes the torn-down collection call `fetchCollection`; after a
second subscribe and unsubscribe it is registered twice, and while a third subscriber is
active three times. -/
theorem C31_ready_listener_survives_teardown :
    (sampleNoGraceHost.acts "_cnf" [.subscribe 7, .unsubscribe 7]).disconnectedListeners = [] ∧
    (sampleNoGraceHost.acts "_cnf" [.subscribe 7, .unsubscribe 7]).readyListeners = [2] ∧
    ((sampleNoGraceHost.acts "_cnf" [.subscribe 7, .unsubscribe 7]).fireReady).trace =
      (sampleNoGraceHost.acts "_cnf" [.subscribe 7, .unsubscribe 7]).trace ++
        [.fetchCollection 20 "_cnf"] ∧
    (sampleNoGraceHost.acts "_cnf"
      [.subscribe 7, .unsubscribe 7, .subscribe 8, .unsubscribe 8]).readyListeners = [2, 2] ∧
    (sampleNoGraceHost.acts "_cnf"
      [.subscribe 7, .unsubscribe 7, .subscribe 8, .unsubscribe 8,
        .subscribe 9]).readyListeners = [2, 2, 2] := by
  decide

/-! ## The writes of `processEvent` -/

namespace Heap

theorem keeps_refl (n : Nat) (m : Heap) : Keeps n m m :=
  fun hn => ⟨hn, fun _ _ => rfl⟩

theorem keeps_andThen {n : Nat} {m m' m'' : Heap} (h1 : Keeps n m m') (h2 : Keeps n m' m'') :
    Keeps n m m'' := by
  intro hn
  obtain ⟨a1, b1⟩ := h1 hn
  obtain ⟨a2, b2⟩ := h2 a1
  exact ⟨a2, fun x hx => (b2 x hx).trans (b1 x hx)⟩

/-- A new object changes no object in use. -/
theorem keeps_alloc (n : Nat) (o : HeapObject) (m : Heap) : Keeps n m (m.alloc o).1 := by
  intro hn
  refine ⟨?_, ?_⟩
  · show n ≤ m.next + 1
    omega
  · intro a ha
    show jsGet (jsSet m.objects m.next o) a = jsGet m.objects a
    exact jsGet_jsSet_ne _ _ _ _ (by omega)

/-- A write to an object that is not below `n` changes no object below `n`. -/
theorem keeps_write {n address : Nat} (o : HeapObject) (m : Heap) (h : n ≤ address) :
    Keeps n m (m.write address o) := by
  intro hn
  refine ⟨hn, ?_⟩
  intro a ha
  show jsGet (jsSet m.objects address o) a = jsGet m.objects a
  exact jsGet_jsSet_ne _ _ _ _ (by omega)

theorem keeps_setEntity {n address : Nat} (f : EntityRecord → EntityRecord) (m : Heap)
    (h : n ≤ address) : Keeps n m (m.setEntity address f) :=
  keeps_write _ m h

theorem keeps_setObject {n address : Nat} (f : List (String × Json) → List (String × Json))
    (m : Heap) (h : n ≤ address) : Keeps n m (m.setObject address f) :=
  keeps_write _ m h

theorem keeps_setSnapshot {n address : Nat} (f : List (String × Nat) → List (String × Nat))
    (m : Heap) (h : n ≤ address) : Keeps n m (m.setSnapshot address f) :=
  keeps_write _ m h

theorem alloc_snd (o : HeapObject) (m : Heap) : (m.alloc o).2 = m.next := rfl

theorem alloc_next (o : HeapObject) (m : Heap) : (m.alloc o).1.next = m.next + 1 := rfl

theorem keeps_contextOf (n : Nat) (c : Option HeapContext) (m : Heap) :
    Keeps n m (m.contextOf c).1 := by
  unfold contextOf
  cases c with
  | none => exact keeps_refl n m
  | some c =>
    cases c with
    | id s => exact keeps_alloc n _ m
    | full context => exact keeps_refl n m

theorem keeps_addEntity {n state : Nat} (toISO : Int → String) (entityId : String)
    (newState : HeapEntityState) (m : Heap) (hs : n ≤ state) :
    Keeps n m (m.addEntity toISO state entityId newState) := by
  unfold addEntity
  exact keeps_andThen (keeps_andThen (keeps_contextOf n _ m) (keeps_alloc n _ _))
    (keeps_setSnapshot _ _ hs)

/-- The additions write to new objects and to the snapshot `state` only. -/
theorem keeps_applyAdditions {n state : Nat} (toISO : Int → String)
    (a : List (String × HeapEntityState)) (m : Heap) (hs : n ≤ state) :
    Keeps n m (m.applyAdditions toISO state a) := by
  induction a generalizing m with
  | nil => exact keeps_refl n m
  | cons x rest ih =>
    obtain ⟨entityId, newState⟩ := x
    unfold applyAdditions
    exact keeps_andThen (keeps_addEntity toISO entityId newState m hs) (ih _)

theorem keeps_applyRemovals {n state : Nat} (r : List String) (m : Heap) (hs : n ≤ state) :
    Keeps n m (m.applyRemovals state r) :=
  keeps_setSnapshot _ m hs

theorem keeps_assignState {n entityState : Nat} (s : Option String) (m : Heap)
    (hE : n ≤ entityState) : Keeps n m (m.assignState s entityState) := by
  unfold assignState
  cases s with
  | none => exact keeps_refl n m
  | some s => exact keeps_setEntity _ m hE

theorem keeps_assignContext {n entityState : Nat} (c : Option HeapContext) (m : Heap)
    (hE : n ≤ entityState) : Keeps n m (m.assignContext c entityState) := by
  unfold assignContext
  by_cases ht : HeapContext.truthy c = true
  · rw [if_pos ht]
    cases c with
    | none => exact keeps_refl n _
    | some c =>
      cases c with
      | id s => exact keeps_andThen (keeps_alloc n _ _) (keeps_setEntity _ _ hE)
      | full context => exact keeps_andThen (keeps_alloc n _ _) (keeps_setEntity _ _ hE)
  · rw [if_neg ht]
    exact keeps_refl n _

theorem keeps_assignTimestamps {n entityState : Nat} (toISO : Int → String)
    (lc lu : Option Int) (m : Heap) (hE : n ≤ entityState) :
    Keeps n m (m.assignTimestamps toISO lc lu entityState) := by
  unfold assignTimestamps
  by_cases h1 : truthyNumber lc = true
  · rw [if_pos h1]
    cases lc with
    | none => exact keeps_refl n _
    | some lc => exact keeps_setEntity _ _ hE
  · rw [if_neg h1]
    by_cases h2 : truthyNumber lu = true
    · rw [if_pos h2]
      cases lu with
      | none => exact keeps_refl n _
      | some lu => exact keeps_setEntity _ _ hE
    · rw [if_neg h2]
      exact keeps_refl n _

theorem keeps_assignAttributes {n attributes : Nat} (a : Option Nat) (m : Heap)
    (hA : a.isSome = true → n ≤ attributes) :
    Keeps n m (m.assignAttributes a attributes) := by
  unfold assignAttributes
  cases a with
  | none => exact keeps_refl n _
  | some a => exact keeps_setObject _ _ (hA rfl)

/-- The block `if (toAdd)` writes to the entity object `entityState`, to a new context
object, and to `attributes` only when `toAdd.a` is there. -/
theorem keeps_applyToAdd {n entityState attributes : Nat} (toISO : Int → String)
    (toAdd : HeapEntityStateAdd) (m : Heap) (hE : n ≤ entityState)
    (hA : toAdd.a.isSome = true → n ≤ attributes) :
    Keeps n m (m.applyToAdd toISO toAdd entityState attributes) := by
  unfold applyToAdd
  exact keeps_andThen (keeps_andThen (keeps_andThen (keeps_assignState _ m hE)
    (keeps_assignContext _ _ hE)) (keeps_assignTimestamps toISO _ _ _ hE))
    (keeps_assignAttributes _ _ hA)

theorem keeps_deleteAttributes {n attributes : Nat} (keys : Option (List String)) (m : Heap)
    (hA : keys.isSome = true → n ≤ attributes) :
    Keeps n m (m.deleteAttributes keys attributes) := by
  unfold deleteAttributes
  cases keys with
  | none => exact keeps_refl n _
  | some keys => exact keeps_setObject _ _ (hA rfl)

/-- The variable `attributes` names a new object whenever an attribute is to be set or
deleted. -/
theorem pickAttributes_new {n : Nat} (entityState : Nat) (m : Heap) (hn : n ≤ m.next) :
    n ≤ (m.pickAttributes true entityState).2 := hn

theorem keeps_pickAttributes (n : Nat) (attributesChanged : Bool) (entityState : Nat)
    (m : Heap) : Keeps n m (m.pickAttributes attributesChanged entityState).1 := by
  unfold pickAttributes
  cases attributesChanged with
  | false => exact keeps_refl n m
  | true => exact keeps_alloc n _ m

theorem keeps_patchFields {n entityState attributes : Nat} (toISO : Int → String)
    (diff : HeapEntityDiff) (attributesChanged : Bool) (m : Heap)
    (hE : n ≤ entityState)
    (hp : (diff.plus.bind (fun toAdd => toAdd.a)).isSome = true → n ≤ attributes)
    (hm : (diff.minus.bind (fun toRemove => toRemove.a)).isSome = true → n ≤ attributes) :
    Keeps n m (m.patchFields toISO diff attributesChanged entityState attributes) := by
  have h1 : Keeps n m
      (match diff.plus with
        | some toAdd => m.applyToAdd toISO toAdd entityState attributes
        | none => m) := by
    cases hpl : diff.plus with
    | none => exact keeps_refl n _
    | some toAdd =>
      refine keeps_applyToAdd toISO toAdd m hE ?_
      intro ha
      apply hp
      rw [hpl]
      exact ha
  unfold patchFields
  dsimp only
  cases attributesChanged with
  | false => exact keeps_andThen h1 (keeps_deleteAttributes _ _ hm)
  | true =>
    rw [if_pos rfl]
    exact keeps_andThen (keeps_andThen h1 (keeps_deleteAttributes _ _ hm))
      (keeps_setEntity _ _ hE)

theorem keeps_storePatched {n state entityState attributes : Nat} (toISO : Int → String)
    (entityId : String) (diff : HeapEntityDiff) (attributesChanged : Bool) (m : Heap)
    (hs : n ≤ state) (hE : n ≤ entityState)
    (hp : (diff.plus.bind (fun toAdd => toAdd.a)).isSome = true → n ≤ attributes)
    (hm : (diff.minus.bind (fun toRemove => toRemove.a)).isSome = true → n ≤ attributes) :
    Keeps n m (m.storePatched toISO state entityId diff attributesChanged entityState
      attributes) := by
  unfold storePatched
  exact keeps_andThen (keeps_patchFields toISO diff attributesChanged m hE hp hm)
    (keeps_setSnapshot _ _ hs)

/-- The body of the changes loop writes to the copy of the entity object, to the copy of
its attributes (made whenever an attribute is set or deleted), to a new context object and
to the snapshot `state` only. -/
theorem keeps_patchEntity {n state : Nat} (toISO : Int → String) (entityId : String)
    (diff : HeapEntityDiff) (address : Nat) (m : Heap) (hs : n ≤ state) :
    Keeps n m (m.patchEntity toISO state entityId diff address) := by
  intro hn
  have hE : n ≤ (m.alloc (.entity (m.entityAt address))).2 := hn
  have hn1 : n ≤ (m.alloc (.entity (m.entityAt address))).1.next := by
    rw [alloc_next]
    omega
  revert hn
  show Keeps n m _
  unfold patchEntity
  dsimp only
  refine keeps_andThen ?_ (keeps_storePatched toISO entityId diff _ _ hs hE ?_ ?_)
  · exact keeps_andThen (keeps_alloc n _ m) (keeps_pickAttributes n _ _ _)
  · intro h
    rw [h, Bool.true_or]
    exact pickAttributes_new _ _ hn1
  · intro h
    rw [h, Bool.or_true]
    exact pickAttributes_new _ _ hn1

theorem keeps_applyChanges {n state : Nat} (toISO : Int → String)
    (c : List (String × HeapEntityDiff)) (m : Heap) (hs : n ≤ state) :
    Keeps n m (m.applyChanges toISO state c).1 := by
  induction c generalizing m with
  | nil => exact keeps_refl n m
  | cons x rest ih =>
    obtain ⟨entityId, diff⟩ := x
    unfold applyChanges
    cases jsGet (m.snapshotAt state) entityId with
    | none => exact ih m
    | some address =>
      exact keeps_andThen (keeps_patchEntity toISO entityId diff address m hs) (ih _)

/-- Every write of `processEvent` goes to an object made in the call; the new snapshot is
handed to the store and its listeners. -/
theorem processEvent_frame (toISO : Int → String) (store : HeapStore)
    (updates : HeapStatesUpdates) (m : Heap) :
    Keeps m.next m (m.processEvent toISO store updates).1 ∧
    (m.processEvent toISO store updates).2.1 =
      { store with
        state := some m.next
        calls := store.calls ++ store.listeners.map (fun l => (l, m.next)) } := by
  refine ⟨?_, rfl⟩
  unfold processEvent setState
  dsimp only
  rw [if_pos rfl]
  dsimp only
  have hs : m.next ≤ (m.alloc (.snapshot
      (match store.state with
        | some state => m.snapshotAt state
        | none => []))).2 := le_refl _
  generalize (m.alloc (.snapshot
      (match store.state with
        | some state => m.snapshotAt state
        | none => []))).2 = state at hs ⊢
  have hA : ∀ m' : Heap, Keeps m.next m'
      (match updates.a with
        | some a => m'.applyAdditions toISO state a
        | none => m') := by
    intro m'
    cases updates.a with
    | none => exact keeps_refl _ _
    | some a => exact keeps_applyAdditions toISO a _ hs
  have hR : ∀ m' : Heap, Keeps m.next m'
      (match updates.r with
        | some r => m'.applyRemovals state r
        | none => m') := by
    intro m'
    cases updates.r with
    | none => exact keeps_refl _ _
    | some r => exact keeps_applyRemovals r _ hs
  have hC : ∀ m' : Heap, Keeps m.next m'
      (match updates.c with
        | some c => m'.applyChanges toISO state c
        | none => (m', [])).1 := by
    intro m'
    cases updates.c with
    | none => exact keeps_refl _ _
    | some c => exact keeps_applyChanges toISO c _ hs
  refine keeps_andThen ?_ (hC _)
  refine keeps_andThen ?_ (hR _)
  refine keeps_andThen ?_ (hA _)
  exact keeps_alloc _ _ m

/-- A reader of a snapshot below `n` sees the same as long as no object below `n` has
changed. -/
theorem readSnapshot_keeps {n s : Nat} {m m' : Heap}
    (hk : ∀ a, a < n → jsGet m'.objects a = jsGet m.objects a) (hb : Below n s m) :
    m'.readSnapshot s = m.readSnapshot s := by
  obtain ⟨hs, hx⟩ := hb
  have hsn : m'.snapshotAt s = m.snapshotAt s := by
    unfold snapshotAt
    rw [hk s hs]
  have he : ∀ a, a < n → m'.entityAt a = m.entityAt a := by
    intro a ha
    unfold entityAt
    rw [hk a ha]
  have ho : ∀ a, a < n → m'.objectAt a = m.objectAt a := by
    intro a ha
    unfold objectAt
    rw [hk a ha]
  unfold readSnapshot
  rw [hsn]
  apply List.map_congr_left
  intro x hxm
  obtain ⟨h1, h2, h3⟩ := hx x hxm
  unfold readEntity
  rw [he x.2 h1, ho _ h2]
  cases hc : (m.entityAt x.2).context with
  | none => rfl
  | some c => simp only [Option.map_some', ho c (h3 c hc)]

end Heap

/-! ## What `processEvent` computes on the heap -/

theorem map_jsSet {κ β γ : Type} [DecidableEq κ] (f : β → γ) (t : List (κ × β)) (k : κ)
    (v : β) :
    (jsSet t k v).map (fun x => (x.1, f x.2)) = jsSet (t.map (fun x => (x.1, f x.2))) k (f v) := by
  induction t with
  | nil => rfl
  | cons e t ih =>
    obtain ⟨k', w⟩ := e
    by_cases h : k' = k
    · simp [jsSet, h]
    · simp [jsSet, h, ih]

theorem jsGet_map {κ β γ : Type} [DecidableEq κ] (f : β → γ) (t : List (κ × β)) (k : κ) :
    jsGet (t.map (fun x => (x.1, f x.2))) k = (jsGet t k).map f := by
  induction t with
  | nil => rfl
  | cons e t ih =>
    obtain ⟨k', w⟩ := e
    by_cases h : k' = k
    · simp [jsGet, h]
    · simp [jsGet, h, ih]

theorem map_jsDelete {κ β γ : Type} [DecidableEq κ] (f : β → γ) (t : List (κ × β)) (k : κ) :
    (jsDelete t k).map (fun x => (x.1, f x.2)) = jsDelete (t.map (fun x => (x.1, f x.2))) k := by
  induction t with
  | nil => rfl
  | cons e t ih =>
    obtain ⟨k', w⟩ := e
    by_cases h : k' = k
    · simp [jsDelete, h, ih]
    · simp [jsDelete, h, ih]

theorem map_deleteKeys {β γ : Type} (f : β → γ) (keys : List String) (t : List (String × β)) :
    (deleteKeys keys t).map (fun x => (x.1, f x.2)) =
      deleteKeys keys (t.map (fun x => (x.1, f x.2))) := by
  induction keys generalizing t with
  | nil => rfl
  | cons k keys ih =>
    show (deleteKeys keys (jsDelete t k)).map _ = deleteKeys keys (jsDelete (t.map _) k)
    rw [ih, map_jsDelete]

theorem mem_deleteKeys {β : Type} {keys : List String} {t : List (String × β)}
    {x : String × β} (h : x ∈ deleteKeys keys t) : x ∈ t := by
  induction keys generalizing t with
  | nil => exact h
  | cons k keys ih => exact (mem_jsDelete.1 (ih h)).1

namespace Heap

theorem get_alloc (o : HeapObject) (m : Heap) (a : Nat) :
    jsGet (m.alloc o).1.objects a = if a = m.next then some o else jsGet m.objects a := by
  show jsGet (jsSet m.objects m.next o) a = _
  by_cases h : a = m.next
  · subst h
    rw [jsGet_jsSet_same, if_pos rfl]
  · rw [jsGet_jsSet_ne _ _ _ _ h, if_neg h]

theorem get_write (b : Nat) (o : HeapObject) (m : Heap) (a : Nat) :
    jsGet (m.write b o).objects a = if a = b then some o else jsGet m.objects a := by
  show jsGet (jsSet m.objects b o) a = _
  by_cases h : a = b
  · subst h
    rw [jsGet_jsSet_same, if_pos rfl]
  · rw [jsGet_jsSet_ne _ _ _ _ h, if_neg h]

theorem entityAt_congr {m m' : Heap} {a : Nat}
    (h : jsGet m'.objects a = jsGet m.objects a) : m'.entityAt a = m.entityAt a := by
  unfold entityAt
  rw [h]

theorem objectAt_congr {m m' : Heap} {a : Nat}
    (h : jsGet m'.objects a = jsGet m.objects a) : m'.objectAt a = m.objectAt a := by
  unfold objectAt
  rw [h]

theorem snapshotAt_congr {m m' : Heap} {a : Nat}
    (h : jsGet m'.objects a = jsGet m.objects a) : m'.snapshotAt a = m.snapshotAt a := by
  unfold snapshotAt
  rw [h]

theorem entityAt_write (a : Nat) (e : EntityRecord) (m : Heap) :
    (m.write a (.entity e)).entityAt a = e := by
  unfold entityAt
  rw [get_write, if_pos rfl]

theorem objectAt_write (a : Nat) (entries : List (String × Json)) (m : Heap) :
    (m.write a (.object entries)).objectAt a = entries := by
  unfold objectAt
  rw [get_write, if_pos rfl]

theorem snapshotAt_write (a : Nat) (entries : List (String × Nat)) (m : Heap) :
    (m.write a (.snapshot entries)).snapshotAt a = entries := by
  unfold snapshotAt
  rw [get_write, if_pos rfl]

theorem get_write_ne {a b : Nat} (o : HeapObject) (m : Heap) (h : a ≠ b) :
    jsGet (m.write b o).objects a = jsGet m.objects a := by
  rw [get_write, if_neg h]

theorem get_alloc_ne {a : Nat} (o : HeapObject) (m : Heap) (h : a ≠ m.next) :
    jsGet (m.alloc o).1.objects a = jsGet m.objects a := by
  rw [get_alloc, if_neg h]

theorem entityAt_alloc (e : EntityRecord) (m : Heap) :
    (m.alloc (.entity e)).1.entityAt m.next = e := by
  unfold entityAt
  rw [get_alloc, if_pos rfl]

theorem objectAt_alloc (entries : List (String × Json)) (m : Heap) :
    (m.alloc (.object entries)).1.objectAt m.next = entries := by
  unfold objectAt
  rw [get_alloc, if_pos rfl]

theorem snapshotAt_alloc (entries : List (String × Nat)) (m : Heap) :
    (m.alloc (.snapshot entries)).1.snapshotAt m.next = entries := by
  unfold snapshotAt
  rw [get_alloc, if_pos rfl]

/-- A reader of an entity sees the same when the entity object, its `attributes` and its
`context` are the same. -/
theorem readEntity_congr {m m' : Heap} {x : Nat}
    (hx : jsGet m'.objects x = jsGet m.objects x)
    (ha : jsGet m'.objects (m.entityAt x).attributes =
      jsGet m.objects (m.entityAt x).attributes)
    (hc : ∀ c ∈ (m.entityAt x).context, jsGet m'.objects c = jsGet m.objects c) :
    m'.readEntity x = m.readEntity x := by
  unfold readEntity
  rw [entityAt_congr hx, objectAt_congr ha]
  cases hcx : (m.entityAt x).context with
  | none => rfl
  | some c => simp only [Option.map_some', objectAt_congr (hc c hcx)]

/-- The entity objects of a snapshot that is live read the same after a step that writes to
new objects and to the snapshot only. -/
theorem readEntity_live {state : Nat} {m m' : Heap} (hl : m.Live state)
    (hk : ∀ a, a < m.next → a ≠ state → jsGet m'.objects a = jsGet m.objects a)
    {x : String × Nat} (hx : x ∈ m.snapshotAt state) :
    m'.readEntity x.2 = m.readEntity x.2 := by
  obtain ⟨h1, h2, h3, h4, h5⟩ := hl.2 x hx
  exact readEntity_congr (hk _ h1 h2) (hk _ h3 h4) (fun c hc => hk c (h5 c hc).1 (h5 c hc).2)

theorem readContext_truthy (c : Option HeapContext) (m : Heap) :
    CompressedContext.truthy (m.readContext c) = HeapContext.truthy c := by
  cases c with
  | none => rfl
  | some c => cases c <;> rfl

theorem below_full {n context : Nat} (h : HeapContext.below n (some (.full context)) = true) :
    context < n := by
  simpa [HeapContext.below] using h

/-- What the statement for the `context` of an added entity does. -/
theorem contextOf_spec {state : Nat} (c : Option HeapContext) (m m0 : Heap)
    (hk : ∀ a, a < state → jsGet m.objects a = jsGet m0.objects a)
    (hs : state < m.next) (hc : HeapContext.below state c = true) :
    m.next ≤ (m.contextOf c).1.next ∧
    (∀ a, a < m.next → jsGet (m.contextOf c).1.objects a = jsGet m.objects a) ∧
    (∀ x ∈ (m.contextOf c).2, x < (m.contextOf c).1.next ∧ x ≠ state) ∧
    (m.contextOf c).2.map (fun x => (m.contextOf c).1.objectAt x) =
      HAWS.contextOf (m0.readContext c) := by
  cases c with
  | none =>
    refine ⟨le_refl _, fun _ _ => rfl, ?_, rfl⟩
    intro x hx
    cases hx
  | some c =>
    cases c with
    | id s =>
      refine ⟨?_, ?_, ?_, ?_⟩
      · show m.next ≤ m.next + 1
        omega
      · intro a ha
        exact get_alloc_ne _ m (by omega)
      · intro x hx
        have : x = m.next := by
          simpa [contextOf, alloc] using hx.symm
        subst this
        refine ⟨?_, by omega⟩
        show m.next < m.next + 1
        omega
      · show some ((m.alloc _).1.objectAt m.next) = _
        rw [objectAt_alloc]
        rfl
    | full context =>
      have hlt := below_full hc
      refine ⟨le_refl _, fun _ _ => rfl, ?_, ?_⟩
      · intro x hx
        have : x = context := by
          simpa [contextOf] using hx.symm
        subst this
        refine ⟨?_, by omega⟩
        show x < m.next
        omega
      · show some (m.objectAt context) = some (m0.objectAt context)
        rw [objectAt_congr (hk _ hlt)]

/-- The statement `state[entityId] = entityState` for a new entity object: the snapshot
reads as before with `entityId` set to what a reader of the new object sees. -/
theorem setSnapshot_reads {state entityState : Nat} {m0 m m1 : Heap}
    {snapshot : List (String × HassEntity)} (hI : Reads state m0 m snapshot)
    (hk : ∀ a, a < m.next → jsGet m1.objects a = jsGet m.objects a)
    (hE1 : m.next ≤ entityState) (hE2 : entityState < m1.next)
    (hat : (m1.entityAt entityState).attributes < m1.next ∧
      (m1.entityAt entityState).attributes ≠ state)
    (hct : ∀ c ∈ (m1.entityAt entityState).context, c < m1.next ∧ c ≠ state)
    (entityId : String) :
    Reads state m0 (m1.setSnapshot state (fun entries => jsSet entries entityId entityState))
      (jsSet snapshot entityId (m1.readEntity entityState)) := by
  obtain ⟨hk0, hl, hr⟩ := hI
  have hst : state < m.next := hl.1
  have hne : entityState ≠ state := by omega
  have hsn1 : m1.snapshotAt state = m.snapshotAt state := snapshotAt_congr (hk state hst)
  have hw : ∀ a, a ≠ state →
      jsGet (m1.setSnapshot state (fun entries => jsSet entries entityId entityState)).objects a =
        jsGet m1.objects a := fun a ha => get_write_ne _ m1 ha
  have hsn : (m1.setSnapshot state (fun entries => jsSet entries entityId entityState)).snapshotAt
      state = jsSet (m.snapshotAt state) entityId entityState := by
    unfold setSnapshot
    rw [snapshotAt_write, hsn1]
  have hnx : (m1.setSnapshot state (fun entries => jsSet entries entityId entityState)).next =
      m1.next := rfl
  have hnew : (m1.setSnapshot state (fun entries => jsSet entries entityId entityState)).readEntity
      entityState = m1.readEntity entityState :=
    readEntity_congr (hw _ hne) (hw _ hat.2) (fun c hc => hw c (hct c hc).2)
  have hold : ∀ x ∈ m.snapshotAt state,
      (m1.setSnapshot state (fun entries => jsSet entries entityId entityState)).readEntity x.2 =
        m.readEntity x.2 := by
    intro x hx
    exact readEntity_live hl (fun a ha hs => (hw a hs).trans (hk a ha)) hx
  have holdE : ∀ x ∈ m.snapshotAt state,
      (m1.setSnapshot state (fun entries => jsSet entries entityId entityState)).entityAt x.2 =
        m.entityAt x.2 := by
    intro x hx
    obtain ⟨h1, h2, _⟩ := hl.2 x hx
    exact entityAt_congr ((hw _ h2).trans (hk _ h1))
  have hm1 : m.next ≤ m1.next := by omega
  refine ⟨?_, ⟨?_, ?_⟩, ?_⟩
  · intro a ha
    rw [hw a (by omega), hk a (by omega)]
    exact hk0 a ha
  · rw [hnx]
    omega
  · intro x hx
    rw [hsn] at hx
    rw [hnx]
    rcases mem_jsSet hx with h | h
    · subst h
      have he : (m1.setSnapshot state
          (fun entries => jsSet entries entityId entityState)).entityAt entityState =
          m1.entityAt entityState := entityAt_congr (hw _ hne)
      dsimp only
      rw [he]
      exact ⟨hE2, hne, hat.1, hat.2, hct⟩
    · obtain ⟨h1, h2, h3, h4, h5⟩ := hl.2 x h
      rw [holdE x h]
      exact ⟨by omega, h2, by omega, h4, fun c hc => ⟨by have := (h5 c hc).1; omega, (h5 c hc).2⟩⟩
  · unfold readSnapshot
    rw [hsn]
    refine (map_jsSet (fun a => (m1.setSnapshot state
      (fun entries => jsSet entries entityId entityState)).readEntity a) _ _ _).trans ?_
    rw [hnew, ← hr]
    unfold readSnapshot
    congr 1
    exact List.map_congr_left (fun x hx => by rw [hold x hx])

/-- The body of the additions loop stores the entity of `addedEntity`. -/
theorem addEntity_reads {state : Nat} {m0 m : Heap} {snapshot : List (String × HassEntity)}
    (toISO : Int → String) (entityId : String) (newState : HeapEntityState)
    (hI : Reads state m0 m snapshot) (ha : newState.a < state)
    (hc : HeapContext.below state newState.c = true) :
    Reads state m0 (m.addEntity toISO state entityId newState)
      (jsSet snapshot entityId (addedEntity toISO entityId (m0.readEntityState newState))) := by
  have hst : state < m.next := hI.2.1.1
  obtain ⟨c1, c2, c3, c4⟩ := contextOf_spec newState.c m m0 hI.1 hst hc
  unfold addEntity
  dsimp only
  generalize hmc : (m.contextOf newState.c).1 = mc at c1 c2 c3 c4 ⊢
  generalize hcx : (m.contextOf newState.c).2 = cx at c3 c4 ⊢
  have hrec : ∀ e : EntityRecord, (mc.alloc (.entity e)).1.entityAt mc.next = e :=
    fun e => entityAt_alloc e mc
  have hread : (mc.alloc (.entity
      { entity_id := entityId
        state := newState.s
        attributes := newState.a
        context := cx
        last_changed := toISO newState.lc
        last_updated :=
          if truthyNumber newState.lu then
            match newState.lu with
            | some lu => toISO lu
            | none => toISO newState.lc
          else toISO newState.lc })).1.readEntity mc.next =
      addedEntity toISO entityId (m0.readEntityState newState) := by
    unfold readEntity
    rw [hrec]
    dsimp only
    unfold addedEntity readEntityState
    dsimp only
    have h1 : ∀ o, (mc.alloc o).1.objectAt newState.a = m0.objectAt newState.a := by
      intro o
      refine objectAt_congr ?_
      rw [get_alloc_ne _ mc (by omega), c2 _ (by omega)]
      exact hI.1 _ ha
    have h2 : ∀ o, cx.map (fun x => (mc.alloc o).1.objectAt x) =
        HAWS.contextOf (m0.readContext newState.c) := by
      intro o
      rw [← c4]
      cases hcxv : cx with
      | none => rfl
      | some x =>
        have := (c3 x (by rw [hcxv]; rfl)).1
        simp only [Option.map_some']
        rw [objectAt_congr (get_alloc_ne o mc (by omega))]
    rw [h1, h2]
  have := @setSnapshot_reads state mc.next m0 m (mc.alloc (.entity
      { entity_id := entityId
        state := newState.s
        attributes := newState.a
        context := cx
        last_changed := toISO newState.lc
        last_updated :=
          if truthyNumber newState.lu then
            match newState.lu with
            | some lu => toISO lu
            | none => toISO newState.lc
          else toISO newState.lc })).1 snapshot hI ?_ c1 ?_ ?_ ?_ entityId
  · rw [hread] at this
    exact this
  · intro a ha'
    rw [get_alloc_ne _ mc (by omega)]
    exact c2 a ha'
  · show mc.next < mc.next + 1
    omega
  · rw [hrec]
    dsimp only
    rw [alloc_next]
    exact ⟨by omega, by omega⟩
  · rw [hrec]
    dsimp only
    rw [alloc_next]
    intro c hcm
    have := c3 c hcm
    exact ⟨by omega, this.2⟩

/-- The additions loop computes `applyAdditions` of the model by values. -/
theorem applyAdditions_reads {state : Nat} {m0 m : Heap}
    {snapshot : List (String × HassEntity)} (toISO : Int → String)
    (a : List (String × HeapEntityState)) (hI : Reads state m0 m snapshot)
    (ha : ∀ x ∈ a, x.2.a < state ∧ HeapContext.below state x.2.c = true) :
    Reads state m0 (m.applyAdditions toISO state a)
      (HAWS.applyAdditions toISO (a.map (fun x => (x.1, m0.readEntityState x.2))) snapshot) := by
  induction a generalizing m snapshot with
  | nil => exact hI
  | cons x rest ih =>
    obtain ⟨entityId, newState⟩ := x
    unfold applyAdditions
    simp only [List.map_cons]
    unfold HAWS.applyAdditions
    have hx := ha (entityId, newState) (List.mem_cons_self _ _)
    exact ih (addEntity_reads toISO entityId newState hI hx.1 hx.2)
      (fun y hy => ha y (List.mem_cons_of_mem _ hy))

/-- The removals loop computes `deleteKeys` of the model by values. -/
theorem applyRemovals_reads {state : Nat} {m0 m : Heap}
    {snapshot : List (String × HassEntity)} (r : List String)
    (hI : Reads state m0 m snapshot) :
    Reads state m0 (m.applyRemovals state r) (deleteKeys r snapshot) := by
  obtain ⟨hk0, hl, hr⟩ := hI
  have hst : state < m.next := hl.1
  have hw : ∀ a, a ≠ state →
      jsGet (m.applyRemovals state r).objects a = jsGet m.objects a :=
    fun a ha => get_write_ne _ m ha
  have hsn : (m.applyRemovals state r).snapshotAt state = deleteKeys r (m.snapshotAt state) := by
    unfold applyRemovals setSnapshot
    rw [snapshotAt_write]
  have hold : ∀ x ∈ m.snapshotAt state,
      (m.applyRemovals state r).readEntity x.2 = m.readEntity x.2 :=
    fun x hx => readEntity_live hl (fun a _ hs => hw a hs) hx
  refine ⟨?_, ⟨hst, ?_⟩, ?_⟩
  · intro a ha
    rw [hw a (by omega)]
    exact hk0 a ha
  · intro x hx
    rw [hsn] at hx
    have hx' := mem_deleteKeys hx
    obtain ⟨h1, h2, h3, h4, h5⟩ := hl.2 x hx'
    rw [entityAt_congr (hw _ h2)]
    exact ⟨h1, h2, h3, h4, h5⟩
  · unfold readSnapshot
    rw [hsn]
    refine (map_deleteKeys (fun a => (m.applyRemovals state r).readEntity a) _ _).trans ?_
    rw [← hr]
    unfold readSnapshot
    congr 1
    exact List.map_congr_left (fun x hx => by rw [hold x hx])

/-- An assignment to properties of `entityState` other than `attributes` and `context`. -/
theorem patching_setEntity {state E A : Nat} {changed : Bool} {m0 m : Heap} {v : HassEntity}
    (f : EntityRecord → EntityRecord) (hfa : ∀ r, (f r).attributes = r.attributes)
    (hfc : ∀ r, (f r).context = r.context) (hP : Patching state E A changed m0 m v) :
    Patching state E A changed m0 (m.setEntity E f)
      { v with
        entity_id := (f (m.entityAt E)).entity_id
        state := (f (m.entityAt E)).state
        last_changed := (f (m.entityAt E)).last_changed
        last_updated := (f (m.entityAt E)).last_updated } := by
  obtain ⟨p1, p2, p3, p4, p5, p6, p7, p8, p9, p10⟩ := hP
  have hw : ∀ a, a ≠ E → jsGet (m.setEntity E f).objects a = jsGet m.objects a :=
    fun a ha => get_write_ne _ m ha
  have he : (m.setEntity E f).entityAt E = f (m.entityAt E) := entityAt_write _ _ m
  refine ⟨?_, p2, p3, p4, p5, p6, p7, ?_, ?_, ?_⟩
  · intro a ha
    rw [hw a (by omega)]
    exact p1 a ha
  · intro hc
    rw [he, hfa]
    exact p8 hc
  · rw [he, hfc]
    exact p9
  · rw [he, hfc, objectAt_congr (hw A p5), p10]
    dsimp only
    congr 1
    cases hcx : (m.entityAt E).context with
    | none => rfl
    | some c =>
      simp only [Option.map_some']
      rw [objectAt_congr (hw c (p9 c hcx).2.1)]

/-- Assignments to, or deletions of, properties of `attributes`, which is a new object. -/
theorem patching_setObject {state E A : Nat} {m0 m : Heap} {v : HassEntity}
    (g : List (String × Json) → List (String × Json))
    (hP : Patching state E A true m0 m v) :
    Patching state E A true m0 (m.setObject A g) { v with attributes := g v.attributes } := by
  obtain ⟨p1, p2, p3, p4, p5, p6, p7, p8, p9, p10⟩ := hP
  have hw : ∀ a, a ≠ A → jsGet (m.setObject A g).objects a = jsGet m.objects a :=
    fun a ha => get_write_ne _ m ha
  have he : (m.setObject A g).entityAt E = m.entityAt E := entityAt_congr (hw E (Ne.symm p5))
  have ho : (m.setObject A g).objectAt A = g (m.objectAt A) := objectAt_write _ _ m
  have hA := p7 rfl
  refine ⟨?_, p2, p3, p4, p5, p6, p7, ?_, ?_, ?_⟩
  · intro a ha
    rw [hw a (by omega)]
    exact p1 a ha
  · intro hc
    cases hc
  · rw [he]
    exact p9
  · rw [he, ho, p10]
    dsimp only
    congr 1
    cases hcx : (m.entityAt E).context with
    | none => rfl
    | some c =>
      simp only [Option.map_some']
      rw [objectAt_congr (hw c ((p9 c hcx).2.2.2 rfl))]

/-- The context becomes a new object. -/
theorem patching_context {state E A : Nat} {changed : Bool} {m0 m : Heap} {v : HassEntity}
    (content : List (String × Json)) (hP : Patching state E A changed m0 m v) :
    Patching state E A changed m0
      ((m.alloc (.object content)).1.setEntity E (fun e => { e with context := some m.next }))
      { v with context := some content } := by
  obtain ⟨p1, p2, p3, p4, p5, p6, p7, p8, p9, p10⟩ := hP
  have hw : ∀ a, a ≠ E → a ≠ m.next →
      jsGet ((m.alloc (.object content)).1.setEntity E
        (fun e => { e with context := some m.next })).objects a = jsGet m.objects a := by
    intro a h1 h2
    exact (get_write_ne _ _ h1).trans (get_alloc_ne _ m h2)
  have hE : (m.alloc (.object content)).1.entityAt E = m.entityAt E :=
    entityAt_congr (get_alloc_ne _ m (by omega))
  have he : ((m.alloc (.object content)).1.setEntity E
      (fun e => { e with context := some m.next })).entityAt E =
      { m.entityAt E with context := some m.next } := by
    unfold setEntity
    rw [entityAt_write, hE]
  have hC : ((m.alloc (.object content)).1.setEntity E
      (fun e => { e with context := some m.next })).objectAt m.next = content := by
    have h1 : jsGet ((m.alloc (.object content)).1.setEntity E
        (fun e => { e with context := some m.next })).objects m.next =
        jsGet (m.alloc (.object content)).1.objects m.next :=
      get_write_ne _ _ (by omega : m.next ≠ E)
    rw [objectAt_congr h1]
    exact objectAt_alloc content m
  have hnx : ((m.alloc (.object content)).1.setEntity E
      (fun e => { e with context := some m.next })).next = m.next + 1 := rfl
  refine ⟨?_, p2, ?_, ?_, p5, p6, p7, ?_, ?_, ?_⟩
  · intro a ha
    rw [hw a (by omega) (by omega)]
    exact p1 a ha
  · rw [hnx]
    omega
  · rw [hnx]
    omega
  · intro hc
    rw [he]
    exact p8 hc
  · rw [he, hnx]
    intro c hc
    have : c = m.next := by
      simpa using hc.symm
    subst this
    exact ⟨by omega, by omega, by omega, fun _ => by omega⟩
  · rw [he, p10]
    simp only [Option.map_some', hC, objectAt_congr (hw A p5 (by omega))]

/-- The statement `entityState.attributes = attributes`. -/
theorem patching_setAttributes {state E A : Nat} {m0 m : Heap} {v : HassEntity}
    (hP : Patching state E A true m0 m v) :
    Patching state E A true m0 (m.setEntity E (fun e => { e with attributes := A })) v ∧
    ((m.setEntity E (fun e => { e with attributes := A })).entityAt E).attributes = A := by
  obtain ⟨p1, p2, p3, p4, p5, p6, p7, p8, p9, p10⟩ := hP
  have hw : ∀ a, a ≠ E →
      jsGet (m.setEntity E (fun e => { e with attributes := A })).objects a =
        jsGet m.objects a := fun a ha => get_write_ne _ m ha
  have he : (m.setEntity E (fun e => { e with attributes := A })).entityAt E =
      { m.entityAt E with attributes := A } := entityAt_write _ _ m
  refine ⟨⟨?_, p2, p3, p4, p5, p6, p7, ?_, ?_, ?_⟩, by rw [he]⟩
  · intro a ha
    rw [hw a (by omega)]
    exact p1 a ha
  · intro hc
    cases hc
  · rw [he]
    exact p9
  · rw [he, objectAt_congr (hw A p5), p10]
    dsimp only
    congr 1
    cases hcx : (m.entityAt E).context with
    | none => rfl
    | some c =>
      simp only [Option.map_some']
      rw [objectAt_congr (hw c (p9 c hcx).2.1)]

theorem patching_view {state E A : Nat} {changed : Bool} {m0 m : Heap} {v : HassEntity}
    (hP : Patching state E A changed m0 m v) :
    v =
      { entity_id := (m.entityAt E).entity_id
        state := (m.entityAt E).state
        attributes := m.objectAt A
        context := (m.entityAt E).context.map (fun c => m.objectAt c)
        last_changed := (m.entityAt E).last_changed
        last_updated := (m.entityAt E).last_updated } :=
  hP.2.2.2.2.2.2.2.2.2

theorem assignState_patching {state E A : Nat} {changed : Bool} {m0 m : Heap}
    {v : HassEntity} (s : Option String) (hP : Patching state E A changed m0 m v) :
    Patching state E A changed m0 (m.assignState s E)
      { v with
        state :=
          match s with
          | some s => s
          | none => v.state } := by
  cases s with
  | none => exact hP
  | some s =>
    have h := patching_setEntity (fun e => { e with state := s }) (fun _ => rfl) (fun _ => rfl) hP
    have hv := patching_view hP
    convert h using 1
    rw [hv]

theorem assignTimestamps_patching {state E A : Nat} {changed : Bool} {m0 m : Heap}
    {v : HassEntity} (toISO : Int → String) (lc lu : Option Int)
    (hP : Patching state E A changed m0 m v) :
    Patching state E A changed m0 (m.assignTimestamps toISO lc lu E)
      { v with
        last_changed :=
          if truthyNumber lc then
            match lc with
            | some lc => toISO lc
            | none => v.last_changed
          else v.last_changed
        last_updated :=
          if truthyNumber lc then
            match lc with
            | some lc => toISO lc
            | none => v.last_updated
          else if truthyNumber lu then
            match lu with
            | some lu => toISO lu
            | none => v.last_updated
          else v.last_updated } := by
  have hv := patching_view hP
  unfold assignTimestamps
  by_cases h1 : truthyNumber lc = true
  · rw [if_pos h1]
    simp only [h1, if_true]
    cases lc with
    | none => exact hP
    | some lc =>
      have h := patching_setEntity
        (fun e => { e with last_updated := toISO lc, last_changed := toISO lc })
        (fun _ => rfl) (fun _ => rfl) hP
      convert h using 1
      rw [hv]
  · rw [if_neg h1]
    simp only [h1]
    by_cases h2 : truthyNumber lu = true
    · rw [if_pos h2]
      simp only [h2, if_true]
      cases lu with
      | none => exact hP
      | some lu =>
        have h := patching_setEntity (fun e => { e with last_updated := toISO lu })
          (fun _ => rfl) (fun _ => rfl) hP
        convert h using 1
        rw [hv]
        rfl
    · rw [if_neg h2]
      simp only [h2]
      exact hP

theorem assignContext_patching {state E A : Nat} {changed : Bool} {m0 m : Heap}
    {v : HassEntity} (c : Option HeapContext) (hb : HeapContext.below state c = true)
    (hP : Patching state E A changed m0 m v) :
    Patching state E A changed m0 (m.assignContext c E)
      { v with
        context :=
          if HeapContext.truthy c then
            match m0.readContext c with
            | some (.id s) => some (objectAssign (v.context.getD []) [("id", s)])
            | some (.full context) => some (objectAssign (v.context.getD []) context)
            | none => v.context
          else v.context } := by
  have hv := patching_view hP
  have hctx : (match (m.entityAt E).context with
      | some context => m.objectAt context
      | none => []) = v.context.getD [] := by
    rw [hv]
    cases (m.entityAt E).context <;> rfl
  unfold assignContext
  by_cases ht : HeapContext.truthy c = true
  · rw [if_pos ht]
    simp only [ht, if_true]
    cases c with
    | none => exact hP
    | some c =>
      cases c with
      | id s =>
        dsimp only
        rw [hctx]
        exact patching_context _ hP
      | full context =>
        have hlt := below_full hb
        dsimp only
        rw [hctx, objectAt_congr (hP.1 context hlt)]
        exact patching_context _ hP
  · rw [if_neg ht]
    simp only [ht]
    exact hP

theorem assignAttributes_patching {state E A : Nat} {changed : Bool} {m0 m : Heap}
    {v : HassEntity} (a : Option Nat) (hb : ∀ x ∈ a, x < state)
    (hch : a.isSome = true → changed = true) (hP : Patching state E A changed m0 m v) :
    Patching state E A changed m0 (m.assignAttributes a A)
      { v with
        attributes := a.elim v.attributes (fun a => objectAssign v.attributes (m0.objectAt a)) } := by
  cases a with
  | none => exact hP
  | some a =>
    have hc := hch rfl
    subst hc
    have hlt := hb a rfl
    unfold assignAttributes
    dsimp only
    rw [objectAt_congr (hP.1 a hlt)]
    exact patching_setObject (fun entries => objectAssign entries (m0.objectAt a)) hP

theorem deleteAttributes_patching {state E A : Nat} {changed : Bool} {m0 m : Heap}
    {v : HassEntity} (keys : Option (List String))
    (hch : keys.isSome = true → changed = true) (hP : Patching state E A changed m0 m v) :
    Patching state E A changed m0 (m.deleteAttributes keys A)
      { v with attributes := keys.elim v.attributes (fun keys => deleteKeys keys v.attributes) } := by
  cases keys with
  | none => exact hP
  | some keys =>
    have hc := hch rfl
    subst hc
    exact patching_setObject (deleteKeys keys) hP

/-- The block `if (toAdd) { ... }` computes `applyToAdd` of the model by values, and
`Object.assign(attributes, toAdd.a)`. -/
theorem applyToAdd_patching {state E A : Nat} {changed : Bool} {m0 m : Heap}
    {v : HassEntity} (toISO : Int → String) (toAdd : HeapEntityStateAdd)
    (hb : (∀ a ∈ toAdd.a, a < state) ∧ HeapContext.below state toAdd.c = true)
    (hch : toAdd.a.isSome = true → changed = true) (hP : Patching state E A changed m0 m v) :
    Patching state E A changed m0 (m.applyToAdd toISO toAdd E A)
      { HAWS.applyToAdd toISO (m0.readEntityStateAdd toAdd) v with
        attributes :=
          toAdd.a.elim v.attributes (fun a => objectAssign v.attributes (m0.objectAt a)) } := by
  have h := assignAttributes_patching toAdd.a hb.1 hch
    (assignTimestamps_patching toISO toAdd.lc toAdd.lu
      (assignContext_patching toAdd.c hb.2 (assignState_patching toAdd.s hP)))
  unfold applyToAdd
  convert h using 1
  rw [applyToAdd_eq]
  simp only [readEntityStateAdd, readContext_truthy]

/-- The statements of the changes loop between the copies and the store compute
`patchedEntity` of the model by values. -/
theorem patchFields_patching {state E A : Nat} {changed : Bool} {m0 m : Heap}
    {v : HassEntity} (toISO : Int → String) (diff : HeapEntityDiff)
    (hb : ∀ toAdd ∈ diff.plus,
      (∀ a ∈ toAdd.a, a < state) ∧ HeapContext.below state toAdd.c = true)
    (hch : changed = ((diff.plus.bind (fun toAdd => toAdd.a)).isSome ||
      (diff.minus.bind (fun toRemove => toRemove.a)).isSome))
    (hP : Patching state E A changed m0 m v) :
    Patching state E A changed m0 (m.patchFields toISO diff changed E A)
      (patchedEntity toISO (m0.readDiff diff) v) ∧
    ((m.patchFields toISO diff changed E A).entityAt E).attributes = A := by
  have h1 : Patching state E A changed m0
      (match diff.plus with
        | some toAdd => m.applyToAdd toISO toAdd E A
        | none => m)
      (match diff.plus with
        | some toAdd =>
          { HAWS.applyToAdd toISO (m0.readEntityStateAdd toAdd) v with
            attributes :=
              toAdd.a.elim v.attributes
                (fun a => objectAssign v.attributes (m0.objectAt a)) }
        | none => v) := by
    cases hpl : diff.plus with
    | none => exact hP
    | some toAdd =>
      refine applyToAdd_patching toISO toAdd (hb toAdd hpl) ?_ hP
      intro ha
      rw [hch, hpl]
      simp [ha]
  have h2 := deleteAttributes_patching (diff.minus.bind (fun toRemove => toRemove.a))
    (by
      intro hk
      rw [hch, hk, Bool.or_true]) h1
  have h3 : Patching state E A changed m0
      (Heap.deleteAttributes (diff.minus.bind (fun toRemove => toRemove.a)) A
        (match diff.plus with
          | some toAdd => m.applyToAdd toISO toAdd E A
          | none => m))
      (patchedEntity toISO (m0.readDiff diff) v) := by
    convert h2 using 1
    obtain ⟨plus, minus⟩ := diff
    cases plus with
    | none =>
      cases hm : minus.bind (fun toRemove => toRemove.a) <;>
        simp [patchedEntity, patchedAttributes, readDiff, hm]
    | some toAdd =>
      obtain ⟨s, a, c, lc, lu⟩ := toAdd
      cases hm : minus.bind (fun toRemove => toRemove.a) <;> cases a <;>
        simp [patchedEntity, patchedAttributes, readDiff, readEntityStateAdd, hm,
          applyToAdd_eq]
  unfold patchFields
  dsimp only
  cases changed with
  | false =>
    rw [if_neg (by decide)]
    exact ⟨h3, h3.2.2.2.2.2.2.2.1 rfl⟩
  | true =>
    rw [if_pos rfl]
    exact patching_setAttributes h3

/-- After the two copies of the changes loop, the variables name new objects that read as
the entity `state[entityId]`. -/
theorem pickAttributes_patching {state address : Nat} {m0 m : Heap}
    (changed : Bool) (hk0 : ∀ a, a < state → jsGet m.objects a = jsGet m0.objects a)
    (hst : state < m.next)
    (h3 : (m.entityAt address).attributes < m.next)
    (h4 : (m.entityAt address).attributes ≠ state)
    (h5 : ∀ c ∈ (m.entityAt address).context, c < m.next ∧ c ≠ state) :
    Patching state m.next
      ((m.alloc (.entity (m.entityAt address))).1.pickAttributes changed m.next).2 changed m0
      ((m.alloc (.entity (m.entityAt address))).1.pickAttributes changed m.next).1
      (m.readEntity address) := by
  have hEa : (m.alloc (.entity (m.entityAt address))).1.entityAt m.next = m.entityAt address :=
    entityAt_alloc _ m
  have hla : ∀ a, a < m.next →
      jsGet (m.alloc (.entity (m.entityAt address))).1.objects a = jsGet m.objects a :=
    fun a ha => get_alloc_ne _ m (by omega)
  cases changed with
  | false =>
    have hp : (m.alloc (.entity (m.entityAt address))).1.pickAttributes false m.next =
        ((m.alloc (.entity (m.entityAt address))).1, (m.entityAt address).attributes) := by
      unfold pickAttributes
      rw [if_neg (by decide), hEa]
    rw [hp]
    dsimp only
    refine ⟨?_, hst, ?_, ?_, by omega, h4, ?_, ?_, ?_, ?_⟩
    · intro a ha
      rw [hla a (by omega)]
      exact hk0 a ha
    · rw [alloc_next]
      omega
    · rw [alloc_next]
      omega
    · intro hc
      cases hc
    · intro _
      rw [hEa]
    · rw [hEa, alloc_next]
      intro c hc
      have := h5 c hc
      exact ⟨by omega, by omega, this.2, fun hx => by cases hx⟩
    · rw [hEa, objectAt_congr (hla _ h3)]
      unfold readEntity
      congr 1
      cases hcx : (m.entityAt address).context with
      | none => rfl
      | some c =>
        simp only [Option.map_some']
        rw [objectAt_congr (hla c (h5 c hcx).1)]
  | true =>
    have hp1 : ((m.alloc (.entity (m.entityAt address))).1.pickAttributes true m.next).2 =
        m.next + 1 := rfl
    have hp2 : ((m.alloc (.entity (m.entityAt address))).1.pickAttributes true m.next).1 =
        ((m.alloc (.entity (m.entityAt address))).1.alloc
          (.object (m.objectAt (m.entityAt address).attributes))).1 := by
      unfold pickAttributes
      rw [if_pos rfl, hEa, objectAt_congr (hla _ h3)]
    rw [hp1, hp2]
    have hlb : ∀ a, a < m.next + 1 →
        jsGet ((m.alloc (.entity (m.entityAt address))).1.alloc
          (.object (m.objectAt (m.entityAt address).attributes))).1.objects a =
        jsGet (m.alloc (.entity (m.entityAt address))).1.objects a := by
      intro a ha
      refine get_alloc_ne _ _ ?_
      rw [alloc_next]
      omega
    have hEb : ((m.alloc (.entity (m.entityAt address))).1.alloc
        (.object (m.objectAt (m.entityAt address).attributes))).1.entityAt m.next =
        m.entityAt address := by
      rw [entityAt_congr (hlb _ (by omega))]
      exact hEa
    have hAb : ((m.alloc (.entity (m.entityAt address))).1.alloc
        (.object (m.objectAt (m.entityAt address).attributes))).1.objectAt (m.next + 1) =
        m.objectAt (m.entityAt address).attributes := by
      have := objectAt_alloc (m.objectAt (m.entityAt address).attributes)
        (m.alloc (.entity (m.entityAt address))).1
      rw [alloc_next] at this
      exact this
    have hnx : ((m.alloc (.entity (m.entityAt address))).1.alloc
        (.object (m.objectAt (m.entityAt address).attributes))).1.next = m.next + 2 := rfl
    refine ⟨?_, hst, ?_, ?_, by omega, by omega, fun _ => by omega, ?_, ?_, ?_⟩
    · intro a ha
      rw [hlb a (by omega), hla a (by omega)]
      exact hk0 a ha
    · rw [hnx]
      omega
    · rw [hnx]
      omega
    · intro hc
      cases hc
    · rw [hEb, hnx]
      intro c hc
      have := h5 c hc
      exact ⟨by omega, by omega, this.2, fun _ => by omega⟩
    · rw [hEb, hAb]
      unfold readEntity
      congr 1
      cases hcx : (m.entityAt address).context with
      | none => rfl
      | some c =>
        have := (h5 c hcx).1
        simp only [Option.map_some']
        rw [objectAt_congr ((hlb c (by omega)).trans (hla c this))]

/-- The body of the changes loop stores the entity of `patchedEntity`. -/
theorem patchEntity_reads {state address : Nat} {m0 m : Heap}
    {snapshot : List (String × HassEntity)} (toISO : Int → String) (entityId : String)
    (diff : HeapEntityDiff) (hI : Reads state m0 m snapshot)
    (hget : jsGet (m.snapshotAt state) entityId = some address)
    (hb : ∀ toAdd ∈ diff.plus,
      (∀ a ∈ toAdd.a, a < state) ∧ HeapContext.below state toAdd.c = true) :
    Reads state m0 (m.patchEntity toISO state entityId diff address)
      (jsSet snapshot entityId
        (patchedEntity toISO (m0.readDiff diff) (m.readEntity address))) := by
  have hst : state < m.next := hI.2.1.1
  obtain ⟨h1, h2, h3, h4, h5⟩ := hI.2.1.2 _ (mem_of_jsGet hget)
  have hP0 := pickAttributes_patching
    ((diff.plus.bind (fun toAdd => toAdd.a)).isSome ||
      (diff.minus.bind (fun toRemove => toRemove.a)).isSome) hI.1 hst h3 h4 h5
  obtain ⟨hP, hattr⟩ := patchFields_patching toISO diff hb rfl hP0
  have hkeep : Keeps m.next m
      (((m.alloc (.entity (m.entityAt address))).1.pickAttributes
        ((diff.plus.bind (fun toAdd => toAdd.a)).isSome ||
          (diff.minus.bind (fun toRemove => toRemove.a)).isSome) m.next).1.patchFields toISO diff
        ((diff.plus.bind (fun toAdd => toAdd.a)).isSome ||
          (diff.minus.bind (fun toRemove => toRemove.a)).isSome) m.next
        ((m.alloc (.entity (m.entityAt address))).1.pickAttributes
          ((diff.plus.bind (fun toAdd => toAdd.a)).isSome ||
            (diff.minus.bind (fun toRemove => toRemove.a)).isSome) m.next).2) := by
    have hn1 : m.next ≤ (m.alloc (.entity (m.entityAt address))).1.next := by
      rw [alloc_next]
      omega
    refine keeps_andThen ?_ (keeps_patchFields toISO diff _ _ (le_refl _) ?_ ?_)
    · exact keeps_andThen (keeps_alloc _ _ m) (keeps_pickAttributes _ _ _ _)
    · intro h
      rw [h, Bool.true_or]
      exact pickAttributes_new _ _ hn1
    · intro h
      rw [h, Bool.or_true]
      exact pickAttributes_new _ _ hn1
  obtain ⟨_, hk⟩ := hkeep (le_refl _)
  unfold patchEntity storePatched
  dsimp only
  rw [alloc_snd]
  generalize (((m.alloc (.entity (m.entityAt address))).1.pickAttributes
      ((diff.plus.bind (fun toAdd => toAdd.a)).isSome ||
        (diff.minus.bind (fun toRemove => toRemove.a)).isSome) m.next).1.patchFields toISO diff
      ((diff.plus.bind (fun toAdd => toAdd.a)).isSome ||
        (diff.minus.bind (fun toRemove => toRemove.a)).isSome) m.next
      ((m.alloc (.entity (m.entityAt address))).1.pickAttributes
        ((diff.plus.bind (fun toAdd => toAdd.a)).isSome ||
          (diff.minus.bind (fun toRemove => toRemove.a)).isSome) m.next).2) = m1 at hP hattr hk ⊢
  generalize ((m.alloc (.entity (m.entityAt address))).1.pickAttributes
      ((diff.plus.bind (fun toAdd => toAdd.a)).isSome ||
        (diff.minus.bind (fun toRemove => toRemove.a)).isSome) m.next).2 = A at hP hattr ⊢
  obtain ⟨_, _, p3, p4, _, p6, _, _, p9, p10⟩ := hP
  have hread : m1.readEntity m.next =
      patchedEntity toISO (m0.readDiff diff) (m.readEntity address) := by
    rw [p10]
    unfold readEntity
    rw [hattr]
  have := @setSnapshot_reads state m.next m0 m m1 snapshot hI hk (le_refl _) p3
    (by rw [hattr]; exact ⟨p4, p6⟩)
    (fun c hc => ⟨(p9 c hc).1, (p9 c hc).2.2.1⟩) entityId
  rw [hread] at this
  exact this

/-- The changes loop computes `applyChanges` of the model by values, warnings included. -/
theorem applyChanges_reads {state : Nat} {m0 m : Heap}
    {snapshot : List (String × HassEntity)} (toISO : Int → String)
    (c : List (String × HeapEntityDiff)) (hI : Reads state m0 m snapshot)
    (hb : ∀ x ∈ c, ∀ toAdd ∈ x.2.plus,
      (∀ a ∈ toAdd.a, a < state) ∧ HeapContext.below state toAdd.c = true) :
    Reads state m0 (m.applyChanges toISO state c).1
      (HAWS.applyChanges toISO (c.map (fun x => (x.1, m0.readDiff x.2))) snapshot).1 ∧
    (m.applyChanges toISO state c).2 =
      (HAWS.applyChanges toISO (c.map (fun x => (x.1, m0.readDiff x.2))) snapshot).2 := by
  induction c generalizing m snapshot with
  | nil => exact ⟨hI, rfl⟩
  | cons x rest ih =>
    obtain ⟨entityId, diff⟩ := x
    have hrest : ∀ y ∈ rest, ∀ toAdd ∈ y.2.plus,
        (∀ a ∈ toAdd.a, a < state) ∧ HeapContext.below state toAdd.c = true :=
      fun y hy => hb y (List.mem_cons_of_mem _ hy)
    have hg : jsGet snapshot entityId =
        (jsGet (m.snapshotAt state) entityId).map (fun a => m.readEntity a) := by
      rw [← hI.2.2]
      exact jsGet_map (fun a => m.readEntity a) _ _
    simp only [List.map_cons]
    unfold applyChanges
    rcases Option.eq_none_or_eq_some (jsGet (m.snapshotAt state) entityId) with hn | ⟨address, hs⟩
    · rw [hn] at hg ⊢
      dsimp only
      rw [applyChanges_cons_none toISO _ _ hg]
      obtain ⟨i1, i2⟩ := ih hI hrest
      exact ⟨i1, by rw [i2]⟩
    · rw [hs] at hg ⊢
      dsimp only
      rw [applyChanges_cons_some toISO _ _ hg]
      exact ih (patchEntity_reads toISO entityId diff hI hs
        (hb (entityId, diff) (List.mem_cons_self _ _))) hrest

/-- The copy of the store's snapshot reads as the store's snapshot. -/
theorem copy_reads (store : HeapStore) (m : Heap) (hS : ∀ s ∈ store.state, Below m.next s m) :
    Reads m.next m
      (m.alloc (.snapshot
        (match store.state with
          | some state => m.snapshotAt state
          | none => []))).1
      (match store.state with
        | some s => m.readSnapshot s
        | none => []) := by
  have hla : ∀ (o : HeapObject) (a : Nat), a < m.next →
      jsGet (m.alloc o).1.objects a = jsGet m.objects a :=
    fun o a ha => get_alloc_ne o m (by omega)
  cases hst : store.state with
  | none =>
    refine ⟨fun a ha => hla _ a ha, ⟨?_, ?_⟩, ?_⟩
    · rw [alloc_next]
      omega
    · intro x hx
      rw [snapshotAt_alloc] at hx
      cases hx
    · unfold readSnapshot
      rw [snapshotAt_alloc]
      rfl
  | some s =>
    obtain ⟨hs, hx⟩ := hS s hst
    dsimp only
    refine ⟨fun a ha => hla _ a ha, ⟨?_, ?_⟩, ?_⟩
    · rw [alloc_next]
      omega
    · intro x hxm
      rw [snapshotAt_alloc] at hxm
      obtain ⟨h1, h2, h3⟩ := hx x hxm
      rw [entityAt_congr (hla _ _ h1), alloc_next]
      exact ⟨by omega, by omega, by omega, by omega,
        fun c hc => ⟨by have := h3 c hc; omega, by have := h3 c hc; omega⟩⟩
    · unfold readSnapshot
      rw [snapshotAt_alloc]
      apply List.map_congr_left
      intro x hxm
      obtain ⟨h1, h2, h3⟩ := hx x hxm
      rw [readEntity_congr (hla _ _ h1) (hla _ _ h2) (fun c hc => hla _ c (h3 c hc))]

/-- The function `processEvent` on the heap computes the snapshot of `project`: a reader of
the new snapshot sees the projection of what a reader sees of the prior snapshot and of
the message, and the same ids are reported. -/
theorem processEvent_reads (toISO : Int → String) (store : HeapStore)
    (updates : HeapStatesUpdates) (m : Heap) (hS : ∀ s ∈ store.state, Below m.next s m)
    (hU : updates.Below m.next) :
    (m.processEvent toISO store updates).1.readSnapshot m.next =
      (project toISO
        (match store.state with
          | some s => m.readSnapshot s
          | none => [])
        (m.readUpdates updates)).1 ∧
    (m.processEvent toISO store updates).2.2 =
      (project toISO
        (match store.state with
          | some s => m.readSnapshot s
          | none => [])
        (m.readUpdates updates)).2 := by
  have h0 := copy_reads store m hS
  have hA : ∀ (m' : Heap) (snapshot : List (String × HassEntity)),
      Reads m.next m m' snapshot →
      Reads m.next m
        (match updates.a with
          | some a => m'.applyAdditions toISO m.next a
          | none => m')
        (match (m.readUpdates updates).a with
          | some a => HAWS.applyAdditions toISO a snapshot
          | none => snapshot) := by
    intro m' snapshot hI
    unfold readUpdates
    cases ha : updates.a with
    | none => exact hI
    | some a => exact applyAdditions_reads toISO a hI (hU.1 a ha)
  have hR : ∀ (m' : Heap) (snapshot : List (String × HassEntity)),
      Reads m.next m m' snapshot →
      Reads m.next m
        (match updates.r with
          | some r => m'.applyRemovals m.next r
          | none => m')
        (match (m.readUpdates updates).r with
          | some r => deleteKeys r snapshot
          | none => snapshot) := by
    intro m' snapshot hI
    unfold readUpdates
    cases updates.r with
    | none => exact hI
    | some r => exact applyRemovals_reads r hI
  have hC : ∀ (m' : Heap) (snapshot : List (String × HassEntity)),
      Reads m.next m m' snapshot →
      Reads m.next m
        (match updates.c with
          | some c => m'.applyChanges toISO m.next c
          | none => (m', [])).1
        (match (m.readUpdates updates).c with
          | some c => HAWS.applyChanges toISO c snapshot
          | none => (snapshot, [])).1 ∧
      (match updates.c with
          | some c => m'.applyChanges toISO m.next c
          | none => (m', [])).2 =
        (match (m.readUpdates updates).c with
          | some c => HAWS.applyChanges toISO c snapshot
          | none => (snapshot, [])).2 := by
    intro m' snapshot hI
    unfold readUpdates
    cases hc : updates.c with
    | none => exact ⟨hI, rfl⟩
    | some c => exact applyChanges_reads toISO c hI (hU.2 c hc)
  obtain ⟨h3, h4⟩ := hC _ _ (hR _ _ (hA _ _ h0))
  exact ⟨h3.2.2, h4⟩

end Heap

/-! ## C21: `processEvent` leaves the prior snapshot alone -/

/-- C21: the function `processEvent` changes no object that was in use before the call:
every object below the first free address of the heap (the prior snapshot, its entity
objects, their `attributes` and `context` objects, and the objects of the message) is the
same after the call, so a reader of the prior snapshot sees the same keys, fields and
attribute entries; the store's state becomes the new snapshot object made in the call, and
the listeners are called with it. When the prior snapshot and the message lie in the heap,
a reader of the new snapshot sees the snapshot that `project` computes from what a reader
sees of the prior snapshot and of the message, the same ids are reported, and the store
of the model by values gets this snapshot as its state (`setState` with overwrite). -/
theorem C21_process_event_frame (toISO : Int → String) (store : HeapStore)
    (updates : HeapStatesUpdates) (m : Heap) :
    (∀ a, a < m.next →
      jsGet (m.processEvent toISO store updates).1.objects a = jsGet m.objects a) ∧
    (∀ s, Heap.Below m.next s m →
      (m.processEvent toISO store updates).1.readSnapshot s = m.readSnapshot s) ∧
    (m.processEvent toISO store updates).2.1 =
      { store with
        state := some m.next
        calls := store.calls ++ store.listeners.map (fun l => (l, m.next)) } ∧
    ((∀ s ∈ store.state, Heap.Below m.next s m) → updates.Below m.next →
      (m.processEvent toISO store updates).1.readSnapshot m.next =
        (project toISO (store.state.elim [] (fun s => m.readSnapshot s))
          (m.readUpdates updates)).1 ∧
      (m.processEvent toISO store updates).2.2 =
        (project toISO (store.state.elim [] (fun s => m.readSnapshot s))
          (m.readUpdates updates)).2 ∧
      (processEvent toISO { state := store.state.map (fun s => m.readSnapshot s) }
        (m.readUpdates updates)).state =
        some ((m.processEvent toISO store updates).1.readSnapshot m.next)) := by
  obtain ⟨hk, hst⟩ := Heap.processEvent_frame toISO store updates m
  obtain ⟨_, hk'⟩ := hk (le_refl _)
  refine ⟨hk', fun s hb => Heap.readSnapshot_keeps hk' hb, hst, ?_⟩
  intro hS hU
  obtain ⟨h1, h2⟩ := Heap.processEvent_reads toISO store updates m hS hU
  have he : (match store.state with
      | some s => m.readSnapshot s
      | none => []) = store.state.elim [] (fun s => m.readSnapshot s) := by
    cases store.state <;> rfl
  rw [he] at h1 h2
  refine ⟨h1, h2, ?_⟩
  rw [h1]
  unfold processEvent Store.setState
  cases store.state <;> rfl

/-- Witness of C21: the sample message patches the entity `light.x`; the prior snapshot
at the address 3 reads as before, and the new snapshot at the address 5 reads as the
snapshot that `project` computes from the prior one. -/
theorem C21_process_event_frame_witness :
    (sampleHeap.processEvent sampleISO sampleHeapStore sampleHeapUpdates).1.readSnapshot 3 =
      sampleHeap.readSnapshot 3 ∧
    (sampleHeap.processEvent sampleISO sampleHeapStore sampleHeapUpdates).1.readSnapshot 5 =
      (project sampleISO (sampleHeapStore.state.elim [] (fun s => sampleHeap.readSnapshot s))
        (sampleHeap.readUpdates sampleHeapUpdates)).1 :=
  ⟨(C21_process_event_frame sampleISO sampleHeapStore sampleHeapUpdates sampleHeap).2.1 3
      (by unfold Heap.Below; decide),
    ((C21_process_event_frame sampleISO sampleHeapStore sampleHeapUpdates sampleHeap).2.2.2
      (by unfold Heap.Below; decide) (by unfold HeapStatesUpdates.Below; decide)).1⟩

/-! ## C19: a change for an entity that is not in the snapshot -/

theorem applyChangesObject_cons (toISO : Int → String) (entityId : String) (diff : EntityDiff)
    (rest : List (String × EntityDiff)) (state : List (String × EntityObject))
    (hne : entityId ≠ "__proto__") :
    applyChangesObject toISO ((entityId, diff) :: rest) state =
      (copyOfFound state entityId).elim
        ((applyChangesObject toISO rest state).map (fun done => (done.1, entityId :: done.2)))
        (fun entityState =>
          applyChangesObject toISO rest
            (jsSet state entityId (patchedObject toISO diff entityState))) := by
  rw [applyChangesObject, if_neg hne]
  cases copyOfFound state entityId <;> rfl

/-- The read `state[entityId]` is `undefined` exactly for an id that is neither a key of the
snapshot nor the name of a property of `Object.prototype`. -/
theorem copyOfFound_eq_none {state : List (String × EntityObject)} {entityId : String} :
    copyOfFound state entityId = none ↔
      jsGet state entityId = none ∧ entityId ∉ objectPrototypeKeys := by
  unfold copyOfFound
  cases h : jsGet state entityId with
  | some v => simp
  | none =>
    by_cases hp : entityId ∈ objectPrototypeKeys
    · simp [hp]
    · simp [hp]

/-- The changes loop on a plain object: for a diff without the id `__proto__` it has a
result; an id that is neither a key nor inherited stays without a key, its entries can be
left out, and each of them is reported. -/
theorem applyChangesObject_unknown (toISO : Int → String) (c : List (String × EntityDiff))
    (state : List (String × EntityObject)) (e : String) (h : jsGet state e = none)
    (hp : e ∉ objectPrototypeKeys) (hdom : ∀ x ∈ c, x.1 ≠ "__proto__") :
    ∃ result warned, applyChangesObject toISO c state = some (result, warned) ∧
      jsGet result e = none ∧
      applyChangesObject toISO (c.filter (fun x => decide (x.1 ≠ e))) state =
        some (result, warned.filter (fun w => decide (w ≠ e))) ∧
      ((∃ x ∈ c, x.1 = e) → e ∈ warned) := by
  induction c generalizing state with
  | nil => exact ⟨state, [], rfl, h, rfl, fun hx => by simp at hx⟩
  | cons x c ih =>
    obtain ⟨entityId, diff⟩ := x
    have hne : entityId ≠ "__proto__" := hdom _ (List.mem_cons_self _ _)
    have hdom' : ∀ x ∈ c, x.1 ≠ "__proto__" := fun x hx => hdom x (List.mem_cons_of_mem _ hx)
    by_cases hx : entityId = e
    · subst hx
      have hf : ((entityId, diff) :: c).filter (fun x => decide (x.1 ≠ entityId)) =
          c.filter (fun x => decide (x.1 ≠ entityId)) := by
        simp
      obtain ⟨result, warned, h1, h2, h3, _⟩ := ih state h hdom'
      refine ⟨result, entityId :: warned, ?_, h2, ?_, fun _ => List.mem_cons_self _ _⟩
      · rw [applyChangesObject_cons toISO entityId diff c state hne,
          copyOfFound_eq_none.2 ⟨h, hp⟩, h1]
        rfl
      · rw [hf, h3]
        simp
    · have hf : ((entityId, diff) :: c).filter (fun x => decide (x.1 ≠ e)) =
          (entityId, diff) :: c.filter (fun x => decide (x.1 ≠ e)) := by
        simp [hx]
      have hexists : (∃ x ∈ (entityId, diff) :: c, x.1 = e) → ∃ x ∈ c, x.1 = e := by
        rintro ⟨y, hy, hye⟩
        rcases List.mem_cons.1 hy with h1 | h1
        · subst h1
          exact absurd hye hx
        · exact ⟨y, h1, hye⟩
      rw [hf, applyChangesObject_cons toISO entityId diff c state hne,
        applyChangesObject_cons toISO entityId diff _ state hne]
      cases hg : copyOfFound state entityId with
      | none =>
        obtain ⟨result, warned, h1, h2, h3, h4⟩ := ih state h hdom'
        refine ⟨result, entityId :: warned, ?_, h2, ?_,
          fun hy => List.mem_cons_of_mem _ (h4 (hexists hy))⟩
        · simp only [Option.elim, h1, Option.map_some']
        · simp only [Option.elim, h3, Option.map_some']
          simp [hx]
      | some entityState =>
        have h' : jsGet (jsSet state entityId (patchedObject toISO diff entityState)) e =
            none := by
          rw [jsGet_jsSet_ne state entityId e _ (Ne.symm hx)]
          exact h
        obtain ⟨result, warned, h1, h2, h3, h4⟩ := ih _ h' hdom'
        exact ⟨result, warned, h1, h2, h3, fun hy => h4 (hexists hy)⟩

/-- C19. Take the plain object `state` that `processEvent` works on and a diff in whose
change section no id is `__proto__`. If the change section refers to an id `e` that is not a
key of the snapshot once the additions and removals of the diff are applied (`before`), and
`e` is not the name of a property of `Object.prototype`, then the projected snapshot has no
key `e`, it is the snapshot projected by the diff without the entries for `e` (every other
entity is as if they were absent), and each such entry is reported through
`console.warn`. -/
theorem C19_change_for_unknown_entity (toISO : Int → String)
    (state before : List (String × EntityObject)) (updates : StatesUpdates)
    (c : List (String × EntityDiff)) (e : String) (hc : updates.c = some c)
    (hbefore : projectObject toISO state { updates with c := none } = some (before, []))
    (hunknown : jsGet before e = none) (hproto : e ∉ objectPrototypeKeys)
    (hdom : ∀ x ∈ c, x.1 ≠ "__proto__") :
    ∃ result warned, projectObject toISO state updates = some (result, warned) ∧
      jsGet result e = none ∧
      projectObject toISO state
          { updates with c := some (c.filter (fun x => decide (x.1 ≠ e))) } =
        some (result, warned.filter (fun w => decide (w ≠ e))) ∧
      ((∃ x ∈ c, x.1 = e) → e ∈ warned) := by
  obtain ⟨result, warned, h1, h2, h3, h4⟩ :=
    applyChangesObject_unknown toISO c before e hunknown hproto hdom
  refine ⟨result, warned, ?_, h2, ?_, h4⟩
  · unfold projectObject at hbefore ⊢
    rw [hc]
    dsimp only at hbefore ⊢
    cases ha : (match updates.a with
      | some a => applyAdditionsObject toISO a state
      | none => some state) with
    | none => rw [ha] at hbefore; cases hbefore
    | some st =>
      rw [ha] at hbefore
      simp only [Option.some.injEq, Prod.mk.injEq, and_true] at hbefore
      simp only [hbefore]
      exact h1
  · unfold projectObject at hbefore ⊢
    dsimp only at hbefore ⊢
    cases ha : (match updates.a with
      | some a => applyAdditionsObject toISO a state
      | none => some state) with
    | none => rw [ha] at hbefore; cases hbefore
    | some st =>
      rw [ha] at hbefore
      simp only [Option.some.injEq, Prod.mk.injEq, and_true] at hbefore
      simp only [hbefore]
      exact h3

/-- Witness of C19: a change for the unknown `light.y` next to one for the known
`light.x`. -/
theorem C19_change_for_unknown_entity_witness :
    (projectObject sampleISO (toObjects sampleSnapshot)
      { c := some [("light.y", { plus := some { s := some "off" } }),
                   ("light.x", { plus := some { s := some "off" } })] }).map Prod.fst =
    (projectObject sampleISO (toObjects sampleSnapshot)
      { c := some [("light.x", { plus := some { s := some "off" } })] }).map Prod.fst := by
  obtain ⟨result, warned, h1, _, h3, _⟩ :=
    C19_change_for_unknown_entity sampleISO (toObjects sampleSnapshot)
      (toObjects sampleSnapshot)
      { c := some [("light.y", { plus := some { s := some "off" } }),
                   ("light.x", { plus := some { s := some "off" } })] }
      [("light.y", { plus := some { s := some "off" } }),
       ("light.x", { plus := some { s := some "off" } })] "light.y" rfl (by decide)
      (by decide) (by decide) (by decide)
  have hf : [("light.y", ({ plus := some { s := some "off" } } : EntityDiff)),
      ("light.x", { plus := some { s := some "off" } })].filter
        (fun x => decide (x.1 ≠ "light.y")) =
      [("light.x", { plus := some { s := some "off" } })] := by
    decide
  rw [hf] at h3
  rw [h1]
  exact (congrArg (Option.map Prod.fst) h3).symm

/-- Counterexample to C19 as stated: the id `toString` is not in the sample snapshot, but
the read `state["toString"]` finds the function that every plain object inherits, which is
truthy. The change entry `{"+": {s: "off"}}` for it is not reported: the copy of the
function, an empty object, is patched and stored, so the result has the key `toString`,
with an object that has a state and nothing else. -/
theorem C19_inherited_property_is_patched :
    jsGet (toObjects sampleSnapshot) "toString" = none ∧
    projectObject sampleISO (toObjects sampleSnapshot)
        { c := some [("toString", { plus := some { s := some "off" } })] } =
      some (toObjects sampleSnapshot ++ [("toString", { state := some "off" })], []) := by
  decide

/-! ### The snapshot by value and the snapshot as a plain object -/

theorem applyToAddObject_toObject (toISO : Int → String) (toAdd : EntityStateAdd)
    (entityState : HassEntity) :
    applyToAddObject toISO toAdd entityState.toObject =
      (applyToAdd toISO toAdd entityState).toObject := by
  obtain ⟨s, a, c, lc, lu⟩ := toAdd
  unfold applyToAddObject applyToAdd
  cases s <;> cases c <;> cases lc <;> cases lu <;>
    simp only [HassEntity.toObject, CompressedContext.truthy, truthyNumber] <;>
    (repeat' split) <;> simp_all

theorem patchedObject_toObject (toISO : Int → String) (diff : EntityDiff)
    (entityState : HassEntity) :
    patchedObject toISO diff entityState.toObject =
      (patchedEntity toISO diff entityState).toObject := by
  unfold patchedObject patchedEntity
  cases hp : diff.plus with
  | none =>
    dsimp only
    split <;> rfl
  | some toAdd =>
    dsimp only
    rw [applyToAddObject_toObject]
    split <;> rfl

/-- On a snapshot of entities and a change section none of whose ids is the name of a
property of `Object.prototype`, the changes loop on the plain object is the loop
`applyChanges` on the snapshot by value. -/
theorem applyChangesObject_toObjects (toISO : Int → String) (c : List (String × EntityDiff))
    (state : List (String × HassEntity)) (hc : ∀ x ∈ c, x.1 ∉ objectPrototypeKeys) :
    applyChangesObject toISO c (toObjects state) =
      some (toObjects (applyChanges toISO c state).1, (applyChanges toISO c state).2) := by
  induction c generalizing state with
  | nil => rfl
  | cons x c ih =>
    obtain ⟨entityId, diff⟩ := x
    have hx : entityId ∉ objectPrototypeKeys := hc _ (List.mem_cons_self _ _)
    have hne : entityId ≠ "__proto__" := by
      intro h
      rw [h] at hx
      exact hx (by decide)
    have hc' : ∀ x ∈ c, x.1 ∉ objectPrototypeKeys :=
      fun x hx => hc x (List.mem_cons_of_mem _ hx)
    have hget : jsGet (toObjects state) entityId =
        (jsGet state entityId).map HassEntity.toObject :=
      jsGet_map HassEntity.toObject state entityId
    rw [applyChangesObject_cons toISO entityId diff c _ hne]
    cases hg : jsGet state entityId with
    | none =>
      rw [hg] at hget
      rw [copyOfFound_eq_none.2 ⟨hget, hx⟩, applyChanges_cons_none toISO diff c hg, ih state hc']
      rfl
    | some entityState =>
      rw [hg] at hget
      have hfound : copyOfFound (toObjects state) entityId = some entityState.toObject := by
        unfold copyOfFound
        rw [hget]
        rfl
      rw [hfound, applyChanges_cons_some toISO diff c hg]
      simp only [Option.elim]
      rw [patchedObject_toObject]
      have hset : jsSet (toObjects state) entityId
          (patchedEntity toISO diff entityState).toObject =
          toObjects (jsSet state entityId (patchedEntity toISO diff entityState)) :=
        (map_jsSet HassEntity.toObject state entityId _).symm
      rw [hset]
      exact ih _ hc'

theorem applyAdditionsObject_toObjects (toISO : Int → String)
    (a : List (String × EntityState)) (state : List (String × HassEntity))
    (ha : ∀ x ∈ a, x.1 ≠ "__proto__") :
    applyAdditionsObject toISO a (toObjects state) =
      some (toObjects (applyAdditions toISO a state)) := by
  induction a generalizing state with
  | nil => rfl
  | cons x a ih =>
    obtain ⟨entityId, newState⟩ := x
    have hne : entityId ≠ "__proto__" := ha _ (List.mem_cons_self _ _)
    rw [applyAdditionsObject, if_neg hne, applyAdditions]
    have hset : jsSet (toObjects state) entityId (addedEntity toISO entityId newState).toObject =
        toObjects (jsSet state entityId (addedEntity toISO entityId newState)) :=
      (map_jsSet HassEntity.toObject state entityId _).symm
    rw [hset]
    exact ih _ (fun x hx => ha x (List.mem_cons_of_mem _ hx))

/-- On a snapshot of entities and a diff in which no added id is `__proto__` and no changed
id is the name of a property of `Object.prototype`, the projection on the plain object is
the projection `project` by value. -/
theorem projectObject_toObjects (toISO : Int → String) (state : List (String × HassEntity))
    (updates : StatesUpdates) (ha : ∀ a, updates.a = some a → ∀ x ∈ a, x.1 ≠ "__proto__")
    (hc : ∀ c, updates.c = some c → ∀ x ∈ c, x.1 ∉ objectPrototypeKeys) :
    projectObject toISO (toObjects state) updates =
      some (toObjects (project toISO state updates).1, (project toISO state updates).2) := by
  obtain ⟨a, r, c⟩ := updates
  have hadd : ∀ a' : List (String × EntityState), a = some a' →
      applyAdditionsObject toISO a' (toObjects state) =
        some (toObjects (applyAdditions toISO a' state)) :=
    fun a' h => applyAdditionsObject_toObjects toISO a' state (ha a' (by rw [h]))
  have hrem : ∀ (r' : List String) (st : List (String × HassEntity)),
      deleteKeys r' (toObjects st) = toObjects (deleteKeys r' st) :=
    fun r' st => (map_deleteKeys HassEntity.toObject r' st).symm
  have hchg : ∀ (c' : List (String × EntityDiff)) (st : List (String × HassEntity)),
      c = some c' →
      applyChangesObject toISO c' (toObjects st) =
        some (toObjects (applyChanges toISO c' st).1, (applyChanges toISO c' st).2) :=
    fun c' st h => applyChangesObject_toObjects toISO c' st (hc c' (by rw [h]))
  unfold projectObject project
  cases a <;> cases r <;> cases c <;> simp_all

end HAWS
